import Mathlib

/-!
# sigrok acquisition core: ChronoVu LA8, Openbench Logic Sniffer and session drivers

A shallow embedding of `hardware/chronovu-la8/chronovu-la8.c`, of the command
encoder, the configuration and the acquisition functions of
`hardware/openbench-logic-sniffer/ols.c`, of `session_driver.c` and of
`output/output_binary.c`.

Conventions of the embedding.

* C integers are `Nat`/`Int`; where the C type can wrap the reduction modulo
  `2^w` is written out (`u64`, `% 256`, `i32`). The data model is LP64: `int` has
  32 bits, `long` and `uint64_t` have 64. An `int` that leaves its range, by
  conversion from a `long` or by an increment at `INT_MAX`, takes the value
  modulo `2^32` in two's complement, as the usual targets do (the C standard
  leaves the first to the implementation and the second undefined).
* A byte buffer is a map from offsets to bytes (`Nat → Nat`).
* A pointer to a registered device instance is its position in the
  `device_instances` list; `none` is the NULL pointer.
* Calls that leave the program (`ftdi_read_data`, `ftdi_write_data`, `time`,
  `write`, `read`, `zip_open`, `zip_stat`, `zip_fopen`, `g_try_malloc` in the
  session driver) take their results from a script carried in the state; a
  function yields `none` only when that script is exhausted before the call
  returns. An open archive entry carries the script of its own `zip_fread`
  calls.
* What the program does to the outside is logged in the state: the buffers
  handed to `ftdi_write_data` or `write` (`wire`), the packets handed to
  `sr_session_bus` or `session_bus` (`bus`) and the handlers registered with
  `sr_source_add` or `source_add` (`sources`); for the Openbench driver also the
  opcode and data argument of each command sent (`commands`) and, for each
  buffer obtained from `g_malloc`, the size requested and the number of bytes
  written from its start on (`allocations`).
* The file-scope variables of ols.c and the static locals of its `receive_data`
  are fields of `Ols.State`.
-/

namespace Sigrok

/-- Modelled from the spec: the capability identifiers (`SR_HWCAP_*`, in the
older driver `HWCAP_*`) are declared in sigrok.h, outside the sources at hand; the
spec gives the closed enumeration {LogicAnalyzer, Samplerate, LimitMsec,
LimitSamples, CaptureRatio, ProbeConfig, CaptureFile, CaptureUnitsize}, and
session_driver.c names one more, `SR_HWCAP_CAPTURE_NUM_PROBES`. The drivers
receive the identifier as an `int`; `other` is any other integer. -/
inductive Capability where
  | LogicAnalyzer
  | Samplerate
  | LimitMsec
  | LimitSamples
  | CaptureRatio
  | ProbeConfig
  | CaptureFile
  | CaptureUnitsize
  | CaptureNumProbes
  | other (id : Int)
deriving DecidableEq, Repr

/-- Modelled from the spec: the status values of a device instance (`ST_*`) are
declared in sigrok.h, outside the sources at hand; the spec gives the lifecycle
status as Uninitialized | Inactive | Active | NotFound. -/
inductive Status where
  | ST_NOT_FOUND
  | ST_INITIALIZING
  | ST_INACTIVE
  | ST_ACTIVE
deriving DecidableEq, Repr

/-- The value `1 << k` of type `int`, as a 32-bit pattern. C leaves the shift
undefined for a count outside 0..31; the count is reduced modulo 32, as the x86
shift instructions do. -/
def shl_one (k : Int) : Nat := 2 ^ (k % 32).toNat

end Sigrok

namespace La8

/-! ## Constants -/

/-- Block size (`BS`). -/
def BS : Nat := 4096

/-- Number of blocks (`NUM_BLOCKS`). -/
def NUM_BLOCKS : Nat := 2048

/-- Size of the sample memory (`SDRAM_SIZE`). -/
def SDRAM_SIZE : Nat := 8 * 1024 * 1024

/-- Number of probes (`NUM_PROBES`). -/
def NUM_PROBES : Nat := 8

/-- Modelled from the spec: the `SR_MHZ` macro is declared in sigrok.h, outside
the sources at hand; the spec gives the rates as "100 MHz / N", a megahertz
being 1,000,000 Hz. -/
def SR_MHZ (n : Nat) : Nat := n * 1000000

/-- Modelled from the spec: the status codes are declared in sigrok.h, outside
the sources at hand; the spec only distinguishes success from the error kinds,
and the driver tests results with `< 0`, so success is 0 and errors are
negative. -/
def SR_OK : Int := 0

/-- Modelled from the spec: generic error status (see `SR_OK`). -/
def SR_ERR : Int := -1

/-- Modelled from the spec: argument error status (see `SR_OK`). -/
def SR_ERR_ARG : Int := -3

/-- Reduction of an arithmetic result to `uint64_t`. -/
def u64 (x : Nat) : Nat := x % 2 ^ 64

/-! ## Data model -/

/-- The four packet kinds handed to `sr_session_bus`. A logic packet carries the
fields of `struct sr_datafeed_logic` together with the `length` bytes its `data`
pointer designates; the wall-clock `starttime` of a header is left out. -/
inductive Packet where
  | SR_DF_HEADER (feed_version samplerate num_logic_probes num_analog_probes : Nat)
  | SR_DF_LOGIC (timeoffset duration length unitsize : Nat) (data : List Nat)
  | SR_DF_TRIGGER (timeoffset duration : Nat)
  | SR_DF_END
deriving DecidableEq, Repr

/-- The part of libftdi's `struct ftdi_context` the driver looks at. -/
structure ftdi_context where
  usb_dev : Bool
deriving DecidableEq, Repr

/-- Private per-device-instance data (`struct la8`). `ftdic = none` is the NULL
context. `block_counter` and `trigger_found` are C `int`s that are only ever
assigned 0, incremented below `NUM_BLOCKS`, or set to 1. The `uint8_t` fields
(`trigger_pattern`, `trigger_mask`, `divcount`) and the bytes of the two buffers
are numbers below 256. -/
structure la8 where
  ftdic : Option ftdi_context
  cur_samplerate : Nat
  period_ps : Nat
  limit_msec : Nat
  limit_samples : Nat
  session_id : Option Nat
  mangled_buf : Nat → Nat
  final_buf : Nat → Nat
  trigger_pattern : Nat
  trigger_mask : Nat
  trigger_timeout : Nat
  trigger_found : Nat
  done : Int
  block_counter : Nat
  divcount : Nat

/-- A registered device instance (`struct sr_device_instance`). -/
structure sr_device_instance where
  index : Int
  status : Int
  priv : Option la8

/-- Outcome of one `ftdi_read_data` call: its return value and the content of
the destination buffer after the call. -/
structure ReadResult where
  bytes_read : Int
  buf : Nat → Nat

/-- File-scope state of the driver, the script of the results of the external
calls still to come, and the log of the effects observed from outside. -/
structure State where
  device_instances : List sr_device_instance
  supported_samplerates : List Nat
  ftdi_read_results : List ReadResult
  ftdi_write_results : List Int
  time_results : List Int
  wire : List (List Nat)
  bus : List Packet
  sources : List Nat

/-- Modelled from the spec: `sr_get_device_instance` is defined outside the
sources at hand; the registry is "an indexed collection" of device instances,
and the lookup yields the first instance carrying the requested index. -/
def sr_get_device_instance (l : List sr_device_instance) (device_index : Int) : Option Nat :=
  l.findIdx? (fun sdi => sdi.index == device_index)

/-- Store back the private data of the instance at position `p`. -/
def set_priv (S : State) (p : Nat) (dev : la8) : State :=
  { S with device_instances := S.device_instances.modify (fun sdi => { sdi with priv := some dev }) p }

/-! ## Samplerates -/

/-- The table `supported_samplerates[255 + 1] = { 0 }` before it is filled. -/
def supported_samplerates_init : List Nat := List.replicate 256 0

/-- The function `fill_supported_samplerates_if_needed`: fills the table unless
its first entry is already non-zero. -/
def fill_supported_samplerates_if_needed (t : List Nat) : List Nat :=
  if t.getD 0 0 ≠ 0 then t
  else
    ((List.range 255).foldl (fun t i => t.set (254 - i) (SR_MHZ 100 / (i + 1))) t).set 255 0

/-- The function `is_valid_samplerate`: the filled table and whether one of its first 255
entries equals `samplerate`. -/
def is_valid_samplerate (t : List Nat) (samplerate : Nat) : Bool × List Nat :=
  let t1 := fill_supported_samplerates_if_needed t
  ((List.range 255).any (fun i => t1.getD i 0 == samplerate), t1)

/-- The function `samplerate_to_divcount`: the `uint8_t` result and the table. The
subtraction is done in `uint64_t` and the result converted to `uint8_t`. -/
def samplerate_to_divcount (t : List Nat) (samplerate : Nat) : Nat × List Nat :=
  if samplerate = 0 then (0xff, t)
  else
    match is_valid_samplerate t samplerate with
    | (false, t1) => (0xff, t1)
    | (true, t1) => (u64 (SR_MHZ 100 / samplerate + (2 ^ 64 - 1)) % 256, t1)

/-- Modelled from the spec: `divcount_to_samplerate` is not part of the sources;
it is the hardware relation "sample period = (divcount + 1) * 10ns", that is
100 MHz / (divcount + 1). -/
def divcount_to_samplerate (divcount : Nat) : Nat := SR_MHZ 100 / (divcount + 1)

/-! ## Transport -/

set_option linter.unusedVariables false

/-- The magic sequence of bytes for resetting the sequencer logic
(`buf` of `la8_close_usb_reset_sequencer`). -/
def reset_sequence : List Nat := [0x01, 0x01, 0x01, 0x01, 0x01, 0x01, 0x01, 0x01]

mutual
/-- The function `la8_write`: hands `buf` to `ftdi_write_data`; a negative or short result
runs the reset sequence. Yields the number of bytes written. The NULL checks on
`la8` and `buf` have no counterpart: every caller passes both. -/
def la8_write (S : State) (dev : la8) (buf : List Nat) (size : Int) : Option (Int × State × la8) :=
  match dev.ftdic with
  | none => some (SR_ERR_ARG, S, dev)
  | some _ =>
    if size < 0 then some (SR_ERR_ARG, S, dev)
    else
      match h : S.ftdi_write_results with
      | [] => none
      | bytes_written :: rest =>
        let S1 := { S with ftdi_write_results := rest, wire := S.wire ++ [buf] }
        if bytes_written < 0 then
          match la8_close_usb_reset_sequencer S1 dev with
          | none => none
          | some (_, S2, dev2) => some (bytes_written, S2, dev2)
        else if bytes_written ≠ size then
          match la8_close_usb_reset_sequencer S1 dev with
          | none => none
          | some (_, S2, dev2) => some (bytes_written, S2, dev2)
        else some (bytes_written, S1, dev)
termination_by (S.ftdi_write_results.length, 0)
decreasing_by
  all_goals
    rw [h]
    apply Prod.Lex.left
    simp
/-- The function `la8_close_usb_reset_sequencer`: with an open USB device, writes the eight
reset bytes (errors ignored), purges, resets and closes the device (results
ignored, nothing of them is kept in the model); then frees the context. -/
def la8_close_usb_reset_sequencer (S : State) (dev : la8) : Option (Int × State × la8) :=
  match dev.ftdic with
  | none => some (SR_ERR_ARG, S, dev)
  | some ftdic =>
    if ftdic.usb_dev then
      match la8_write S dev reset_sequence 8 with
      | none => none
      | some (_, S1, dev1) => some (SR_OK, S1, { dev1 with ftdic := none })
    else some (SR_OK, S, { dev with ftdic := none })
termination_by (S.ftdi_write_results.length, 1)
decreasing_by
  apply Prod.Lex.right
  simp
end

/-- The function `la8_read`: the return value of `ftdi_read_data` and the destination buffer
after the call. The NULL checks on `la8` and `buf` have no counterpart: every
caller passes both. -/
def la8_read (S : State) (dev : la8) (buf : Nat → Nat) (size : Int) :
    Option (Int × (Nat → Nat) × State) :=
  match dev.ftdic with
  | none => some (SR_ERR_ARG, buf, S)
  | some _ =>
    if size ≤ 0 then some (SR_ERR_ARG, buf, S)
    else
      match S.ftdi_read_results with
      | [] => none
      | r :: rest => some (r.bytes_read, r.buf, { S with ftdi_read_results := rest })

/-- Next value of `time(NULL)`. -/
def time (S : State) : Option (Int × State) :=
  match S.time_results with
  | [] => none
  | now :: rest => some (now, { S with time_results := rest })

/-- The purge loop of `la8_reset`:
`do { bytes_read = la8_read(..); now = time(NULL); } while ((done > now) && (bytes_read > 0));`
with `n` bounding the number of iterations by the length of the time script. -/
def la8_reset_loop (dev : la8) (done : Int) : Nat → State → (Nat → Nat) → Option State
  | 0, _, _ => none
  | n + 1, S, buf =>
    match la8_read S dev buf BS with
    | none => none
    | some (bytes_read, buf1, S1) =>
      match time S1 with
      | none => none
      | some (now, S2) =>
        if done > now ∧ bytes_read > 0 then la8_reset_loop dev done n S2 buf1
        else some S2

/-- The function `la8_reset`: purges pending read data for at most 20 seconds,
then resets the sequencer and closes the USB port. -/
def la8_reset (S : State) (dev : la8) : Option (Int × State × la8) :=
  match dev.ftdic with
  | none => some (SR_ERR_ARG, S, dev)
  | some _ =>
    match time S with
    | none => none
    | some (t0, S1) =>
      match la8_reset_loop dev (20 + t0) S1.time_results.length S1 (fun _ => 0) with
      | none => none
      | some S2 =>
        match la8_close_usb_reset_sequencer S2 dev with
        | none => none
        | some (_, S3, dev3) => some (SR_OK, S3, dev3)

/-! ## Reading and de-mangling a block -/

/-- Destination index the de-mangling loop of `la8_read_block` computes for the
byte at position `i` of block `block_counter`. -/
def demangle_index (divcount block_counter i : Nat) : Nat :=
  let byte_offset := block_counter * BS
  let m := byte_offset / (1024 * 1024)
  let mi := m * (1024 * 1024)
  let p := i &&& (1 <<< 0)
  let index := m * 2 + (((byte_offset + i) - mi) / 2) * 16
  index + (if divcount = 0 then p else 1 - p)

/-- The de-mangling loop of `la8_read_block`:
`for (i = 0; i < BS; i++) final_buf[index] = mangled_buf[i];`. -/
def demangle (dev : la8) : la8 :=
  { dev with
    final_buf := (List.range BS).foldl
      (fun fb i => Function.update fb (demangle_index dev.divcount dev.block_counter i)
        (dev.mangled_buf i))
      dev.final_buf }

/-- The retry loop of `la8_read_block`:
`do { bytes_read = la8_read(..); now = time(NULL); } while ((la8->done > now) && (bytes_read == 0));`
with `n` bounding the number of iterations by the length of the time script. -/
def la8_read_block_retry (dev : la8) : Nat → State → (Nat → Nat) → Option (Int × (Nat → Nat) × State)
  | 0, _, _ => none
  | n + 1, S, buf =>
    match la8_read S dev buf BS with
    | none => none
    | some (bytes_read, buf1, S1) =>
      match time S1 with
      | none => none
      | some (now, S2) =>
        if dev.done > now ∧ bytes_read = 0 then la8_read_block_retry dev n S2 buf1
        else some (bytes_read, buf1, S2)

/-- The reading part of `la8_read_block`: one read into `mangled_buf`, retried
while the first block yields 0 bytes. Yields the final `bytes_read`. -/
def la8_read_block_read (S : State) (dev : la8) : Option (Int × State × la8) :=
  match la8_read S dev dev.mangled_buf BS with
  | none => none
  | some (bytes_read, buf1, S1) =>
    if bytes_read = 0 ∧ dev.block_counter = 0 then
      match la8_read_block_retry dev S1.time_results.length S1 buf1 with
      | none => none
      | some (bytes_read2, buf2, S2) => some (bytes_read2, S2, { dev with mangled_buf := buf2 })
    else some (bytes_read, S1, { dev with mangled_buf := buf1 })

/-- The function `la8_read_block`: reads one block and de-mangles it; a read of
anything but `BS` bytes resets the device and yields `SR_ERR`. -/
def la8_read_block (S : State) (dev : la8) : Option (Int × State × la8) :=
  match dev.ftdic with
  | none => some (SR_ERR_ARG, S, dev)
  | some _ =>
    match la8_read_block_read S dev with
    | none => none
    | some (bytes_read, S1, dev1) =>
      if bytes_read ≠ BS then
        match la8_reset S1 dev1 with
        | none => none
        | some (_, S2, dev2) => some (SR_ERR, S2, dev2)
      else some (SR_OK, S1, demangle dev1)

/-! ## Sending a block to the session bus -/

/-- The `len` bytes of `buf` from offset `start` on. -/
def buf_bytes (buf : Nat → Nat) (start len : Nat) : List Nat :=
  (List.range len).map (fun i => buf (start + i))

/-- The trigger search of `send_block_to_session_bus`, from sample `i` with `n`
iterations left; `none` is `trigger_point == -1`. -/
def trigger_scan (dev : la8) (block expected_sample : Nat) : Nat → Nat → Option Nat
  | 0, _ => none
  | n + 1, i =>
    if dev.trigger_found ≠ 0 then none
    else if dev.trigger_mask = 0x00 then none
    else
      let sample := dev.final_buf (block * BS + i)
      if sample &&& dev.trigger_mask = expected_sample then some i
      else trigger_scan dev block expected_sample n (i + 1)

/-- Hand a packet to `sr_session_bus`. -/
def sr_session_bus (S : State) (packet : Packet) : State :=
  { S with bus := S.bus ++ [packet] }

/-- The function `send_block_to_session_bus`: searches the block for the trigger
and sends it as one logic packet, or split around the trigger packet. -/
def send_block_to_session_bus (S : State) (dev : la8) (block : Nat) : State × la8 :=
  let expected_sample := dev.trigger_pattern &&& dev.trigger_mask
  match trigger_scan dev block expected_sample BS 0 with
  | none =>
    (sr_session_bus S
      (Packet.SR_DF_LOGIC (u64 (block * BS * dev.period_ps)) (u64 (BS * dev.period_ps)) BS 1
        (buf_bytes dev.final_buf (block * BS) BS)), dev)
  | some trigger_point =>
    let dev1 := { dev with trigger_found := 1 }
    let S1 :=
      if trigger_point > 0 then
        sr_session_bus S
          (Packet.SR_DF_LOGIC (u64 (block * BS * dev.period_ps)) (u64 (trigger_point * dev.period_ps))
            trigger_point 1 (buf_bytes dev.final_buf (block * BS) trigger_point))
      else S
    let S2 := sr_session_bus S1
      (Packet.SR_DF_TRIGGER (u64 ((block * BS + trigger_point) * dev.period_ps)) 0)
    let S3 :=
      if trigger_point < BS - 1 then
        sr_session_bus S2
          (Packet.SR_DF_LOGIC (u64 ((block * BS + trigger_point) * dev.period_ps))
            (u64 ((BS - trigger_point) * dev.period_ps)) (BS - trigger_point) 1
            (buf_bytes dev.final_buf (block * BS + trigger_point) (BS - trigger_point)))
      else S2
    (S3, dev1)

/-- The sending loop of `receive_data`:
`for (i = 0; i < NUM_BLOCKS; i++) send_block_to_session_bus(la8, i);`. -/
def send_blocks (S : State) (dev : la8) : State × la8 :=
  (List.range NUM_BLOCKS).foldl (fun q i => send_block_to_session_bus q.1 q.2 i) (S, dev)

/-! ## Acquisition -/

/-- The function `hw_stop_acquisition`: sends the end packet. The `session_data` argument is only passed on to
`sr_session_bus` and is left out. -/
def hw_stop_acquisition (S : State) (device_index : Int) : State :=
  match sr_get_device_instance S.device_instances device_index with
  | none => S
  | some p =>
    match S.device_instances[p]? with
    | none => S
    | some sdi =>
      match sdi.priv with
      | none => S
      | some _ => sr_session_bus S Packet.SR_DF_END

/-- The function `receive_data`; `session_data` points to the device instance the handler
was registered for. Yields TRUE or FALSE. -/
def receive_data (S : State) (session_data : Option Nat) : Option (Bool × State) :=
  match session_data with
  | none => some (false, S)
  | some p =>
    match S.device_instances[p]? with
    | none => some (false, S)
    | some sdi =>
      match sdi.priv with
      | none => some (false, S)
      | some dev =>
        match la8_read_block S dev with
        | none => none
        | some (ret, S1, dev1) =>
          if ret < 0 then some (false, hw_stop_acquisition (set_priv S1 p dev1) sdi.index)
          else if dev1.block_counter ≠ NUM_BLOCKS - 1 then
            some (true, set_priv S1 p { dev1 with block_counter := dev1.block_counter + 1 })
          else
            let q := send_blocks S1 dev1
            some (true, hw_stop_acquisition (set_priv q.1 p q.2) sdi.index)

/-- The function `hw_start_acquisition`. The deadline `done` is computed by the source in
double precision, `(divcount + 1) * 0.08388608 + time(NULL) + trigger_timeout`,
and converted to `time_t`; here the sum is taken exactly and truncated. -/
def hw_start_acquisition (S : State) (device_index : Int) (session_data : Option Nat) :
    Option (Int × State) :=
  match sr_get_device_instance S.device_instances device_index with
  | none => some (SR_ERR, S)
  | some p =>
    match S.device_instances[p]? with
    | none => some (SR_ERR, S)
    | some sdi =>
      match sdi.priv with
      | none => some (SR_ERR, S)
      | some dev =>
        match dev.ftdic with
        | none => some (SR_ERR_ARG, S)
        | some _ =>
          let r := samplerate_to_divcount S.supported_samplerates dev.cur_samplerate
          let dev1 := { dev with divcount := r.1 }
          let S1 := { S with supported_samplerates := r.2 }
          if dev1.divcount = 0xff then some (SR_ERR, set_priv S1 p dev1)
          else
            let buf := [dev1.divcount, 0xff, dev1.trigger_pattern, dev1.trigger_mask]
            match la8_write S1 dev1 buf 4 with
            | none => none
            | some (bytes_written, S2, dev2) =>
              if bytes_written < 0 then some (SR_ERR, set_priv S2 p dev2)
              else if bytes_written ≠ 4 then some (SR_ERR, set_priv S2 p dev2)
              else
                let dev3 := { dev2 with session_id := session_data }
                let S3 := sr_session_bus S2
                  (Packet.SR_DF_HEADER 1 dev3.cur_samplerate NUM_PROBES 0)
                match time S3 with
                | none => none
                | some (now, S4) =>
                  let dev4 := { dev3 with
                    done := Int.tdiv (((dev3.divcount : Int) + 1) * 8388608
                      + (now + (dev3.trigger_timeout : Int)) * 100000000) 100000000
                    block_counter := 0
                    trigger_found := 0 }
                  some (SR_OK, { set_priv S4 p dev4 with sources := S4.sources ++ [p] })

/-! ## A full capture -/

/-- One block of a raw capture: block `n` of `raw` is read into `mangled_buf`
with `block_counter = n` and de-mangled, as one call of `la8_read_block` does. -/
def demangle_block (raw : Nat → Nat) (d : la8) (n : Nat) : la8 :=
  demangle { d with block_counter := n, mangled_buf := fun i => raw (n * BS + i) }

/-- De-mangle a whole raw capture block by block, for `n` from 0 to
`NUM_BLOCKS - 1`. -/
def demangle_capture (raw : Nat → Nat) (dev : la8) : la8 :=
  (List.range NUM_BLOCKS).foldl (demangle_block raw) dev

/-- Modelled from the spec: "mangling the canonical buffer with the inverse
transform" is not part of the sources; the raw byte at offset `off` is the
canonical byte at the destination index of `off`. -/
def mangle (divcount : Nat) (canon : Nat → Nat) : Nat → Nat :=
  fun off => canon (demangle_index divcount (off / BS) (off % BS))

/-! ## The scheduler -/

/-- Modelled from the spec: the polling loop is not part of the sources; the
Acquisition Scheduler "invokes a driver's receive callback" and, as the claims put
it, the step is invoked again whenever it returned TRUE. `n` bounds the number of
invocations. -/
def run_receive : Nat → State → Option Nat → Option State
  | 0, S, _ => some S
  | n + 1, S, session_data =>
    match receive_data S session_data with
    | none => none
    | some (true, S1) => run_receive n S1 session_data
    | some (false, S1) => some S1

/-- An acquisition in progress on the instance at position `p`: the instance is
the one its index resolves to, its FTDI context is open, and block `n` is the
next to be read. -/
def acquiring (S : State) (p n : Nat) : Prop :=
  ∃ sdi dev c, S.device_instances[p]? = some sdi ∧ sdi.priv = some dev ∧
    sr_get_device_instance S.device_instances sdi.index = some p ∧
    dev.ftdic = some c ∧ dev.block_counter = n

/-! ## Reading the packet stream -/

/-- The trigger condition on sample `j` of the canonical buffer:
`(sample & mask) == (pattern & mask)`. -/
def trigger_match (dev : la8) (j : Nat) : Prop :=
  dev.final_buf j &&& dev.trigger_mask = dev.trigger_pattern &&& dev.trigger_mask

instance (dev : la8) (j : Nat) : Decidable (trigger_match dev j) :=
  inferInstanceAs (Decidable (_ = _))

/-- The logic packet for the `len` samples from sample `start` of the capture
on: time offset `start * period_ps`, duration `len * period_ps`, unit size 1. -/
def logic_packet (dev : la8) (start len : Nat) : Packet :=
  Packet.SR_DF_LOGIC (u64 (start * dev.period_ps)) (u64 (len * dev.period_ps)) len 1
    (buf_bytes dev.final_buf start len)

/-- The packets of a block whose trigger lies at offset `t`: the pre-trigger
logic packet unless `t = 0`, the trigger packet, and the post-trigger logic
packet unless `t = BS - 1`. -/
def split_packets (dev : la8) (block t : Nat) : List Packet :=
  (if t > 0 then [logic_packet dev (block * BS) t] else [])
    ++ [Packet.SR_DF_TRIGGER (u64 ((block * BS + t) * dev.period_ps)) 0]
    ++ (if t < BS - 1 then [logic_packet dev (block * BS + t) (BS - t)] else [])

/-- Payload of a packet: the data of a logic packet, nothing otherwise. -/
def payload (pk : Packet) : List Nat :=
  match pk with
  | Packet.SR_DF_LOGIC _ _ _ _ data => data
  | _ => []

/-- Whether a packet is a logic packet. -/
def is_logic (pk : Packet) : Bool :=
  match pk with
  | Packet.SR_DF_LOGIC _ _ _ _ _ => true
  | _ => false

/-- Whether a packet is a trigger packet. -/
def is_trigger (pk : Packet) : Bool :=
  match pk with
  | Packet.SR_DF_TRIGGER _ _ => true
  | _ => false

/-- Whether a packet is the end packet. -/
def is_end (pk : Packet) : Bool :=
  match pk with
  | Packet.SR_DF_END => true
  | _ => false

/-- Whether a packet is a header packet. -/
def is_header (pk : Packet) : Bool :=
  match pk with
  | Packet.SR_DF_HEADER _ _ _ _ => true
  | _ => false

/-- Two states that differ at most in the scripts of the external calls and in
the bytes logged on the wire. -/
def frame_state (S S1 : State) : Prop :=
  S1.device_instances = S.device_instances ∧ S1.supported_samplerates = S.supported_samplerates ∧
    S1.bus = S.bus ∧ S1.sources = S.sources

/-- Two values of the private data that differ at most in the FTDI context and
in the mangled buffer. -/
def frame_dev (dev dev1 : la8) : Prop :=
  dev1 = { dev with ftdic := dev1.ftdic, mangled_buf := dev1.mangled_buf }

/-! ## Configuration -/

/-- Minimum number of samples (`MIN_NUM_SAMPLES`). -/
def MIN_NUM_SAMPLES : Nat := 1

/-- A probe of the probe list (`struct sr_probe`): `trigger = none` is the NULL
string. -/
structure sr_probe where
  index : Int
  enabled : Bool
  trigger : Option (List Char)
deriving DecidableEq, Repr

/-- The `void *value` argument of `hw_set_configuration`, as each capability
reads it: `*(uint64_t *)value` or `(GSList *)value`, whose elements may be NULL
probes. -/
structure ConfigValue where
  as_u64 : Nat
  as_probes : List (Option sr_probe)

/-- The trigger loop of `configure_probes` over the characters of one trigger
string, on the pair (`trigger_mask`, `trigger_pattern`):
`for (tc = probe->trigger; tc && *tc; tc++)`. Yields `SR_ERR` at the first
character other than 0 and 1. -/
def configure_probes_trigger (probe_bit : Nat) : List Char → Nat × Nat → Int × (Nat × Nat)
  | [], mp => (SR_OK, mp)
  | tc :: rest, mp =>
    let trigger_mask := mp.1 ||| probe_bit
    if tc ≠ '0' ∧ tc ≠ '1' then (SR_ERR, (trigger_mask, mp.2))
    else
      let trigger_pattern := if tc = '1' then mp.2 ||| probe_bit else mp.2
      configure_probes_trigger probe_bit rest (trigger_mask, trigger_pattern)

/-- The probe loop of `configure_probes`, on the pair (`trigger_mask`,
`trigger_pattern`); `probe_bit` is a `uint8_t`. -/
def configure_probes_loop : List (Option sr_probe) → Nat × Nat → Int × (Nat × Nat)
  | [], mp => (SR_OK, mp)
  | none :: _, mp => (SR_ERR, mp)
  | some probe :: rest, mp =>
    if probe.enabled = false then configure_probes_loop rest mp
    else
      match probe.trigger with
      | none => configure_probes_loop rest mp
      | some trigger =>
        if probe.index < 0 ∨ probe.index > 7 then (SR_ERR, mp)
        else
          let probe_bit := Sigrok.shl_one (probe.index - 1) % 256
          match configure_probes_trigger probe_bit trigger mp with
          | (ret, mp1) =>
            if ret ≠ SR_OK then (SR_ERR, mp1) else configure_probes_loop rest mp1

/-- The function `configure_probes`: clears the trigger pattern and mask and
compiles them from the probe list. -/
def configure_probes (dev : la8) (probes : List (Option sr_probe)) : Int × la8 :=
  let r := configure_probes_loop probes (0, 0)
  (r.1, { dev with trigger_mask := r.2.1, trigger_pattern := r.2.2 })

/-- The array `capabilities` that `hw_get_capabilities` returns, without its 0
terminator. -/
def capabilities : List Sigrok.Capability :=
  [Sigrok.Capability.LogicAnalyzer, Sigrok.Capability.Samplerate,
   Sigrok.Capability.LimitMsec, Sigrok.Capability.LimitSamples]

/-- The function `hw_get_capabilities`. -/
def hw_get_capabilities : List Sigrok.Capability := capabilities

/-- The function `set_samplerate`; `sdi` points to the device instance. -/
def set_samplerate (S : State) (sdi : Option Nat) (samplerate : Nat) : Int × State :=
  match sdi with
  | none => (SR_ERR_ARG, S)
  | some p =>
    match S.device_instances[p]? with
    | none => (SR_ERR_ARG, S)
    | some inst =>
      match inst.priv with
      | none => (SR_ERR_ARG, S)
      | some dev =>
        let t1 := fill_supported_samplerates_if_needed S.supported_samplerates
        let r := is_valid_samplerate t1 samplerate
        let S1 := { S with supported_samplerates := r.2 }
        if r.1 = false then (SR_ERR, S1)
        else
          (SR_OK, set_priv S1 p
            { dev with cur_samplerate := samplerate
                       period_ps := u64 (1000000000000 / samplerate) })

/-- The function `hw_set_configuration`. -/
def hw_set_configuration (S : State) (device_index : Int) (capability : Sigrok.Capability)
    (value : ConfigValue) : Int × State :=
  match sr_get_device_instance S.device_instances device_index with
  | none => (SR_ERR, S)
  | some p =>
    match S.device_instances[p]? with
    | none => (SR_ERR, S)
    | some sdi =>
      match sdi.priv with
      | none => (SR_ERR, S)
      | some dev =>
        match capability with
        | Sigrok.Capability.Samplerate =>
          let r := set_samplerate S (some p) value.as_u64
          if r.1 = SR_ERR then (SR_ERR, r.2) else (SR_OK, r.2)
        | Sigrok.Capability.ProbeConfig =>
          let r := configure_probes dev value.as_probes
          if r.1 ≠ SR_OK then (SR_ERR, set_priv S p r.2) else (SR_OK, set_priv S p r.2)
        | Sigrok.Capability.LimitMsec =>
          if value.as_u64 = 0 then (SR_ERR, S)
          else (SR_OK, set_priv S p { dev with limit_msec := value.as_u64 })
        | Sigrok.Capability.LimitSamples =>
          if value.as_u64 < MIN_NUM_SAMPLES then (SR_ERR, S)
          else (SR_OK, set_priv S p { dev with limit_samples := value.as_u64 })
        | _ => (SR_ERR, S)

/-! ## Initialisation and reachable states -/

/-- Modelled from the spec: the status value `SR_ST_INITIALIZING` is declared in
sigrok.h, outside the sources at hand; no function of this driver modelled here
reads the status. -/
def SR_ST_INITIALIZING : Int := 1

/-- Results of the calls `hw_init` makes out of the program: `g_try_malloc` for
`struct la8`, `g_try_malloc(SDRAM_SIZE)` (the content of the fresh buffer, or
`none` for NULL), `ftdi_new`, `ftdi_usb_open_desc` and `sr_device_instance_new`. -/
structure InitResults where
  la8_alloc : Bool
  final_buf : Option (Nat → Nat)
  ftdi_new : Bool
  ftdi_usb_open_desc : Int
  sdi_new : Bool

/-- The private data with the defaults `hw_init` sets, the de-mangled buffer
allocated and the FTDI context created and closed again. -/
def hw_init_dev (final_buf : Nat → Nat) : la8 :=
  { ftdic := some { usb_dev := false }, cur_samplerate := SR_MHZ 100, period_ps := 10000,
    limit_msec := 0, limit_samples := 0, session_id := none, mangled_buf := fun _ => 0,
    final_buf := final_buf, trigger_pattern := 0x00, trigger_mask := 0x00,
    trigger_timeout := 10, trigger_found := 0, done := 0, block_counter := 0, divcount := 0 }

/-- The function `hw_init`: the number of devices found and the state. On the
failure paths nothing is registered; the USB device is not open there, so the
reset sequence sends nothing. -/
def hw_init (S : State) (r : InitResults) : Int × State :=
  if r.la8_alloc = false then (0, S)
  else
    match r.final_buf with
    | none => (0, S)
    | some final_buf =>
      if r.ftdi_new = false then (0, S)
      else if r.ftdi_usb_open_desc < 0 then (0, S)
      else if r.sdi_new = false then (0, S)
      else
        let sdi : sr_device_instance :=
          { index := 0, status := SR_ST_INITIALIZING, priv := some (hw_init_dev final_buf) }
        (1, { S with device_instances := S.device_instances ++ [sdi] })

/-- The state at program start, with the scripts of the external calls to
come: no device instance, the samplerate table not yet filled. -/
def State.start (reads : List ReadResult) (writes times : List Int) : State :=
  { device_instances := [], supported_samplerates := supported_samplerates_init,
    ftdi_read_results := reads, ftdi_write_results := writes, time_results := times,
    wire := [], bus := [], sources := [] }

/-- The driver states reachable from program start through calls of `hw_init`,
`hw_set_configuration`, `hw_start_acquisition`, `receive_data` and
`hw_stop_acquisition` with any arguments and any results of the external calls. -/
inductive Reachable : State → Prop where
  | start (reads : List ReadResult) (writes times : List Int) :
      Reachable (State.start reads writes times)
  | hw_init (S : State) (r : InitResults) : Reachable S → Reachable (hw_init S r).2
  | hw_set_configuration (S : State) (device_index : Int) (capability : Sigrok.Capability)
      (value : ConfigValue) :
      Reachable S → Reachable (hw_set_configuration S device_index capability value).2
  | hw_start_acquisition (S : State) (device_index : Int) (session_data : Option Nat)
      (ret : Int) (S1 : State) :
      Reachable S → hw_start_acquisition S device_index session_data = some (ret, S1) →
      Reachable S1
  | receive_data (S : State) (session_data : Option Nat) (ret : Bool) (S1 : State) :
      Reachable S → receive_data S session_data = some (ret, S1) → Reachable S1
  | hw_stop_acquisition (S : State) (device_index : Int) :
      Reachable S → Reachable (hw_stop_acquisition S device_index)

/-- The states reachable from a successful `hw_start_acquisition` on the
instance at position `p` through any sequence of receive steps on that
instance. -/
inductive Receiving (p : Nat) : State → Prop where
  | start (S : State) (device_index : Int) (S1 : State) :
      sr_get_device_instance S.device_instances device_index = some p →
      hw_start_acquisition S device_index (some p) = some (SR_OK, S1) → Receiving p S1
  | step (S : State) (ret : Bool) (S1 : State) :
      Receiving p S → receive_data S (some p) = some (ret, S1) → Receiving p S1

/-- The configuration the private data carries from call to call: samplerate,
period and trigger mask and pattern agree. -/
def same_config (dev dev1 : la8) : Prop :=
  dev1.cur_samplerate = dev.cur_samplerate ∧ dev1.period_ps = dev.period_ps ∧
    dev1.trigger_mask = dev.trigger_mask ∧ dev1.trigger_pattern = dev.trigger_pattern

/-- A property of the private data that only reads the samplerate, the period
and the trigger mask and pattern. -/
def config_only (P : la8 → Prop) : Prop :=
  ∀ dev dev1, same_config dev dev1 → P dev → P dev1

/-- The private data of every registered instance satisfies `P`. -/
def all_priv (P : la8 → Prop) (S : State) : Prop :=
  ∀ sdi, sdi ∈ S.device_instances → ∀ dev, sdi.priv = some dev → P dev

/-- The samplerate table is as at program start or filled. -/
def table_ok (S : State) : Prop :=
  S.supported_samplerates = supported_samplerates_init ∨
    S.supported_samplerates = fill_supported_samplerates_if_needed supported_samplerates_init

/-! ## Example states -/

/-- The private data as `hw_init` sets it up, with an open FTDI context. -/
def witness_dev : la8 :=
  { ftdic := some { usb_dev := true }, cur_samplerate := 100000000, period_ps := 10000,
    limit_msec := 0, limit_samples := 0, session_id := none, mangled_buf := fun _ => 0,
    final_buf := fun _ => 0, trigger_pattern := 0, trigger_mask := 0, trigger_timeout := 10,
    trigger_found := 0, done := 0, block_counter := 0, divcount := 0 }

/-- A registered instance with index 0 holding the given private data. -/
def witness_sdi (dev : la8) : sr_device_instance :=
  { index := 0, status := 0, priv := some dev }

/-- A driver state with one registered instance, the given scripts for the
external calls, and nothing logged yet. -/
def witness_state (dev : la8) (reads : List ReadResult) (writes times : List Int) : State :=
  { device_instances := [witness_sdi dev], supported_samplerates := supported_samplerates_init,
    ftdi_read_results := reads, ftdi_write_results := writes, time_results := times,
    wire := [], bus := [], sources := [] }

/-- A read that delivers a full block of zero bytes. -/
def witness_read : ReadResult :=
  { bytes_read := 4096, buf := fun _ => 0 }

/-- Private data about to read the final block, no trigger configured. -/
def witness_dev_last : la8 :=
  { witness_dev with block_counter := 2047 }

/-- Private data with trigger mask 0xFF and pattern 0x00 over a buffer whose only
zero sample is sample 5000. -/
def witness_dev_trigger : la8 :=
  { witness_dev with trigger_mask := 0xff, trigger_pattern := 0x00,
                     final_buf := fun i => if i = 5000 then 0 else 1 }

/-- Private data with trigger mask 0xFF and pattern 0x00 over a buffer whose only
zero sample is the last sample of block 0. -/
def witness_dev_last_sample : la8 :=
  { witness_dev with trigger_mask := 0xff, trigger_pattern := 0x00,
                     final_buf := fun i => if i = 4095 then 0 else 1 }

/-- Private data at the start of an acquisition with the deadline at time 100. -/
def witness_dev_done : la8 :=
  { witness_dev with done := 100 }

/-- A state whose first block read yields 0 bytes twice and then a short read of
100 bytes, followed by the results the reset consumes: the clock reads 1 and 2
during the retries, 3 at the start of the reset, 4 and 5 in its purge loop, which
reads 5 bytes and then nothing; the reset write transfers its 8 bytes. -/
def witness_short_state : State :=
  witness_state witness_dev_done
    [{ bytes_read := 0, buf := fun _ => 0 }, { bytes_read := 0, buf := fun _ => 0 },
     { bytes_read := 100, buf := fun _ => 7 }, { bytes_read := 5, buf := fun _ => 0 },
     { bytes_read := 0, buf := fun _ => 0 }]
    [8] [1, 2, 3, 4, 5]

/-- The state `witness_short_state` after the reading part of `la8_read_block`. -/
def witness_short_state_read : State :=
  { witness_short_state with
    ftdi_read_results := [{ bytes_read := 5, buf := fun _ => 0 }, { bytes_read := 0, buf := fun _ => 0 }]
    time_results := [3, 4, 5] }

/-- The state `witness_short_state` after the reset. -/
def witness_short_state_reset : State :=
  { witness_short_state with
    ftdi_read_results := [], time_results := [], ftdi_write_results := [],
    wire := [reset_sequence] }

/-- A state ready for `hw_start_acquisition` at 100 MHz with no trigger: the
command write transfers its 4 bytes, the clock reads 0, and 2049 block reads
deliver 4096 bytes each. -/
def witness_run_state : State :=
  witness_state witness_dev (List.replicate 2049 witness_read) [4] [0]

/-- Results of the external calls of `hw_init` when all of them succeed and the
fresh buffer holds zeros. -/
def witness_init : InitResults :=
  { la8_alloc := true, final_buf := some (fun _ => 0), ftdi_new := true,
    ftdi_usb_open_desc := 0, sdi_new := true }

/-- The instance `hw_init` registers with the results `witness_init`. -/
def witness_sdi_init : sr_device_instance :=
  { index := 0, status := SR_ST_INITIALIZING, priv := some (hw_init_dev (fun _ => 0)) }

end La8

/-! # Openbench Logic Sniffer driver (hardware/openbench-logic-sniffer/ols.c) -/

namespace Ols

/-- Modelled from the spec: the status codes of this driver are declared in
sigrok.h, outside the sources at hand; success is 0. -/
def SIGROK_OK : Int := 0

/-- Modelled from the spec: failure status (see `SIGROK_OK`). -/
def SIGROK_NOK : Int := -1

/-- The function `send_shortcommand`: the buffer handed to `write` and the status, given the
result `written` of the `write` call. -/
def send_shortcommand (written : Int) (command : Nat) : List Nat × Int :=
  let buf := [command % 256]
  if written ≠ 1 then (buf, SIGROK_NOK) else (buf, SIGROK_OK)

/-- The function `send_longcommand`: the buffer handed to `write` and the status, given the
result `written` of the `write` call. In C `>>` binds tighter than `&`, so
`data & 0xff00 >> 8` is `data & (0xff00 >> 8)`; each byte is the value stored
into a `char`. -/
def send_longcommand (written : Int) (command data : Nat) : List Nat × Int :=
  let buf := [command % 256,
    (data &&& 0xff) % 256,
    (data &&& (0xff00 >>> 8)) % 256,
    (data &&& (0xff0000 >>> 16)) % 256,
    (data &&& (0xff000000 >>> 24)) % 256]
  if written ≠ 5 then (buf, SIGROK_NOK) else (buf, SIGROK_OK)

/-- Modelled from the spec: the "4-byte little-endian payload" of a long command,
the bytes d & 0xff, (d >> 8) & 0xff, (d >> 16) & 0xff, (d >> 24) & 0xff. -/
def little_endian (d : Nat) : List Nat :=
  [d &&& 0xff, (d >>> 8) &&& 0xff, (d >>> 16) &&& 0xff, (d >>> 24) &&& 0xff]

/-! ## Constants -/

/-- Number of probes (`NUM_PROBES`). -/
def NUM_PROBES : Nat := 32

/-- Number of trigger stages (`NUM_TRIGGER_STAGES`). -/
def NUM_TRIGGER_STAGES : Nat := 4

/-- Base clock (`CLOCK_RATE`). -/
def CLOCK_RATE : Nat := 100000000

/-- Opcode `CMD_RESET`. -/
def CMD_RESET : Nat := 0x00

/-- Opcode `CMD_ID`. -/
def CMD_ID : Nat := 0x02

/-- Opcode `CMD_SET_FLAGS`. -/
def CMD_SET_FLAGS : Nat := 0x82

/-- Opcode `CMD_SET_DIVIDER`. -/
def CMD_SET_DIVIDER : Nat := 0x80

/-- Opcode `CMD_RUN`. -/
def CMD_RUN : Nat := 0x01

/-- Opcode `CMD_CAPTURE_SIZE`. -/
def CMD_CAPTURE_SIZE : Nat := 0x81

/-- Opcode `CMD_SET_TRIGGER_MASK_0`. -/
def CMD_SET_TRIGGER_MASK_0 : Nat := 0xc0

/-- Opcode `CMD_SET_TRIGGER_VALUE_0`. -/
def CMD_SET_TRIGGER_VALUE_0 : Nat := 0xc1

/-- Opcode `CMD_SET_TRIGGER_CONFIG_0`. -/
def CMD_SET_TRIGGER_CONFIG_0 : Nat := 0xc2

/-- Flag `FLAG_DEMUX`. -/
def FLAG_DEMUX : Nat := 0x01

/-- Flag `FLAG_FILTER`. -/
def FLAG_FILTER : Nat := 0x02

/-- Flag `FLAG_RLE`. -/
def FLAG_RLE : Nat := 0x0100

/-- Modelled from the spec: the `MHZ` macro is declared in sigrok.h, outside the
sources at hand; the spec gives the range as "1 Hz .. 200 MHz". -/
def MHZ (n : Nat) : Nat := n * 1000000

/-- Modelled from the spec: bad-value status, declared in sigrok.h like
`SIGROK_OK`; the spec only tells it apart from success and from the plain
failure. -/
def SIGROK_ERR_BADVALUE : Int := -2

/-- The poll condition `G_IO_IN` of glib. -/
def G_IO_IN : Int := 1

/-- Reduction of an arithmetic result to `uint32_t`. -/
def u32 (x : Nat) : Nat := x % 2 ^ 32

/-- Reduction of an arithmetic result to `uint64_t`. -/
def u64 (x : Nat) : Nat := x % 2 ^ 64

/-- Reduction of a value to `int`: 32 bits, two's complement. -/
def i32 (x : Int) : Int := (x + 2 ^ 31) % 2 ^ 32 - 2 ^ 31

/-- Conversion of an `int` to `uint64_t`, as the usual arithmetic conversions do
when an `int` meets a `uint64_t`: the value modulo `2^64`. -/
def u64_of_int (x : Int) : Nat := (x % 2 ^ 64).toNat

/-! ## Data model -/

/-- A registered device instance (`struct sigrok_device_instance`) with the file
descriptor of its serial port (`sdi->serial->fd`). -/
structure sigrok_device_instance where
  index : Int
  status : Sigrok.Status
  fd : Int
deriving DecidableEq, Repr

/-- A probe of the probe list (`struct probe`): `trigger = none` is the NULL
string. -/
structure probe where
  index : Int
  enabled : Bool
  trigger : Option (List Char)
deriving DecidableEq, Repr

/-- The packets handed to `session_bus`: a header (feed version, samplerate,
number of probes; the wall-clock start time and the protocol id are left out), a
block of 32-bit samples with its length in bytes, and the end packet. -/
inductive Packet where
  | DF_HEADER (feed_version samplerate num_probes : Nat)
  | DF_LOGIC32 (length : Nat) (payload : List Nat)
  | DF_END (length : Nat)
deriving DecidableEq, Repr

/-- A call of `source_add` (descriptor and timeout) or of `source_remove`. -/
inductive SourceEvent where
  | add (fd timeout : Int)
  | remove (fd : Int)
deriving DecidableEq, Repr

/-- File-scope state of the driver (with the static locals of `receive_data`),
the script of the results of the `write` and `read` calls still to come (a read
result carries the byte read), and the log of the effects observed from outside:
opcode and data of each command sent, the bytes handed to `write`, the packets
handed to `session_bus`, and the calls of `source_add` and `source_remove`; and
for each buffer `receive_data` obtains from `g_malloc`, the number of bytes
requested and the number of bytes then written from its start on
(`allocations`). `num_transfers` is a C `int`. -/
structure State where
  device_instances : List sigrok_device_instance
  flag_reg : Nat
  cur_samplerate : Nat
  limit_samples : Nat
  capture_ratio : Int
  probe_mask : Nat
  trigger_mask : List Nat
  trigger_value : List Nat
  num_transfers : Int
  num_bytes : Nat
  last_sample : List Nat
  sample : List Nat
  write_results : List Int
  read_results : List (Int × Nat)
  commands : List (Nat × Option Nat)
  wire : List (List Nat)
  bus : List Packet
  sources : List SourceEvent
  allocations : List (Nat × Nat)
deriving DecidableEq, Repr

/-- The state of the file-scope variables at program start, with no device
registered and nothing scripted: `last_sample` is `{0xff}`, all else zero. -/
def State.init : State :=
  { device_instances := [], flag_reg := 0, cur_samplerate := 0, limit_samples := 0,
    capture_ratio := 0, probe_mask := 0, trigger_mask := [0, 0, 0, 0],
    trigger_value := [0, 0, 0, 0], num_transfers := 0, num_bytes := 0,
    last_sample := [0xff, 0, 0, 0], sample := [0, 0, 0, 0], write_results := [],
    read_results := [], commands := [], wire := [], bus := [], sources := [],
    allocations := [] }

/-- Modelled from the spec: `get_sigrok_device_instance` is defined outside the
sources at hand; the registry is "an indexed collection" of device instances,
and the lookup yields the first instance carrying the requested index. -/
def get_sigrok_device_instance (l : List sigrok_device_instance) (device_index : Int) :
    Option sigrok_device_instance :=
  l.find? (fun sdi => sdi.index == device_index)

/-- The `void *value` argument of `hw_set_configuration`, as each capability
reads it: `*(uint64_t *)value`, `(GSList *)value`, the `unsigned long long`
that `strtoull(value, NULL, 10)` returns, or the `long` that
`strtol(value, NULL, 10)` returns (the parsed integer, 64 bits wide). -/
structure ConfigValue where
  as_u64 : Nat
  as_probes : List probe
  as_strtoull : Nat
  as_strtol : Int

/-! ## Commands -/

/-- Hand a packet to `session_bus`. -/
def session_bus (S : State) (packet : Packet) : State :=
  { S with bus := S.bus ++ [packet] }

/-- The call `send_shortcommand(fd, command)`, the result of `write` taken from
the script. -/
def do_shortcommand (S : State) (command : Nat) : Option (Int × State) :=
  match S.write_results with
  | [] => none
  | written :: rest =>
    let r := send_shortcommand written command
    some (r.2, { S with write_results := rest
                        commands := S.commands ++ [(command, none)]
                        wire := S.wire ++ [r.1] })

/-- The call `send_longcommand(fd, command, data)`, the result of `write` taken
from the script. -/
def do_longcommand (S : State) (command data : Nat) : Option (Int × State) :=
  match S.write_results with
  | [] => none
  | written :: rest =>
    let r := send_longcommand written command data
    some (r.2, { S with write_results := rest
                        commands := S.commands ++ [(command, some data)]
                        wire := S.wire ++ [r.1] })

/-! ## Configuration -/

/-- The trigger loop of `configure_probes` over the characters of one trigger
string, from stage `stage`, on the pair (`trigger_mask`, `trigger_value`). Yields
`SIGROK_NOK` once `stage` exceeds 3 after a character. -/
def configure_probes_trigger (probe_bit : Nat) :
    List Char → Nat → List Nat × List Nat → Int × (List Nat × List Nat)
  | [], _, mv => (SIGROK_OK, mv)
  | tc :: rest, stage, mv =>
    let trigger_mask := mv.1.set stage (mv.1.getD stage 0 ||| probe_bit)
    let trigger_value :=
      if tc = '1' then mv.2.set stage (mv.2.getD stage 0 ||| probe_bit) else mv.2
    if stage + 1 > 3 then (SIGROK_NOK, (trigger_mask, trigger_value))
    else configure_probes_trigger probe_bit rest (stage + 1) (trigger_mask, trigger_value)

/-- The probe loop of `configure_probes`, on (`probe_mask`, (`trigger_mask`,
`trigger_value`)). -/
def configure_probes_loop :
    List probe → Nat × (List Nat × List Nat) → Int × (Nat × (List Nat × List Nat))
  | [], st => (SIGROK_OK, st)
  | probe :: rest, st =>
    let probe_bit := Sigrok.shl_one (probe.index - 1)
    let probe_mask := st.1 ||| probe_bit
    match probe.trigger with
    | none => configure_probes_loop rest (probe_mask, st.2)
    | some trigger =>
      match configure_probes_trigger probe_bit trigger 0 st.2 with
      | (ret, mv) =>
        if ret ≠ SIGROK_OK then (SIGROK_NOK, (probe_mask, mv))
        else configure_probes_loop rest (probe_mask, mv)

/-- The channel-group loop of `configure_probes`:
`for (i = 0; i < 4; i++) if (probe_mask & (0xff << i)) changrp_mask |= 8 >> i;`. -/
def changrp_mask (probe_mask : Nat) : Nat :=
  (List.range 4).foldl
    (fun m i => if probe_mask &&& (0xff <<< i) ≠ 0 then m ||| (8 >>> i) else m) 0

/-- The function `configure_probes`: clears the probe mask and the four trigger
masks and values, compiles them from the probe list and sets the channel-group
bits of the flag register. -/
def configure_probes (S : State) (probes : List probe) : Int × State :=
  let r := configure_probes_loop probes (0, ([0, 0, 0, 0], [0, 0, 0, 0]))
  let S1 := { S with probe_mask := r.2.1, trigger_mask := r.2.2.1, trigger_value := r.2.2.2 }
  if r.1 ≠ SIGROK_OK then (SIGROK_NOK, S1)
  else (SIGROK_OK, { S1 with flag_reg := u32 (S1.flag_reg ||| (changrp_mask S1.probe_mask <<< 2)) })

/-- The array `capabilities` that `hw_get_capabilities` returns, without its 0
terminator. -/
def capabilities : List Sigrok.Capability :=
  [Sigrok.Capability.LogicAnalyzer, Sigrok.Capability.Samplerate,
   Sigrok.Capability.CaptureRatio, Sigrok.Capability.LimitSamples]

/-- The function `hw_get_capabilities`. -/
def hw_get_capabilities : List Sigrok.Capability := capabilities

/-- What `configure_probes` reads of a trigger character: it only asks whether
the character is 1. -/
def read_trigger_char (c : Char) : Char := if c = '1' then '1' else '0'

/-- A probe whose trigger characters are replaced by what `configure_probes`
reads of them. -/
def read_probe (p : probe) : probe :=
  { p with trigger := p.trigger.map (List.map read_trigger_char) }

/-- The variable `samplerates`: low 1, high 200 MHz, step 1. -/
def samplerates_low : Nat := 1

/-- The upper end of `samplerates`. -/
def samplerates_high : Nat := MHZ 200

/-- The function `set_configuration_samplerate`. The cast `(uint8_t)` applies to
the quotient; the subtraction is done in `int` and stored into the `uint32_t`
variable `divider`, which is then shifted left by 8. -/
def set_configuration_samplerate (S : State) (samplerate : Nat) : Option (Int × State) :=
  if samplerate < samplerates_low ∨ samplerate > samplerates_high then
    some (SIGROK_ERR_BADVALUE, S)
  else
    let S1 :=
      if samplerate > CLOCK_RATE then { S with flag_reg := S.flag_reg ||| FLAG_DEMUX }
      else { S with flag_reg := S.flag_reg &&& FLAG_DEMUX }
    let divider :=
      if samplerate > CLOCK_RATE then u32 ((CLOCK_RATE * 2 / samplerate) % 256 + (2 ^ 32 - 1))
      else u32 ((CLOCK_RATE / samplerate) % 256 + (2 ^ 32 - 1))
    let divider := u32 (divider <<< 8)
    match do_longcommand S1 CMD_SET_DIVIDER divider with
    | none => none
    | some (r, S2) =>
      if r ≠ SIGROK_OK then some (SIGROK_NOK, S2)
      else some (SIGROK_OK, { S2 with cur_samplerate := samplerate })

/-- The function `hw_set_configuration`. The assignment
`capture_ratio = strtol(value, NULL, 10)` stores a `long` into the `int`
variable `capture_ratio`; the range check reads the `int`. -/
def hw_set_configuration (S : State) (device_index : Int) (capability : Sigrok.Capability)
    (value : ConfigValue) : Option (Int × State) :=
  match get_sigrok_device_instance S.device_instances device_index with
  | none => some (SIGROK_NOK, S)
  | some sdi =>
    if sdi.status ≠ Sigrok.Status.ST_ACTIVE then some (SIGROK_NOK, S)
    else
      match capability with
      | Sigrok.Capability.Samplerate => set_configuration_samplerate S value.as_u64
      | Sigrok.Capability.ProbeConfig => some (configure_probes S value.as_probes)
      | Sigrok.Capability.LimitSamples =>
        some (SIGROK_OK, { S with limit_samples := value.as_strtoull })
      | Sigrok.Capability.CaptureRatio =>
        let S1 := { S with capture_ratio := i32 value.as_strtol }
        if S1.capture_ratio < 0 ∨ S1.capture_ratio > 100 then
          some (SIGROK_NOK, { S1 with capture_ratio := 0 })
        else some (SIGROK_OK, S1)
      | _ => some (SIGROK_NOK, S)

/-! ## Acquisition -/

/-- The bytes the loop of a count sample writes from the start of `buffer` on:
`for (i = 0; i < count; i++) { memcpy(buffer + buflen, last_sample, 4); buflen += 4; }`,
that is `4 * count` bytes, `count` copies of `last_sample`. -/
def rle_copies (count : Nat) (last_sample : List Nat) : List Nat :=
  (List.replicate count (last_sample.take 4)).flatten

/-- The test `num_transfers / 4 <= limit_samples` of `receive_data`: the
quotient is taken in `int` (rounding towards zero) and converted to `uint64_t`
for the comparison with `limit_samples`. -/
def within_limit (num_transfers : Int) (limit_samples : Nat) : Prop :=
  u64_of_int (Int.tdiv num_transfers 4) ≤ limit_samples

instance (num_transfers : Int) (limit_samples : Nat) :
    Decidable (within_limit num_transfers limit_samples) :=
  inferInstanceAs (Decidable (_ ≤ _))

/-- The function `receive_data`. The counter `num_transfers` is an `int`
incremented on every call. `(int) (*sample)` is the first byte of the sample.
For a count sample the source allocates `g_malloc(count)` and writes
`4 * count` bytes from the start of that buffer on, so all but the first `count`
of them land behind the allocation; the two numbers are logged in
`allocations`, and the packet, whose length is `4 * count`, carries the bytes as
written. Yields TRUE or FALSE. -/
def receive_data (S : State) (fd revents : Int) : Option (Bool × State) :=
  let first := S.num_transfers
  let S0 := { S with num_transfers := i32 (S.num_transfers + 1) }
  let S1 :=
    if first = 0 then
      { S0 with sources := S0.sources ++ [SourceEvent.remove fd, SourceEvent.add fd 30] }
    else S0
  if revents = G_IO_IN ∧ within_limit S1.num_transfers S1.limit_samples then
    match S1.read_results with
    | [] => none
    | (n, byte) :: rest =>
      let S2 := { S1 with read_results := rest }
      if n ≠ 1 then some (false, S2)
      else
        let S3 := { S2 with sample := S2.sample.set S2.num_bytes byte
                            num_bytes := S2.num_bytes + 1 }
        if S3.num_bytes = 4 then
          if S3.flag_reg &&& FLAG_RLE ≠ 0 ∧ S3.sample.getD 0 0 &&& 0x80 ≠ 0
              ∧ ¬ (S3.last_sample.getD 0 0 &&& 0x80 ≠ 0) then
            let count := S3.sample.getD 0 0 &&& 0x7fffffff
            let buffer := rle_copies count S3.last_sample
            let S4 := session_bus { S3 with allocations := S3.allocations ++ [(count, 4 * count)] }
              (Packet.DF_LOGIC32 (4 * count) buffer)
            some (true, { S4 with num_bytes := 0 })
          else
            let S4 := session_bus S3 (Packet.DF_LOGIC32 4 S3.sample)
            some (true, { S4 with last_sample := S3.sample, num_bytes := 0 })
        else some (true, S3)
  else
    some (true, session_bus S1 (Packet.DF_END 0))

set_option linter.unusedVariables false

/-- The function `hw_start_acquisition`. The payload of the capture-size command
is computed from `limit_samples` and `capture_ratio` and then overwritten by the
assignment `data = 0x00190019;`. The two allocations of the header are taken to
succeed. -/
def hw_start_acquisition (S : State) (device_index : Int) : Option (Int × State) :=
  match get_sigrok_device_instance S.device_instances device_index with
  | none => some (SIGROK_NOK, S)
  | some sdi =>
    if sdi.status ≠ Sigrok.Status.ST_ACTIVE then some (SIGROK_NOK, S)
    else
      match do_longcommand S CMD_RESET 0 with
      | none => none
      | some (r1, S1) =>
        if r1 ≠ SIGROK_OK then some (SIGROK_NOK, S1)
        else
          let data := u32 (S1.flag_reg <<< 24)
          match do_longcommand S1 CMD_SET_FLAGS data with
          | none => none
          | some (r2, S2) =>
            if r2 ≠ SIGROK_OK then some (SIGROK_NOK, S2)
            else
              let data := u32 ((S2.limit_samples / 4) <<< 16)
              let data :=
                if S2.capture_ratio ≠ 0 then
                  data ||| u32 (u64 (S2.limit_samples + (2 ^ 64
                    - u64 (S2.limit_samples / 100 * (S2.capture_ratio % 2 ^ 64).toNat))) / 4)
                else data
              let data := 0x00190019
              match do_longcommand S2 CMD_CAPTURE_SIZE data with
              | none => none
              | some (r3, S3) =>
                if r3 ≠ SIGROK_OK then some (SIGROK_NOK, S3)
                else
                  match do_longcommand S3 CMD_SET_TRIGGER_MASK_0 (S3.trigger_mask.getD 0 0) with
                  | none => none
                  | some (r4, S4) =>
                    if r4 ≠ SIGROK_OK then some (SIGROK_NOK, S4)
                    else
                      match do_longcommand S4 CMD_SET_TRIGGER_VALUE_0
                          (S4.trigger_value.getD 0 0) with
                      | none => none
                      | some (r5, S5) =>
                        if r5 ≠ SIGROK_OK then some (SIGROK_NOK, S5)
                        else
                          match do_longcommand S5 CMD_SET_TRIGGER_CONFIG_0 0x00000008 with
                          | none => none
                          | some (r6, S6) =>
                            if r6 ≠ SIGROK_OK then some (SIGROK_NOK, S6)
                            else
                              match set_configuration_samplerate S6 S6.cur_samplerate with
                              | none => none
                              | some (_, S7) =>
                                match do_shortcommand S7 CMD_RUN with
                                | none => none
                                | some (r8, S8) =>
                                  if r8 ≠ SIGROK_OK then some (SIGROK_NOK, S8)
                                  else
                                    let S9 := { S8 with
                                      sources := S8.sources ++ [SourceEvent.add sdi.fd (-1)] }
                                    some (SIGROK_OK, session_bus S9
                                      (Packet.DF_HEADER 1 S9.cur_samplerate NUM_PROBES))

/-- The function `hw_stop_acquisition`: sends the end packet. -/
def hw_stop_acquisition (S : State) : State :=
  session_bus S (Packet.DF_END 0)

/-- The logic packets of the first `n` samples of a byte stream, four bytes
each in arrival order. -/
def stream_packets : Nat → List Nat → List Packet
  | 0, _ => []
  | n + 1, stream => Packet.DF_LOGIC32 4 (stream.take 4) :: stream_packets n (stream.drop 4)

/-! ## The scheduler -/

/-- Modelled from the spec: the scheduler is not part of the sources; a readable
descriptor makes it invoke the receive step with `G_IO_IN`, again after each
TRUE. `n` bounds the number of invocations. -/
def receive_run (fd : Int) : Nat → State → Option State
  | 0, S => some S
  | n + 1, S =>
    match receive_data S fd G_IO_IN with
    | none => none
    | some (true, S1) => receive_run fd n S1
    | some (false, S1) => some S1

/-! ## Example states -/

/-- An Active instance with index 0 on descriptor 3. -/
def active_sdi : sigrok_device_instance :=
  { index := 0, status := Sigrok.Status.ST_ACTIVE, fd := 3 }

/-- The state at program start with `active_sdi` registered, the given sample
limit, capture ratio and samplerate, and the given scripts. -/
def active_state (limit_samples : Nat) (capture_ratio : Int) (cur_samplerate : Nat)
    (writes : List Int) (reads : List (Int × Nat)) : State :=
  { State.init with device_instances := [active_sdi]
                    limit_samples := limit_samples
                    capture_ratio := capture_ratio
                    cur_samplerate := cur_samplerate
                    write_results := writes
                    read_results := reads }

/-- The state at the start of a capture of up to `limit_samples` samples
without RLE, with the bytes `reads` to come, each read delivering one byte. -/
def capture_state (limit_samples : Nat) (reads : List Nat) : State :=
  { State.init with device_instances := [active_sdi]
                    limit_samples := limit_samples
                    read_results := reads.map (fun b => (1, b)) }

/-- The state at the start of a capture of up to 1000 samples with the RLE bit
of the flag register set (`flag_reg` has external linkage; nothing in ols.c sets
the bit) and the bytes `reads` to come, each read delivering one byte. -/
def rle_state (reads : List Nat) : State :=
  { State.init with device_instances := [active_sdi]
                    flag_reg := FLAG_RLE
                    limit_samples := 1000
                    read_results := reads.map (fun b => (1, b)) }

end Ols

/-! # Session-replay driver (session_driver.c) -/

namespace Session

/-- Size of the payloads sent across the session bus (`CHUNKSIZE`). -/
def CHUNKSIZE : Nat := 4096

/-- Success status (see `La8.SR_OK`). -/
def SR_OK : Int := La8.SR_OK

/-- Generic error status (see `La8.SR_ERR`). -/
def SR_ERR : Int := La8.SR_ERR

/-- Modelled from the spec: allocation error status, declared in sigrok.h like
`SR_OK`; only its being an error distinct from `SR_ERR` is used. -/
def SR_ERR_MALLOC : Int := -2

/-- The value a `uint64_t` takes when stored into an `int`. -/
def int_of_u64 (v : Nat) : Int :=
  if v % 2 ^ 32 < 2 ^ 31 then (v % 2 ^ 32 : Nat) else ((v % 2 ^ 32 : Nat) : Int) - 2 ^ 32

/-! ## Data model -/

/-- An open entry of the archive (`struct zip_file *`), as the script of what
the coming `zip_fread` calls on it deliver: the bytes read, or `none` for an
error. An exhausted script is the end of the entry. -/
@[reducible]
def zip_file : Type := List (Option (List Nat))

/-- The call `zip_fread(capfile, buf, nbytes)`: the return value, the bytes
stored into `buf` (at most `nbytes`), and the entry after the call. On the NULL
handle libzip reports an error. -/
def zip_fread (capfile : Option zip_file) (nbytes : Nat) :
    Int × List Nat × Option zip_file :=
  match capfile with
  | none => (-1, [], none)
  | some [] => (0, [], some [])
  | some (none :: rest) => (-1, [], some rest)
  | some (some d :: rest) => (((d.take nbytes).length : Nat), d.take nbytes, some rest)

/-- Private data of a virtual device (`struct session_vdevice`); `archive` tells
whether the archive pointer is set. -/
structure session_vdevice where
  capturefile : Option (List Char)
  archive : Bool
  capfile : Option zip_file
  samplerate : Nat
  unitsize : Int
  num_probes : Int

/-- A registered device instance (`struct sr_device_instance`). -/
structure sr_device_instance where
  index : Int
  status : Sigrok.Status
  priv : Option session_vdevice

/-- The packets handed to `sr_session_bus`: the header (without its wall-clock
start time), a logic packet with the fields of `struct sr_datafeed_logic` and the
`length` bytes of its buffer, and the end packet. -/
inductive Packet where
  | SR_DF_HEADER (feed_version samplerate : Nat) (num_logic_probes : Int)
      (num_analog_probes : Nat)
  | SR_DF_LOGIC (timeoffset duration length : Nat) (unitsize : Int) (data : List Nat)
  | SR_DF_END
deriving DecidableEq, Repr

/-- File-scope state of the driver, the scripts of the results of the calls that
leave the program (`g_try_malloc`, `sr_device_instance_new`, `zip_open`,
`zip_stat`, `zip_fopen`), and the log of the packets handed to `sr_session_bus`
and of the sources registered with `sr_session_source_add` (descriptor, events,
timeout). -/
structure State where
  sessionfile : Option (List Char)
  device_instances : List sr_device_instance
  alloc_results : List Bool
  zip_open_results : List Bool
  zip_stat_results : List Int
  zip_fopen_results : List (Option zip_file)
  bus : List Packet
  sources : List (Int × Int × Int)

/-- The state at program start, with the given scripts. -/
def State.init (allocs : List Bool) (opens : List Bool) (stats : List Int)
    (fopens : List (Option zip_file)) : State :=
  { sessionfile := none, device_instances := [], alloc_results := allocs,
    zip_open_results := opens, zip_stat_results := stats, zip_fopen_results := fopens,
    bus := [], sources := [] }

/-- The array `capabilities` that `hw_get_capabilities` returns, without its 0
terminator. -/
def capabilities : List Sigrok.Capability :=
  [Sigrok.Capability.CaptureFile, Sigrok.Capability.CaptureUnitsize]

/-- The function `hw_get_capabilities`. -/
def hw_get_capabilities : List Sigrok.Capability := capabilities

/-- Modelled from the spec: `sr_get_device_instance` is defined outside the
sources at hand; the lookup yields the position of the first instance carrying
the requested index (see `La8.sr_get_device_instance`). -/
def sr_get_device_instance (l : List sr_device_instance) (device_index : Int) : Option Nat :=
  l.findIdx? (fun sdi => sdi.index == device_index)

/-- The function `get_vdevice_by_index`: the position of the instance and its
private data; `none` is the NULL pointer. -/
def get_vdevice_by_index (S : State) (device_index : Int) : Option (Nat × session_vdevice) :=
  match sr_get_device_instance S.device_instances device_index with
  | none => none
  | some p =>
    match S.device_instances[p]? with
    | none => none
    | some sdi =>
      match sdi.priv with
      | none => none
      | some vdevice => some (p, vdevice)

/-- Store back the private data of the instance at position `p`. -/
def set_priv (S : State) (p : Nat) (vdevice : session_vdevice) : State :=
  { S with device_instances :=
      S.device_instances.modify (fun sdi => { sdi with priv := some vdevice }) p }

/-- The function `hw_init`, after `hw_cleanup`: the instance list is empty and
the session file name is stored. -/
def hw_init (S : State) (deviceinfo : Option (List Char)) : Int × State :=
  (0, { S with device_instances := [], sessionfile := deviceinfo })

/-- The function `hw_opendev`. `sr_device_instance_new` and `g_try_malloc0` each
take a result from the allocation script; the new private data is zeroed. -/
def hw_opendev (S : State) (device_index : Int) : Option (Int × State) :=
  match S.alloc_results with
  | [] => none
  | false :: allocs => some (SR_ERR, { S with alloc_results := allocs })
  | true :: [] => none
  | true :: false :: allocs => some (SR_ERR_MALLOC, { S with alloc_results := allocs })
  | true :: true :: allocs =>
    let sdi : sr_device_instance :=
      { index := device_index, status := Sigrok.Status.ST_INITIALIZING,
        priv := some { capturefile := none, archive := false, capfile := none,
                       samplerate := 0, unitsize := 0, num_probes := 0 } }
    some (SR_OK, { S with alloc_results := allocs
                          device_instances := S.device_instances ++ [sdi] })

/-- The `void *value` argument of `hw_set_configuration`, as each capability
reads it: `*(uint64_t *)value`, or the string handed to `g_strdup`. -/
structure ConfigValue where
  as_u64 : Nat
  as_string : Option (List Char)

/-- The function `hw_set_configuration`. -/
def hw_set_configuration (S : State) (device_index : Int) (capability : Sigrok.Capability)
    (value : ConfigValue) : Int × State :=
  match get_vdevice_by_index S device_index with
  | none => (SR_ERR, S)
  | some (p, vdevice) =>
    match capability with
    | Sigrok.Capability.Samplerate =>
      (SR_OK, set_priv S p { vdevice with samplerate := value.as_u64 })
    | Sigrok.Capability.CaptureFile =>
      (SR_OK, set_priv S p { vdevice with capturefile := value.as_string })
    | Sigrok.Capability.CaptureUnitsize =>
      (SR_OK, set_priv S p { vdevice with unitsize := int_of_u64 value.as_u64 })
    | Sigrok.Capability.CaptureNumProbes =>
      (SR_OK, set_priv S p { vdevice with num_probes := int_of_u64 value.as_u64 })
    | _ => (SR_ERR, S)

/-! ## Acquisition -/

/-- The loop of `feed_chunk` over the instance list, on the allocation script,
the bus and `got_data`: whether the loop ran to its end (`false` is the
`return FALSE` after a failed allocation), the instances, and the three
variables after it. -/
def feed_chunk_loop : List sr_device_instance → List Bool → List Packet → Bool →
    Option (Bool × List sr_device_instance × List Bool × List Packet × Bool)
  | [], allocs, bus, got_data => some (true, [], allocs, bus, got_data)
  | sdi :: rest, allocs, bus, got_data =>
    match sdi.priv with
    | none =>
      (feed_chunk_loop rest allocs bus got_data).map (fun r => (r.1, sdi :: r.2.1, r.2.2))
    | some vdevice =>
      match allocs with
      | [] => none
      | false :: allocs1 => some (false, sdi :: rest, allocs1, bus, got_data)
      | true :: allocs1 =>
        let r := zip_fread vdevice.capfile CHUNKSIZE
        if r.1 > 0 then
          let packet := Packet.SR_DF_LOGIC 0 0 r.1.toNat vdevice.unitsize r.2.1
          (feed_chunk_loop rest allocs1 (bus ++ [packet]) true).map
            (fun q => (q.1, { sdi with priv := some { vdevice with capfile := r.2.2 } } :: q.2.1,
              q.2.2))
        else
          (feed_chunk_loop rest allocs1 bus got_data).map
            (fun q => (q.1, { sdi with priv := none } :: q.2.1, q.2.2))

/-- The function `feed_chunk`. Yields TRUE or FALSE. -/
def feed_chunk (S : State) : Option (Bool × State) :=
  match feed_chunk_loop S.device_instances S.alloc_results S.bus false with
  | none => none
  | some (false, l, allocs, bus, _) =>
    some (false, { S with device_instances := l, alloc_results := allocs, bus := bus })
  | some (true, l, allocs, bus, got_data) =>
    let bus1 := if got_data = false then bus ++ [Packet.SR_DF_END] else bus
    some (true, { S with device_instances := l, alloc_results := allocs, bus := bus1 })

/-- The function `hw_start_acquisition`. -/
def hw_start_acquisition (S : State) (device_index : Int) : Option (Int × State) :=
  match get_vdevice_by_index S device_index with
  | none => some (SR_ERR, S)
  | some (p, vdevice) =>
    match S.zip_open_results with
    | [] => none
    | false :: opens =>
      some (SR_ERR, set_priv { S with zip_open_results := opens } p
        { vdevice with archive := false })
    | true :: opens =>
      let vdevice1 := { vdevice with archive := true }
      let S1 := set_priv { S with zip_open_results := opens } p vdevice1
      match S1.zip_stat_results with
      | [] => none
      | st :: stats =>
        let S2 := { S1 with zip_stat_results := stats }
        if st = -1 then some (SR_ERR, S2)
        else
          match S2.zip_fopen_results with
          | [] => none
          | capfile :: fopens =>
            let vdevice2 := { vdevice1 with capfile := capfile }
            let S3 := set_priv { S2 with zip_fopen_results := fopens } p vdevice2
            if capfile.isNone then some (SR_ERR, S3)
            else
              let S4 := { S3 with sources := S3.sources ++ [(-1, 0, 0)] }
              match S4.alloc_results with
              | [] => none
              | false :: allocs => some (SR_ERR_MALLOC, { S4 with alloc_results := allocs })
              | true :: [] => none
              | true :: false :: allocs =>
                some (SR_ERR_MALLOC, { S4 with alloc_results := allocs })
              | true :: true :: allocs =>
                let header := Packet.SR_DF_HEADER 1 0 vdevice2.num_probes 0
                some (SR_OK, { S4 with alloc_results := allocs, bus := S4.bus ++ [header] })

/-! ## The feed step in the spec's words -/

/-- The packet one feed step emits for an instance: a logic packet with the
bytes read from its entry and its unit size when the instance is not finished and
the read yields data, none otherwise. -/
def chunk_packet (sdi : sr_device_instance) : Option Packet :=
  match sdi.priv with
  | none => none
  | some vdevice =>
    if (zip_fread vdevice.capfile CHUNKSIZE).1 > 0 then
      some (Packet.SR_DF_LOGIC 0 0 (zip_fread vdevice.capfile CHUNKSIZE).1.toNat
        vdevice.unitsize (zip_fread vdevice.capfile CHUNKSIZE).2.1)
    else none

/-- The instance after one feed step: a finished instance is skipped, one whose
read yields data moves on in its entry, and one whose read yields no data is
marked finished. -/
def chunk_instance (sdi : sr_device_instance) : sr_device_instance :=
  match sdi.priv with
  | none => sdi
  | some vdevice =>
    if (zip_fread vdevice.capfile CHUNKSIZE).1 > 0 then
      { sdi with priv := some { vdevice with
          capfile := (zip_fread vdevice.capfile CHUNKSIZE).2.2 } }
    else { sdi with priv := none }

/-- The bytes an entry still holds: what the coming reads deliver up to the
first read that yields nothing. -/
def entry_contents : zip_file → List Nat
  | [] => []
  | none :: _ => []
  | some d :: rest => if d.take CHUNKSIZE = [] then [] else d.take CHUNKSIZE ++ entry_contents rest

/-- The bytes the entry of an instance still holds; none for a finished instance
or one without an open entry. -/
def remaining (sdi : sr_device_instance) : List Nat :=
  match sdi.priv with
  | none => []
  | some vdevice =>
    match vdevice.capfile with
    | none => []
    | some h => entry_contents h

/-- The payload bytes of a packet. -/
def payload : Option Packet → List Nat
  | some (Packet.SR_DF_LOGIC _ _ _ _ data) => data
  | _ => []

/-- The packets of one feed step over the instance list: in registry order the
packet of each instance, and the end packet iff no instance produced one. -/
def step_packets (l : List sr_device_instance) : List Packet :=
  l.filterMap chunk_packet ++
    (if l.filterMap chunk_packet = [] then [Packet.SR_DF_END] else [])

/-- The packets of `n` successive feed steps. -/
def run_packets : Nat → List sr_device_instance → List Packet
  | 0, _ => []
  | n + 1, l => step_packets l ++ run_packets n (l.map chunk_instance)

/-- The instance list after `n` feed steps. -/
def run_instances : Nat → List sr_device_instance → List sr_device_instance
  | 0, l => l
  | n + 1, l => run_instances n (l.map chunk_instance)

/-- The payload bytes emitted for one instance over `n` successive feed steps,
in order, and the instance after them. -/
def instance_payloads : Nat → sr_device_instance → List Nat × sr_device_instance
  | 0, sdi => ([], sdi)
  | n + 1, sdi =>
    (payload (chunk_packet sdi) ++ (instance_payloads n (chunk_instance sdi)).1,
      (instance_payloads n (chunk_instance sdi)).2)

/-! ## The scheduler -/

/-- Modelled from the spec: the scheduler is not part of the sources; the
"freewheeling (always-ready)" source makes it invoke the feed step again after
each TRUE. `n` bounds the number of invocations. -/
def feed_run : Nat → State → Option State
  | 0, S => some S
  | n + 1, S =>
    match feed_chunk S with
    | none => none
    | some (true, S1) => feed_run n S1
    | some (false, S1) => some S1

/-! ## Example states -/

/-- A virtual device as `hw_opendev` creates it. -/
def new_vdevice : session_vdevice :=
  { capturefile := none, archive := false, capfile := none, samplerate := 0,
    unitsize := 0, num_probes := 0 }

/-- Two started instances with unit size 1: the entry of the first delivers
the bytes 1 2 3 and then 4 5, the entry of the second the byte 9. -/
def two_entries : List sr_device_instance :=
  [{ index := 0, status := Sigrok.Status.ST_INITIALIZING,
     priv := some { capturefile := none, archive := true,
                    capfile := some [some [1, 2, 3], some [4, 5]], samplerate := 0,
                    unitsize := 1, num_probes := 8 } },
   { index := 1, status := Sigrok.Status.ST_INITIALIZING,
     priv := some { capturefile := none, archive := true, capfile := some [some [9]],
                    samplerate := 0, unitsize := 1, num_probes := 8 } }]

/-- A state with the two instances of `two_entries` and ten allocations that
succeed. -/
def two_entries_state : State :=
  { State.init (List.replicate 10 true) [] [] [] with device_instances := two_entries }

/-- The state after `hw_init` and `hw_opendev` of index 0, with the given
scripts for what follows. -/
def opened_state (allocs : List Bool) (opens : List Bool) (stats : List Int)
    (fopens : List (Option zip_file)) : State :=
  { State.init allocs opens stats fopens with
    sessionfile := some ['s', '.', 's', 'r']
    device_instances :=
      [{ index := 0, status := Sigrok.Status.ST_INITIALIZING, priv := some new_vdevice }] }

end Session

/-! # Binary output format (output/output_binary.c) -/

namespace OutputBinary

/-- Success status (see `La8.SR_OK`). -/
def SR_OK : Int := La8.SR_OK

/-- Generic error status (see `La8.SR_ERR`). -/
def SR_ERR : Int := La8.SR_ERR

/-- Allocation error status (see `Session.SR_ERR_MALLOC`). -/
def SR_ERR_MALLOC : Int := Session.SR_ERR_MALLOC

/-- What the pointer arguments of `data` designate after the call: the input
buffer, the buffer `*data_out` points to (`none` where it was not assigned), and
`*length_out` (`none` for the NULL pointer or where it was not assigned). -/
structure Outcome where
  data_in : Option (Nat → Nat)
  data_out : Option (List Nat)
  length_out : Option Nat

/-- The function `data`. `data_in = none` and `length_out = false` are the NULL
pointers, `calloc` tells whether the allocation succeeds. The output buffer is a
fresh allocation of `length_in` bytes, into which `memcpy` copies the first
`length_in` bytes of the input; the input is only read. -/
def data (data_in : Option (Nat → Nat)) (length_in : Nat) (length_out : Bool)
    (calloc : Bool) : Int × Outcome :=
  match data_in with
  | none => (SR_ERR, { data_in := data_in, data_out := none, length_out := none })
  | some buf =>
    if length_out = false then
      (SR_ERR, { data_in := data_in, data_out := none, length_out := none })
    else if length_in = 0 then
      (SR_ERR, { data_in := data_in, data_out := none, length_out := none })
    else if calloc = false then
      (SR_ERR_MALLOC, { data_in := data_in, data_out := none, length_out := none })
    else
      let outbuf := (List.range length_in).map buf
      (SR_OK, { data_in := data_in, data_out := some outbuf, length_out := some length_in })

end OutputBinary

/-! # Properties -/

namespace La8

/-! ## De-mangling -/

theorem demangle_index_eq (divcount n i : Nat) :
    demangle_index divcount n i
      = n / 256 * 2 + (n % 256 * 2048 + i / 2) * 16
        + (if divcount = 0 then i % 2 else 1 - i % 2) := by
  have e1 : n * 4096 / 1048576 = n / 256 := by omega
  have e2 : (n * 4096 + i - n / 256 * 1048576) / 2 = n % 256 * 2048 + i / 2 := by omega
  simp [demangle_index, BS, Nat.and_one_is_mod, e1, e2]

theorem demangle_index_lt (divcount n i : Nat) (hn : n < NUM_BLOCKS) (hi : i < BS) :
    demangle_index divcount n i < SDRAM_SIZE := by
  rw [demangle_index_eq]
  simp only [NUM_BLOCKS, BS, SDRAM_SIZE] at *
  split <;> omega

theorem index_digits_unique (A B P A' B' P' : Nat) (hA : A < 8) (hA' : A' < 8) (hP : P < 2)
    (hP' : P' < 2) (h : A * 2 + B * 16 + P = A' * 2 + B' * 16 + P') :
    A = A' ∧ B = B' ∧ P = P' := by
  omega

theorem demangle_index_inj (divcount n i n' i' : Nat) (hn : n < NUM_BLOCKS) (hi : i < BS)
    (hn' : n' < NUM_BLOCKS) (hi' : i' < BS)
    (h : demangle_index divcount n i = demangle_index divcount n' i') : n = n' ∧ i = i' := by
  simp only [BS, NUM_BLOCKS] at hn hi hn' hi'
  have hA8 : n / 256 < 8 := by omega
  have hA8' : n' / 256 < 8 := by omega
  have hP : (if divcount = 0 then i % 2 else 1 - i % 2) < 2 := by split <;> omega
  have hP' : (if divcount = 0 then i' % 2 else 1 - i' % 2) < 2 := by split <;> omega
  rw [demangle_index_eq, demangle_index_eq] at h
  obtain ⟨hA, hB, hPP⟩ := index_digits_unique (n / 256) (n % 256 * 2048 + i / 2) _
    (n' / 256) (n' % 256 * 2048 + i' / 2) _ hA8 hA8' hP hP' h
  clear h hP hP'
  have hQ : i % 2 = i' % 2 := by split at hPP <;> omega
  clear hPP
  omega

theorem demangle_index_surj (divcount j : Nat) (hj : j < SDRAM_SIZE) :
    ∃ n i, n < NUM_BLOCKS ∧ i < BS ∧ demangle_index divcount n i = j := by
  simp only [NUM_BLOCKS, BS, SDRAM_SIZE] at *
  by_cases hd : divcount = 0
  · refine ⟨(j % 16 / 2 * 1048576 + (2 * (j / 16) + j % 2)) / 4096,
      (j % 16 / 2 * 1048576 + (2 * (j / 16) + j % 2)) % 4096, ?_, ?_, ?_⟩
    · omega
    · omega
    · rw [demangle_index_eq, if_pos hd]
      omega
  · refine ⟨(j % 16 / 2 * 1048576 + (2 * (j / 16) + (1 - j % 2))) / 4096,
      (j % 16 / 2 * 1048576 + (2 * (j / 16) + (1 - j % 2))) % 4096, ?_, ?_, ?_⟩
    · omega
    · omega
    · rw [demangle_index_eq, if_neg hd]
      omega

theorem foldl_update_other (f v : Nat → Nat) (k : Nat) (fb : Nat → Nat) (j : Nat)
    (h : ∀ i, i < k → f i ≠ j) :
    ((List.range k).foldl (fun fb i => Function.update fb (f i) (v i)) fb) j = fb j := by
  induction k with
  | zero => simp
  | succ k ih =>
    rw [List.range_succ, List.foldl_append]
    simp only [List.foldl_cons, List.foldl_nil]
    rw [Function.update_noteq (Ne.symm (h k (Nat.lt_succ_self k)))]
    exact ih (fun i hi => h i (Nat.lt_succ_of_lt hi))

theorem foldl_update_hit (f v : Nat → Nat) (k : Nat) (fb : Nat → Nat) (i : Nat) (hi : i < k)
    (hinj : ∀ a b, a < k → b < k → f a = f b → a = b) :
    ((List.range k).foldl (fun fb i => Function.update fb (f i) (v i)) fb) (f i) = v i := by
  induction k with
  | zero => omega
  | succ k ih =>
    rw [List.range_succ, List.foldl_append]
    simp only [List.foldl_cons, List.foldl_nil]
    by_cases hik : i = k
    · subst hik
      simp
    · have hlt : i < k := by omega
      have hne : f i ≠ f k := fun e => hik (hinj i k hi (Nat.lt_succ_self k) e)
      rw [Function.update_noteq hne]
      exact ih hlt (fun a b ha hb e => hinj a b (Nat.lt_succ_of_lt ha) (Nat.lt_succ_of_lt hb) e)

theorem demangle_final_buf_hit (dev : la8) (i : Nat) (hn : dev.block_counter < NUM_BLOCKS)
    (hi : i < BS) :
    (demangle dev).final_buf (demangle_index dev.divcount dev.block_counter i)
      = dev.mangled_buf i := by
  have h := foldl_update_hit (demangle_index dev.divcount dev.block_counter) dev.mangled_buf BS
    dev.final_buf i hi
    (fun a b ha hb e => (demangle_index_inj dev.divcount _ a _ b hn ha hn hb e).2)
  simpa only [demangle] using h

theorem demangle_final_buf_other (dev : la8) (j : Nat)
    (h : ∀ i, i < BS → demangle_index dev.divcount dev.block_counter i ≠ j) :
    (demangle dev).final_buf j = dev.final_buf j := by
  have h1 := foldl_update_other (demangle_index dev.divcount dev.block_counter) dev.mangled_buf BS
    dev.final_buf j h
  simpa only [demangle] using h1

theorem demangle_block_divcount (raw : Nat → Nat) (d : la8) (n : Nat) :
    (demangle_block raw d n).divcount = d.divcount := rfl

theorem demangle_block_hit (raw : Nat → Nat) (d : la8) (n i : Nat) (hn : n < NUM_BLOCKS)
    (hi : i < BS) :
    (demangle_block raw d n).final_buf (demangle_index d.divcount n i) = raw (n * BS + i) :=
  demangle_final_buf_hit { d with block_counter := n, mangled_buf := fun i => raw (n * BS + i) }
    i hn hi

theorem demangle_block_other (raw : Nat → Nat) (d : la8) (n j : Nat)
    (h : ∀ i, i < BS → demangle_index d.divcount n i ≠ j) :
    (demangle_block raw d n).final_buf j = d.final_buf j :=
  demangle_final_buf_other { d with block_counter := n, mangled_buf := fun i => raw (n * BS + i) }
    j h

theorem demangle_capture_aux (raw : Nat → Nat) (K : Nat) (hK : K ≤ NUM_BLOCKS) (dev : la8) :
    ((List.range K).foldl (demangle_block raw) dev).divcount = dev.divcount ∧
    ∀ n i, n < K → i < BS →
      ((List.range K).foldl (demangle_block raw) dev).final_buf (demangle_index dev.divcount n i)
        = raw (n * BS + i) := by
  induction K with
  | zero => exact ⟨rfl, fun n i hn _ => absurd hn (Nat.not_lt_zero n)⟩
  | succ K ih =>
    obtain ⟨ihd, ihf⟩ := ih (Nat.le_of_succ_le hK)
    rw [List.range_succ, List.foldl_append]
    simp only [List.foldl_cons, List.foldl_nil]
    generalize (List.range K).foldl (demangle_block raw) dev = d at ihd ihf ⊢
    refine ⟨?_, ?_⟩
    · rw [demangle_block_divcount, ihd]
    · intro n i hn hi
      by_cases hnK : n = K
      · subst hnK
        rw [← ihd]
        exact demangle_block_hit raw d n i hK hi
      · have hlt : n < K := by omega
        rw [demangle_block_other]
        · exact ihf n i hlt hi
        · intro i' hi' e
          rw [ihd] at e
          exact hnK (demangle_index_inj dev.divcount K i' n i (by omega) hi' (by omega) hi e).1.symm

/-- C1: for every divider, the destination index of la8_read_block maps the raw
offsets (block n below 2048, byte i below 4096) one-to-one onto the canonical
indices below 8 MB, and de-mangling block by block a capture obtained by
mangling a canonical buffer with the inverse map gives that buffer back. -/
theorem demangle_bijection_roundtrip (n i n' i' j : Nat) (canon : Nat → Nat) (dev : la8)
    (hn : n < NUM_BLOCKS) (hi : i < BS) (hn' : n' < NUM_BLOCKS) (hi' : i' < BS)
    (hj : j < SDRAM_SIZE) :
    NUM_BLOCKS * BS = 8388608 ∧ SDRAM_SIZE = 8388608 ∧
    demangle_index dev.divcount n i < SDRAM_SIZE ∧
    (demangle_index dev.divcount n i = demangle_index dev.divcount n' i' →
      n * BS + i = n' * BS + i') ∧
    (∃ n0 i0, n0 < NUM_BLOCKS ∧ i0 < BS ∧ demangle_index dev.divcount n0 i0 = j) ∧
    (demangle_capture (mangle dev.divcount canon) dev).final_buf j = canon j := by
  refine ⟨by decide, by decide, demangle_index_lt _ n i hn hi, ?_, demangle_index_surj _ j hj, ?_⟩
  · intro e
    obtain ⟨e1, e2⟩ := demangle_index_inj _ n i n' i' hn hi hn' hi' e
    rw [e1, e2]
  · obtain ⟨n0, i0, hn0, hi0, e⟩ := demangle_index_surj dev.divcount j hj
    have h := (demangle_capture_aux (mangle dev.divcount canon) NUM_BLOCKS (Nat.le_refl _) dev).2
      n0 i0 hn0 hi0
    have hc : demangle_capture (mangle dev.divcount canon) dev
        = (List.range NUM_BLOCKS).foldl (demangle_block (mangle dev.divcount canon)) dev := rfl
    rw [hc, ← e, h]
    have hBS : 0 < BS := by decide
    simp only [mangle]
    rw [Nat.mul_comm n0 BS, Nat.mul_add_div hBS, Nat.mul_add_mod, Nat.div_eq_of_lt hi0,
      Nat.mod_eq_of_lt hi0, Nat.add_zero]

theorem demangle_bijection_roundtrip_witness :
    (3 < NUM_BLOCKS ∧ 5 < BS ∧ 7 < NUM_BLOCKS ∧ 9 < BS ∧ 100 < SDRAM_SIZE) ∧
    (NUM_BLOCKS * BS = 8388608 ∧ SDRAM_SIZE = 8388608 ∧
    demangle_index witness_dev.divcount 3 5 < SDRAM_SIZE ∧
    (demangle_index witness_dev.divcount 3 5 = demangle_index witness_dev.divcount 7 9 →
      3 * BS + 5 = 7 * BS + 9) ∧
    (∃ n0 i0, n0 < NUM_BLOCKS ∧ i0 < BS ∧ demangle_index witness_dev.divcount n0 i0 = 100) ∧
    (demangle_capture (mangle witness_dev.divcount (fun k => k % 256)) witness_dev).final_buf 100
      = (fun k => k % 256) 100) :=
  ⟨by decide, demangle_bijection_roundtrip 3 5 7 9 100 (fun k => k % 256) witness_dev
    (by decide) (by decide) (by decide) (by decide) (by decide)⟩

/-! ## Samplerates -/

set_option maxRecDepth 100000 in
theorem fill_init :
    fill_supported_samplerates_if_needed supported_samplerates_init
      = (List.range 255).map (fun j => SR_MHZ 100 / (255 - j)) ++ [0] := by
  decide

theorem getD_filled (i : Nat) (hi : i < 255) :
    (fill_supported_samplerates_if_needed supported_samplerates_init).getD i 0
      = SR_MHZ 100 / (255 - i) := by
  rw [fill_init, List.getD_eq_getElem?_getD, List.getElem?_append_left (by simpa using hi)]
  simp [hi]

theorem fill_filled :
    fill_supported_samplerates_if_needed
        (fill_supported_samplerates_if_needed supported_samplerates_init)
      = fill_supported_samplerates_if_needed supported_samplerates_init := by
  have h : (fill_supported_samplerates_if_needed supported_samplerates_init).getD 0 0 ≠ 0 := by
    rw [getD_filled 0 (by decide)]
    decide
  generalize fill_supported_samplerates_if_needed supported_samplerates_init = t at h ⊢
  unfold fill_supported_samplerates_if_needed
  rw [if_pos h]

/-- The tables the driver can hold: the zero-initialised one and the filled one. -/
theorem fill_reachable (t : List Nat)
    (ht : t = supported_samplerates_init ∨
      t = fill_supported_samplerates_if_needed supported_samplerates_init) :
    fill_supported_samplerates_if_needed t
      = fill_supported_samplerates_if_needed supported_samplerates_init := by
  rcases ht with h | h
  · rw [h]
  · rw [h, fill_filled]

theorem is_valid_samplerate_iff (t : List Nat) (samplerate : Nat)
    (ht : t = supported_samplerates_init ∨
      t = fill_supported_samplerates_if_needed supported_samplerates_init) :
    (is_valid_samplerate t samplerate).1 = true
      ↔ ∃ N, 1 ≤ N ∧ N ≤ 255 ∧ samplerate = SR_MHZ 100 / N := by
  simp only [is_valid_samplerate, fill_reachable t ht, List.any_eq_true, List.mem_range,
    beq_iff_eq]
  constructor
  · rintro ⟨i, hi, e⟩
    rw [getD_filled i hi] at e
    exact ⟨255 - i, by omega, by omega, e.symm⟩
  · rintro ⟨N, h1, h2, e⟩
    refine ⟨255 - N, by omega, ?_⟩
    rw [getD_filled _ (by omega), e]
    congr 1
    omega

theorem is_valid_samplerate_table (t : List Nat) (samplerate : Nat) :
    (is_valid_samplerate t samplerate).2 = fill_supported_samplerates_if_needed t := rfl

theorem divisor_bounds (N : Nat) (h1 : 1 ≤ N) (h2 : N ≤ 255) :
    0 < SR_MHZ 100 / N ∧ 1 ≤ SR_MHZ 100 / (SR_MHZ 100 / N) ∧
      SR_MHZ 100 / (SR_MHZ 100 / N) ≤ 255 := by
  have hpos : 0 < SR_MHZ 100 / N := by
    apply Nat.div_pos
    · simp only [SR_MHZ]; omega
    · omega
  refine ⟨hpos, ?_, ?_⟩
  · rw [Nat.le_div_iff_mul_le hpos]
    simpa using Nat.div_le_self _ _
  · have hlow : 392156 ≤ SR_MHZ 100 / N := by
      rw [Nat.le_div_iff_mul_le (by omega)]
      simp only [SR_MHZ]
      calc 392156 * N ≤ 392156 * 255 := Nat.mul_le_mul_left _ h2
        _ ≤ 100 * 1000000 := by decide
    calc SR_MHZ 100 / (SR_MHZ 100 / N) ≤ SR_MHZ 100 / 392156 :=
          Nat.div_le_div_left hlow (by decide)
      _ = 255 := by decide

theorem samplerate_to_divcount_valid (t : List Nat) (N : Nat)
    (ht : t = supported_samplerates_init ∨
      t = fill_supported_samplerates_if_needed supported_samplerates_init)
    (h1 : 1 ≤ N) (h2 : N ≤ 255) :
    (samplerate_to_divcount t (SR_MHZ 100 / N)).1 = SR_MHZ 100 / (SR_MHZ 100 / N) - 1 := by
  have hv := (is_valid_samplerate_iff t (SR_MHZ 100 / N) ht).2 ⟨N, h1, h2, rfl⟩
  obtain ⟨hpos, hq1, hq2⟩ := divisor_bounds N h1 h2
  unfold samplerate_to_divcount
  rw [if_neg (by omega)]
  generalize hq : is_valid_samplerate t (SR_MHZ 100 / N) = q at hv
  obtain ⟨b, t1⟩ := q
  simp only at hv
  subst hv
  simp only [u64]
  generalize SR_MHZ 100 / (SR_MHZ 100 / N) = k at hq1 hq2
  omega

/-- C2: for every samplerate r dividing 100 MHz with 100 MHz / r in 1..255,
samplerate_to_divcount(r) is not the error value 0xff and
divcount_to_samplerate(samplerate_to_divcount(r)) = r, where
divcount_to_samplerate(d) = 100,000,000 / (d + 1); and
samplerate_to_divcount(1,000,000) = 99. The table is the zero-initialised or
the filled one. -/
theorem samplerate_divcount_roundtrip (t : List Nat) (r : Nat)
    (ht : t = supported_samplerates_init ∨
      t = fill_supported_samplerates_if_needed supported_samplerates_init)
    (hdiv : 100000000 % r = 0) (h1 : 1 ≤ 100000000 / r) (h2 : 100000000 / r ≤ 255) :
    (samplerate_to_divcount t r).1 ≠ 0xff ∧
    divcount_to_samplerate (samplerate_to_divcount t r).1 = r ∧
    (∀ d, divcount_to_samplerate d = 100000000 / (d + 1)) ∧
    (samplerate_to_divcount t 1000000).1 = 99 := by
  have hM : SR_MHZ 100 = 100000000 := rfl
  have hr : 0 < r := by
    rcases Nat.eq_zero_or_pos r with h | h
    · rw [h] at h1
      simp at h1
    · exact h
  have hmul : r * (100000000 / r) = 100000000 := Nat.mul_div_cancel' (Nat.dvd_of_mod_eq_zero hdiv)
  have hrk : 100000000 / (100000000 / r) = r :=
    Nat.div_eq_of_eq_mul_left (by omega) hmul.symm
  have hv := samplerate_to_divcount_valid t (100000000 / r) ht h1 h2
  rw [hM, hrk] at hv
  have h99 := samplerate_to_divcount_valid t 100 ht (by decide) (by decide)
  refine ⟨?_, ?_, fun d => rfl, ?_⟩
  · rw [hv]
    omega
  · rw [hv]
    unfold divcount_to_samplerate
    rw [hM, Nat.sub_add_cancel h1, hrk]
  · exact h99

theorem samplerate_divcount_roundtrip_witness :
    (supported_samplerates_init = supported_samplerates_init ∨
      supported_samplerates_init
        = fill_supported_samplerates_if_needed supported_samplerates_init) ∧
    100000000 % 25000000 = 0 ∧ 1 ≤ 100000000 / 25000000 ∧ 100000000 / 25000000 ≤ 255 ∧
    ((samplerate_to_divcount supported_samplerates_init 25000000).1 ≠ 0xff ∧
    divcount_to_samplerate (samplerate_to_divcount supported_samplerates_init 25000000).1
      = 25000000 ∧
    (∀ d, divcount_to_samplerate d = 100000000 / (d + 1)) ∧
    (samplerate_to_divcount supported_samplerates_init 1000000).1 = 99) :=
  ⟨Or.inl rfl, by decide, by decide, by decide,
    samplerate_divcount_roundtrip supported_samplerates_init 25000000 (Or.inl rfl)
      (by decide) (by decide) (by decide)⟩

/-! ## The trigger search -/

theorem trigger_scan_found (dev : la8) (block e n i : Nat) (h : dev.trigger_found ≠ 0) :
    trigger_scan dev block e n i = none := by
  cases n with
  | zero => rfl
  | succ n => simp [trigger_scan, h]

theorem trigger_scan_mask (dev : la8) (block e n i : Nat) (h : dev.trigger_mask = 0) :
    trigger_scan dev block e n i = none := by
  cases n with
  | zero => rfl
  | succ n => simp [trigger_scan, h]

theorem trigger_scan_none (dev : la8) (block n i : Nat)
    (h : ∀ j, i ≤ j → j < i + n → ¬ trigger_match dev (block * BS + j)) :
    trigger_scan dev block (dev.trigger_pattern &&& dev.trigger_mask) n i = none := by
  induction n generalizing i with
  | zero => rfl
  | succ n ih =>
    have h0 := h i (Nat.le_refl i) (by omega)
    unfold trigger_match at h0
    simp only [trigger_scan, h0, if_false]
    rw [ih (i + 1) (fun j h1 h2 => h j (by omega) (by omega))]
    simp

theorem trigger_scan_some (dev : la8) (block n i t : Nat)
    (hfound : dev.trigger_found = 0) (hmask : dev.trigger_mask ≠ 0)
    (hit : i ≤ t) (htn : t < i + n) (ht : trigger_match dev (block * BS + t))
    (h : ∀ j, i ≤ j → j < t → ¬ trigger_match dev (block * BS + j)) :
    trigger_scan dev block (dev.trigger_pattern &&& dev.trigger_mask) n i = some t := by
  induction n generalizing i with
  | zero => omega
  | succ n ih =>
    by_cases hi : i = t
    · subst hi
      unfold trigger_match at ht
      simp [trigger_scan, hfound, hmask, ht]
    · have h0 := h i (Nat.le_refl i) (by omega)
      unfold trigger_match at h0
      simp only [trigger_scan, hfound, hmask, h0, if_false, ne_eq, not_true_eq_false]
      exact ih (i + 1) (by omega) (by omega) (fun j h1 h2 => h j (by omega) h2)

/-! ## One block -/

theorem send_block_none (S : State) (dev : la8) (block : Nat)
    (h : trigger_scan dev block (dev.trigger_pattern &&& dev.trigger_mask) BS 0 = none) :
    send_block_to_session_bus S dev block
      = ({ S with bus := S.bus ++ [logic_packet dev (block * BS) BS] }, dev) := by
  simp only [send_block_to_session_bus, h, sr_session_bus, logic_packet]

theorem send_block_some (S : State) (dev : la8) (block t : Nat)
    (h : trigger_scan dev block (dev.trigger_pattern &&& dev.trigger_mask) BS 0 = some t) :
    send_block_to_session_bus S dev block
      = ({ S with bus := S.bus ++ split_packets dev block t }, { dev with trigger_found := 1 }) := by
  simp only [send_block_to_session_bus, h, sr_session_bus, logic_packet, split_packets]
  by_cases h1 : t > 0 <;> by_cases h2 : t < BS - 1 <;> simp [h1, h2]

/-! ## All blocks -/

theorem send_blocks_no_trigger (S : State) (dev : la8) (K : Nat)
    (h : dev.trigger_found ≠ 0 ∨ dev.trigger_mask = 0 ∨
      ∀ j, j < K * BS → ¬ trigger_match dev j) :
    (List.range K).foldl (fun q i => send_block_to_session_bus q.1 q.2 i) (S, dev)
      = ({ S with bus := S.bus ++ (List.range K).map (fun k => logic_packet dev (k * BS) BS) },
          dev) := by
  induction K with
  | zero => simp
  | succ K ih =>
    have hK : dev.trigger_found ≠ 0 ∨ dev.trigger_mask = 0 ∨
        ∀ j, j < K * BS → ¬ trigger_match dev j := by
      rcases h with h | h | h
      · exact Or.inl h
      · exact Or.inr (Or.inl h)
      · refine Or.inr (Or.inr (fun j hj => h j ?_))
        simp only [BS] at hj ⊢
        omega
    have hscan : trigger_scan dev K (dev.trigger_pattern &&& dev.trigger_mask) BS 0 = none := by
      rcases h with h | h | h
      · exact trigger_scan_found dev K _ BS 0 h
      · exact trigger_scan_mask dev K _ BS 0 h
      · refine trigger_scan_none dev K BS 0 (fun j _ hj => h _ ?_)
        simp only [BS] at hj ⊢
        omega
    rw [List.range_succ, List.foldl_append, ih hK]
    simp only [List.foldl_cons, List.foldl_nil]
    rw [send_block_none _ dev K hscan]
    simp [List.append_assoc]

theorem send_blocks_trigger (S : State) (dev : la8) (K b t : Nat) (hb : b < K) (ht : t < BS)
    (hfound : dev.trigger_found = 0) (hmask : dev.trigger_mask ≠ 0)
    (hm : trigger_match dev (b * BS + t))
    (hfirst : ∀ j, j < b * BS + t → ¬ trigger_match dev j) :
    (List.range K).foldl (fun q i => send_block_to_session_bus q.1 q.2 i) (S, dev)
      = ({ S with bus := S.bus ++ ((List.range b).map (fun k => logic_packet dev (k * BS) BS)
            ++ split_packets dev b t
            ++ (List.range (K - (b + 1))).map (fun k => logic_packet dev ((b + 1 + k) * BS) BS)) },
          { dev with trigger_found := 1 }) := by
  induction K with
  | zero => omega
  | succ K ih =>
    rw [List.range_succ, List.foldl_append]
    simp only [List.foldl_cons, List.foldl_nil]
    by_cases hbK : b = K
    · subst hbK
      rw [send_blocks_no_trigger S dev b
        (Or.inr (Or.inr (fun j hj => hfirst j (by omega))))]
      have hscan : trigger_scan dev b (dev.trigger_pattern &&& dev.trigger_mask) BS 0 = some t :=
        trigger_scan_some dev b BS 0 t hfound hmask (Nat.zero_le t) (by omega) hm
          (fun j _ hj => hfirst _ (by omega))
      rw [send_block_some _ dev b t hscan]
      simp [List.append_assoc]
    · rw [ih (by omega)]
      have hscan : trigger_scan { dev with trigger_found := 1 } K
          (dev.trigger_pattern &&& dev.trigger_mask) BS 0 = none :=
        trigger_scan_found _ K _ BS 0 (by simp)
      rw [send_block_none _ { dev with trigger_found := 1 } K hscan]
      have hK : K + 1 - (b + 1) = (K - (b + 1)) + 1 := by omega
      have hbk : b + 1 + (K - (b + 1)) = K := by omega
      rw [hK, List.range_succ, List.map_append]
      simp [List.append_assoc, logic_packet, hbk]

/-! ## The registry -/

theorem findIdx?_modify {α : Type} (q : α → Bool) (f : α → α) (hq : ∀ x, q (f x) = q x)
    (l : List α) (p start : Nat) :
    List.findIdx? q (l.modify f p) start = List.findIdx? q l start := by
  induction l generalizing p start with
  | nil => simp
  | cons x xs ih =>
    cases p with
    | zero => simp [List.findIdx?_cons, hq]
    | succ p => simp [List.findIdx?_cons, ih]

theorem lookup_set_priv (S : State) (p : Nat) (dev : la8) (device_index : Int) :
    sr_get_device_instance (set_priv S p dev).device_instances device_index
      = sr_get_device_instance S.device_instances device_index := by
  unfold sr_get_device_instance set_priv
  exact findIdx?_modify (fun sdi => sdi.index == device_index)
    (fun sdi => { sdi with priv := some dev }) (fun _ => rfl) S.device_instances p 0

theorem getElem?_set_priv (S : State) (p : Nat) (dev : la8) (sdi : sr_device_instance)
    (h : S.device_instances[p]? = some sdi) :
    (set_priv S p dev).device_instances[p]? = some { sdi with priv := some dev } := by
  unfold set_priv
  simp [List.getElem?_modify, h]

theorem hw_stop_acquisition_set_priv (S : State) (p : Nat) (dev : la8) (sdi : sr_device_instance)
    (hsdi : S.device_instances[p]? = some sdi)
    (hlook : sr_get_device_instance S.device_instances sdi.index = some p) :
    hw_stop_acquisition (set_priv S p dev) sdi.index
      = sr_session_bus (set_priv S p dev) Packet.SR_DF_END := by
  unfold hw_stop_acquisition
  rw [lookup_set_priv, hlook]
  simp only [getElem?_set_priv S p dev sdi hsdi]

/-! ## Reading a block -/

theorem la8_read_block_read_full (S : State) (dev : la8) (c : ftdi_context) (r : ReadResult)
    (rest : List ReadResult) (hftdi : dev.ftdic = some c)
    (hreads : S.ftdi_read_results = r :: rest) (hr : r.bytes_read = 4096) :
    la8_read_block_read S dev
      = some (4096, { S with ftdi_read_results := rest }, { dev with mangled_buf := r.buf }) := by
  simp [la8_read_block_read, la8_read, hftdi, hreads, hr, BS]

theorem la8_read_block_full (S : State) (dev : la8) (c : ftdi_context) (r : ReadResult)
    (rest : List ReadResult) (hftdi : dev.ftdic = some c)
    (hreads : S.ftdi_read_results = r :: rest) (hr : r.bytes_read = 4096) :
    la8_read_block S dev
      = some (SR_OK, { S with ftdi_read_results := rest },
          demangle { dev with mangled_buf := r.buf }) := by
  unfold la8_read_block
  simp only [hftdi, la8_read_block_read_full S dev c r rest hftdi hreads hr]
  simp [BS, hftdi]

theorem send_block_device_instances (S : State) (dev : la8) (block : Nat) :
    (send_block_to_session_bus S dev block).1.device_instances = S.device_instances := by
  cases h : trigger_scan dev block (dev.trigger_pattern &&& dev.trigger_mask) BS 0 with
  | none => rw [send_block_none S dev block h]
  | some t => rw [send_block_some S dev block t h]

theorem send_blocks_device_instances (S : State) (dev : la8) :
    (send_blocks S dev).1.device_instances = S.device_instances := by
  unfold send_blocks
  generalize NUM_BLOCKS = K
  induction K with
  | zero => rfl
  | succ K ih =>
    rw [List.range_succ, List.foldl_append]
    simp only [List.foldl_cons, List.foldl_nil]
    rw [send_block_device_instances, ih]

theorem receive_data_next (S : State) (p : Nat) (sdi : sr_device_instance) (dev : la8)
    (c : ftdi_context) (r : ReadResult) (rest : List ReadResult)
    (hsdi : S.device_instances[p]? = some sdi) (hpriv : sdi.priv = some dev)
    (hftdi : dev.ftdic = some c) (hreads : S.ftdi_read_results = r :: rest)
    (hr : r.bytes_read = 4096) (hbc : dev.block_counter ≠ NUM_BLOCKS - 1) :
    receive_data S (some p)
      = some (true, set_priv { S with ftdi_read_results := rest } p
          { demangle { dev with mangled_buf := r.buf } with
            block_counter := dev.block_counter + 1 }) := by
  unfold receive_data
  simp only [hsdi, hpriv, la8_read_block_full S dev c r rest hftdi hreads hr]
  have h0 : ¬ (SR_OK < 0) := by decide
  have h1 : (demangle { dev with mangled_buf := r.buf }).block_counter ≠ NUM_BLOCKS - 1 := hbc
  rw [if_neg h0, if_pos h1]
  rfl

theorem receive_data_last (S : State) (p : Nat) (sdi : sr_device_instance) (dev : la8)
    (c : ftdi_context) (r : ReadResult) (rest : List ReadResult)
    (hsdi : S.device_instances[p]? = some sdi) (hpriv : sdi.priv = some dev)
    (hlook : sr_get_device_instance S.device_instances sdi.index = some p)
    (hftdi : dev.ftdic = some c) (hreads : S.ftdi_read_results = r :: rest)
    (hr : r.bytes_read = 4096) (hbc : dev.block_counter = NUM_BLOCKS - 1) :
    receive_data S (some p)
      = some (true, sr_session_bus
          (set_priv (send_blocks { S with ftdi_read_results := rest }
              (demangle { dev with mangled_buf := r.buf })).1 p
            (send_blocks { S with ftdi_read_results := rest }
              (demangle { dev with mangled_buf := r.buf })).2)
          Packet.SR_DF_END) := by
  unfold receive_data
  simp only [hsdi, hpriv, la8_read_block_full S dev c r rest hftdi hreads hr]
  have h0 : ¬ (SR_OK < 0) := by decide
  have h1 : ¬ ((demangle { dev with mangled_buf := r.buf }).block_counter ≠ NUM_BLOCKS - 1) :=
    fun h => h hbc
  rw [if_neg h0, if_neg h1]
  have hq : (send_blocks { S with ftdi_read_results := rest }
      (demangle { dev with mangled_buf := r.buf })).1.device_instances[p]? = some sdi := by
    rw [send_blocks_device_instances]
    exact hsdi
  have hl : sr_get_device_instance (send_blocks { S with ftdi_read_results := rest }
      (demangle { dev with mangled_buf := r.buf })).1.device_instances sdi.index = some p := by
    rw [send_blocks_device_instances]
    exact hlook
  simp only [hw_stop_acquisition_set_priv _ p _ sdi hq hl]

/-! ## Counting packets -/

theorem buf_bytes_length (buf : Nat → Nat) (start len : Nat) :
    (buf_bytes buf start len).length = len := by
  simp [buf_bytes]

theorem logic_run_count (dev : la8) (g : Nat → Nat) (len K : Nat) :
    (((List.range K).map (fun k => logic_packet dev (g k) len)).filter is_logic).length = K ∧
    ((List.range K).map (fun k => logic_packet dev (g k) len)).filter is_trigger = [] ∧
    ((List.range K).map (fun k => logic_packet dev (g k) len)).filter is_end = [] ∧
    ((((List.range K).map (fun k => logic_packet dev (g k) len)).map payload).map
      List.length).sum = K * len := by
  induction K with
  | zero => simp
  | succ K ih =>
    obtain ⟨h1, h2, h3, h4⟩ := ih
    rw [List.range_succ, List.map_append, List.filter_append, List.filter_append,
      List.filter_append, List.map_append, List.map_append, List.sum_append, List.length_append,
      h1, h2, h3, h4]
    simp [logic_packet, is_logic, is_trigger, is_end, payload, buf_bytes_length, Nat.succ_mul]

/-- C3: on the 8-channel device with trigger mask 0, whatever the canonical
buffer and the trigger pattern, the receive step that reads the final block
(block_counter = 2047, 4096 bytes delivered) emits exactly 2048 logic packets,
the k-th carrying the 4096 canonical bytes of block k with unit size 1, no
trigger packet, and then one end packet; the payloads total 8,388,608 bytes. -/
theorem receive_data_final_block_no_trigger (S : State) (p : Nat) (sdi : sr_device_instance)
    (dev : la8) (c : ftdi_context) (r : ReadResult) (rest : List ReadResult)
    (hsdi : S.device_instances[p]? = some sdi) (hpriv : sdi.priv = some dev)
    (hlook : sr_get_device_instance S.device_instances sdi.index = some p)
    (hftdi : dev.ftdic = some c) (hreads : S.ftdi_read_results = r :: rest)
    (hr : r.bytes_read = 4096) (hbc : dev.block_counter = 2047) (hmask : dev.trigger_mask = 0) :
    ∃ S' canon,
      receive_data S (some p) = some (true, S') ∧
      canon = (demangle { dev with mangled_buf := r.buf }).final_buf ∧
      S'.bus = S.bus
        ++ (List.range 2048).map (fun k =>
            Packet.SR_DF_LOGIC (u64 (k * 4096 * dev.period_ps)) (u64 (4096 * dev.period_ps))
              4096 1 (buf_bytes canon (k * 4096) 4096))
        ++ [Packet.SR_DF_END] ∧
      ((S'.bus.drop S.bus.length).filter is_logic).length = 2048 ∧
      (S'.bus.drop S.bus.length).filter is_trigger = [] ∧
      (S'.bus.drop S.bus.length).filter is_end = [Packet.SR_DF_END] ∧
      (((S'.bus.drop S.bus.length).map payload).map List.length).sum = 8388608 := by
  have hstep := receive_data_last S p sdi dev c r rest hsdi hpriv hlook hftdi hreads hr hbc
  have hdrain := send_blocks_no_trigger { S with ftdi_read_results := rest }
    (demangle { dev with mangled_buf := r.buf }) NUM_BLOCKS (Or.inr (Or.inl hmask))
  have hsb : send_blocks { S with ftdi_read_results := rest }
      (demangle { dev with mangled_buf := r.buf })
      = (List.range NUM_BLOCKS).foldl (fun q i => send_block_to_session_bus q.1 q.2 i)
          ({ S with ftdi_read_results := rest }, demangle { dev with mangled_buf := r.buf }) := rfl
  rw [hsb, hdrain] at hstep
  obtain ⟨h1, h2, h3, h4⟩ := logic_run_count (demangle { dev with mangled_buf := r.buf })
    (fun k => k * BS) BS NUM_BLOCKS
  refine ⟨_, _, hstep, rfl, ?_, ?_, ?_, ?_, ?_⟩
  · simp only [sr_session_bus, set_priv, logic_packet, BS, NUM_BLOCKS]
    rfl
  · simp only [sr_session_bus, set_priv, List.append_assoc, List.drop_left, List.filter_append,
      List.length_append, h1]
    rfl
  · simp only [sr_session_bus, set_priv, List.append_assoc, List.drop_left, List.filter_append, h2]
    rfl
  · simp only [sr_session_bus, set_priv, List.append_assoc, List.drop_left, List.filter_append, h3]
    rfl
  · simp only [sr_session_bus, set_priv, List.append_assoc, List.drop_left, List.map_append,
      List.sum_append, h4]
    rfl

theorem receive_data_final_block_no_trigger_witness :
    ∃ S' canon,
      receive_data (witness_state witness_dev_last [witness_read] [] []) (some 0)
        = some (true, S') ∧
      canon = (demangle { witness_dev_last with mangled_buf := witness_read.buf }).final_buf ∧
      S'.bus = (witness_state witness_dev_last [witness_read] [] []).bus
        ++ (List.range 2048).map (fun k =>
            Packet.SR_DF_LOGIC (u64 (k * 4096 * witness_dev_last.period_ps))
              (u64 (4096 * witness_dev_last.period_ps)) 4096 1 (buf_bytes canon (k * 4096) 4096))
        ++ [Packet.SR_DF_END] ∧
      ((S'.bus.drop (witness_state witness_dev_last [witness_read] [] []).bus.length).filter
        is_logic).length = 2048 ∧
      (S'.bus.drop (witness_state witness_dev_last [witness_read] [] []).bus.length).filter
        is_trigger = [] ∧
      (S'.bus.drop (witness_state witness_dev_last [witness_read] [] []).bus.length).filter
        is_end = [Packet.SR_DF_END] ∧
      (((S'.bus.drop (witness_state witness_dev_last [witness_read] [] []).bus.length).map
        payload).map List.length).sum = 8388608 :=
  receive_data_final_block_no_trigger (witness_state witness_dev_last [witness_read] [] []) 0
    (witness_sdi witness_dev_last) witness_dev_last { usb_dev := true } witness_read []
    rfl rfl rfl rfl rfl rfl rfl rfl

theorem split_packets_trigger (dev : la8) (block t : Nat) :
    (split_packets dev block t).filter is_trigger
      = [Packet.SR_DF_TRIGGER (u64 ((block * BS + t) * dev.period_ps)) 0] := by
  unfold split_packets
  by_cases h1 : t > 0 <;> by_cases h2 : t < BS - 1 <;>
    simp [h1, h2, logic_packet, is_trigger]

theorem send_blocks_first_match (S : State) (dev : la8) (j : Nat)
    (hmask : dev.trigger_mask ≠ 0) (hfound : dev.trigger_found = 0) (hj : j < SDRAM_SIZE)
    (hm : dev.final_buf j &&& dev.trigger_mask = dev.trigger_pattern &&& dev.trigger_mask)
    (hfirst : ∀ i, i < j →
      ¬ (dev.final_buf i &&& dev.trigger_mask = dev.trigger_pattern &&& dev.trigger_mask)) :
    (send_blocks S dev).1.bus = S.bus
      ++ ((List.range (j / BS)).map (fun k => logic_packet dev (k * BS) BS)
        ++ split_packets dev (j / BS) (j % BS)
        ++ (List.range (NUM_BLOCKS - (j / BS + 1))).map
            (fun k => logic_packet dev ((j / BS + 1 + k) * BS) BS)) ∧
    ((send_blocks S dev).1.bus.drop S.bus.length).filter is_trigger
      = [Packet.SR_DF_TRIGGER (u64 (j * dev.period_ps)) 0] ∧
    (send_blocks S dev).2.trigger_found = 1 := by
  have hsb : send_blocks S dev
      = (List.range NUM_BLOCKS).foldl (fun q i => send_block_to_session_bus q.1 q.2 i)
          (S, dev) := rfl
  have hb : j / BS < NUM_BLOCKS := by
    simp only [BS, NUM_BLOCKS, SDRAM_SIZE] at hj ⊢
    omega
  have ht : j % BS < BS := Nat.mod_lt _ (by decide)
  have hjj : j / BS * BS + j % BS = j := Nat.div_add_mod' j BS
  have h := send_blocks_trigger S dev NUM_BLOCKS (j / BS) (j % BS) hb ht hfound hmask
    (by rw [hjj]; exact hm) (by rw [hjj]; exact hfirst)
  rw [hsb, h]
  refine ⟨rfl, ?_, rfl⟩
  obtain ⟨_, h2, _, _⟩ := logic_run_count dev (fun k => k * BS) BS (j / BS)
  obtain ⟨_, h2b, _, _⟩ := logic_run_count dev (fun k => (j / BS + 1 + k) * BS) BS
    (NUM_BLOCKS - (j / BS + 1))
  simp only [List.drop_left, List.filter_append, h2, h2b, split_packets_trigger, hjj,
    List.nil_append, List.append_nil]

/-- C4: with a trigger mask other than 0 and the found flag clear, sending blocks
0..2047 in order emits exactly one trigger packet if some sample of the 8 MB
buffer satisfies (s & mask) == (pattern & mask), placed at the smallest such
sample index j (after the logic packets of the samples before j, with time
offset j * period), later matches giving no further trigger packet; and none if
no sample matches. -/
theorem send_blocks_single_trigger (S : State) (dev : la8)
    (hmask : dev.trigger_mask ≠ 0) (hfound : dev.trigger_found = 0) :
    (∀ j, j < SDRAM_SIZE →
      dev.final_buf j &&& dev.trigger_mask = dev.trigger_pattern &&& dev.trigger_mask →
      (∀ i, i < j →
        ¬ (dev.final_buf i &&& dev.trigger_mask = dev.trigger_pattern &&& dev.trigger_mask)) →
      (send_blocks S dev).1.bus = S.bus
        ++ ((List.range (j / BS)).map (fun k => logic_packet dev (k * BS) BS)
          ++ split_packets dev (j / BS) (j % BS)
          ++ (List.range (NUM_BLOCKS - (j / BS + 1))).map
              (fun k => logic_packet dev ((j / BS + 1 + k) * BS) BS)) ∧
      ((send_blocks S dev).1.bus.drop S.bus.length).filter is_trigger
        = [Packet.SR_DF_TRIGGER (u64 (j * dev.period_ps)) 0] ∧
      (send_blocks S dev).2.trigger_found = 1) ∧
    ((∃ j, j < SDRAM_SIZE ∧
        dev.final_buf j &&& dev.trigger_mask = dev.trigger_pattern &&& dev.trigger_mask) →
      (((send_blocks S dev).1.bus.drop S.bus.length).filter is_trigger).length = 1) ∧
    ((∀ i, i < SDRAM_SIZE →
        ¬ (dev.final_buf i &&& dev.trigger_mask = dev.trigger_pattern &&& dev.trigger_mask)) →
      (send_blocks S dev).1.bus
          = S.bus ++ (List.range NUM_BLOCKS).map (fun k => logic_packet dev (k * BS) BS) ∧
        ((send_blocks S dev).1.bus.drop S.bus.length).filter is_trigger = []) := by
  refine ⟨fun j hj hm hfirst => send_blocks_first_match S dev j hmask hfound hj hm hfirst,
    ?_, ?_⟩
  · rintro ⟨j, hj, hm⟩
    have hex : ∃ i, dev.final_buf i &&& dev.trigger_mask
        = dev.trigger_pattern &&& dev.trigger_mask := ⟨j, hm⟩
    have hle : Nat.find hex ≤ j := Nat.find_min' hex hm
    obtain ⟨_, h2, _⟩ := send_blocks_first_match S dev (Nat.find hex) hmask hfound
      (Nat.lt_of_le_of_lt hle hj) (Nat.find_spec hex) (fun i hi => Nat.find_min hex hi)
    rw [h2]
    rfl
  · intro hno
    have hsb : send_blocks S dev
        = (List.range NUM_BLOCKS).foldl (fun q i => send_block_to_session_bus q.1 q.2 i)
            (S, dev) := rfl
    have h0 := send_blocks_no_trigger S dev NUM_BLOCKS
      (Or.inr (Or.inr (fun i hi => hno i hi)))
    rw [hsb, h0]
    obtain ⟨_, h2, _, _⟩ := logic_run_count dev (fun k => k * BS) BS NUM_BLOCKS
    exact ⟨rfl, by simp only [List.drop_left, h2]⟩

theorem witness_dev_trigger_first (i : Nat) (hi : i < 5000) :
    ¬ (witness_dev_trigger.final_buf i &&& witness_dev_trigger.trigger_mask
      = witness_dev_trigger.trigger_pattern &&& witness_dev_trigger.trigger_mask) := by
  have h : witness_dev_trigger.final_buf i = 1 := by
    simp only [witness_dev_trigger]
    rw [if_neg (by omega)]
  rw [h]
  decide

theorem send_blocks_single_trigger_witness :
    (witness_dev_trigger.trigger_mask ≠ 0 ∧ witness_dev_trigger.trigger_found = 0) ∧
    (send_blocks (witness_state witness_dev_trigger [] [] []) witness_dev_trigger).1.bus
      = (witness_state witness_dev_trigger [] [] []).bus
        ++ ((List.range (5000 / BS)).map (fun k => logic_packet witness_dev_trigger (k * BS) BS)
          ++ split_packets witness_dev_trigger (5000 / BS) (5000 % BS)
          ++ (List.range (NUM_BLOCKS - (5000 / BS + 1))).map
              (fun k => logic_packet witness_dev_trigger ((5000 / BS + 1 + k) * BS) BS)) ∧
    ((send_blocks (witness_state witness_dev_trigger [] [] []) witness_dev_trigger).1.bus.drop
        (witness_state witness_dev_trigger [] [] []).bus.length).filter is_trigger
      = [Packet.SR_DF_TRIGGER (u64 (5000 * witness_dev_trigger.period_ps)) 0] ∧
    (send_blocks (witness_state witness_dev_trigger [] [] []) witness_dev_trigger).2.trigger_found
      = 1 :=
  ⟨⟨by decide, rfl⟩,
    (send_blocks_single_trigger (witness_state witness_dev_trigger [] [] []) witness_dev_trigger
      (by decide) rfl).1 5000 (by decide) (by decide) witness_dev_trigger_first⟩

/-! ## The trigger split -/

theorem witness_dev_last_sample_first (i : Nat) (hi : i < 4095) :
    ¬ trigger_match witness_dev_last_sample (0 * BS + i) := by
  have h : witness_dev_last_sample.final_buf (0 * BS + i) = 1 := by
    simp only [witness_dev_last_sample]
    rw [if_neg (by omega)]
  unfold trigger_match
  rw [h]
  decide

theorem witness_dev_last_sample_scan :
    trigger_scan witness_dev_last_sample 0
      (witness_dev_last_sample.trigger_pattern &&& witness_dev_last_sample.trigger_mask) BS 0
      = some 4095 :=
  trigger_scan_some witness_dev_last_sample 0 BS 0 4095 rfl (by decide) (by decide) (by decide)
    (by decide) (fun j _ hj => witness_dev_last_sample_first j hj)

/-- C5, counterexample: with mask 0xFF and pattern 0x00 and the first all-zero
sample at offset 4095 of block 0, the block is sent as a pre-trigger logic packet
of 4095 bytes and the trigger packet, with no post-trigger packet; the lengths
sum to 4095, not to the block length 4096. -/
theorem send_block_last_sample_lengths :
    (send_block_to_session_bus (witness_state witness_dev_last_sample [] [] [])
        witness_dev_last_sample 0).1.bus
      = [logic_packet witness_dev_last_sample 0 4095,
         Packet.SR_DF_TRIGGER (u64 (4095 * witness_dev_last_sample.period_ps)) 0] ∧
    (((send_block_to_session_bus (witness_state witness_dev_last_sample [] [] [])
        witness_dev_last_sample 0).1.bus.map payload).map List.length).sum = 4095 ∧
    ¬ ((((send_block_to_session_bus (witness_state witness_dev_last_sample [] [] [])
        witness_dev_last_sample 0).1.bus.map payload).map List.length).sum = BS) := by
  rw [send_block_some _ _ 0 4095 witness_dev_last_sample_scan]
  have hs : split_packets witness_dev_last_sample 0 4095
      = [logic_packet witness_dev_last_sample 0 4095,
         Packet.SR_DF_TRIGGER (u64 (4095 * witness_dev_last_sample.period_ps)) 0] := by
    simp [split_packets, BS]
  have hb : (witness_state witness_dev_last_sample [] [] []).bus = [] := rfl
  simp only [hb, hs, List.nil_append]
  refine ⟨trivial, ?_, ?_⟩ <;>
    simp [logic_packet, payload, buf_bytes_length, BS]

theorem and_255_eq_zero_iff (x : Nat) (hx : x < 256) : x &&& 0xff = 0x00 &&& 0xff ↔ x = 0 := by
  have h : x &&& 0xff = x % 2 ^ 8 := Nat.and_pow_two_sub_one_eq_mod x 8
  rw [h]
  have h0 : (0x00 : Nat) &&& 0xff = 0 := by decide
  rw [h0]
  omega

/-- C5, as amended: when send_block_to_session_bus finds the trigger at offset t
of a block, it emits, in this order, a pre-trigger logic packet with the t bytes
before the match (omitted iff t = 0), one trigger packet, and a post-trigger
logic packet starting at the match (omitted iff t = 4095); for mask 0xFF and
pattern 0x00 the match is the first all-zero sample of the block; and when
t < 4095 the lengths of the two logic packets sum to the block length. -/
theorem send_block_trigger_split (S : State) (dev : la8) (block t : Nat)
    (hfound : dev.trigger_found = 0) (hmask : dev.trigger_mask ≠ 0) (ht : t < BS)
    (hm : dev.final_buf (block * BS + t) &&& dev.trigger_mask
      = dev.trigger_pattern &&& dev.trigger_mask)
    (hfirst : ∀ i, i < t →
      ¬ (dev.final_buf (block * BS + i) &&& dev.trigger_mask
        = dev.trigger_pattern &&& dev.trigger_mask)) :
    (send_block_to_session_bus S dev block).1.bus = S.bus
      ++ (if t > 0 then [logic_packet dev (block * BS) t] else [])
      ++ [Packet.SR_DF_TRIGGER (u64 ((block * BS + t) * dev.period_ps)) 0]
      ++ (if t < BS - 1 then [logic_packet dev (block * BS + t) (BS - t)] else []) ∧
    (send_block_to_session_bus S dev block).2.trigger_found = 1 ∧
    (t < BS - 1 →
      ((((send_block_to_session_bus S dev block).1.bus.drop S.bus.length).map payload).map
        List.length).sum = BS) ∧
    (dev.trigger_mask = 0xff → dev.trigger_pattern = 0x00 → (∀ i, dev.final_buf i < 256) →
      dev.final_buf (block * BS + t) = 0 ∧ ∀ i, i < t → dev.final_buf (block * BS + i) ≠ 0) := by
  have hscan : trigger_scan dev block (dev.trigger_pattern &&& dev.trigger_mask) BS 0 = some t :=
    trigger_scan_some dev block BS 0 t hfound hmask (Nat.zero_le t) (by omega) hm
      (fun j _ hj => hfirst j hj)
  rw [send_block_some S dev block t hscan]
  refine ⟨?_, rfl, ?_, ?_⟩
  · simp only [split_packets, List.append_assoc]
  · intro h2
    simp only [List.drop_left, split_packets, if_pos h2]
    by_cases h1 : t > 0
    · simp only [if_pos h1]
      simp [logic_packet, payload, buf_bytes_length]
      omega
    · have h0 : t = 0 := by omega
      subst h0
      simp [logic_packet, payload, buf_bytes_length]
  · intro hff hp hbytes
    rw [hff, hp] at hm
    refine ⟨(and_255_eq_zero_iff _ (hbytes _)).1 hm, fun i hi h0 => ?_⟩
    have := hfirst i hi
    rw [hff, hp] at this
    exact this ((and_255_eq_zero_iff _ (hbytes _)).2 h0)

theorem witness_dev_trigger_block1 (i : Nat) (hi : i < 904) :
    ¬ (witness_dev_trigger.final_buf (1 * BS + i) &&& witness_dev_trigger.trigger_mask
      = witness_dev_trigger.trigger_pattern &&& witness_dev_trigger.trigger_mask) := by
  have h : witness_dev_trigger.final_buf (1 * BS + i) = 1 := by
    simp only [witness_dev_trigger, BS]
    rw [if_neg (by omega)]
  rw [h]
  decide

theorem send_block_trigger_split_witness :
    (witness_dev_trigger.trigger_found = 0 ∧ witness_dev_trigger.trigger_mask ≠ 0 ∧ 904 < BS) ∧
    (send_block_to_session_bus (witness_state witness_dev_trigger [] [] [])
        witness_dev_trigger 1).1.bus
      = (witness_state witness_dev_trigger [] [] []).bus
        ++ (if 904 > 0 then [logic_packet witness_dev_trigger (1 * BS) 904] else [])
        ++ [Packet.SR_DF_TRIGGER (u64 ((1 * BS + 904) * witness_dev_trigger.period_ps)) 0]
        ++ (if 904 < BS - 1 then [logic_packet witness_dev_trigger (1 * BS + 904) (BS - 904)]
            else []) :=
  ⟨⟨rfl, by decide, by decide⟩,
    (send_block_trigger_split (witness_state witness_dev_trigger [] [] []) witness_dev_trigger
      1 904 rfl (by decide) (by decide) (by decide) witness_dev_trigger_block1).1⟩

/-! ## Time offsets -/

/-- C6, at the failing input: on a 100 MHz capture (period 10000 ps) whose first
trigger match is the last sample of block 0, the sending loop starts with a logic
packet at offset 0 of duration 4095 * 10000, the trigger packet, and the logic
packet of block 1 at offset 4096 * 10000: the first logic packet's offset plus
duration is not the offset of the next logic packet. -/
theorem send_blocks_gap_after_last_sample :
    ∃ d0 d1 rest,
      (send_blocks (witness_state witness_dev_last_sample [] [] [])
          witness_dev_last_sample).1.bus
        = Packet.SR_DF_LOGIC 0 40950000 4095 1 d0
          :: Packet.SR_DF_TRIGGER 40950000 0
          :: Packet.SR_DF_LOGIC 40960000 40960000 4096 1 d1
          :: rest ∧
      0 + 40950000 ≠ 40960000 := by
  have hsb : send_blocks (witness_state witness_dev_last_sample [] [] [])
      witness_dev_last_sample
      = (List.range NUM_BLOCKS).foldl (fun q i => send_block_to_session_bus q.1 q.2 i)
          (witness_state witness_dev_last_sample [] [] [], witness_dev_last_sample) := rfl
  have h := send_blocks_trigger (witness_state witness_dev_last_sample [] [] [])
    witness_dev_last_sample NUM_BLOCKS 0 4095 (by decide) (by decide) rfl (by decide)
    (by decide) (fun j hj => by
      have := witness_dev_last_sample_first j (by omega)
      simpa using this)
  have hK : NUM_BLOCKS - (0 + 1) = 2046 + 1 := by decide
  rw [hsb, h, hK, List.range_succ_eq_map]
  have hs : split_packets witness_dev_last_sample 0 4095
      = [logic_packet witness_dev_last_sample 0 4095,
         Packet.SR_DF_TRIGGER (u64 (4095 * witness_dev_last_sample.period_ps)) 0] := by
    simp [split_packets, BS]
  have hp : witness_dev_last_sample.period_ps = 10000 := rfl
  refine ⟨buf_bytes witness_dev_last_sample.final_buf 0 4095,
    buf_bytes witness_dev_last_sample.final_buf 4096 4096,
    List.map (fun k => logic_packet witness_dev_last_sample ((0 + 1 + k) * BS) BS)
      (List.map Nat.succ (List.range 2046)), ?_, by decide⟩
  simp only [hs, witness_state, List.range_zero, List.map_nil, List.nil_append, List.map_cons,
    List.cons_append, logic_packet, hp, u64, BS]
  rfl

/-! ## Writing to the device -/

theorem la8_write_ok (S : State) (dev : la8) (c : ftdi_context) (buf : List Nat) (size : Int)
    (ws : List Int) (hftdi : dev.ftdic = some c) (hsize : 0 ≤ size)
    (hw : S.ftdi_write_results = size :: ws) :
    la8_write S dev buf size
      = some (size, { S with ftdi_write_results := ws, wire := S.wire ++ [buf] }, dev) := by
  rw [la8_write]
  simp only [hftdi]
  rw [if_neg (by omega)]
  split
  · rename_i h
    rw [hw] at h
    exact absurd h (by simp)
  · rename_i w rest h
    rw [hw] at h
    obtain ⟨h1, h2⟩ := List.cons.inj h
    subst h1 h2
    rw [if_neg (by omega), if_neg (by simp)]

theorem reset_no_usb (S : State) (dev : la8) (c : ftdi_context) (hftdi : dev.ftdic = some c)
    (husb : c.usb_dev = false) :
    la8_close_usb_reset_sequencer S dev = some (SR_OK, S, { dev with ftdic := none }) := by
  rw [la8_close_usb_reset_sequencer]
  simp [hftdi, husb]

theorem la8_write_fail (S : State) (dev : la8) (c : ftdi_context) (buf : List Nat) (size w : Int)
    (ws : List Int) (r : Int) (S2 : State) (dev2 : la8) (hftdi : dev.ftdic = some c)
    (hsize : 0 ≤ size) (hw : S.ftdi_write_results = w :: ws) (hne : w ≠ size)
    (hreset : la8_close_usb_reset_sequencer
      { S with ftdi_write_results := ws, wire := S.wire ++ [buf] } dev = some (r, S2, dev2)) :
    la8_write S dev buf size = some (w, S2, dev2) := by
  rw [la8_write]
  simp only [hftdi]
  rw [if_neg (by omega)]
  split
  · rename_i h
    rw [hw] at h
    exact absurd h (by simp)
  · rename_i w0 rest h
    rw [hw] at h
    obtain ⟨h1, h2⟩ := List.cons.inj h
    subst h1 h2
    by_cases hneg : w < 0
    · rw [if_pos hneg]
      simp only [hreset]
    · rw [if_neg hneg, if_pos hne]
      simp only [hreset]

theorem reset_usb (dev : la8) (c : ftdi_context) (hftdi : dev.ftdic = some c)
    (husb : c.usb_dev = true) (ws : List Int) (fs : List Int) :
    ∀ (S : State), S.ftdi_write_results = fs ++ 8 :: ws → (∀ f, f ∈ fs → f ≠ 8) →
      la8_close_usb_reset_sequencer S dev
        = some (SR_OK,
            { S with ftdi_write_results := ws
                     wire := S.wire ++ List.replicate (fs.length + 1) reset_sequence },
            { dev with ftdic := none }) := by
  induction fs with
  | nil =>
    intro S hw _
    rw [la8_close_usb_reset_sequencer]
    simp only [hftdi, husb, if_true]
    rw [la8_write_ok S dev c reset_sequence 8 ws hftdi (by decide) (by simpa using hw)]
    simp
  | cons f fs ih =>
    intro S hw hf
    have hrec := ih { S with ftdi_write_results := fs ++ 8 :: ws, wire := S.wire ++ [reset_sequence] }
      rfl (fun g hg => hf g (List.mem_cons_of_mem f hg))
    rw [la8_close_usb_reset_sequencer]
    simp only [hftdi, husb, if_true]
    rw [la8_write_fail S dev c reset_sequence 8 f (fs ++ 8 :: ws) _ _ _ hftdi (by decide)
      (by simpa using hw) (hf f (List.mem_cons_self f fs)) hrec]
    simp [List.replicate_succ, List.append_assoc]

/-! ## Starting the acquisition -/

theorem hw_start_acquisition_ok (S : State) (device_index : Int) (session_data : Option Nat)
    (p : Nat) (sdi : sr_device_instance) (dev : la8) (c : ftdi_context) (D : Nat)
    (ws : List Int) (now : Int) (ts : List Int)
    (hlook : sr_get_device_instance S.device_instances device_index = some p)
    (hsdi : S.device_instances[p]? = some sdi) (hpriv : sdi.priv = some dev)
    (hftdi : dev.ftdic = some c)
    (hD : (samplerate_to_divcount S.supported_samplerates dev.cur_samplerate).1 = D)
    (hD255 : D ≠ 0xff) (hw : S.ftdi_write_results = 4 :: ws)
    (htime : S.time_results = now :: ts) :
    hw_start_acquisition S device_index session_data
      = some (SR_OK,
          { set_priv
              { S with
                supported_samplerates :=
                  (samplerate_to_divcount S.supported_samplerates dev.cur_samplerate).2
                ftdi_write_results := ws
                wire := S.wire ++ [[D, 0xff, dev.trigger_pattern, dev.trigger_mask]]
                bus := S.bus ++ [Packet.SR_DF_HEADER 1 dev.cur_samplerate NUM_PROBES 0]
                time_results := ts }
              p
              { dev with
                divcount := D
                session_id := session_data
                done := Int.tdiv (((D : Int) + 1) * 8388608
                  + (now + (dev.trigger_timeout : Int)) * 100000000) 100000000
                block_counter := 0
                trigger_found := 0 } with
            sources := S.sources ++ [p] }) := by
  unfold hw_start_acquisition
  simp only [hlook, hsdi, hpriv, hftdi, hD]
  rw [if_neg hD255]
  rw [la8_write_ok
    { S with supported_samplerates :=
      (samplerate_to_divcount S.supported_samplerates dev.cur_samplerate).2 }
    { dev with ftdic := some c, divcount := D } c _ 4 ws rfl (by decide) hw]
  simp [time, htime, sr_session_bus, set_priv, hftdi]

theorem hw_start_acquisition_short (S : State) (device_index : Int) (session_data : Option Nat)
    (p : Nat) (sdi : sr_device_instance) (dev : la8) (c : ftdi_context) (D : Nat) (w : Int)
    (S2 : State) (dev2 : la8)
    (hlook : sr_get_device_instance S.device_instances device_index = some p)
    (hsdi : S.device_instances[p]? = some sdi) (hpriv : sdi.priv = some dev)
    (hftdi : dev.ftdic = some c)
    (hD : (samplerate_to_divcount S.supported_samplerates dev.cur_samplerate).1 = D)
    (hD255 : D ≠ 0xff)
    (hwrite : la8_write
      { S with supported_samplerates :=
        (samplerate_to_divcount S.supported_samplerates dev.cur_samplerate).2 }
      { dev with ftdic := some c, divcount := D }
      [D, 0xff, dev.trigger_pattern, dev.trigger_mask] 4 = some (w, S2, dev2))
    (hne : w ≠ 4) :
    hw_start_acquisition S device_index session_data = some (SR_ERR, set_priv S2 p dev2) := by
  unfold hw_start_acquisition
  simp only [hlook, hsdi, hpriv, hftdi, hD]
  rw [if_neg hD255, hwrite]
  by_cases hneg : w < 0
  · simp only [if_pos hneg]
  · simp only [if_neg hneg, if_pos hne]

theorem la8_write_exhausted (S : State) (dev : la8) (c : ftdi_context) (buf : List Nat)
    (size : Int) (hftdi : dev.ftdic = some c) (hsize : 0 ≤ size)
    (hw : S.ftdi_write_results = []) :
    la8_write S dev buf size = none := by
  rw [la8_write]
  simp only [hftdi]
  rw [if_neg (by omega)]
  split
  · rfl
  · rename_i w rest h
    rw [hw] at h
    exact absurd h (by simp)

theorem la8_write_fail_none (S : State) (dev : la8) (c : ftdi_context) (buf : List Nat)
    (size w : Int) (ws : List Int) (hftdi : dev.ftdic = some c)
    (hsize : 0 ≤ size) (hw : S.ftdi_write_results = w :: ws) (hne : w ≠ size)
    (hreset : la8_close_usb_reset_sequencer
      { S with ftdi_write_results := ws, wire := S.wire ++ [buf] } dev = none) :
    la8_write S dev buf size = none := by
  rw [la8_write]
  simp only [hftdi]
  rw [if_neg (by omega)]
  split
  · rfl
  · rename_i w0 rest h
    rw [hw] at h
    obtain ⟨h1, h2⟩ := List.cons.inj h
    subst h1 h2
    by_cases hneg : w < 0
    · rw [if_pos hneg]
      simp only [hreset]
    · rw [if_neg hneg, if_pos hne]
      simp only [hreset]

theorem reset_unbounded (dev : la8) (c : ftdi_context) (hftdi : dev.ftdic = some c)
    (husb : c.usb_dev = true) (ws : List Int) :
    ∀ (S : State), S.ftdi_write_results = ws → (∀ f, f ∈ ws → f ≠ 8) →
      la8_close_usb_reset_sequencer S dev = none := by
  induction ws with
  | nil =>
    intro S hw _
    rw [la8_close_usb_reset_sequencer]
    simp only [hftdi, husb, if_true]
    rw [la8_write_exhausted S dev c reset_sequence 8 hftdi (by decide) hw]
  | cons f fs ih =>
    intro S hw hf
    have hrec := ih { S with ftdi_write_results := fs, wire := S.wire ++ [reset_sequence] }
      rfl (fun g hg => hf g (List.mem_cons_of_mem f hg))
    rw [la8_close_usb_reset_sequencer]
    simp only [hftdi, husb, if_true]
    rw [la8_write_fail_none S dev c reset_sequence 8 f fs hftdi (by decide) hw
      (hf f (List.mem_cons_self f fs)) hrec]

theorem la8_write_unbounded (S : State) (dev : la8) (c : ftdi_context) (buf : List Nat)
    (size w : Int) (ws : List Int) (hftdi : dev.ftdic = some c) (husb : c.usb_dev = true)
    (hsize : 0 ≤ size) (hw : S.ftdi_write_results = w :: ws) (hne : w ≠ size)
    (hws : ∀ f, f ∈ ws → f ≠ 8) :
    la8_write S dev buf size = none :=
  la8_write_fail_none S dev c buf size w ws hftdi hsize hw hne
    (reset_unbounded dev c hftdi husb ws _ rfl hws)

theorem hw_start_acquisition_unbounded (S : State) (device_index : Int)
    (session_data : Option Nat)
    (p : Nat) (sdi : sr_device_instance) (dev : la8) (c : ftdi_context) (D : Nat)
    (hlook : sr_get_device_instance S.device_instances device_index = some p)
    (hsdi : S.device_instances[p]? = some sdi) (hpriv : sdi.priv = some dev)
    (hftdi : dev.ftdic = some c)
    (hD : (samplerate_to_divcount S.supported_samplerates dev.cur_samplerate).1 = D)
    (hD255 : D ≠ 0xff)
    (hwrite : la8_write
      { S with supported_samplerates :=
        (samplerate_to_divcount S.supported_samplerates dev.cur_samplerate).2 }
      { dev with ftdic := some c, divcount := D }
      [D, 0xff, dev.trigger_pattern, dev.trigger_mask] 4 = none) :
    hw_start_acquisition S device_index session_data = none := by
  unfold hw_start_acquisition
  simp only [hlook, hsdi, hpriv, hftdi, hD]
  rw [if_neg hD255, hwrite]

/-- C8, what the code does: the 8-channel start_acquisition hands the transport
exactly the 4 bytes {divcount, 0xFF, trigger_pattern, trigger_mask} with
divcount = 100 MHz / cur_samplerate - 1. When the transport reports 4 bytes
written it emits exactly one header packet (feed_version 1, the current
samplerate, 8 logic probes, 0 analog probes), registers the receive step, sets
block_counter and the found flag to 0 and returns SR_OK. When it reports anything
else, la8_write runs the reset sequence, whose own write of the 8 reset bytes
goes through la8_write again: with the USB device closed, or once a later write
transfers exactly 8 bytes, the call returns SR_ERR with no packet emitted, no
receive step registered and block_counter and the found flag as before; with
the USB device open and no later write transferring 8 bytes, however many write
results are supplied, the call has not returned when they are used up. The
current samplerate is a supported one, as set_samplerate maintains. -/
theorem hw_start_acquisition_command (S : State) (device_index : Int)
    (session_data : Option Nat) (p : Nat) (sdi : sr_device_instance) (dev : la8)
    (c : ftdi_context) (N : Nat) (w : Int) (ws : List Int)
    (hlook : sr_get_device_instance S.device_instances device_index = some p)
    (hsdi : S.device_instances[p]? = some sdi) (hpriv : sdi.priv = some dev)
    (hftdi : dev.ftdic = some c)
    (ht : S.supported_samplerates = supported_samplerates_init ∨
      S.supported_samplerates = fill_supported_samplerates_if_needed supported_samplerates_init)
    (hN1 : 1 ≤ N) (hN2 : N ≤ 255) (hrate : dev.cur_samplerate = 100000000 / N)
    (hw : S.ftdi_write_results = w :: ws) :
    (w = 4 → ∀ now ts, S.time_results = now :: ts →
      ∃ S', hw_start_acquisition S device_index session_data = some (SR_OK, S') ∧
        S'.wire = S.wire
          ++ [[100000000 / dev.cur_samplerate - 1, 0xff, dev.trigger_pattern, dev.trigger_mask]] ∧
        S'.bus = S.bus ++ [Packet.SR_DF_HEADER 1 dev.cur_samplerate 8 0] ∧
        S'.sources = S.sources ++ [p] ∧
        ∃ sdi' dev', S'.device_instances[p]? = some sdi' ∧ sdi'.priv = some dev' ∧
          dev'.block_counter = 0 ∧ dev'.trigger_found = 0 ∧
          dev'.divcount = 100000000 / dev.cur_samplerate - 1) ∧
    (w ≠ 4 → (c.usb_dev = true → ∃ fs ws', ws = fs ++ 8 :: ws' ∧ ∀ f, f ∈ fs → f ≠ 8) →
      ∃ S' extra, hw_start_acquisition S device_index session_data = some (SR_ERR, S') ∧
        SR_ERR < 0 ∧
        S'.wire = S.wire
          ++ [[100000000 / dev.cur_samplerate - 1, 0xff, dev.trigger_pattern, dev.trigger_mask]]
          ++ extra ∧
        S'.bus = S.bus ∧ S'.sources = S.sources ∧
        ∃ sdi' dev', S'.device_instances[p]? = some sdi' ∧ sdi'.priv = some dev' ∧
          dev'.block_counter = dev.block_counter ∧ dev'.trigger_found = dev.trigger_found) ∧
    (w ≠ 4 → c.usb_dev = true → (∀ f, f ∈ ws → f ≠ 8) →
      hw_start_acquisition S device_index session_data = none) := by
  have hM : SR_MHZ 100 = 100000000 := rfl
  obtain ⟨_, hq1, hq2⟩ := divisor_bounds N hN1 hN2
  have hD := samplerate_to_divcount_valid S.supported_samplerates N ht hN1 hN2
  rw [hM] at hD hq1 hq2
  rw [← hrate] at hD hq1 hq2
  have hD255 : 100000000 / dev.cur_samplerate - 1 ≠ 0xff := by omega
  refine ⟨?_, ?_, ?_⟩
  · intro h4 now ts htime
    subst h4
    refine ⟨_, hw_start_acquisition_ok S device_index session_data p sdi dev c _ ws now ts
      hlook hsdi hpriv hftdi hD hD255 hw htime, rfl, rfl, rfl, ?_⟩
    exact ⟨_, _, getElem?_set_priv _ p _ sdi hsdi, rfl, rfl, rfl, rfl⟩
  · intro hne hscript
    cases husb : c.usb_dev with
    | false =>
      have hreset := reset_no_usb
        { S with
          supported_samplerates :=
            (samplerate_to_divcount S.supported_samplerates dev.cur_samplerate).2
          ftdi_write_results := ws
          wire := S.wire ++ [[100000000 / dev.cur_samplerate - 1, 0xff, dev.trigger_pattern,
            dev.trigger_mask]] }
        { dev with ftdic := some c, divcount := 100000000 / dev.cur_samplerate - 1 } c rfl husb
      have hwrite := la8_write_fail
        { S with supported_samplerates :=
          (samplerate_to_divcount S.supported_samplerates dev.cur_samplerate).2 }
        { dev with ftdic := some c, divcount := 100000000 / dev.cur_samplerate - 1 } c
        [100000000 / dev.cur_samplerate - 1, 0xff, dev.trigger_pattern, dev.trigger_mask]
        4 w ws _ _ _ rfl (by decide) hw hne hreset
      refine ⟨_, [], hw_start_acquisition_short S device_index session_data p sdi dev c _ w _ _
        hlook hsdi hpriv hftdi hD hD255 hwrite hne, by decide, by simp [set_priv], rfl, rfl, ?_⟩
      exact ⟨_, _, getElem?_set_priv _ p _ sdi hsdi, rfl, rfl, rfl⟩
    | true =>
      obtain ⟨fs, ws', hws, hfs⟩ := hscript husb
      have hreset := reset_usb
        { dev with ftdic := some c, divcount := 100000000 / dev.cur_samplerate - 1 } c rfl husb
        ws' fs
        { S with
          supported_samplerates :=
            (samplerate_to_divcount S.supported_samplerates dev.cur_samplerate).2
          ftdi_write_results := ws
          wire := S.wire ++ [[100000000 / dev.cur_samplerate - 1, 0xff, dev.trigger_pattern,
            dev.trigger_mask]] }
        hws hfs
      have hwrite := la8_write_fail
        { S with supported_samplerates :=
          (samplerate_to_divcount S.supported_samplerates dev.cur_samplerate).2 }
        { dev with ftdic := some c, divcount := 100000000 / dev.cur_samplerate - 1 } c
        [100000000 / dev.cur_samplerate - 1, 0xff, dev.trigger_pattern, dev.trigger_mask]
        4 w ws _ _ _ rfl (by decide) hw hne hreset
      refine ⟨_, List.replicate (fs.length + 1) reset_sequence,
        hw_start_acquisition_short S device_index session_data p sdi dev c _ w _ _
          hlook hsdi hpriv hftdi hD hD255 hwrite hne, by decide, by simp [set_priv], rfl, rfl, ?_⟩
      exact ⟨_, _, getElem?_set_priv _ p _ sdi hsdi, rfl, rfl, rfl⟩
  · intro hne husb hws
    have hwrite := la8_write_unbounded
      { S with supported_samplerates :=
        (samplerate_to_divcount S.supported_samplerates dev.cur_samplerate).2 }
      { dev with ftdic := some c, divcount := 100000000 / dev.cur_samplerate - 1 } c
      [100000000 / dev.cur_samplerate - 1, 0xff, dev.trigger_pattern, dev.trigger_mask]
      4 w ws rfl husb (by decide) hw hne hws
    exact hw_start_acquisition_unbounded S device_index session_data p sdi dev c _
      hlook hsdi hpriv hftdi hD hD255 hwrite

theorem hw_start_acquisition_command_witness :
    (∃ S', hw_start_acquisition (witness_state witness_dev [] [4] [0]) 0 none
        = some (SR_OK, S') ∧
      S'.wire = (witness_state witness_dev [] [4] [0]).wire
        ++ [[100000000 / witness_dev.cur_samplerate - 1, 0xff, witness_dev.trigger_pattern,
            witness_dev.trigger_mask]] ∧
      S'.bus = (witness_state witness_dev [] [4] [0]).bus
        ++ [Packet.SR_DF_HEADER 1 witness_dev.cur_samplerate 8 0] ∧
      S'.sources = (witness_state witness_dev [] [4] [0]).sources ++ [0] ∧
      ∃ sdi' dev', S'.device_instances[0]? = some sdi' ∧ sdi'.priv = some dev' ∧
        dev'.block_counter = 0 ∧ dev'.trigger_found = 0 ∧
        dev'.divcount = 100000000 / witness_dev.cur_samplerate - 1) ∧
    (∃ S', hw_start_acquisition (witness_state witness_dev [] [3, -1, 8] [0]) 0 none
        = some (SR_ERR, S') ∧
      S'.bus = (witness_state witness_dev [] [3, -1, 8] [0]).bus ∧
      S'.sources = (witness_state witness_dev [] [3, -1, 8] [0]).sources) ∧
    hw_start_acquisition (witness_state witness_dev [] [-1, -1, -1, 0, 4, 7] [0]) 0 none
      = none := by
  refine ⟨?_, ?_, ?_⟩
  · exact (hw_start_acquisition_command (witness_state witness_dev [] [4] [0]) 0 none 0
      (witness_sdi witness_dev) witness_dev { usb_dev := true } 1 4 [] rfl rfl rfl rfl
      (Or.inl rfl) (by decide) (by decide) rfl rfl).1 rfl 0 [] rfl
  · obtain ⟨S', extra, h, _, _, hbus, hsrc, _⟩ :=
      (hw_start_acquisition_command (witness_state witness_dev [] [3, -1, 8] [0]) 0 none 0
        (witness_sdi witness_dev) witness_dev { usb_dev := true } 1 3 [-1, 8] rfl rfl rfl rfl
        (Or.inl rfl) (by decide) (by decide) rfl rfl).2.1 (by decide)
        (fun _ => ⟨[-1], [], rfl, by decide⟩)
    exact ⟨S', h, hbus, hsrc⟩
  · exact (hw_start_acquisition_command
      (witness_state witness_dev [] [-1, -1, -1, 0, 4, 7] [0]) 0 none 0
      (witness_sdi witness_dev) witness_dev { usb_dev := true } 1 (-1) [-1, -1, 0, 4, 7]
      rfl rfl rfl rfl (Or.inl rfl) (by decide) (by decide) rfl rfl).2.2 (by decide) rfl
      (by decide)

/-! ## What the transport functions leave alone -/

theorem frame_state_refl (S : State) : frame_state S S := ⟨rfl, rfl, rfl, rfl⟩

theorem frame_state_trans (S S1 S2 : State) (h1 : frame_state S S1) (h2 : frame_state S1 S2) :
    frame_state S S2 :=
  ⟨h2.1.trans h1.1, h2.2.1.trans h1.2.1, h2.2.2.1.trans h1.2.2.1, h2.2.2.2.trans h1.2.2.2⟩

theorem frame_dev_refl (dev : la8) : frame_dev dev dev := rfl

theorem frame_dev_trans (dev dev1 dev2 : la8) (h1 : frame_dev dev dev1) (h2 : frame_dev dev1 dev2) :
    frame_dev dev dev2 := by
  unfold frame_dev at *
  rw [h2, h1]

theorem la8_read_frame (S : State) (dev : la8) (buf : Nat → Nat) (size n : Int) (b : Nat → Nat)
    (S1 : State) (h : la8_read S dev buf size = some (n, b, S1)) : frame_state S S1 := by
  unfold la8_read at h
  split at h
  · simp only [Option.some.injEq, Prod.mk.injEq] at h
    rw [← h.2.2]
    exact frame_state_refl S
  · split at h
    · simp only [Option.some.injEq, Prod.mk.injEq] at h
      rw [← h.2.2]
      exact frame_state_refl S
    · split at h
      · exact absurd h (by simp)
      · simp only [Option.some.injEq, Prod.mk.injEq] at h
        rw [← h.2.2]
        exact ⟨rfl, rfl, rfl, rfl⟩

theorem time_frame (S : State) (now : Int) (S1 : State) (h : time S = some (now, S1)) :
    frame_state S S1 := by
  unfold time at h
  split at h
  · exact absurd h (by simp)
  · simp only [Option.some.injEq, Prod.mk.injEq] at h
    rw [← h.2]
    exact ⟨rfl, rfl, rfl, rfl⟩

theorem la8_read_block_retry_frame (dev : la8) (k : Nat) :
    ∀ (S : State) (buf : Nat → Nat) (n : Int) (b : Nat → Nat) (S1 : State),
      la8_read_block_retry dev k S buf = some (n, b, S1) → frame_state S S1 := by
  induction k with
  | zero =>
    intro S buf n b S1 h
    exact absurd h (by simp [la8_read_block_retry])
  | succ k ih =>
    intro S buf n b S1 h
    unfold la8_read_block_retry at h
    cases hr : la8_read S dev buf BS with
    | none => rw [hr] at h; exact absurd h (by simp)
    | some q =>
      obtain ⟨n0, b0, S0⟩ := q
      rw [hr] at h
      have f0 := la8_read_frame S dev buf BS n0 b0 S0 hr
      cases ht : time S0 with
      | none => simp only [ht] at h; exact absurd h (by simp)
      | some q2 =>
        obtain ⟨now, S2⟩ := q2
        simp only [ht] at h
        have f1 := time_frame S0 now S2 ht
        split at h
        · exact frame_state_trans _ _ _ (frame_state_trans _ _ _ f0 f1) (ih _ _ _ _ _ h)
        · simp only [Option.some.injEq, Prod.mk.injEq] at h
          rw [← h.2.2]
          exact frame_state_trans _ _ _ f0 f1

theorem la8_read_block_read_frame (S : State) (dev : la8) (n : Int) (S1 : State) (dev1 : la8)
    (h : la8_read_block_read S dev = some (n, S1, dev1)) :
    frame_state S S1 ∧ dev1 = { dev with mangled_buf := dev1.mangled_buf } := by
  unfold la8_read_block_read at h
  cases hr : la8_read S dev dev.mangled_buf BS with
  | none => rw [hr] at h; exact absurd h (by simp)
  | some q =>
    obtain ⟨n0, b0, S0⟩ := q
    rw [hr] at h
    have f0 := la8_read_frame S dev _ BS n0 b0 S0 hr
    simp only at h
    split at h
    · cases hl : la8_read_block_retry dev S0.time_results.length S0 b0 with
      | none => rw [hl] at h; exact absurd h (by simp)
      | some q2 =>
        obtain ⟨n2, b2, S2⟩ := q2
        rw [hl] at h
        simp only [Option.some.injEq, Prod.mk.injEq] at h
        obtain ⟨_, h2, h3⟩ := h
        subst h2 h3
        exact ⟨frame_state_trans _ _ _ f0 (la8_read_block_retry_frame dev _ _ _ _ _ _ hl), rfl⟩
    · simp only [Option.some.injEq, Prod.mk.injEq] at h
      obtain ⟨_, h2, h3⟩ := h
      subst h2 h3
      exact ⟨f0, rfl⟩

theorem reset_frame_of_write_frame (k : Nat)
    (hW : ∀ (S : State) (dev : la8) (buf : List Nat) (size r : Int) (S2 : State) (dev2 : la8),
      S.ftdi_write_results.length = k → la8_write S dev buf size = some (r, S2, dev2) →
      frame_state S S2 ∧ frame_dev dev dev2)
    (S : State) (dev : la8) (r : Int) (S2 : State) (dev2 : la8)
    (hk : S.ftdi_write_results.length = k)
    (h : la8_close_usb_reset_sequencer S dev = some (r, S2, dev2)) :
    frame_state S S2 ∧ frame_dev dev dev2 := by
  rw [la8_close_usb_reset_sequencer] at h
  split at h
  · simp only [Option.some.injEq, Prod.mk.injEq] at h
    obtain ⟨_, h2, h3⟩ := h
    subst h2 h3
    exact ⟨frame_state_refl _, frame_dev_refl _⟩
  · split at h
    · cases hw : la8_write S dev reset_sequence 8 with
      | none => rw [hw] at h; exact absurd h (by simp)
      | some q =>
        obtain ⟨r1, S1, dev1⟩ := q
        rw [hw] at h
        simp only [Option.some.injEq, Prod.mk.injEq] at h
        obtain ⟨_, h2, h3⟩ := h
        obtain ⟨f1, f2⟩ := hW S dev reset_sequence 8 r1 S1 dev1 hk hw
        subst h2 h3
        refine ⟨f1, ?_⟩
        unfold frame_dev at f2 ⊢
        rw [f2]
    · simp only [Option.some.injEq, Prod.mk.injEq] at h
      obtain ⟨_, h2, h3⟩ := h
      subst h2 h3
      exact ⟨frame_state_refl _, rfl⟩

theorem write_frame_of_reset_frame (k : Nat)
    (hR : ∀ (S : State) (dev : la8) (r : Int) (S2 : State) (dev2 : la8),
      S.ftdi_write_results.length + 1 = k →
      la8_close_usb_reset_sequencer S dev = some (r, S2, dev2) →
      frame_state S S2 ∧ frame_dev dev dev2)
    (S : State) (dev : la8) (buf : List Nat) (size r : Int) (S2 : State) (dev2 : la8)
    (hk : S.ftdi_write_results.length = k)
    (h : la8_write S dev buf size = some (r, S2, dev2)) :
    frame_state S S2 ∧ frame_dev dev dev2 := by
  rw [la8_write] at h
  split at h
  · simp only [Option.some.injEq, Prod.mk.injEq] at h
    obtain ⟨_, h2, h3⟩ := h
    subst h2 h3
    exact ⟨frame_state_refl _, frame_dev_refl _⟩
  · split at h
    · simp only [Option.some.injEq, Prod.mk.injEq] at h
      obtain ⟨_, h2, h3⟩ := h
      subst h2 h3
      exact ⟨frame_state_refl _, frame_dev_refl _⟩
    · split at h
      · exact absurd h (by simp)
      · rename_i w rest hws
        have hlen : ({ S with ftdi_write_results := rest, wire := S.wire ++ [buf] } :
            State).ftdi_write_results.length + 1 = k := by
          rw [← hk, hws]
          rfl
        simp only at h
        split at h
        · cases hc : la8_close_usb_reset_sequencer
              { S with ftdi_write_results := rest, wire := S.wire ++ [buf] } dev with
          | none => rw [hc] at h; exact absurd h (by simp)
          | some q =>
            obtain ⟨r1, S1, dev1⟩ := q
            rw [hc] at h
            simp only [Option.some.injEq, Prod.mk.injEq] at h
            obtain ⟨_, h2, h3⟩ := h
            subst h2 h3
            obtain ⟨f1, f2⟩ := hR _ dev r1 S1 dev1 hlen hc
            exact ⟨frame_state_trans S _ _ ⟨rfl, rfl, rfl, rfl⟩ f1, f2⟩
        · split at h
          · cases hc : la8_close_usb_reset_sequencer
                { S with ftdi_write_results := rest, wire := S.wire ++ [buf] } dev with
            | none => rw [hc] at h; exact absurd h (by simp)
            | some q =>
              obtain ⟨r1, S1, dev1⟩ := q
              rw [hc] at h
              simp only [Option.some.injEq, Prod.mk.injEq] at h
              obtain ⟨_, h2, h3⟩ := h
              subst h2 h3
              obtain ⟨f1, f2⟩ := hR _ dev r1 S1 dev1 hlen hc
              exact ⟨frame_state_trans S _ _ ⟨rfl, rfl, rfl, rfl⟩ f1, f2⟩
          · simp only [Option.some.injEq, Prod.mk.injEq] at h
            obtain ⟨_, h2, h3⟩ := h
            subst h2 h3
            exact ⟨⟨rfl, rfl, rfl, rfl⟩, frame_dev_refl _⟩

theorem write_reset_frame (k : Nat) :
    (∀ (S : State) (dev : la8) (buf : List Nat) (size r : Int) (S2 : State) (dev2 : la8),
      S.ftdi_write_results.length = k → la8_write S dev buf size = some (r, S2, dev2) →
      frame_state S S2 ∧ frame_dev dev dev2) ∧
    (∀ (S : State) (dev : la8) (r : Int) (S2 : State) (dev2 : la8),
      S.ftdi_write_results.length = k →
      la8_close_usb_reset_sequencer S dev = some (r, S2, dev2) →
      frame_state S S2 ∧ frame_dev dev dev2) := by
  induction k with
  | zero =>
    have hW : ∀ (S : State) (dev : la8) (buf : List Nat) (size r : Int) (S2 : State) (dev2 : la8),
        S.ftdi_write_results.length = 0 → la8_write S dev buf size = some (r, S2, dev2) →
        frame_state S S2 ∧ frame_dev dev dev2 :=
      fun S dev buf size r S2 dev2 hk h =>
        write_frame_of_reset_frame 0 (fun _ _ _ _ _ hl _ => absurd hl (by omega))
          S dev buf size r S2 dev2 hk h
    exact ⟨hW, fun S dev r S2 dev2 hk h => reset_frame_of_write_frame 0 hW S dev r S2 dev2 hk h⟩
  | succ k ih =>
    have hW : ∀ (S : State) (dev : la8) (buf : List Nat) (size r : Int) (S2 : State) (dev2 : la8),
        S.ftdi_write_results.length = k + 1 → la8_write S dev buf size = some (r, S2, dev2) →
        frame_state S S2 ∧ frame_dev dev dev2 :=
      fun S dev buf size r S2 dev2 hk h =>
        write_frame_of_reset_frame (k + 1)
          (fun S0 dev0 r0 S3 dev3 hl h0 => ih.2 S0 dev0 r0 S3 dev3 (by omega) h0)
          S dev buf size r S2 dev2 hk h
    exact ⟨hW, fun S dev r S2 dev2 hk h =>
      reset_frame_of_write_frame (k + 1) hW S dev r S2 dev2 hk h⟩

theorem reset_sequencer_frame (S : State) (dev : la8) (r : Int) (S2 : State) (dev2 : la8)
    (h : la8_close_usb_reset_sequencer S dev = some (r, S2, dev2)) :
    frame_state S S2 ∧ frame_dev dev dev2 :=
  (write_reset_frame S.ftdi_write_results.length).2 S dev r S2 dev2 rfl h

theorem la8_reset_loop_frame (dev : la8) (done : Int) (k : Nat) :
    ∀ (S : State) (buf : Nat → Nat) (S1 : State),
      la8_reset_loop dev done k S buf = some S1 → frame_state S S1 := by
  induction k with
  | zero =>
    intro S buf S1 h
    exact absurd h (by simp [la8_reset_loop])
  | succ k ih =>
    intro S buf S1 h
    unfold la8_reset_loop at h
    cases hr : la8_read S dev buf BS with
    | none => rw [hr] at h; exact absurd h (by simp)
    | some q =>
      obtain ⟨n0, b0, S0⟩ := q
      rw [hr] at h
      have f0 := la8_read_frame S dev buf BS n0 b0 S0 hr
      cases ht : time S0 with
      | none => simp only [ht] at h; exact absurd h (by simp)
      | some q2 =>
        obtain ⟨now, S2⟩ := q2
        simp only [ht] at h
        have f1 := time_frame S0 now S2 ht
        split at h
        · exact frame_state_trans _ _ _ (frame_state_trans _ _ _ f0 f1) (ih _ _ _ h)
        · simp only [Option.some.injEq] at h
          rw [← h]
          exact frame_state_trans _ _ _ f0 f1

theorem la8_reset_frame (S : State) (dev : la8) (r : Int) (S2 : State) (dev2 : la8)
    (h : la8_reset S dev = some (r, S2, dev2)) :
    frame_state S S2 ∧ frame_dev dev dev2 := by
  unfold la8_reset at h
  split at h
  · simp only [Option.some.injEq, Prod.mk.injEq] at h
    obtain ⟨_, h2, h3⟩ := h
    subst h2 h3
    exact ⟨frame_state_refl _, frame_dev_refl _⟩
  · cases ht : time S with
    | none => simp only [ht] at h; exact absurd h (by simp)
    | some q =>
      obtain ⟨t0, S1⟩ := q
      simp only [ht] at h
      have f0 := time_frame S t0 S1 ht
      cases hl : la8_reset_loop dev (20 + t0) S1.time_results.length S1 (fun _ => 0) with
      | none => simp only [hl] at h; exact absurd h (by simp)
      | some S3 =>
        simp only [hl] at h
        have f1 := la8_reset_loop_frame dev _ _ _ _ _ hl
        cases hc : la8_close_usb_reset_sequencer S3 dev with
        | none => simp only [hc] at h; exact absurd h (by simp)
        | some q2 =>
          obtain ⟨r1, S4, dev4⟩ := q2
          simp only [hc, Option.some.injEq, Prod.mk.injEq] at h
          obtain ⟨_, h2, h3⟩ := h
          subst h2 h3
          obtain ⟨f2, f3⟩ := reset_sequencer_frame S3 dev r1 S4 dev4 hc
          exact ⟨frame_state_trans _ _ _ (frame_state_trans _ _ _ f0 f1) f2, f3⟩

theorem la8_read_block_short (S : State) (dev : la8) (c : ftdi_context) (n : Int) (S1 : State)
    (dev1 : la8) (r : Int) (S2 : State) (dev2 : la8) (hftdi : dev.ftdic = some c)
    (hread : la8_read_block_read S dev = some (n, S1, dev1)) (hn : n ≠ 4096)
    (hreset : la8_reset S1 dev1 = some (r, S2, dev2)) :
    la8_read_block S dev = some (SR_ERR, S2, dev2) := by
  unfold la8_read_block
  simp only [hftdi, hread]
  rw [if_pos (by simpa [BS] using hn)]
  simp only [hreset]

theorem la8_read_block_good (S : State) (dev : la8) (c : ftdi_context) (S1 : State)
    (dev1 : la8) (hftdi : dev.ftdic = some c)
    (hread : la8_read_block_read S dev = some (4096, S1, dev1)) :
    la8_read_block S dev = some (SR_OK, S1, demangle dev1) := by
  unfold la8_read_block
  simp only [hftdi, hread]
  rw [if_neg (by simp [BS])]

/-! ## The receive step -/

theorem demangle_block_counter (dev : la8) :
    (demangle dev).block_counter = dev.block_counter := by
  simp only [demangle]

theorem la8_read_block_read_fields (S : State) (dev : la8) (n : Int) (S1 : State) (dev1 : la8)
    (h : la8_read_block_read S dev = some (n, S1, dev1)) :
    dev1.block_counter = dev.block_counter ∧ dev1.divcount = dev.divcount ∧
      dev1.final_buf = dev.final_buf := by
  have hd := (la8_read_block_read_frame S dev n S1 dev1 h).2
  generalize dev1.mangled_buf = b at hd
  subst hd
  exact ⟨rfl, rfl, rfl⟩

theorem la8_reset_fields (S : State) (dev : la8) (r : Int) (S2 : State) (dev2 : la8)
    (h : la8_reset S dev = some (r, S2, dev2)) :
    dev2.block_counter = dev.block_counter ∧ dev2.final_buf = dev.final_buf := by
  have hd := (la8_reset_frame S dev r S2 dev2 h).2
  unfold frame_dev at hd
  generalize dev2.mangled_buf = b at hd
  generalize dev2.ftdic = f at hd
  subst hd
  exact ⟨rfl, rfl⟩

theorem la8_read_writes (S : State) (dev : la8) (buf : Nat → Nat) (size n : Int) (b : Nat → Nat)
    (S1 : State) (h : la8_read S dev buf size = some (n, b, S1)) :
    S1.ftdi_write_results = S.ftdi_write_results := by
  unfold la8_read at h
  split at h
  · simp only [Option.some.injEq, Prod.mk.injEq] at h
    rw [← h.2.2]
  · split at h
    · simp only [Option.some.injEq, Prod.mk.injEq] at h
      rw [← h.2.2]
    · split at h
      · exact absurd h (by simp)
      · simp only [Option.some.injEq, Prod.mk.injEq] at h
        rw [← h.2.2]

theorem time_writes (S : State) (now : Int) (S1 : State) (h : time S = some (now, S1)) :
    S1.ftdi_write_results = S.ftdi_write_results := by
  unfold time at h
  split at h
  · exact absurd h (by simp)
  · simp only [Option.some.injEq, Prod.mk.injEq] at h
    rw [← h.2]

theorem la8_reset_loop_writes (dev : la8) (done : Int) (k : Nat) :
    ∀ (S : State) (buf : Nat → Nat) (S1 : State),
      la8_reset_loop dev done k S buf = some S1 →
      S1.ftdi_write_results = S.ftdi_write_results := by
  induction k with
  | zero =>
    intro S buf S1 h
    exact absurd h (by simp [la8_reset_loop])
  | succ k ih =>
    intro S buf S1 h
    unfold la8_reset_loop at h
    cases hr : la8_read S dev buf BS with
    | none => rw [hr] at h; exact absurd h (by simp)
    | some q =>
      obtain ⟨n, b, Sa⟩ := q
      rw [hr] at h
      simp only at h
      cases ht : time Sa with
      | none => rw [ht] at h; exact absurd h (by simp)
      | some q2 =>
        obtain ⟨now, Sb⟩ := q2
        rw [ht] at h
        simp only at h
        have e := (time_writes Sa now Sb ht).trans (la8_read_writes S dev buf BS n b Sa hr)
        split at h
        · exact (ih Sb b S1 h).trans e
        · simp only [Option.some.injEq] at h
          rw [← h]
          exact e

theorem la8_reset_unbounded (S : State) (dev : la8) (c : ftdi_context)
    (hftdi : dev.ftdic = some c) (husb : c.usb_dev = true)
    (hws : ∀ f, f ∈ S.ftdi_write_results → f ≠ 8) :
    la8_reset S dev = none := by
  unfold la8_reset
  simp only [hftdi]
  cases ht : time S with
  | none => rfl
  | some q =>
    obtain ⟨t0, S1⟩ := q
    simp only
    cases hl : la8_reset_loop dev (20 + t0) S1.time_results.length S1 (fun _ => 0) with
    | none => rfl
    | some S2 =>
      simp only
      have e : S2.ftdi_write_results = S.ftdi_write_results :=
        (la8_reset_loop_writes dev _ _ S1 _ S2 hl).trans (time_writes S t0 S1 ht)
      rw [reset_unbounded dev c hftdi husb S2.ftdi_write_results S2 rfl
        (fun f hf => hws f (e ▸ hf))]

theorem la8_reset_loop_run (dev : la8) (c : ftdi_context) (hftdi : dev.ftdic = some c)
    (done : Int) (r : ReadResult) (now : Int) (rs : List ReadResult) (ts : List Int)
    (hexit : ¬ (done > now ∧ r.bytes_read > 0)) :
    ∀ (pre : List (ReadResult × Int)) (S : State) (buf : Nat → Nat) (k : Nat),
      S.ftdi_read_results = pre.map Prod.fst ++ r :: rs →
      S.time_results = pre.map Prod.snd ++ now :: ts →
      (∀ q, q ∈ pre → done > q.2 ∧ q.1.bytes_read > 0) →
      pre.length + 1 ≤ k →
      la8_reset_loop dev done k S buf
        = some { S with ftdi_read_results := rs, time_results := ts } := by
  intro pre
  induction pre with
  | nil =>
    intro S buf k hreads htimes _ hk
    obtain ⟨k1, rfl⟩ : ∃ k1, k = k1 + 1 := ⟨k - 1, by simp at hk; omega⟩
    simp only [List.map_nil, List.nil_append] at hreads htimes
    simp [la8_reset_loop, la8_read, time, hftdi, hreads, htimes, BS, hexit]
  | cons q pre ih =>
    intro S buf k hreads htimes hpre hk
    obtain ⟨k1, rfl⟩ : ∃ k1, k = k1 + 1 := ⟨k - 1, by simp at hk; omega⟩
    simp only [List.map_cons, List.cons_append] at hreads htimes
    have hq := hpre q (List.mem_cons_self q pre)
    have hrec := ih
      { S with ftdi_read_results := pre.map Prod.fst ++ r :: rs,
               time_results := pre.map Prod.snd ++ now :: ts } q.1.buf k1 rfl rfl
      (fun x hx => hpre x (List.mem_cons_of_mem q hx))
      (by simp only [List.length_cons] at hk; omega)
    simp only at hrec
    simp [la8_reset_loop, la8_read, time, hftdi, hreads, htimes, BS, hq, hrec]

theorem receive_data_after_read (S : State) (p : Nat) (sdi : sr_device_instance) (dev : la8)
    (c : ftdi_context) (n : Int) (S1 : State) (dev1 : la8)
    (hsdi : S.device_instances[p]? = some sdi) (hpriv : sdi.priv = some dev)
    (hlook : sr_get_device_instance S.device_instances sdi.index = some p)
    (hftdi : dev.ftdic = some c)
    (hread : la8_read_block_read S dev = some (n, S1, dev1)) :
    (n ≠ 4096 → ∀ r S2 dev2, la8_reset S1 dev1 = some (r, S2, dev2) →
      ∃ S', receive_data S (some p) = some (false, S') ∧
        S'.bus = S.bus ++ [Packet.SR_DF_END] ∧
        ∃ sdi' dev', S'.device_instances[p]? = some sdi' ∧ sdi'.priv = some dev' ∧
          dev'.final_buf = dev.final_buf ∧ dev'.block_counter = dev.block_counter) ∧
    (n = 4096 → dev.block_counter < 2047 →
      ∃ S', receive_data S (some p) = some (true, S') ∧
        S'.bus = S.bus ∧
        ∃ sdi' dev', S'.device_instances[p]? = some sdi' ∧ sdi'.priv = some dev' ∧
          dev'.block_counter = dev.block_counter + 1 ∧
          (∀ i, i < 4096 →
            dev'.final_buf (demangle_index dev.divcount dev.block_counter i)
              = dev1.mangled_buf i) ∧
          (∀ j, (∀ i, i < 4096 → demangle_index dev.divcount dev.block_counter i ≠ j) →
            dev'.final_buf j = dev.final_buf j)) := by
  obtain ⟨f1, _⟩ := la8_read_block_read_frame S dev n S1 dev1 hread
  obtain ⟨hbc1, hdiv1, hfb1⟩ := la8_read_block_read_fields S dev n S1 dev1 hread
  refine ⟨?_, ?_⟩
  · intro hn r S2 dev2 hreset
    obtain ⟨f2, _⟩ := la8_reset_frame S1 dev1 r S2 dev2 hreset
    obtain ⟨hbc2, hfb2⟩ := la8_reset_fields S1 dev1 r S2 dev2 hreset
    have hblock := la8_read_block_short S dev c n S1 dev1 r S2 dev2 hftdi hread hn hreset
    have f := frame_state_trans _ _ _ f1 f2
    have hsdi2 : S2.device_instances[p]? = some sdi := by rw [f.1]; exact hsdi
    have hlook2 : sr_get_device_instance S2.device_instances sdi.index = some p := by
      rw [f.1]; exact hlook
    refine ⟨sr_session_bus (set_priv S2 p dev2) Packet.SR_DF_END, ?_, ?_, ?_⟩
    · unfold receive_data
      simp only [hsdi, hpriv, hblock]
      rw [if_pos (by decide), hw_stop_acquisition_set_priv S2 p dev2 sdi hsdi2 hlook2]
    · show S2.bus ++ [Packet.SR_DF_END] = S.bus ++ [Packet.SR_DF_END]
      rw [f.2.2.1]
    · exact ⟨_, dev2, getElem?_set_priv S2 p dev2 sdi hsdi2, rfl, hfb2.trans hfb1,
        hbc2.trans hbc1⟩
  · intro hn hbc
    subst hn
    have hblock := la8_read_block_good S dev c S1 dev1 hftdi hread
    have hsdi1 : S1.device_instances[p]? = some sdi := by rw [f1.1]; exact hsdi
    refine ⟨set_priv S1 p { demangle dev1 with block_counter := dev1.block_counter + 1 },
      ?_, f1.2.2.1, ?_⟩
    · unfold receive_data
      simp only [hsdi, hpriv, hblock]
      have h1 : (demangle dev1).block_counter ≠ NUM_BLOCKS - 1 := by
        rw [demangle_block_counter, hbc1]
        simp only [NUM_BLOCKS]
        omega
      rw [if_neg (by decide), if_pos h1]
      simp only [demangle_block_counter]
    · refine ⟨_, _, getElem?_set_priv S1 p _ sdi hsdi1, rfl, ?_, ?_, ?_⟩
      · simp only [hbc1]
      · intro i hi
        have h := demangle_final_buf_hit dev1 i
          (by rw [hbc1]; simp only [NUM_BLOCKS]; omega) hi
        rw [hdiv1, hbc1] at h
        simp only
        exact h
      · intro j hj
        have h := demangle_final_buf_other dev1 j (by rw [hdiv1, hbc1]; exact hj)
        rw [hfb1] at h
        simp only
        exact h

theorem la8_reset_run (S : State) (dev : la8) (c : ftdi_context) (hftdi : dev.ftdic = some c)
    (t0 now : Int) (pre : List (ReadResult × Int)) (r : ReadResult) (rs : List ReadResult)
    (ts : List Int)
    (htimes : S.time_results = t0 :: (pre.map Prod.snd ++ now :: ts))
    (hreads : S.ftdi_read_results = pre.map Prod.fst ++ r :: rs)
    (hpre : ∀ q, q ∈ pre → 20 + t0 > q.2 ∧ q.1.bytes_read > 0)
    (hexit : ¬ (20 + t0 > now ∧ r.bytes_read > 0))
    (hwrites : c.usb_dev = true →
      ∃ fs ws, S.ftdi_write_results = fs ++ 8 :: ws ∧ ∀ f, f ∈ fs → f ≠ 8) :
    ∃ S2 dev2, la8_reset S dev = some (SR_OK, S2, dev2) := by
  have hloop := la8_reset_loop_run dev c hftdi (20 + t0) r now rs ts hexit pre
    { S with time_results := pre.map Prod.snd ++ now :: ts } (fun _ => 0)
    (pre.map Prod.snd ++ now :: ts).length hreads rfl hpre (by simp)
  unfold la8_reset
  simp only [hftdi, time, htimes]
  rw [hloop]
  simp only
  cases husb : c.usb_dev with
  | false =>
    rw [reset_no_usb _ dev c hftdi husb]
    exact ⟨_, _, rfl⟩
  | true =>
    obtain ⟨fs, ws, hws, hfs⟩ := hwrites husb
    have hr := reset_usb dev c hftdi husb ws fs
      { S with ftdi_read_results := rs, time_results := ts } hws hfs
    simp only at hr
    rw [hr]
    exact ⟨_, _, rfl⟩

theorem la8_read_block_unbounded (S : State) (dev : la8) (c : ftdi_context) (n : Int)
    (S1 : State) (dev1 : la8) (hftdi : dev.ftdic = some c)
    (hread : la8_read_block_read S dev = some (n, S1, dev1)) (hn : n ≠ 4096)
    (hreset : la8_reset S1 dev1 = none) :
    la8_read_block S dev = none := by
  unfold la8_read_block
  simp only [hftdi, hread]
  rw [if_pos (by simpa [BS] using hn)]
  simp only [hreset]

/-- C9, what the code does: in the receive step of the 8-channel driver, when
the block read (after the first-block retry) delivers anything other than 4096
bytes, the step resets the device: it purges pending data until a read yields
nothing or 20 seconds have passed and then runs the reset sequence, which writes
the 8 reset bytes through la8_write. With the USB device closed, or once a write
transfers exactly 8 bytes, the step writes nothing into the canonical buffer,
leaves block_counter unchanged, emits no logic or trigger packet, emits exactly
one end packet and returns FALSE; with the USB device open and no write
transferring 8 bytes, however many write results are supplied, the step has not
returned when they are used up. When the read delivers 4096 bytes and
block_counter = n < 2047, the step de-mangles the block into the positions for
block n, sets block_counter to n + 1 and emits no packet. -/
theorem receive_data_block_read (S : State) (p : Nat) (sdi : sr_device_instance) (dev : la8)
    (c : ftdi_context) (n : Int) (S1 : State) (dev1 : la8)
    (hsdi : S.device_instances[p]? = some sdi) (hpriv : sdi.priv = some dev)
    (hlook : sr_get_device_instance S.device_instances sdi.index = some p)
    (hftdi : dev.ftdic = some c)
    (hread : la8_read_block_read S dev = some (n, S1, dev1)) :
    (n ≠ 4096 → ∀ (t0 now : Int) (pre : List (ReadResult × Int)) (r : ReadResult)
        (rs : List ReadResult) (ts : List Int),
      S1.time_results = t0 :: (pre.map Prod.snd ++ now :: ts) →
      S1.ftdi_read_results = pre.map Prod.fst ++ r :: rs →
      (∀ q, q ∈ pre → 20 + t0 > q.2 ∧ q.1.bytes_read > 0) →
      ¬ (20 + t0 > now ∧ r.bytes_read > 0) →
      (c.usb_dev = true →
        ∃ fs ws, S1.ftdi_write_results = fs ++ 8 :: ws ∧ ∀ f, f ∈ fs → f ≠ 8) →
      ∃ S', receive_data S (some p) = some (false, S') ∧
        S'.bus = S.bus ++ [Packet.SR_DF_END] ∧
        ∃ sdi' dev', S'.device_instances[p]? = some sdi' ∧ sdi'.priv = some dev' ∧
          dev'.final_buf = dev.final_buf ∧ dev'.block_counter = dev.block_counter) ∧
    (n ≠ 4096 → c.usb_dev = true → (∀ f, f ∈ S1.ftdi_write_results → f ≠ 8) →
      receive_data S (some p) = none) ∧
    (n = 4096 → dev.block_counter < 2047 →
      ∃ S', receive_data S (some p) = some (true, S') ∧
        S'.bus = S.bus ∧
        ∃ sdi' dev', S'.device_instances[p]? = some sdi' ∧ sdi'.priv = some dev' ∧
          dev'.block_counter = dev.block_counter + 1 ∧
          (∀ i, i < 4096 →
            dev'.final_buf (demangle_index dev.divcount dev.block_counter i)
              = dev1.mangled_buf i) ∧
          (∀ j, (∀ i, i < 4096 → demangle_index dev.divcount dev.block_counter i ≠ j) →
            dev'.final_buf j = dev.final_buf j)) := by
  have hold := receive_data_after_read S p sdi dev c n S1 dev1 hsdi hpriv hlook hftdi hread
  have hftdi1 : dev1.ftdic = some c := by
    have hd := (la8_read_block_read_frame S dev n S1 dev1 hread).2
    generalize dev1.mangled_buf = b at hd
    subst hd
    exact hftdi
  refine ⟨?_, ?_, hold.2⟩
  · intro hn t0 now pre r rs ts htimes hreads hpre hexit hwrites
    obtain ⟨S2, dev2, hreset⟩ :=
      la8_reset_run S1 dev1 c hftdi1 t0 now pre r rs ts htimes hreads hpre hexit hwrites
    exact hold.1 hn SR_OK S2 dev2 hreset
  · intro hn husb hws
    have hblock := la8_read_block_unbounded S dev c n S1 dev1 hftdi hread hn
      (la8_reset_unbounded S1 dev1 c hftdi1 husb hws)
    unfold receive_data
    simp only [hsdi, hpriv, hblock]

theorem witness_short_read :
    la8_read_block_read witness_short_state witness_dev_done
      = some (100, witness_short_state_read, { witness_dev_done with mangled_buf := fun _ => 7 }) := by
  simp [la8_read_block_read, la8_read_block_retry, la8_read, time, witness_short_state,
    witness_short_state_read, witness_state, witness_dev_done, witness_dev, BS]

theorem witness_short_reset :
    la8_reset witness_short_state_read { witness_dev_done with mangled_buf := fun _ => 7 }
      = some (SR_OK, witness_short_state_reset,
          { witness_dev_done with mangled_buf := fun _ => 7, ftdic := none }) := by
  have h := reset_usb { witness_dev_done with mangled_buf := fun _ => 7 } { usb_dev := true }
    rfl rfl [] []
    { witness_short_state with ftdi_read_results := [], time_results := [] } rfl
    (fun f hf => absurd hf (List.not_mem_nil f))
  simp only [la8_reset, la8_reset_loop, la8_read, time, witness_short_state_read,
    witness_short_state, witness_state, witness_dev_done, witness_dev, BS] at h ⊢
  simp [h, witness_short_state_reset, witness_short_state, witness_state, witness_dev_done,
    witness_dev]

theorem witness_short_read_failing :
    la8_read_block_read { witness_short_state with ftdi_write_results := [-1, 3, 0, 7, -1] }
        witness_dev_done
      = some (100, { witness_short_state_read with ftdi_write_results := [-1, 3, 0, 7, -1] },
          { witness_dev_done with mangled_buf := fun _ => 7 }) := by
  simp [la8_read_block_read, la8_read_block_retry, la8_read, time, witness_short_state,
    witness_short_state_read, witness_state, witness_dev_done, witness_dev, BS]

theorem receive_data_block_read_witness :
    (∃ S', receive_data witness_short_state (some 0) = some (false, S') ∧
      S'.bus = witness_short_state.bus ++ [Packet.SR_DF_END] ∧
      ∃ sdi' dev', S'.device_instances[0]? = some sdi' ∧ sdi'.priv = some dev' ∧
        dev'.final_buf = witness_dev_done.final_buf ∧
        dev'.block_counter = witness_dev_done.block_counter) ∧
    receive_data { witness_short_state with ftdi_write_results := [-1, 3, 0, 7, -1] } (some 0)
      = none := by
  refine ⟨?_, ?_⟩
  · exact (receive_data_block_read witness_short_state 0 (witness_sdi witness_dev_done)
      witness_dev_done { usb_dev := true } 100 witness_short_state_read
      { witness_dev_done with mangled_buf := fun _ => 7 } rfl rfl rfl rfl witness_short_read).1
      (by decide) 3 5 [({ bytes_read := 5, buf := fun _ => 0 }, 4)]
      { bytes_read := 0, buf := fun _ => 0 } [] [] rfl rfl
      (by
        intro q hq
        rw [List.mem_singleton] at hq
        subst hq
        decide)
      (by decide) (fun _ => ⟨[], [], rfl, by decide⟩)
  · exact (receive_data_block_read
      { witness_short_state with ftdi_write_results := [-1, 3, 0, 7, -1] } 0
      (witness_sdi witness_dev_done) witness_dev_done { usb_dev := true } 100
      { witness_short_state_read with ftdi_write_results := [-1, 3, 0, 7, -1] }
      { witness_dev_done with mangled_buf := fun _ => 7 } rfl rfl rfl rfl
      witness_short_read_failing).2.1 (by decide) rfl (by decide)

/-! ## Running the receive step -/

theorem send_block_shape (S : State) (dev : la8) (block : Nat) :
    ∃ L, (send_block_to_session_bus S dev block).1 = { S with bus := S.bus ++ L } ∧
      (send_block_to_session_bus S dev block).2.ftdic = dev.ftdic ∧
      (send_block_to_session_bus S dev block).2.block_counter = dev.block_counter := by
  cases h : trigger_scan dev block (dev.trigger_pattern &&& dev.trigger_mask) BS 0 with
  | none =>
    rw [send_block_none S dev block h]
    exact ⟨_, rfl, rfl, rfl⟩
  | some t =>
    rw [send_block_some S dev block t h]
    exact ⟨_, rfl, rfl, rfl⟩

theorem send_blocks_shape (S : State) (dev : la8) :
    ∃ L, (send_blocks S dev).1 = { S with bus := S.bus ++ L } ∧
      (send_blocks S dev).2.ftdic = dev.ftdic ∧
      (send_blocks S dev).2.block_counter = dev.block_counter := by
  unfold send_blocks
  generalize NUM_BLOCKS = K
  induction K with
  | zero => exact ⟨[], by simp, rfl, rfl⟩
  | succ K ih =>
    obtain ⟨L, h1, h2, h3⟩ := ih
    rw [List.range_succ, List.foldl_append]
    simp only [List.foldl_cons, List.foldl_nil]
    obtain ⟨L2, g1, g2, g3⟩ := send_block_shape
      ((List.range K).foldl (fun q i => send_block_to_session_bus q.1 q.2 i) (S, dev)).1
      ((List.range K).foldl (fun q i => send_block_to_session_bus q.1 q.2 i) (S, dev)).2 K
    refine ⟨L ++ L2, ?_, g2.trans h2, g3.trans h3⟩
    rw [g1, h1]
    simp [List.append_assoc]

theorem receive_data_step_next (S : State) (p n : Nat) (r : ReadResult) (rest : List ReadResult)
    (hacq : acquiring S p n) (hn : n ≠ NUM_BLOCKS - 1)
    (hreads : S.ftdi_read_results = r :: rest) (hr : r.bytes_read = 4096) :
    ∃ S', receive_data S (some p) = some (true, S') ∧ acquiring S' p (n + 1) ∧
      S'.bus = S.bus ∧ S'.ftdi_read_results = rest := by
  obtain ⟨sdi, dev, c, hsdi, hpriv, hlook, hftdi, hbc⟩ := hacq
  refine ⟨_, receive_data_next S p sdi dev c r rest hsdi hpriv hftdi hreads hr (by rw [hbc]; exact hn),
    ?_, rfl, rfl⟩
  refine ⟨_, _, c, getElem?_set_priv _ p _ sdi hsdi, rfl, ?_, ?_, ?_⟩
  · rw [lookup_set_priv]
    exact hlook
  · simp only [demangle]
    exact hftdi
  · simp only [hbc]

theorem receive_data_step_last (S : State) (p : Nat) (r : ReadResult) (rest : List ReadResult)
    (hacq : acquiring S p (NUM_BLOCKS - 1))
    (hreads : S.ftdi_read_results = r :: rest) (hr : r.bytes_read = 4096) :
    ∃ S' L, receive_data S (some p) = some (true, S') ∧ acquiring S' p (NUM_BLOCKS - 1) ∧
      S'.bus = S.bus ++ L ++ [Packet.SR_DF_END] ∧ S'.ftdi_read_results = rest := by
  obtain ⟨sdi, dev, c, hsdi, hpriv, hlook, hftdi, hbc⟩ := hacq
  have hstep := receive_data_last S p sdi dev c r rest hsdi hpriv hlook hftdi hreads hr hbc
  obtain ⟨L, h1, h2, h3⟩ := send_blocks_shape { S with ftdi_read_results := rest }
    (demangle { dev with mangled_buf := r.buf })
  generalize send_blocks { S with ftdi_read_results := rest }
    (demangle { dev with mangled_buf := r.buf }) = q at hstep h1 h2 h3
  obtain ⟨q1, q2⟩ := q
  simp only at h1 h2 h3
  subst h1
  refine ⟨_, L, hstep, ?_, rfl, rfl⟩
  refine ⟨_, q2, c, getElem?_set_priv _ p _ sdi hsdi, rfl, ?_, ?_, ?_⟩
  · show sr_get_device_instance (set_priv _ p q2).device_instances sdi.index = some p
    rw [lookup_set_priv]
    exact hlook
  · rw [h2]
    simp only [demangle]
    exact hftdi
  · rw [h3, demangle_block_counter]
    exact hbc

theorem run_receive_fill (p : Nat) (rest : List ReadResult) (m k : Nat) :
    ∀ (S : State) (n : Nat) (rs : List ReadResult), acquiring S p n → n + k = NUM_BLOCKS - 1 →
      S.ftdi_read_results = rs ++ rest → rs.length = k → (∀ r, r ∈ rs → r.bytes_read = 4096) →
      ∃ S', run_receive (k + m) S (some p) = run_receive m S' (some p) ∧
        acquiring S' p (NUM_BLOCKS - 1) ∧ S'.bus = S.bus ∧ S'.ftdi_read_results = rest := by
  induction k with
  | zero =>
    intro S n rs hacq hn hreads hlen _
    have hrs : rs = [] := List.length_eq_zero.mp hlen
    subst hrs
    have hn0 : n = NUM_BLOCKS - 1 := by omega
    subst hn0
    exact ⟨S, by simp, hacq, rfl, by simpa using hreads⟩
  | succ k ih =>
    intro S n rs hacq hn hreads hlen hfull
    cases rs with
    | nil => simp at hlen
    | cons r rs =>
      obtain ⟨S1, hstep, hacq1, hbus1, hreads1⟩ := receive_data_step_next S p n r (rs ++ rest)
        hacq (by omega) (by simpa using hreads) (hfull r (List.mem_cons_self r rs))
      obtain ⟨S2, hrun, hacq2, hbus2, hreads2⟩ := ih S1 (n + 1) rs hacq1 (by omega) hreads1
        (by simpa using hlen) (fun x hx => hfull x (List.mem_cons_of_mem r hx))
      refine ⟨S2, ?_, hacq2, hbus2.trans hbus1, hreads2⟩
      have hk : k + 1 + m = (k + m) + 1 := by omega
      rw [hk, run_receive]
      simp only [hstep]
      exact hrun

theorem run_receive_two_ends (S : State) (p : Nat) (rs rest : List ReadResult)
    (hacq : acquiring S p 0) (hreads : S.ftdi_read_results = rs ++ rest)
    (hlen : rs.length = NUM_BLOCKS + 1) (hfull : ∀ r, r ∈ rs → r.bytes_read = 4096) :
    ∃ S' L1 L2, run_receive (NUM_BLOCKS + 1) S (some p) = some S' ∧
      S'.bus = S.bus ++ L1 ++ [Packet.SR_DF_END] ++ L2 ++ [Packet.SR_DF_END] := by
  have hsplit : rs = rs.take (NUM_BLOCKS - 1) ++ rs.drop (NUM_BLOCKS - 1) :=
    (List.take_append_drop _ rs).symm
  have hdrop : (rs.drop (NUM_BLOCKS - 1)).length = 2 := by
    rw [List.length_drop, hlen]
    decide
  obtain ⟨a, b, hab⟩ : ∃ a b, rs.drop (NUM_BLOCKS - 1) = [a, b] := by
    match h : rs.drop (NUM_BLOCKS - 1), hdrop with
    | [a, b], _ => exact ⟨a, b, rfl⟩
  have hmem : ∀ x, x ∈ rs.drop (NUM_BLOCKS - 1) → x.bytes_read = 4096 :=
    fun x hx => hfull x (List.mem_of_mem_drop hx)
  rw [hab] at hmem
  obtain ⟨S1, hrun1, hacq1, hbus1, hreads1⟩ := run_receive_fill p ([a, b] ++ rest) 2
    (NUM_BLOCKS - 1) S 0 (rs.take (NUM_BLOCKS - 1)) hacq (by omega)
    (by rw [← List.append_assoc, ← hab, List.take_append_drop]; exact hreads)
    (by rw [List.length_take, hlen]; decide)
    (fun x hx => hfull x (List.mem_of_mem_take hx))
  obtain ⟨S2, L1, hstep2, hacq2, hbus2, hreads2⟩ := receive_data_step_last S1 p a (b :: rest)
    hacq1 (by simpa using hreads1) (hmem a (by simp))
  obtain ⟨S3, L2, hstep3, _, hbus3, _⟩ := receive_data_step_last S2 p b rest
    hacq2 hreads2 (hmem b (by simp))
  refine ⟨S3, L1, L2, ?_, ?_⟩
  · have hk : NUM_BLOCKS + 1 = (NUM_BLOCKS - 1) + 2 := by decide
    rw [hk, hrun1]
    simp only [run_receive, hstep2, hstep3]
  · rw [hbus3, hbus2, hbus1]

theorem hw_start_acquisition_acquiring (S : State) (device_index : Int)
    (session_data : Option Nat) (p : Nat) (sdi : sr_device_instance) (dev : la8)
    (c : ftdi_context) (D : Nat) (ws : List Int) (now : Int) (ts : List Int)
    (hlook : sr_get_device_instance S.device_instances device_index = some p)
    (hsdi : S.device_instances[p]? = some sdi) (hpriv : sdi.priv = some dev)
    (hidx : sdi.index = device_index) (hftdi : dev.ftdic = some c)
    (hD : (samplerate_to_divcount S.supported_samplerates dev.cur_samplerate).1 = D)
    (hD255 : D ≠ 0xff) (hw : S.ftdi_write_results = 4 :: ws)
    (htime : S.time_results = now :: ts) :
    ∃ S', hw_start_acquisition S device_index session_data = some (SR_OK, S') ∧
      acquiring S' p 0 ∧
      S'.bus = S.bus ++ [Packet.SR_DF_HEADER 1 dev.cur_samplerate NUM_PROBES 0] ∧
      S'.ftdi_read_results = S.ftdi_read_results := by
  refine ⟨_, hw_start_acquisition_ok S device_index session_data p sdi dev c D ws now ts
    hlook hsdi hpriv hftdi hD hD255 hw htime, ?_, rfl, rfl⟩
  refine ⟨_, _, c, getElem?_set_priv _ p _ sdi hsdi, rfl, ?_, hftdi, rfl⟩
  show sr_get_device_instance (set_priv _ p _).device_instances sdi.index = some p
  rw [lookup_set_priv, hidx]
  exact hlook

/-- C7, at the failing input: after a successful start at 100 MHz, 2049 invocations
of the receive step whose block reads each deliver 4096 bytes (each invocation
following a TRUE result) leave on the bus the header, the packets of the first
drain, an end packet, and then the packets of a second drain and a second end
packet: packets are emitted after the first end packet. -/
theorem receive_data_second_end :
    ∃ S1 S2 L1 L2,
      hw_start_acquisition witness_run_state 0 none = some (SR_OK, S1) ∧
      run_receive 2049 S1 (some 0) = some S2 ∧
      S2.bus = [Packet.SR_DF_HEADER 1 100000000 8 0] ++ L1 ++ [Packet.SR_DF_END] ++ L2
        ++ [Packet.SR_DF_END] := by
  have hD := samplerate_to_divcount_valid supported_samplerates_init 1 (Or.inl rfl)
    (by decide) (by decide)
  obtain ⟨S1, hstart, hacq, hbus, hreads⟩ := hw_start_acquisition_acquiring witness_run_state 0
    none 0 (witness_sdi witness_dev) witness_dev { usb_dev := true } _ [] 0 [] rfl rfl rfl rfl
    rfl hD (by decide) rfl rfl
  obtain ⟨S2, L1, L2, hrun, hbus2⟩ := run_receive_two_ends S1 0
    (List.replicate 2049 witness_read) [] hacq
    (by rw [hreads, List.append_nil]; rfl) (List.length_replicate _ _)
    (fun r hr => by rw [List.eq_of_mem_replicate hr]; rfl)
  refine ⟨S1, S2, L1, L2, hstart, hrun, ?_⟩
  rw [hbus2, hbus]
  rfl

end La8

namespace Ols

/-- C10, at the failing input: for opcode 0x81 and data 0x12345678 with all 5
bytes transferred, send_longcommand reports success and hands to write the bytes
0x81 0x78 0x78 0x78 0x78, every payload byte being data & 0xff, where the
little-endian encoding is 0x78 0x56 0x34 0x12. -/
theorem send_longcommand_payload :
    send_longcommand 5 0x81 0x12345678 = ([0x81, 0x78, 0x78, 0x78, 0x78], SIGROK_OK) ∧
    little_endian 0x12345678 = [0x78, 0x56, 0x34, 0x12] ∧
    (send_longcommand 5 0x81 0x12345678).1 ≠ 0x81 :: little_endian 0x12345678 := by
  decide

end Ols

namespace La8

/-! ## The samplerate table -/

set_option maxRecDepth 100000 in
theorem rate_step : ∀ M, M < 255 → 1 ≤ M → 100000000 / (M + 1) < 100000000 / M := by
  decide

theorem rate_strict_anti (M N : Nat) (hM : 1 ≤ M) (hMN : M < N) (hN : N ≤ 255) :
    SR_MHZ 100 / N < SR_MHZ 100 / M := by
  have hM0 : SR_MHZ 100 = 100000000 := rfl
  rw [hM0]
  calc 100000000 / N ≤ 100000000 / (M + 1) := Nat.div_le_div_left (by omega) (by omega)
    _ < 100000000 / M := rate_step M (by omega) hM

/-- C15: after fill_supported_samplerates_if_needed the table of the 8-channel
driver has 256 entries: 255 non-zero rates followed by a 0 terminator, entry
254 - i being 100,000,000 / (i + 1) for every i in 0..254; the 255 rates are
strictly ascending; and filling again leaves the table unchanged. The table
before the call is the zero-initialised or the filled one. -/
theorem fill_supported_samplerates_table (t : List Nat)
    (ht : t = supported_samplerates_init ∨
      t = fill_supported_samplerates_if_needed supported_samplerates_init) :
    (fill_supported_samplerates_if_needed t).length = 256 ∧
    (∀ j, j < 255 → (fill_supported_samplerates_if_needed t).getD j 0 ≠ 0) ∧
    (fill_supported_samplerates_if_needed t).getD 255 0 = 0 ∧
    (∀ i, i ≤ 254 →
      (fill_supported_samplerates_if_needed t).getD (254 - i) 0 = 100000000 / (i + 1)) ∧
    (∀ j k, j < k → k < 255 →
      (fill_supported_samplerates_if_needed t).getD j 0
        < (fill_supported_samplerates_if_needed t).getD k 0) ∧
    fill_supported_samplerates_if_needed (fill_supported_samplerates_if_needed t)
      = fill_supported_samplerates_if_needed t := by
  rw [fill_reachable t ht]
  refine ⟨?_, ?_, ?_, ?_, ?_, fill_filled⟩
  · rw [fill_init]
    simp
  · intro j hj
    rw [getD_filled j hj]
    have h := (divisor_bounds (255 - j) (by omega) (by omega)).1
    omega
  · rw [fill_init, List.getD_eq_getElem?_getD]
    simp
  · intro i hi
    rw [getD_filled (254 - i) (by omega)]
    have e : 255 - (254 - i) = i + 1 := by omega
    rw [e]
    rfl
  · intro j k hjk hk
    rw [getD_filled j (by omega), getD_filled k hk]
    exact rate_strict_anti (255 - k) (255 - j) (by omega) (by omega) (by omega)

theorem fill_supported_samplerates_table_witness :
    (fill_supported_samplerates_if_needed supported_samplerates_init).length = 256 ∧
    (∀ j, j < 255 →
      (fill_supported_samplerates_if_needed supported_samplerates_init).getD j 0 ≠ 0) ∧
    (fill_supported_samplerates_if_needed supported_samplerates_init).getD 255 0 = 0 ∧
    (∀ i, i ≤ 254 →
      (fill_supported_samplerates_if_needed supported_samplerates_init).getD (254 - i) 0
        = 100000000 / (i + 1)) ∧
    (∀ j k, j < k → k < 255 →
      (fill_supported_samplerates_if_needed supported_samplerates_init).getD j 0
        < (fill_supported_samplerates_if_needed supported_samplerates_init).getD k 0) ∧
    fill_supported_samplerates_if_needed
        (fill_supported_samplerates_if_needed supported_samplerates_init)
      = fill_supported_samplerates_if_needed supported_samplerates_init :=
  fill_supported_samplerates_table supported_samplerates_init (Or.inl rfl)

/-! ## Setting the samplerate -/

theorem set_samplerate_valid (S : State) (p : Nat) (sdi : sr_device_instance) (dev : la8)
    (samplerate : Nat) (hsdi : S.device_instances[p]? = some sdi) (hpriv : sdi.priv = some dev)
    (hv : (is_valid_samplerate (fill_supported_samplerates_if_needed S.supported_samplerates)
      samplerate).1 = true) :
    set_samplerate S (some p) samplerate
      = (SR_OK, set_priv
          { S with supported_samplerates :=
            (is_valid_samplerate (fill_supported_samplerates_if_needed S.supported_samplerates)
              samplerate).2 } p
          { dev with cur_samplerate := samplerate
                     period_ps := u64 (1000000000000 / samplerate) }) := by
  simp only [set_samplerate, hsdi, hpriv, hv]
  rfl

theorem set_samplerate_invalid (S : State) (p : Nat) (sdi : sr_device_instance) (dev : la8)
    (samplerate : Nat) (hsdi : S.device_instances[p]? = some sdi) (hpriv : sdi.priv = some dev)
    (hv : (is_valid_samplerate (fill_supported_samplerates_if_needed S.supported_samplerates)
      samplerate).1 = false) :
    set_samplerate S (some p) samplerate
      = (SR_ERR, { S with supported_samplerates :=
            (is_valid_samplerate (fill_supported_samplerates_if_needed S.supported_samplerates)
              samplerate).2 }) := by
  simp only [set_samplerate, hsdi, hpriv, hv]
  rfl

/-- C16: on the 8-channel device, set_configuration(Samplerate, r) succeeds iff
r = 100,000,000 / N (integer division) for some N in 1..255; on success
cur_samplerate = r and period_ps = 1,000,000,000,000 / r; on rejection the device
instances, and so cur_samplerate and period_ps, are unchanged. The device index
resolves to an instance with private data. -/
theorem hw_set_configuration_samplerate (S : State) (device_index : Int) (value : ConfigValue)
    (p : Nat) (sdi : sr_device_instance) (dev : la8)
    (hlook : sr_get_device_instance S.device_instances device_index = some p)
    (hsdi : S.device_instances[p]? = some sdi) (hpriv : sdi.priv = some dev)
    (ht : S.supported_samplerates = supported_samplerates_init ∨
      S.supported_samplerates = fill_supported_samplerates_if_needed supported_samplerates_init) :
    ((hw_set_configuration S device_index Sigrok.Capability.Samplerate value).1 = SR_OK
      ↔ ∃ N, 1 ≤ N ∧ N ≤ 255 ∧ value.as_u64 = 100000000 / N) ∧
    ((hw_set_configuration S device_index Sigrok.Capability.Samplerate value).1 = SR_OK →
      ∃ sdi' dev',
        (hw_set_configuration S device_index Sigrok.Capability.Samplerate value).2.device_instances[p]?
          = some sdi' ∧
        sdi'.priv = some dev' ∧ dev'.cur_samplerate = value.as_u64 ∧
        dev'.period_ps = 1000000000000 / value.as_u64) ∧
    ((hw_set_configuration S device_index Sigrok.Capability.Samplerate value).1 ≠ SR_OK →
      (hw_set_configuration S device_index Sigrok.Capability.Samplerate value).1 = SR_ERR ∧
      (hw_set_configuration S device_index Sigrok.Capability.Samplerate value).2.device_instances
        = S.device_instances) := by
  have hiff := is_valid_samplerate_iff
    (fill_supported_samplerates_if_needed S.supported_samplerates) value.as_u64
    (Or.inr (fill_reachable _ ht))
  have hM : SR_MHZ 100 = 100000000 := rfl
  rw [hM] at hiff
  have hcfg : hw_set_configuration S device_index Sigrok.Capability.Samplerate value
      = (if (set_samplerate S (some p) value.as_u64).1 = SR_ERR
          then (SR_ERR, (set_samplerate S (some p) value.as_u64).2)
          else (SR_OK, (set_samplerate S (some p) value.as_u64).2)) := by
    simp only [hw_set_configuration, hlook, hsdi, hpriv]
  rw [hcfg]
  cases hv : (is_valid_samplerate (fill_supported_samplerates_if_needed S.supported_samplerates)
      value.as_u64).1 with
  | true =>
    have hN := hiff.1 hv
    rw [set_samplerate_valid S p sdi dev value.as_u64 hsdi hpriv hv]
    have hne : ¬ (SR_OK = SR_ERR) := by decide
    simp only [hne, if_false]
    refine ⟨⟨fun _ => hN, fun _ => trivial⟩, fun _ => ?_, fun h => absurd rfl h⟩
    refine ⟨_, _, getElem?_set_priv _ p _ sdi hsdi, rfl, rfl, ?_⟩
    obtain ⟨N, h1, h2, e⟩ := hN
    show u64 (1000000000000 / value.as_u64) = 1000000000000 / value.as_u64
    unfold u64
    apply Nat.mod_eq_of_lt
    calc 1000000000000 / value.as_u64 ≤ 1000000000000 := Nat.div_le_self _ _
      _ < 2 ^ 64 := by decide
  | false =>
    have hN : ¬ ∃ N, 1 ≤ N ∧ N ≤ 255 ∧ value.as_u64 = 100000000 / N := by
      intro h
      have := hiff.2 h
      rw [hv] at this
      exact absurd this (by decide)
    rw [set_samplerate_invalid S p sdi dev value.as_u64 hsdi hpriv hv]
    have hne : ¬ (SR_ERR = SR_OK) := by decide
    simp only [if_true]
    exact ⟨⟨fun h => absurd h hne, fun h => absurd h hN⟩, fun h => absurd h hne,
      fun _ => ⟨trivial, trivial⟩⟩

theorem hw_set_configuration_samplerate_witness :
    ((hw_set_configuration (witness_state witness_dev [] [] []) 0 Sigrok.Capability.Samplerate
        { as_u64 := 1000000, as_probes := [] }).1 = SR_OK
      ↔ ∃ N, 1 ≤ N ∧ N ≤ 255 ∧
        ({ as_u64 := 1000000, as_probes := [] } : ConfigValue).as_u64 = 100000000 / N) ∧
    (∃ N, 1 ≤ N ∧ N ≤ 255 ∧ (1000000 : Nat) = 100000000 / N) :=
  ⟨(hw_set_configuration_samplerate (witness_state witness_dev [] [] []) 0
    { as_u64 := 1000000, as_probes := [] } 0 (witness_sdi witness_dev) witness_dev rfl rfl rfl
    (Or.inl rfl)).1, ⟨100, by decide, by decide, by decide⟩⟩

end La8
namespace La8

theorem configure_probes_trigger_bits (probe_bit : Nat) (b : Nat) :
    ∀ (t : List Char) (mp : Nat × Nat),
      ((configure_probes_trigger probe_bit t mp).2.1.testBit b = true →
        mp.1.testBit b = true ∨ (t ≠ [] ∧ probe_bit.testBit b = true)) ∧
      ((configure_probes_trigger probe_bit t mp).2.2.testBit b = true →
        mp.2.testBit b = true ∨ (t ≠ [] ∧ probe_bit.testBit b = true))
  | [], mp => by simp [configure_probes_trigger]
  | tc :: rest, mp => by
    have ih := configure_probes_trigger_bits probe_bit b rest
    simp only [configure_probes_trigger]
    split
    · simp only [Nat.testBit_or, Bool.or_eq_true, ne_eq, reduceCtorEq, not_false_eq_true,
        true_and]
      exact ⟨fun h => h, fun h => Or.inl h⟩
    · have h := ih (mp.1 ||| probe_bit, if tc = '1' then mp.2 ||| probe_bit else mp.2)
      simp only [ne_eq, reduceCtorEq, not_false_eq_true, true_and]
      refine ⟨fun h1 => ?_, fun h2 => ?_⟩
      · rcases h.1 h1 with h3 | h3
        · simpa only [Nat.testBit_or, Bool.or_eq_true] using h3
        · exact Or.inr h3.2
      · rcases h.2 h2 with h3 | h3
        · by_cases hc : tc = '1'
          · simpa only [hc, if_true, Nat.testBit_or, Bool.or_eq_true] using h3
          · simp only [hc, if_false] at h3
            exact Or.inl h3
        · exact Or.inr h3.2

theorem configure_probes_trigger_subset (probe_bit : Nat) (b : Nat) :
    ∀ (t : List Char) (mp : Nat × Nat),
      (mp.2.testBit b = true → mp.1.testBit b = true) →
      ((configure_probes_trigger probe_bit t mp).2.2.testBit b = true →
        (configure_probes_trigger probe_bit t mp).2.1.testBit b = true)
  | [], mp => by simp [configure_probes_trigger]
  | tc :: rest, mp => by
    intro hinv
    have ih := configure_probes_trigger_subset probe_bit b rest
    simp only [configure_probes_trigger]
    split
    · simp only [Nat.testBit_or, Bool.or_eq_true]
      exact fun h => Or.inl (hinv h)
    · apply ih
      simp only [Nat.testBit_or, Bool.or_eq_true]
      by_cases hc : tc = '1'
      · simp only [hc, if_true, Nat.testBit_or, Bool.or_eq_true]
        exact fun h => h.imp hinv id
      · simp only [hc, if_false]
        exact fun h => Or.inl (hinv h)

end La8

namespace La8

theorem configure_probes_loop_bits (b : Nat) :
    ∀ (probes : List (Option sr_probe)) (mp : Nat × Nat),
      ((configure_probes_loop probes mp).2.1.testBit b = true →
        mp.1.testBit b = true ∨ ∃ p, some p ∈ probes ∧ p.enabled = true ∧
          ∃ t, p.trigger = some t ∧ t ≠ [] ∧
            (Sigrok.shl_one (p.index - 1) % 256).testBit b = true) ∧
      ((configure_probes_loop probes mp).2.2.testBit b = true →
        mp.2.testBit b = true ∨ ∃ p, some p ∈ probes ∧ p.enabled = true ∧
          ∃ t, p.trigger = some t ∧ t ≠ [] ∧
            (Sigrok.shl_one (p.index - 1) % 256).testBit b = true)
  | [], mp => by simp [configure_probes_loop]
  | none :: _, mp => by
    simp only [configure_probes_loop]
    exact ⟨Or.inl, Or.inl⟩
  | some q :: rest, mp => by
    have ih := configure_probes_loop_bits b rest
    have lift : ∀ {P : Prop}, (P ∨ ∃ p, some p ∈ rest ∧ p.enabled = true ∧
          ∃ t, p.trigger = some t ∧ t ≠ [] ∧
            (Sigrok.shl_one (p.index - 1) % 256).testBit b = true) →
        (P ∨ ∃ p, some p ∈ some q :: rest ∧ p.enabled = true ∧
          ∃ t, p.trigger = some t ∧ t ≠ [] ∧
            (Sigrok.shl_one (p.index - 1) % 256).testBit b = true) := by
      intro P h
      rcases h with h | ⟨p, hp, h⟩
      · exact Or.inl h
      · exact Or.inr ⟨p, List.mem_cons_of_mem _ hp, h⟩
    simp only [configure_probes_loop]
    by_cases hen : q.enabled = false
    · rw [if_pos hen]
      exact ⟨fun h => lift ((ih mp).1 h), fun h => lift ((ih mp).2 h)⟩
    · rw [if_neg hen]
      have hen1 : q.enabled = true := by simpa using hen
      cases htr : q.trigger with
      | none =>
        simp only []
        exact ⟨fun h => lift ((ih mp).1 h), fun h => lift ((ih mp).2 h)⟩
      | some trigger =>
        simp only []
        by_cases hidx : q.index < 0 ∨ q.index > 7
        · rw [if_pos hidx]
          exact ⟨Or.inl, Or.inl⟩
        · rw [if_neg hidx]
          have ht := configure_probes_trigger_bits (Sigrok.shl_one (q.index - 1) % 256) b
            trigger mp
          have here : ∀ {P : Prop}, (P ∨ (trigger ≠ [] ∧
              (Sigrok.shl_one (q.index - 1) % 256).testBit b = true)) →
              (P ∨ ∃ p, some p ∈ some q :: rest ∧ p.enabled = true ∧
                ∃ t, p.trigger = some t ∧ t ≠ [] ∧
                  (Sigrok.shl_one (p.index - 1) % 256).testBit b = true) := by
            intro P h
            rcases h with h | h
            · exact Or.inl h
            · exact Or.inr ⟨q, List.mem_cons_self _ _, hen1, trigger, htr, h.1, h.2⟩
          rcases hr : configure_probes_trigger (Sigrok.shl_one (q.index - 1) % 256) trigger mp
            with ⟨ret, mp1⟩
          rw [hr] at ht
          by_cases hret : ret ≠ SR_OK
          · rw [if_pos hret]
            exact ⟨fun h => here (ht.1 h), fun h => here (ht.2 h)⟩
          · rw [if_neg hret]
            refine ⟨fun h => ?_, fun h => ?_⟩
            · rcases lift ((ih mp1).1 h) with h1 | h1
              · exact here (ht.1 h1)
              · exact Or.inr h1
            · rcases lift ((ih mp1).2 h) with h1 | h1
              · exact here (ht.2 h1)
              · exact Or.inr h1

theorem configure_probes_loop_subset (b : Nat) :
    ∀ (probes : List (Option sr_probe)) (mp : Nat × Nat),
      (mp.2.testBit b = true → mp.1.testBit b = true) →
      ((configure_probes_loop probes mp).2.2.testBit b = true →
        (configure_probes_loop probes mp).2.1.testBit b = true)
  | [], mp => by simp [configure_probes_loop]
  | none :: _, mp => by
    simp only [configure_probes_loop]
    exact id
  | some q :: rest, mp => by
    intro hinv
    have ih := configure_probes_loop_subset b rest
    simp only [configure_probes_loop]
    by_cases hen : q.enabled = false
    · rw [if_pos hen]
      exact ih mp hinv
    · rw [if_neg hen]
      cases htr : q.trigger with
      | none =>
        simp only []
        exact ih mp hinv
      | some trigger =>
        simp only []
        by_cases hidx : q.index < 0 ∨ q.index > 7
        · rw [if_pos hidx]
          exact hinv
        · rw [if_neg hidx]
          have ht := configure_probes_trigger_subset (Sigrok.shl_one (q.index - 1) % 256) b
            trigger mp hinv
          rcases hr : configure_probes_trigger (Sigrok.shl_one (q.index - 1) % 256) trigger mp
            with ⟨ret, mp1⟩
          rw [hr] at ht
          by_cases hret : ret ≠ SR_OK
          · rw [if_pos hret]
            exact ht
          · rw [if_neg hret]
            exact ih mp1 ht

theorem configure_probes_trigger_bad (probe_bit : Nat) :
    ∀ (t : List Char) (mp : Nat × Nat), (∃ c, c ∈ t ∧ c ≠ '0' ∧ c ≠ '1') →
      (configure_probes_trigger probe_bit t mp).1 = SR_ERR
  | [], mp => by simp
  | tc :: rest, mp => by
    intro h
    simp only [configure_probes_trigger]
    by_cases hc : tc ≠ '0' ∧ tc ≠ '1'
    · rw [if_pos hc]
    · rw [if_neg hc]
      apply configure_probes_trigger_bad probe_bit rest
      obtain ⟨c, hmem, hbad⟩ := h
      rcases List.mem_cons.1 hmem with e | e
      · exact absurd (e ▸ hbad) hc
      · exact ⟨c, e, hbad⟩

theorem configure_probes_loop_bad :
    ∀ (probes : List (Option sr_probe)) (mp : Nat × Nat),
      (∃ p, some p ∈ probes ∧ p.enabled = true ∧
        ∃ t, p.trigger = some t ∧ ∃ c, c ∈ t ∧ c ≠ '0' ∧ c ≠ '1') →
      (configure_probes_loop probes mp).1 = SR_ERR
  | [], mp => by simp
  | none :: _, mp => by
    intro _
    simp only [configure_probes_loop]
  | some q :: rest, mp => by
    intro h
    have ih := configure_probes_loop_bad rest
    obtain ⟨p, hmem, hen, t, htr, hbad⟩ := h
    have hcases : p = q ∨ some p ∈ rest := by
      rcases List.mem_cons.1 hmem with e | e
      · exact Or.inl (Option.some.inj e)
      · exact Or.inr e
    simp only [configure_probes_loop]
    by_cases hq : q.enabled = false
    · rw [if_pos hq]
      rcases hcases with e | e
      · rw [e, hq] at hen
        exact absurd hen (by decide)
      · exact ih mp ⟨p, e, hen, t, htr, hbad⟩
    · rw [if_neg hq]
      cases hqt : q.trigger with
      | none =>
        simp only []
        rcases hcases with e | e
        · rw [e, hqt] at htr
          exact absurd htr (by simp)
        · exact ih mp ⟨p, e, hen, t, htr, hbad⟩
      | some trigger =>
        simp only []
        by_cases hidx : q.index < 0 ∨ q.index > 7
        · rw [if_pos hidx]
        · rw [if_neg hidx]
          rcases hr : configure_probes_trigger (Sigrok.shl_one (q.index - 1) % 256) trigger mp
            with ⟨ret, mp1⟩
          by_cases hret : ret ≠ SR_OK
          · rw [if_pos hret]
          · rw [if_neg hret]
            rcases hcases with e | e
            · exfalso
              rw [e, hqt] at htr
              have e2 : trigger = t := Option.some.inj htr
              have hb := configure_probes_trigger_bad (Sigrok.shl_one (q.index - 1) % 256)
                trigger mp (e2 ▸ hbad)
              rw [hr] at hb
              apply hret
              show ret ≠ SR_OK
              have : ret = SR_ERR := hb
              rw [this]
              decide
            · exact ih mp1 ⟨p, e, hen, t, htr, hbad⟩

end La8

namespace Ols

theorem getD_set_eq (l : List Nat) (i j a : Nat) :
    (l.set i a).getD j 0 = if i = j ∧ i < l.length then a else l.getD j 0 := by
  simp only [List.getD_eq_getElem?_getD, List.getElem?_set]
  by_cases h : i = j
  · subst h
    by_cases h2 : i < l.length
    · simp [h2]
    · have h3 : l[i]? = none := List.getElem?_eq_none (by omega)
      simp [h2, h3]
  · simp [h]

theorem getD_set_or_bit (l : List Nat) (i j x b : Nat)
    (h : ((l.set i (l.getD i 0 ||| x)).getD j 0).testBit b = true) :
    (l.getD j 0).testBit b = true ∨ (i = j ∧ x.testBit b = true) := by
  rw [getD_set_eq] at h
  by_cases hc : i = j ∧ i < l.length
  · rw [if_pos hc, Nat.testBit_or, Bool.or_eq_true] at h
    rcases h with h | h
    · exact Or.inl (hc.1 ▸ h)
    · exact Or.inr ⟨hc.1, h⟩
  · rw [if_neg hc] at h
    exact Or.inl h

theorem configure_probes_trigger_stage_bits (probe_bit b s : Nat) :
    ∀ (t : List Char) (stage : Nat) (mv : List Nat × List Nat),
      (((configure_probes_trigger probe_bit t stage mv).2.1.getD s 0).testBit b = true →
        (mv.1.getD s 0).testBit b = true ∨
          (stage ≤ s ∧ s < stage + t.length ∧ probe_bit.testBit b = true)) ∧
      (((configure_probes_trigger probe_bit t stage mv).2.2.getD s 0).testBit b = true →
        (mv.2.getD s 0).testBit b = true ∨
          (stage ≤ s ∧ s < stage + t.length ∧ probe_bit.testBit b = true))
  | [], stage, mv => by
    simp only [configure_probes_trigger]
    exact ⟨Or.inl, Or.inl⟩
  | tc :: rest, stage, mv => by
    have ih := configure_probes_trigger_stage_bits probe_bit b s rest (stage + 1)
    have hm : ((mv.1.set stage (mv.1.getD stage 0 ||| probe_bit)).getD s 0).testBit b = true →
        (mv.1.getD s 0).testBit b = true ∨
          (stage ≤ s ∧ s < stage + (tc :: rest).length ∧ probe_bit.testBit b = true) := by
      intro h
      rcases getD_set_or_bit _ _ _ _ _ h with h1 | h1
      · exact Or.inl h1
      · refine Or.inr ⟨by omega, ?_, h1.2⟩
        simp only [List.length_cons]
        omega
    have hv : ((if tc = '1' then mv.2.set stage (mv.2.getD stage 0 ||| probe_bit)
          else mv.2).getD s 0).testBit b = true →
        (mv.2.getD s 0).testBit b = true ∨
          (stage ≤ s ∧ s < stage + (tc :: rest).length ∧ probe_bit.testBit b = true) := by
      intro h
      by_cases hc : tc = '1'
      · rw [if_pos hc] at h
        rcases getD_set_or_bit _ _ _ _ _ h with h1 | h1
        · exact Or.inl h1
        · refine Or.inr ⟨by omega, ?_, h1.2⟩
          simp only [List.length_cons]
          omega
      · rw [if_neg hc] at h
        exact Or.inl h
    simp only [configure_probes_trigger]
    by_cases hst : stage + 1 > 3
    · rw [if_pos hst]
      exact ⟨hm, hv⟩
    · rw [if_neg hst]
      have h := ih (mv.1.set stage (mv.1.getD stage 0 ||| probe_bit),
        if tc = '1' then mv.2.set stage (mv.2.getD stage 0 ||| probe_bit) else mv.2)
      refine ⟨fun h1 => ?_, fun h1 => ?_⟩
      · rcases h.1 h1 with h2 | h2
        · exact hm h2
        · refine Or.inr ⟨by omega, ?_, h2.2.2⟩
          have := h2.2.1
          simp only [List.length_cons]
          omega
      · rcases h.2 h1 with h2 | h2
        · exact hv h2
        · refine Or.inr ⟨by omega, ?_, h2.2.2⟩
          have := h2.2.1
          simp only [List.length_cons]
          omega

theorem configure_probes_trigger_value_subset (probe_bit : Nat) :
    ∀ (t : List Char) (stage : Nat) (mv : List Nat × List Nat),
      mv.1.length = mv.2.length →
      (∀ s b, (mv.2.getD s 0).testBit b = true → (mv.1.getD s 0).testBit b = true) →
      (configure_probes_trigger probe_bit t stage mv).2.1.length
          = (configure_probes_trigger probe_bit t stage mv).2.2.length ∧
        ∀ s b, ((configure_probes_trigger probe_bit t stage mv).2.2.getD s 0).testBit b = true →
          ((configure_probes_trigger probe_bit t stage mv).2.1.getD s 0).testBit b = true
  | [], stage, mv => by
    intro hl hinv
    simp only [configure_probes_trigger]
    exact ⟨hl, hinv⟩
  | tc :: rest, stage, mv => by
    intro hl hinv
    have ih := configure_probes_trigger_value_subset probe_bit rest (stage + 1)
      (mv.1.set stage (mv.1.getD stage 0 ||| probe_bit),
        if tc = '1' then mv.2.set stage (mv.2.getD stage 0 ||| probe_bit) else mv.2)
    have hl1 : (mv.1.set stage (mv.1.getD stage 0 ||| probe_bit)).length
        = (if tc = '1' then mv.2.set stage (mv.2.getD stage 0 ||| probe_bit)
            else mv.2).length := by
      by_cases hc : tc = '1'
      · rw [if_pos hc, List.length_set, List.length_set, hl]
      · rw [if_neg hc, List.length_set, hl]
    have hinv1 : ∀ s b, ((if tc = '1' then mv.2.set stage (mv.2.getD stage 0 ||| probe_bit)
          else mv.2).getD s 0).testBit b = true →
        ((mv.1.set stage (mv.1.getD stage 0 ||| probe_bit)).getD s 0).testBit b = true := by
      intro s b h
      rw [getD_set_eq]
      by_cases hc : tc = '1'
      · rw [if_pos hc, getD_set_eq] at h
        by_cases hs : stage = s ∧ stage < mv.2.length
        · rw [if_pos hs] at h
          rw [if_pos ⟨hs.1, hl ▸ hs.2⟩]
          rw [Nat.testBit_or, Bool.or_eq_true] at h ⊢
          exact h.imp (hinv stage b) id
        · rw [if_neg hs] at h
          have h1 := hinv s b h
          by_cases hs1 : stage = s ∧ stage < mv.1.length
          · rw [if_pos hs1, Nat.testBit_or, Bool.or_eq_true]
            exact Or.inl (hs1.1 ▸ h1)
          · rw [if_neg hs1]
            exact h1
      · rw [if_neg hc] at h
        have h1 := hinv s b h
        by_cases hs1 : stage = s ∧ stage < mv.1.length
        · rw [if_pos hs1, Nat.testBit_or, Bool.or_eq_true]
          exact Or.inl (hs1.1 ▸ h1)
        · rw [if_neg hs1]
          exact h1
    simp only [configure_probes_trigger]
    by_cases hst : stage + 1 > 3
    · rw [if_pos hst]
      exact ⟨hl1, hinv1⟩
    · rw [if_neg hst]
      exact ih hl1 hinv1

end Ols

namespace Ols

theorem configure_probes_loop_stage_bits (b s : Nat) :
    ∀ (probes : List probe) (st : Nat × (List Nat × List Nat)),
      (((configure_probes_loop probes st).2.2.1.getD s 0).testBit b = true →
        (st.2.1.getD s 0).testBit b = true ∨ ∃ p, p ∈ probes ∧
          ∃ t, p.trigger = some t ∧ s < t.length ∧
            (Sigrok.shl_one (p.index - 1)).testBit b = true) ∧
      (((configure_probes_loop probes st).2.2.2.getD s 0).testBit b = true →
        (st.2.2.getD s 0).testBit b = true ∨ ∃ p, p ∈ probes ∧
          ∃ t, p.trigger = some t ∧ s < t.length ∧
            (Sigrok.shl_one (p.index - 1)).testBit b = true)
  | [], st => by
    simp only [configure_probes_loop]
    exact ⟨Or.inl, Or.inl⟩
  | q :: rest, st => by
    have ih := configure_probes_loop_stage_bits b s rest
    have lift : ∀ {P : Prop}, (P ∨ ∃ p, p ∈ rest ∧
          ∃ t, p.trigger = some t ∧ s < t.length ∧
            (Sigrok.shl_one (p.index - 1)).testBit b = true) →
        (P ∨ ∃ p, p ∈ q :: rest ∧
          ∃ t, p.trigger = some t ∧ s < t.length ∧
            (Sigrok.shl_one (p.index - 1)).testBit b = true) := by
      intro P h
      rcases h with h | ⟨p, hp, h⟩
      · exact Or.inl h
      · exact Or.inr ⟨p, List.mem_cons_of_mem _ hp, h⟩
    simp only [configure_probes_loop]
    cases htr : q.trigger with
    | none =>
      simp only []
      exact ⟨fun h => lift ((ih (st.1 ||| Sigrok.shl_one (q.index - 1), st.2)).1 h),
        fun h => lift ((ih (st.1 ||| Sigrok.shl_one (q.index - 1), st.2)).2 h)⟩
    | some trigger =>
      simp only []
      have ht := configure_probes_trigger_stage_bits (Sigrok.shl_one (q.index - 1)) b s
        trigger 0 st.2
      have here : ∀ {P : Prop}, (P ∨ (0 ≤ s ∧ s < 0 + trigger.length ∧
          (Sigrok.shl_one (q.index - 1)).testBit b = true)) →
          (P ∨ ∃ p, p ∈ q :: rest ∧
            ∃ t, p.trigger = some t ∧ s < t.length ∧
              (Sigrok.shl_one (p.index - 1)).testBit b = true) := by
        intro P h
        rcases h with h | h
        · exact Or.inl h
        · exact Or.inr ⟨q, List.mem_cons_self _ _, trigger, htr, by omega, h.2.2⟩
      rcases hr : configure_probes_trigger (Sigrok.shl_one (q.index - 1)) trigger 0 st.2
        with ⟨ret, mv⟩
      rw [hr] at ht
      by_cases hret : ret ≠ SIGROK_OK
      · rw [if_pos hret]
        exact ⟨fun h => here (ht.1 h), fun h => here (ht.2 h)⟩
      · rw [if_neg hret]
        refine ⟨fun h => ?_, fun h => ?_⟩
        · rcases lift ((ih _).1 h) with h1 | h1
          · exact here (ht.1 h1)
          · exact Or.inr h1
        · rcases lift ((ih _).2 h) with h1 | h1
          · exact here (ht.2 h1)
          · exact Or.inr h1

theorem configure_probes_loop_value_subset :
    ∀ (probes : List probe) (st : Nat × (List Nat × List Nat)),
      st.2.1.length = st.2.2.length →
      (∀ s b, (st.2.2.getD s 0).testBit b = true → (st.2.1.getD s 0).testBit b = true) →
      (configure_probes_loop probes st).2.2.1.length
          = (configure_probes_loop probes st).2.2.2.length ∧
        ∀ s b, ((configure_probes_loop probes st).2.2.2.getD s 0).testBit b = true →
          ((configure_probes_loop probes st).2.2.1.getD s 0).testBit b = true
  | [], st => by
    intro hl hinv
    simp only [configure_probes_loop]
    exact ⟨hl, hinv⟩
  | q :: rest, st => by
    intro hl hinv
    have ih := configure_probes_loop_value_subset rest
    simp only [configure_probes_loop]
    cases htr : q.trigger with
    | none =>
      simp only []
      exact ih _ hl hinv
    | some trigger =>
      simp only []
      have ht := configure_probes_trigger_value_subset (Sigrok.shl_one (q.index - 1))
        trigger 0 st.2 hl hinv
      rcases hr : configure_probes_trigger (Sigrok.shl_one (q.index - 1)) trigger 0 st.2
        with ⟨ret, mv⟩
      rw [hr] at ht
      by_cases hret : ret ≠ SIGROK_OK
      · rw [if_pos hret]
        exact ht
      · rw [if_neg hret]
        exact ih _ ht.1 ht.2

theorem read_trigger_char_one (c : Char) : read_trigger_char c = '1' ↔ c = '1' := by
  unfold read_trigger_char
  by_cases h : c = '1'
  · simp [h]
  · simp [h]

theorem configure_probes_trigger_read (probe_bit : Nat) :
    ∀ (t : List Char) (stage : Nat) (mv : List Nat × List Nat),
      configure_probes_trigger probe_bit (t.map read_trigger_char) stage mv
        = configure_probes_trigger probe_bit t stage mv
  | [], stage, mv => rfl
  | tc :: rest, stage, mv => by
    have ih := configure_probes_trigger_read probe_bit rest (stage + 1)
    simp only [List.map_cons, configure_probes_trigger, read_trigger_char_one, ih]

theorem configure_probes_loop_read :
    ∀ (probes : List probe) (st : Nat × (List Nat × List Nat)),
      configure_probes_loop (probes.map read_probe) st = configure_probes_loop probes st
  | [], st => rfl
  | q :: rest, st => by
    have ih := configure_probes_loop_read rest
    simp only [List.map_cons, configure_probes_loop]
    cases htr : q.trigger with
    | none =>
      have h1 : (read_probe q).trigger = none := by simp [read_probe, htr]
      have h2 : (read_probe q).index = q.index := rfl
      simp only [h1, h2, ih]
    | some trigger =>
      have h1 : (read_probe q).trigger = some (trigger.map read_trigger_char) := by
        simp [read_probe, htr]
      have h2 : (read_probe q).index = q.index := rfl
      simp only [h1, h2, ih, configure_probes_trigger_read]

theorem configure_probes_read (S : State) (probes : List probe) :
    configure_probes S (probes.map read_probe) = configure_probes S probes := by
  simp only [configure_probes, configure_probes_loop_read]

end Ols

namespace Ols

/-! ## Commands and start of the acquisition -/

theorem do_longcommand_step (S : State) (command data : Nat) (w : Int) (rest : List Int)
    (hw : S.write_results = w :: rest) :
    do_longcommand S command data
      = some (if w ≠ 5 then SIGROK_NOK else SIGROK_OK,
          { S with write_results := rest
                   commands := S.commands ++ [(command, some data)]
                   wire := S.wire ++ [(send_longcommand w command data).1] }) := by
  unfold do_longcommand
  rw [hw]
  by_cases h5 : w ≠ 5
  · simp only [send_longcommand, h5, if_true, ne_eq, not_false_eq_true]
  · simp only [send_longcommand, h5, if_false, ne_eq, not_false_eq_true]

theorem do_shortcommand_step (S : State) (command : Nat) (w : Int) (rest : List Int)
    (hw : S.write_results = w :: rest) :
    do_shortcommand S command
      = some (if w ≠ 1 then SIGROK_NOK else SIGROK_OK,
          { S with write_results := rest
                   commands := S.commands ++ [(command, none)]
                   wire := S.wire ++ [(send_shortcommand w command).1] }) := by
  unfold do_shortcommand
  rw [hw]
  by_cases h1 : w ≠ 1
  · simp only [send_shortcommand, h1, if_true, ne_eq, not_false_eq_true]
  · simp only [send_shortcommand, h1, if_false, ne_eq, not_false_eq_true]

theorem set_configuration_samplerate_in_range (S : State) (r : Nat) (w : Int)
    (rest : List Int) (hw : S.write_results = w :: rest) (h : 1 ≤ r ∧ r ≤ 200000000) :
    set_configuration_samplerate S r
      = some (if w ≠ 5 then SIGROK_NOK else SIGROK_OK,
          { S with
            flag_reg :=
              if r > CLOCK_RATE then S.flag_reg ||| FLAG_DEMUX else S.flag_reg &&& FLAG_DEMUX
            cur_samplerate := if w ≠ 5 then S.cur_samplerate else r
            write_results := rest
            commands := S.commands ++ [(CMD_SET_DIVIDER, some (u32
              ((if r > CLOCK_RATE then u32 ((CLOCK_RATE * 2 / r) % 256 + (2 ^ 32 - 1))
                else u32 ((CLOCK_RATE / r) % 256 + (2 ^ 32 - 1))) <<< 8)))]
            wire := S.wire ++ [(send_longcommand w CMD_SET_DIVIDER (u32
              ((if r > CLOCK_RATE then u32 ((CLOCK_RATE * 2 / r) % 256 + (2 ^ 32 - 1))
                else u32 ((CLOCK_RATE / r) % 256 + (2 ^ 32 - 1))) <<< 8))).1] }) := by
  have hlow : samplerates_low = 1 := rfl
  have hhigh : samplerates_high = 200000000 := rfl
  have hn : ¬ (r < 1 ∨ r > 200000000) := by omega
  have hOK : ¬ (SIGROK_OK ≠ SIGROK_OK) := fun h => h rfl
  have hNOK : SIGROK_NOK ≠ SIGROK_OK := by decide
  unfold set_configuration_samplerate
  rw [hlow, hhigh, if_neg hn]
  by_cases hc : r > CLOCK_RATE
  · simp only [hc, if_true]
    rw [do_longcommand_step { S with flag_reg := S.flag_reg ||| FLAG_DEMUX } _ _ w rest hw]
    by_cases h5 : w ≠ 5
    · simp only [h5, if_true, hNOK, ne_eq, not_false_eq_true]
    · simp only [h5, if_false, hOK]
  · simp only [hc, if_false]
    rw [do_longcommand_step { S with flag_reg := S.flag_reg &&& FLAG_DEMUX } _ _ w rest hw]
    by_cases h5 : w ≠ 5
    · simp only [h5, if_true, hNOK, ne_eq, not_false_eq_true]
    · simp only [h5, if_false, hOK]

theorem hw_start_acquisition_all_written (S : State) (device_index : Int)
    (sdi : sigrok_device_instance) (ws : List Int)
    (hlook : get_sigrok_device_instance S.device_instances device_index = some sdi)
    (hactive : sdi.status = Sigrok.Status.ST_ACTIVE)
    (hw : S.write_results = 5 :: 5 :: 5 :: 5 :: 5 :: 5 :: 5 :: 1 :: ws)
    (hr : 1 ≤ S.cur_samplerate ∧ S.cur_samplerate ≤ 100000000) :
    ∃ S1, hw_start_acquisition S device_index = some (SIGROK_OK, S1) ∧
      S1.commands = S.commands ++
        [(CMD_RESET, some 0), (CMD_SET_FLAGS, some (u32 (S.flag_reg <<< 24))),
         (CMD_CAPTURE_SIZE, some 0x00190019),
         (CMD_SET_TRIGGER_MASK_0, some (S.trigger_mask.getD 0 0)),
         (CMD_SET_TRIGGER_VALUE_0, some (S.trigger_value.getD 0 0)),
         (CMD_SET_TRIGGER_CONFIG_0, some 8),
         (CMD_SET_DIVIDER,
           some (u32 (u32 ((CLOCK_RATE / S.cur_samplerate) % 256 + (2 ^ 32 - 1)) <<< 8))),
         (CMD_RUN, none)] ∧
      S1.bus = S.bus ++ [Packet.DF_HEADER 1 S.cur_samplerate NUM_PROBES] ∧
      S1.sources = S.sources ++ [SourceEvent.add sdi.fd (-1)] ∧
      S1.write_results = ws := by
  have hn : ¬ (S.cur_samplerate < samplerates_low ∨ S.cur_samplerate > samplerates_high) := by
    have hlow : samplerates_low = 1 := rfl
    have hhigh : samplerates_high = 200000000 := rfl
    omega
  have hc : ¬ (S.cur_samplerate > CLOCK_RATE) := by
    have : CLOCK_RATE = 100000000 := rfl
    omega
  simp [hw_start_acquisition, hlook, hactive, do_longcommand, do_shortcommand, hw,
    send_longcommand, send_shortcommand, set_configuration_samplerate, hn, hc, session_bus,
    SIGROK_OK, SIGROK_NOK]

/-- C11, what the code does: on an Active device with a samplerate of 1 Hz to
100 MHz whose eight writes all transfer fully, `hw_start_acquisition` succeeds
and sends reset, flags, capture size, trigger mask, value and configuration of
stage 0, divider and run; the data of the capture-size command is the constant
0x00190019, 25 in the high half and 25 in the low half, whatever `limit_samples`
and `capture_ratio` are. -/
theorem hw_start_acquisition_capture_size (S : State) (device_index : Int)
    (sdi : sigrok_device_instance) (ws : List Int)
    (hlook : get_sigrok_device_instance S.device_instances device_index = some sdi)
    (hactive : sdi.status = Sigrok.Status.ST_ACTIVE)
    (hw : S.write_results = 5 :: 5 :: 5 :: 5 :: 5 :: 5 :: 5 :: 1 :: ws)
    (hr : 1 ≤ S.cur_samplerate ∧ S.cur_samplerate ≤ 100000000) :
    ∃ S1 d, hw_start_acquisition S device_index = some (SIGROK_OK, S1) ∧
      S1.commands = S.commands ++
        [(CMD_RESET, some 0), (CMD_SET_FLAGS, some (u32 (S.flag_reg <<< 24))),
         (CMD_CAPTURE_SIZE, some d),
         (CMD_SET_TRIGGER_MASK_0, some (S.trigger_mask.getD 0 0)),
         (CMD_SET_TRIGGER_VALUE_0, some (S.trigger_value.getD 0 0)),
         (CMD_SET_TRIGGER_CONFIG_0, some 8),
         (CMD_SET_DIVIDER,
           some (u32 (u32 ((CLOCK_RATE / S.cur_samplerate) % 256 + (2 ^ 32 - 1)) <<< 8))),
         (CMD_RUN, none)] ∧
      d = 0x00190019 ∧ d / 65536 = 25 ∧ d % 65536 = 25 := by
  obtain ⟨S1, h1, h2, -⟩ :=
    hw_start_acquisition_all_written S device_index sdi ws hlook hactive hw hr
  exact ⟨S1, 0x00190019, h1, h2, rfl, by decide, by decide⟩

theorem hw_start_acquisition_capture_size_witness :
    (400 / 4 = 100 ∧ (400 - 400 * 50 / 100) / 4 = 50) ∧
    ∃ S1 d, hw_start_acquisition
          (active_state 400 50 1000000 [5, 5, 5, 5, 5, 5, 5, 1] []) 0
        = some (SIGROK_OK, S1) ∧
      S1.commands = (active_state 400 50 1000000 [5, 5, 5, 5, 5, 5, 5, 1] []).commands ++
        [(CMD_RESET, some 0),
         (CMD_SET_FLAGS, some (u32
           ((active_state 400 50 1000000 [5, 5, 5, 5, 5, 5, 5, 1] []).flag_reg <<< 24))),
         (CMD_CAPTURE_SIZE, some d),
         (CMD_SET_TRIGGER_MASK_0, some
           ((active_state 400 50 1000000 [5, 5, 5, 5, 5, 5, 5, 1] []).trigger_mask.getD 0 0)),
         (CMD_SET_TRIGGER_VALUE_0, some
           ((active_state 400 50 1000000 [5, 5, 5, 5, 5, 5, 5, 1] []).trigger_value.getD 0 0)),
         (CMD_SET_TRIGGER_CONFIG_0, some 8),
         (CMD_SET_DIVIDER, some (u32 (u32 ((CLOCK_RATE /
           (active_state 400 50 1000000 [5, 5, 5, 5, 5, 5, 5, 1] []).cur_samplerate) % 256
             + (2 ^ 32 - 1)) <<< 8))),
         (CMD_RUN, none)] ∧
      d = 0x00190019 ∧ d / 65536 = 25 ∧ d % 65536 = 25 :=
  ⟨by decide, hw_start_acquisition_capture_size
    (active_state 400 50 1000000 [5, 5, 5, 5, 5, 5, 5, 1] []) 0 active_sdi [] rfl rfl rfl
    (by decide)⟩

/-! ## The C integer types -/

theorem i32_of_range (x : Int) (h0 : -2147483648 ≤ x) (h1 : x < 2147483648) : i32 x = x := by
  unfold i32
  have e : (x + 2 ^ 31) % 2 ^ 32 = x + 2 ^ 31 :=
    Int.emod_eq_of_lt (by omega) (by omega)
  rw [e]
  omega

theorem i32_range (x : Int) : -2147483648 ≤ i32 x ∧ i32 x < 2147483648 := by
  unfold i32
  have h1 := Int.emod_nonneg (x + 2 ^ 31) (by decide : (2 : Int) ^ 32 ≠ 0)
  have h2 := Int.emod_lt_of_pos (x + 2 ^ 31) (by decide : (0 : Int) < 2 ^ 32)
  omega

theorem i32_add_i32 (x j : Int) : i32 (i32 x + j) = i32 (x + j) := by
  unfold i32
  have e : ((x + 2 ^ 31) % 2 ^ 32 - 2 ^ 31 + j + 2 ^ 31) % 2 ^ 32 = (x + j + 2 ^ 31) % 2 ^ 32 := by
    omega
  rw [e]

theorem within_limit_of_range (n : Int) (L : Nat) (h0 : 0 ≤ n) (h1 : n < 2147483648) :
    within_limit n L ↔ n / 4 ≤ (L : Int) := by
  unfold within_limit u64_of_int
  have e1 : Int.tdiv n 4 = n / 4 := Int.tdiv_eq_ediv h0 (by decide)
  rw [e1]
  have e2 : n / 4 % 2 ^ 64 = n / 4 := Int.emod_eq_of_lt (by omega) (by omega)
  rw [e2]
  omega

theorem within_limit_min (L : Nat) (h : L < 2 ^ 64 - 536870912) :
    ¬ within_limit (i32 (2147483647 + 1)) L := by
  have e : i32 (2147483647 + 1) = -2147483648 := by decide
  rw [e]
  unfold within_limit u64_of_int
  have e2 : Int.tdiv (-2147483648) 4 = -536870912 := by decide
  rw [e2]
  have e3 : ((-536870912 : Int) % 2 ^ 64).toNat = 2 ^ 64 - 536870912 := by decide
  rw [e3]
  omega

/-! ## Configuration -/

/-- C12, what the code does: on an Active 32-channel device,
`hw_set_configuration` with the capture-ratio capability returns a result. The
parsed integer `v` (the `long` strtol returns) is stored into the `int`
capture_ratio before the range check, so the call succeeds iff `v` reduced to
32 bits lies in 0..100, and then stores that reduced value; on rejection it
stores 0, so the stored ratio lies in 0..100 afterwards. For `v` within the
range of `int` the call succeeds iff `0 ≤ v ≤ 100` and stores `v`; for
`v = 4294967346` (2^32 + 50) it succeeds and stores 50. -/
theorem hw_set_configuration_capture_ratio (S : State) (device_index : Int)
    (value : ConfigValue) (sdi : sigrok_device_instance)
    (hlook : get_sigrok_device_instance S.device_instances device_index = some sdi)
    (hactive : sdi.status = Sigrok.Status.ST_ACTIVE) :
    ∃ ret S1,
      hw_set_configuration S device_index Sigrok.Capability.CaptureRatio value
        = some (ret, S1) ∧
      (ret = SIGROK_OK ↔ 0 ≤ i32 value.as_strtol ∧ i32 value.as_strtol ≤ 100) ∧
      (ret = SIGROK_OK → S1.capture_ratio = i32 value.as_strtol) ∧
      (ret ≠ SIGROK_OK → ret = SIGROK_NOK ∧ S1.capture_ratio = 0) ∧
      0 ≤ S1.capture_ratio ∧ S1.capture_ratio ≤ 100 ∧
      (-2147483648 ≤ value.as_strtol → value.as_strtol < 2147483648 →
        (ret = SIGROK_OK ↔ 0 ≤ value.as_strtol ∧ value.as_strtol ≤ 100) ∧
        (ret = SIGROK_OK → S1.capture_ratio = value.as_strtol)) ∧
      (value.as_strtol = 4294967346 →
        ret = SIGROK_OK ∧ S1.capture_ratio = 50 ∧ ¬ value.as_strtol ≤ 100) := by
  have hne : ¬ (SIGROK_NOK = SIGROK_OK) := by decide
  have h50 : i32 4294967346 = 50 := by decide
  by_cases hv : i32 value.as_strtol < 0 ∨ i32 value.as_strtol > 100
  · refine ⟨SIGROK_NOK, { S with capture_ratio := 0 }, ?_, ?_, ?_, ?_, ?_, ?_, ?_, ?_⟩
    · simp only [hw_set_configuration, hlook, hactive, ne_eq, not_true_eq_false, if_false,
        hv, if_true]
    · constructor
      · intro h
        exact absurd h hne
      · intro h
        omega
    · intro h
      exact absurd h hne
    · intro _
      exact ⟨rfl, rfl⟩
    · exact le_refl _
    · show (0 : Int) ≤ 100
      decide
    · intro h0 h1
      rw [i32_of_range _ h0 h1] at hv
      refine ⟨⟨fun h => absurd h hne, fun h => ?_⟩, fun h => absurd h hne⟩
      omega
    · intro h
      rw [h, h50] at hv
      omega
  · refine ⟨SIGROK_OK, { S with capture_ratio := i32 value.as_strtol }, ?_, ?_, ?_, ?_, ?_, ?_,
      ?_, ?_⟩
    · simp only [hw_set_configuration, hlook, hactive, ne_eq, not_true_eq_false, if_false,
        hv]
    · constructor
      · intro _
        omega
      · intro _
        rfl
    · intro _
      rfl
    · intro h
      exact absurd rfl h
    · show 0 ≤ i32 value.as_strtol
      omega
    · show i32 value.as_strtol ≤ 100
      omega
    · intro h0 h1
      rw [i32_of_range _ h0 h1] at hv
      refine ⟨⟨fun _ => by omega, fun _ => rfl⟩, fun _ => ?_⟩
      show i32 value.as_strtol = value.as_strtol
      exact i32_of_range _ h0 h1
    · intro h
      refine ⟨rfl, ?_, by omega⟩
      show i32 value.as_strtol = 50
      rw [h, h50]

theorem hw_set_configuration_capture_ratio_witness :
    ∃ ret S1,
      hw_set_configuration (active_state 400 0 0 [] []) 0 Sigrok.Capability.CaptureRatio
          { as_u64 := 0, as_probes := [], as_strtoull := 0, as_strtol := 4294967346 }
        = some (ret, S1) ∧
      ret = SIGROK_OK ∧ S1.capture_ratio = 50 ∧ ¬ ((4294967346 : Int) ≤ 100) := by
  obtain ⟨ret, S1, h, _, _, _, _, _, _, hbad⟩ :=
    hw_set_configuration_capture_ratio (active_state 400 0 0 [] []) 0
      { as_u64 := 0, as_probes := [], as_strtoull := 0, as_strtol := 4294967346 } active_sdi
      rfl rfl
  exact ⟨ret, S1, h, hbad rfl⟩

/-- C17: `set_configuration_samplerate` gives the bad-value error iff the rate is
below 1 or above 200,000,000, and then sends no command and leaves the whole
state (with `cur_samplerate` and the flag register) unchanged; for a rate in
1..200,000,000 it sends one command, and when that write transfers its 5 bytes it
succeeds and sets `cur_samplerate` to the rate. -/
theorem set_configuration_samplerate_range (S : State) (r : Nat) (w : Int)
    (rest : List Int) (hw : S.write_results = w :: rest) :
    ((∃ S1, set_configuration_samplerate S r = some (SIGROK_ERR_BADVALUE, S1))
        ↔ r < 1 ∨ r > 200000000) ∧
    ((r < 1 ∨ r > 200000000) →
      set_configuration_samplerate S r = some (SIGROK_ERR_BADVALUE, S)) ∧
    (1 ≤ r ∧ r ≤ 200000000 →
      ∃ ret S1, set_configuration_samplerate S r = some (ret, S1) ∧
        S1.write_results = rest ∧ S1.wire.length = S.wire.length + 1 ∧
        (w = 5 → ret = SIGROK_OK ∧ S1.cur_samplerate = r) ∧
        (w ≠ 5 → ret = SIGROK_NOK ∧ S1.cur_samplerate = S.cur_samplerate)) := by
  have hbad : (r < 1 ∨ r > 200000000) →
      set_configuration_samplerate S r = some (SIGROK_ERR_BADVALUE, S) := by
    intro h
    have hlow : samplerates_low = 1 := rfl
    have hhigh : samplerates_high = 200000000 := rfl
    unfold set_configuration_samplerate
    rw [hlow, hhigh, if_pos h]
  have hgood : 1 ≤ r ∧ r ≤ 200000000 →
      ∃ ret S1, set_configuration_samplerate S r = some (ret, S1) ∧
        S1.write_results = rest ∧ S1.wire.length = S.wire.length + 1 ∧
        (w = 5 → ret = SIGROK_OK ∧ S1.cur_samplerate = r) ∧
        (w ≠ 5 → ret = SIGROK_NOK ∧ S1.cur_samplerate = S.cur_samplerate) := by
    intro h
    rw [set_configuration_samplerate_in_range S r w rest hw h]
    refine ⟨_, _, rfl, rfl, ?_, ?_, ?_⟩
    · simp only [List.length_append, List.length_singleton]
    · intro h5
      have : ¬ (w ≠ 5) := fun hn => hn h5
      simp only [this, if_false, and_self]
    · intro h5
      simp only [h5, if_true, ne_eq, not_false_eq_true, and_self]
  refine ⟨⟨fun h => ?_, fun h => ⟨S, hbad h⟩⟩, hbad, hgood⟩
  by_contra hn
  obtain ⟨S1, h1⟩ := h
  obtain ⟨ret, S2, h2, -, -, h5, hn5⟩ := hgood (by omega)
  rw [h2] at h1
  have e : ret = SIGROK_ERR_BADVALUE := congrArg Prod.fst (Option.some.inj h1)
  by_cases hw5 : w = 5
  · rw [(h5 hw5).1] at e
    exact absurd e (by decide)
  · rw [(hn5 hw5).1] at e
    exact absurd e (by decide)

theorem set_configuration_samplerate_range_witness :
    ((∃ S1, set_configuration_samplerate (active_state 0 0 0 [5] []) 1000000
        = some (SIGROK_ERR_BADVALUE, S1)) ↔ 1000000 < 1 ∨ 1000000 > 200000000) ∧
    ((1000000 < 1 ∨ 1000000 > 200000000) →
      set_configuration_samplerate (active_state 0 0 0 [5] []) 1000000
        = some (SIGROK_ERR_BADVALUE, active_state 0 0 0 [5] [])) ∧
    (1 ≤ 1000000 ∧ 1000000 ≤ 200000000 →
      ∃ ret S1, set_configuration_samplerate (active_state 0 0 0 [5] []) 1000000
          = some (ret, S1) ∧
        S1.write_results = [] ∧ S1.wire.length = (active_state 0 0 0 [5] []).wire.length + 1 ∧
        ((5 : Int) = 5 → ret = SIGROK_OK ∧ S1.cur_samplerate = 1000000) ∧
        ((5 : Int) ≠ 5 → ret = SIGROK_NOK ∧
          S1.cur_samplerate = (active_state 0 0 0 [5] []).cur_samplerate)) :=
  set_configuration_samplerate_range (active_state 0 0 0 [5] []) 1000000 5 [] rfl

theorem truncated_divider_ne (r : Nat) (h1 : 1 ≤ r) (h2 : r ≤ 390625) :
    u32 (u32 ((CLOCK_RATE / r) % 256 + (2 ^ 32 - 1)) <<< 8) ≠ 100000000 / r - 1 ∧
    u32 (u32 ((CLOCK_RATE / r) % 256 + (2 ^ 32 - 1)) <<< 8) ≠ (100000000 / r - 1) * 256 := by
  have hC : CLOCK_RATE = 100000000 := rfl
  rw [hC]
  have hq1 : 256 ≤ 100000000 / r := by
    calc 256 = 100000000 / 390625 := by decide
      _ ≤ 100000000 / r := Nat.div_le_div_left h2 (by omega)
  have hq2 : 100000000 / r ≤ 100000000 := Nat.div_le_self _ _
  have hq3 : 100000000 / r ≠ 16777216 := by
    by_cases h5 : r ≤ 5
    · interval_cases r <;> decide
    · have : 100000000 / r ≤ 100000000 / 6 := Nat.div_le_div_left (by omega) (by decide)
      have e : 100000000 / 6 = 16666666 := by decide
      omega
  generalize 100000000 / r = q at hq1 hq2 hq3
  simp only [u32, Nat.shiftLeft_eq]
  have hp : (2 : Nat) ^ 32 = 4294967296 := by decide
  have hp8 : (2 : Nat) ^ 8 = 256 := by decide
  rw [hp, hp8]
  omega

/-- C18, what the code does: for every samplerate from 1 to 390625 (where the
quotient 100,000,000 / r needs more than 8 bits) the data of the divider command
is built from the low 8 bits of the quotient only: it is neither
100,000,000 / r - 1 nor that value shifted left by 8. -/
theorem set_configuration_samplerate_divider_truncated (S : State) (r : Nat) (w : Int)
    (rest : List Int) (hw : S.write_results = w :: rest) (h1 : 1 ≤ r) (h2 : r ≤ 390625) :
    ∃ ret S1 d, set_configuration_samplerate S r = some (ret, S1) ∧
      S1.commands = S.commands ++ [(CMD_SET_DIVIDER, some d)] ∧
      d = (((100000000 / r) % 256 + 4294967295) % 4294967296 * 256) % 4294967296 ∧
      d ≠ 100000000 / r - 1 ∧ d ≠ (100000000 / r - 1) * 256 := by
  have hc : ¬ (r > CLOCK_RATE) := by
    have : CLOCK_RATE = 100000000 := rfl
    omega
  rw [set_configuration_samplerate_in_range S r w rest hw (by omega)]
  simp only [hc, if_false]
  refine ⟨_, _, _, rfl, rfl, ?_, truncated_divider_ne r h1 h2⟩
  simp only [u32, Nat.shiftLeft_eq]
  rfl

theorem set_configuration_samplerate_divider_truncated_witness :
    ∃ ret S1 d, set_configuration_samplerate (active_state 0 0 0 [5] []) 1000
        = some (ret, S1) ∧
      S1.commands = (active_state 0 0 0 [5] []).commands ++ [(CMD_SET_DIVIDER, some d)] ∧
      d = (((100000000 / 1000) % 256 + 4294967295) % 4294967296 * 256) % 4294967296 ∧
      d ≠ 100000000 / 1000 - 1 ∧ d ≠ (100000000 / 1000 - 1) * 256 :=
  set_configuration_samplerate_divider_truncated (active_state 0 0 0 [5] []) 1000 5 [] rfl
    (by decide) (by decide)

/-! ## The receive step -/

theorem receive_data_byte (S : State) (fd : Int) (byte : Nat) (rest : List (Int × Nat))
    (hread : S.read_results = (1, byte) :: rest)
    (hlim : within_limit (i32 (S.num_transfers + 1)) S.limit_samples)
    (hnb : S.num_bytes + 1 ≠ 4) :
    receive_data S fd G_IO_IN = some (true,
      { S with num_transfers := i32 (S.num_transfers + 1)
               sources := if S.num_transfers = 0 then
                   S.sources ++ [SourceEvent.remove fd, SourceEvent.add fd 30]
                 else S.sources
               read_results := rest
               sample := S.sample.set S.num_bytes byte
               num_bytes := S.num_bytes + 1 }) := by
  unfold receive_data
  have hg : (G_IO_IN = G_IO_IN ∧ within_limit (i32 (S.num_transfers + 1)) S.limit_samples) :=
    ⟨rfl, hlim⟩
  have h1 : ¬ ((1 : Int) ≠ 1) := fun h => h rfl
  by_cases h0 : S.num_transfers = 0
  · simp only [h0, if_true] at hg ⊢
    rw [if_pos hg]
    simp only [hread, h1, if_false, hnb]
  · simp only [h0, if_false] at hg ⊢
    rw [if_pos hg]
    simp only [hread, h1, if_false, hnb]

theorem receive_data_count (S : State) (fd : Int) (byte : Nat) (rest : List (Int × Nat))
    (hread : S.read_results = (1, byte) :: rest)
    (hlim : within_limit (i32 (S.num_transfers + 1)) S.limit_samples)
    (hnb : S.num_bytes = 3)
    (hrle : S.flag_reg &&& FLAG_RLE ≠ 0)
    (hs : (S.sample.set 3 byte).getD 0 0 &&& 0x80 ≠ 0)
    (hl : S.last_sample.getD 0 0 &&& 0x80 = 0) :
    receive_data S fd G_IO_IN = some (true,
      { S with num_transfers := i32 (S.num_transfers + 1)
               sources := if S.num_transfers = 0 then
                   S.sources ++ [SourceEvent.remove fd, SourceEvent.add fd 30]
                 else S.sources
               read_results := rest
               sample := S.sample.set 3 byte
               num_bytes := 0
               allocations := S.allocations ++
                 [((S.sample.set 3 byte).getD 0 0 &&& 0x7fffffff,
                   4 * ((S.sample.set 3 byte).getD 0 0 &&& 0x7fffffff))]
               bus := S.bus ++ [Packet.DF_LOGIC32
                 (4 * ((S.sample.set 3 byte).getD 0 0 &&& 0x7fffffff))
                 (rle_copies ((S.sample.set 3 byte).getD 0 0 &&& 0x7fffffff)
                   S.last_sample)] }) := by
  unfold receive_data
  have hg : (G_IO_IN = G_IO_IN ∧ within_limit (i32 (S.num_transfers + 1)) S.limit_samples) :=
    ⟨rfl, hlim⟩
  have h1 : ¬ ((1 : Int) ≠ 1) := fun h => h rfl
  have hc : S.flag_reg &&& FLAG_RLE ≠ 0 ∧ (S.sample.set 3 byte).getD 0 0 &&& 0x80 ≠ 0
      ∧ ¬ (S.last_sample.getD 0 0 &&& 0x80 ≠ 0) := ⟨hrle, hs, fun h => h hl⟩
  by_cases h0 : S.num_transfers = 0
  · simp only [h0, if_true] at hg ⊢
    rw [if_pos hg]
    simp only [hread, h1, if_false, hnb, if_true]
    rw [if_pos hc]
    simp only [session_bus]
  · simp only [h0, if_false] at hg ⊢
    rw [if_pos hg]
    simp only [hread, h1, if_false, hnb, if_true]
    rw [if_pos hc]
    simp only [session_bus]

theorem receive_data_literal (S : State) (fd : Int) (byte : Nat) (rest : List (Int × Nat))
    (hread : S.read_results = (1, byte) :: rest)
    (hlim : within_limit (i32 (S.num_transfers + 1)) S.limit_samples)
    (hnb : S.num_bytes = 3)
    (hlit : ¬ (S.flag_reg &&& FLAG_RLE ≠ 0 ∧ (S.sample.set 3 byte).getD 0 0 &&& 0x80 ≠ 0
      ∧ ¬ (S.last_sample.getD 0 0 &&& 0x80 ≠ 0))) :
    receive_data S fd G_IO_IN = some (true,
      { S with num_transfers := i32 (S.num_transfers + 1)
               sources := if S.num_transfers = 0 then
                   S.sources ++ [SourceEvent.remove fd, SourceEvent.add fd 30]
                 else S.sources
               read_results := rest
               sample := S.sample.set 3 byte
               num_bytes := 0
               last_sample := S.sample.set 3 byte
               bus := S.bus ++ [Packet.DF_LOGIC32 4 (S.sample.set 3 byte)] }) := by
  unfold receive_data
  have hg : (G_IO_IN = G_IO_IN ∧ within_limit (i32 (S.num_transfers + 1)) S.limit_samples) :=
    ⟨rfl, hlim⟩
  have h1 : ¬ ((1 : Int) ≠ 1) := fun h => h rfl
  by_cases h0 : S.num_transfers = 0
  · simp only [h0, if_true] at hg ⊢
    rw [if_pos hg]
    simp only [hread, h1, if_false, hnb, if_true]
    rw [if_neg hlit]
    simp only [session_bus]
  · simp only [h0, if_false] at hg ⊢
    rw [if_pos hg]
    simp only [hread, h1, if_false, hnb, if_true]
    rw [if_neg hlit]
    simp only [session_bus]

theorem receive_data_byte_fields (S : State) (fd : Int) (byte : Nat)
    (rest : List (Int × Nat))
    (hread : S.read_results = (1, byte) :: rest)
    (hlim : within_limit (i32 (S.num_transfers + 1)) S.limit_samples)
    (hnb : S.num_bytes + 1 ≠ 4) :
    ∃ S1, receive_data S fd G_IO_IN = some (true, S1) ∧
      S1.read_results = rest ∧ S1.num_transfers = i32 (S.num_transfers + 1) ∧
      S1.num_bytes = S.num_bytes + 1 ∧ S1.sample = S.sample.set S.num_bytes byte ∧
      S1.flag_reg = S.flag_reg ∧ S1.limit_samples = S.limit_samples ∧
      S1.last_sample = S.last_sample ∧ S1.bus = S.bus ∧ S1.allocations = S.allocations :=
  ⟨_, receive_data_byte S fd byte rest hread hlim hnb, rfl, rfl, rfl, rfl, rfl, rfl, rfl, rfl,
    rfl⟩

theorem receive_run_step (fd : Int) (k : Nat) (S S1 : State)
    (h : receive_data S fd G_IO_IN = some (true, S1)) :
    receive_run fd (k + 1) S = receive_run fd k S1 := by
  simp only [receive_run, h]

theorem receive_run_sample (S : State) (fd : Int) (b0 b1 b2 b3 : Nat)
    (rest : List (Int × Nat))
    (hread : S.read_results = (1, b0) :: (1, b1) :: (1, b2) :: (1, b3) :: rest)
    (hlim : ∀ j : Int, 1 ≤ j → j ≤ 4 →
      within_limit (i32 (S.num_transfers + j)) S.limit_samples)
    (hnb : S.num_bytes = 0) (hlen : S.sample.length = 4) :
    ∃ S1, (∀ k, receive_run fd (k + 4) S = receive_run fd k S1) ∧
      S1.read_results = rest ∧ S1.num_transfers = i32 (S.num_transfers + 4) ∧
      S1.num_bytes = 0 ∧ S1.sample = [b0, b1, b2, b3] ∧
      S1.flag_reg = S.flag_reg ∧ S1.limit_samples = S.limit_samples ∧
      ((S.flag_reg &&& FLAG_RLE ≠ 0 ∧ b0 &&& 0x80 ≠ 0 ∧ S.last_sample.getD 0 0 &&& 0x80 = 0) →
        S1.bus = S.bus ++ [Packet.DF_LOGIC32 (4 * (b0 &&& 0x7fffffff))
            (rle_copies (b0 &&& 0x7fffffff) S.last_sample)] ∧
          S1.last_sample = S.last_sample ∧
          S1.allocations = S.allocations ++ [(b0 &&& 0x7fffffff, 4 * (b0 &&& 0x7fffffff))]) ∧
      (¬ (S.flag_reg &&& FLAG_RLE ≠ 0 ∧ b0 &&& 0x80 ≠ 0
          ∧ S.last_sample.getD 0 0 &&& 0x80 = 0) →
        S1.bus = S.bus ++ [Packet.DF_LOGIC32 4 [b0, b1, b2, b3]] ∧
          S1.last_sample = [b0, b1, b2, b3] ∧ S1.allocations = S.allocations) := by
  obtain ⟨s0, s1, s2, s3, hsample⟩ : ∃ s0 s1 s2 s3, S.sample = [s0, s1, s2, s3] := by
    match hS : S.sample, hlen with
    | [a, b, c, d], _ => exact ⟨a, b, c, d, rfl⟩
  obtain ⟨Sa, ea, ra, ta, na, sa, fa, la, pa, ua, aa⟩ :=
    receive_data_byte_fields S fd b0 _ hread (hlim 1 (by decide) (by decide)) (by omega)
  rw [hnb, hsample] at sa
  rw [hnb] at na
  have t2 : i32 (Sa.num_transfers + 1) = i32 (S.num_transfers + 2) := by
    rw [ta, i32_add_i32, Int.add_assoc]
    rfl
  obtain ⟨Sb, eb, rb, tb, nb, sb, fb, lb, pb, ub, ab⟩ :=
    receive_data_byte_fields Sa fd b1 _ ra
      (by rw [t2, la]; exact hlim 2 (by decide) (by decide)) (by omega)
  rw [na, sa] at sb
  rw [na] at nb
  rw [t2] at tb
  have t3 : i32 (Sb.num_transfers + 1) = i32 (S.num_transfers + 3) := by
    rw [tb, i32_add_i32, Int.add_assoc]
    rfl
  obtain ⟨Sc, ec, rc, tc, nc, sc, fc, lc, pc, uc, ac⟩ :=
    receive_data_byte_fields Sb fd b2 _ rb
      (by rw [t3, lb, la]; exact hlim 3 (by decide) (by decide)) (by omega)
  rw [nb, sb] at sc
  rw [nb] at nc
  rw [t3] at tc
  have t4 : i32 (Sc.num_transfers + 1) = i32 (S.num_transfers + 4) := by
    rw [tc, i32_add_i32, Int.add_assoc]
    rfl
  have hlimc : within_limit (i32 (Sc.num_transfers + 1)) Sc.limit_samples := by
    rw [t4, lc, lb, la]
    exact hlim 4 (by decide) (by decide)
  have hset : Sc.sample.set 3 b3 = [b0, b1, b2, b3] := by
    rw [sc]
    rfl
  have hnc : Sc.num_bytes = 3 := nc
  have chain : ∀ (Sd : State), receive_data Sc fd G_IO_IN = some (true, Sd) →
      ∀ k, receive_run fd (k + 4) S = receive_run fd k Sd := by
    intro Sd ed k
    rw [receive_run_step fd (k + 3) S Sa ea, receive_run_step fd (k + 2) Sa Sb eb,
      receive_run_step fd (k + 1) Sb Sc ec, receive_run_step fd k Sc Sd ed]
  by_cases hcount : S.flag_reg &&& FLAG_RLE ≠ 0 ∧ b0 &&& 0x80 ≠ 0
      ∧ S.last_sample.getD 0 0 &&& 0x80 = 0
  · have ed := receive_data_count Sc fd b3 rest rc hlimc hnc
      (by rw [fc, fb, fa]; exact hcount.1)
      (by rw [hset]; exact hcount.2.1)
      (by rw [pc, pb, pa]; exact hcount.2.2)
    refine ⟨_, chain _ ed, rfl, t4, rfl, hset, ?_, ?_, ?_, fun h => absurd hcount h⟩
    · show Sc.flag_reg = S.flag_reg
      rw [fc, fb, fa]
    · show Sc.limit_samples = S.limit_samples
      rw [lc, lb, la]
    · intro _
      refine ⟨?_, ?_, ?_⟩
      · show Sc.bus ++ _ = _
        rw [uc, ub, ua, hset, pc, pb, pa]
        rfl
      · show Sc.last_sample = S.last_sample
        rw [pc, pb, pa]
      · show Sc.allocations ++ _ = _
        rw [ac, ab, aa, hset]
        rfl
  · have ed := receive_data_literal Sc fd b3 rest rc hlimc hnc
      (by
        rw [fc, fb, fa, hset, pc, pb, pa]
        intro h
        exact hcount ⟨h.1, h.2.1, by
          have := h.2.2
          exact not_not.1 this⟩)
    refine ⟨_, chain _ ed, rfl, t4, rfl, hset, ?_, ?_, fun h => absurd h hcount, ?_⟩
    · show Sc.flag_reg = S.flag_reg
      rw [fc, fb, fa]
    · show Sc.limit_samples = S.limit_samples
      rw [lc, lb, la]
    · intro _
      refine ⟨?_, hset, ?_⟩
      · show Sc.bus ++ _ = _
        rw [uc, ub, ua, hset]
      · show Sc.allocations = S.allocations
        rw [ac, ab, aa]

theorem count_byte (c : Nat) (hc : c < 256) (h : c &&& 0x80 ≠ 0) :
    c &&& 0x7fffffff = c ∧ 128 ≤ c := by
  have key : ∀ c, c < 256 → c &&& 0x80 ≠ 0 → c &&& 0x7fffffff = c ∧ 128 ≤ c := by
    set_option maxRecDepth 100000 in decide
  exact key c hc h

theorem within_limit_shift (n : Int) (L : Nat) (a m : Int)
    (h : ∀ j : Int, 1 ≤ j → j ≤ a + m → within_limit (i32 (n + j)) L) (ha : 0 ≤ a) :
    ∀ j : Int, 1 ≤ j → j ≤ m → within_limit (i32 (i32 (n + a) + j)) L := by
  intro j h1 h2
  rw [i32_add_i32, Int.add_assoc]
  exact h (a + j) (by omega) (by omega)

/-- C13, what the code does: with RLE enabled, after a literal sample L (first
byte with bit 7 clear) the next sample is taken as a count sample iff bit 7 of its
first byte `c0` is set, and the packet sent for it then holds `c0` copies of L,
where `c0` is that first byte alone, flag bit included, so between 128 and 255
copies whatever the other three bytes are; otherwise the sample is sent as a
literal. In neither case does the packet hold 5 copies of L. The sample limit is
not reached during the eight transfers. -/
theorem receive_data_count_first_byte (S : State) (fd : Int)
    (l0 l1 l2 l3 c0 c1 c2 c3 : Nat) (rest : List (Int × Nat))
    (hread : S.read_results = (1, l0) :: (1, l1) :: (1, l2) :: (1, l3) ::
      (1, c0) :: (1, c1) :: (1, c2) :: (1, c3) :: rest)
    (hlim : ∀ j : Int, 1 ≤ j → j ≤ 8 →
      within_limit (i32 (S.num_transfers + j)) S.limit_samples)
    (hnb : S.num_bytes = 0) (hlen : S.sample.length = 4)
    (hrle : S.flag_reg &&& FLAG_RLE ≠ 0)
    (hl : l0 &&& 0x80 = 0) (hc : c0 < 256) :
    ∃ S1 p, receive_run fd 8 S = some S1 ∧
      S1.bus = S.bus ++ [Packet.DF_LOGIC32 4 [l0, l1, l2, l3], p] ∧
      (c0 &&& 0x80 ≠ 0 →
        p = Packet.DF_LOGIC32 (4 * c0) (rle_copies c0 [l0, l1, l2, l3]) ∧ 128 ≤ c0) ∧
      (c0 &&& 0x80 = 0 → p = Packet.DF_LOGIC32 4 [c0, c1, c2, c3]) ∧
      p ≠ Packet.DF_LOGIC32 20 (rle_copies 5 [l0, l1, l2, l3]) := by
  obtain ⟨Sa, ra, reada, ta, na, sa, fa, la, -, lita⟩ :=
    receive_run_sample S fd l0 l1 l2 l3 _ hread
      (fun j h1 h2 => hlim j h1 (by omega)) hnb hlen
  have hla : ¬ (S.flag_reg &&& FLAG_RLE ≠ 0 ∧ l0 &&& 0x80 ≠ 0
      ∧ S.last_sample.getD 0 0 &&& 0x80 = 0) := fun h => h.2.1 hl
  obtain ⟨busa, lasta, -⟩ := lita hla
  obtain ⟨Sb, rb, readb, tb, nb, sb, fb, lb, cntb, litb⟩ :=
    receive_run_sample Sa fd c0 c1 c2 c3 rest reada
      (by rw [ta, la]; exact within_limit_shift _ _ 4 4 hlim (by decide)) na
      (by rw [sa]; rfl)
  have hrun : receive_run fd 8 S = some Sb := by
    rw [ra 4, rb 0]
    rfl
  by_cases hcount : c0 &&& 0x80 ≠ 0
  · obtain ⟨e1, e2⟩ := count_byte c0 hc hcount
    have hb := (cntb ⟨by rw [fa]; exact hrle, hcount, by rw [lasta]; exact hl⟩).1
    rw [busa, lasta, e1, List.append_assoc] at hb
    refine ⟨Sb, _, hrun, hb, fun _ => ⟨rfl, e2⟩, fun h => absurd h hcount, ?_⟩
    intro h
    have := (Packet.DF_LOGIC32.inj h).1
    omega
  · have hb := (litb (fun h => hcount h.2.1)).1
    rw [busa, List.append_assoc] at hb
    refine ⟨Sb, _, hrun, hb, fun h => absurd h hcount, fun _ => rfl, ?_⟩
    intro h
    have := (Packet.DF_LOGIC32.inj h).1
    omega

theorem receive_data_count_first_byte_witness :
    ∃ S1 p, receive_run 3 8 (rle_state [1, 2, 3, 4, 0x80, 0, 0, 5]) = some S1 ∧
      S1.bus = (rle_state [1, 2, 3, 4, 0x80, 0, 0, 5]).bus
        ++ [Packet.DF_LOGIC32 4 [1, 2, 3, 4], p] ∧
      (0x80 &&& 0x80 ≠ 0 →
        p = Packet.DF_LOGIC32 (4 * 0x80) (rle_copies 0x80 [1, 2, 3, 4]) ∧ 128 ≤ 0x80) ∧
      (0x80 &&& 0x80 = 0 → p = Packet.DF_LOGIC32 4 [0x80, 0, 0, 5]) ∧
      p ≠ Packet.DF_LOGIC32 20 (rle_copies 5 [1, 2, 3, 4]) :=
  receive_data_count_first_byte (rle_state [1, 2, 3, 4, 0x80, 0, 0, 5]) 3
    1 2 3 4 0x80 0 0 5 [] rfl
    (fun j h1 h2 => by
      have e : (rle_state [1, 2, 3, 4, 0x80, 0, 0, 5]).num_transfers = 0 := rfl
      have l : (rle_state [1, 2, 3, 4, 0x80, 0, 0, 5]).limit_samples = 1000 := rfl
      rw [e, l, Int.zero_add, i32_of_range j (by omega) (by omega),
        within_limit_of_range j 1000 (by omega) (by omega)]
      omega)
    rfl rfl (by decide) (by decide) (by decide)

theorem rle_copies_length (count l0 l1 l2 l3 : Nat) :
    (rle_copies count [l0, l1, l2, l3]).length = 4 * count := by
  simp [rle_copies, Nat.mul_comm]

/-- C14, what the code does: with RLE enabled, for every stream of a literal
sample L (first byte with bit 7 clear) followed by two consecutive count samples
(first bytes `c0` and `d0` with bit 7 set), the bus receives L, then the packet
of `c0` copies of L made for the first count sample, and then a packet of `d0`
more copies of L made for the second count sample, with `d0` at least 128: a
count sample does not replace the remembered literal, so the second count sample
expands the literal again. For each count sample the loop writes four times as
many bytes as `g_malloc` was asked for. -/
theorem receive_data_two_counts (S : State) (fd : Int)
    (l0 l1 l2 l3 c0 c1 c2 c3 d0 d1 d2 d3 : Nat) (rest : List (Int × Nat))
    (hread : S.read_results = (1, l0) :: (1, l1) :: (1, l2) :: (1, l3) ::
      (1, c0) :: (1, c1) :: (1, c2) :: (1, c3) ::
      (1, d0) :: (1, d1) :: (1, d2) :: (1, d3) :: rest)
    (hlim : ∀ j : Int, 1 ≤ j → j ≤ 12 →
      within_limit (i32 (S.num_transfers + j)) S.limit_samples)
    (hnb : S.num_bytes = 0) (hlen : S.sample.length = 4)
    (hrle : S.flag_reg &&& FLAG_RLE ≠ 0)
    (hl : l0 &&& 0x80 = 0) (hc : c0 &&& 0x80 ≠ 0) (hd : d0 &&& 0x80 ≠ 0)
    (hc8 : c0 < 256) (hd8 : d0 < 256) :
    ∃ S1, receive_run fd 12 S = some S1 ∧
      S1.bus = S.bus ++ [Packet.DF_LOGIC32 4 [l0, l1, l2, l3],
        Packet.DF_LOGIC32 (4 * c0) (rle_copies c0 [l0, l1, l2, l3]),
        Packet.DF_LOGIC32 (4 * d0) (rle_copies d0 [l0, l1, l2, l3])] ∧
      128 ≤ c0 ∧ 128 ≤ d0 ∧
      (rle_copies d0 [l0, l1, l2, l3]).length = 4 * d0 ∧
      S1.last_sample = [l0, l1, l2, l3] ∧
      S1.allocations = S.allocations ++ [(c0, 4 * c0), (d0, 4 * d0)] ∧
      c0 < 4 * c0 ∧ d0 < 4 * d0 := by
  obtain ⟨ec1, ec2⟩ := count_byte c0 hc8 hc
  obtain ⟨ed1, ed2⟩ := count_byte d0 hd8 hd
  obtain ⟨Sa, ra, reada, ta, na, sa, fa, la, -, lita⟩ :=
    receive_run_sample S fd l0 l1 l2 l3 _ hread
      (fun j h1 h2 => hlim j h1 (by omega)) hnb hlen
  have hla : ¬ (S.flag_reg &&& FLAG_RLE ≠ 0 ∧ l0 &&& 0x80 ≠ 0
      ∧ S.last_sample.getD 0 0 &&& 0x80 = 0) := fun h => h.2.1 hl
  obtain ⟨busa, lasta, alloca⟩ := lita hla
  have hlima : ∀ j : Int, 1 ≤ j → j ≤ 8 →
      within_limit (i32 (Sa.num_transfers + j)) Sa.limit_samples := by
    rw [ta, la]
    exact within_limit_shift _ _ 4 8 hlim (by decide)
  obtain ⟨Sb, rb, readb, tb, nb, sb, fb, lb, cntb, -⟩ :=
    receive_run_sample Sa fd c0 c1 c2 c3 _ reada
      (fun j h1 h2 => hlima j h1 (by omega)) na (by rw [sa]; rfl)
  obtain ⟨busb, lastb, allocb⟩ := cntb ⟨by rw [fa]; exact hrle, hc, by rw [lasta]; exact hl⟩
  obtain ⟨Sc, rc, readc, tc, nc, sc, fc, lc, cntc, -⟩ :=
    receive_run_sample Sb fd d0 d1 d2 d3 rest readb
      (by rw [tb, lb]; exact within_limit_shift _ _ 4 4 hlima (by decide)) nb
      (by rw [sb]; rfl)
  obtain ⟨busc, lastc, allocc⟩ := cntc ⟨by rw [fb, fa]; exact hrle, hd,
    by rw [lastb, lasta]; exact hl⟩
  refine ⟨Sc, ?_, ?_, ec2, ed2, rle_copies_length d0 l0 l1 l2 l3, ?_, ?_, by omega, by omega⟩
  · rw [ra 8, rb 4, rc 0]
    rfl
  · rw [busc, busb, busa, lastb, lasta, ec1, ed1, List.append_assoc, List.append_assoc]
    rfl
  · rw [lastc, lastb, lasta]
  · rw [allocc, allocb, alloca, ec1, ed1, List.append_assoc]
    rfl

theorem receive_data_two_counts_witness :
    ∃ S1,
      receive_run 3 12 (rle_state [1, 2, 3, 4, 0x80, 0, 0, 0x80, 0x80, 0, 0, 0x80])
        = some S1 ∧
      S1.bus = (rle_state [1, 2, 3, 4, 0x80, 0, 0, 0x80, 0x80, 0, 0, 0x80]).bus
        ++ [Packet.DF_LOGIC32 4 [1, 2, 3, 4],
          Packet.DF_LOGIC32 (4 * 0x80) (rle_copies 0x80 [1, 2, 3, 4]),
          Packet.DF_LOGIC32 (4 * 0x80) (rle_copies 0x80 [1, 2, 3, 4])] ∧
      128 ≤ 0x80 ∧ 128 ≤ 0x80 ∧
      (rle_copies 0x80 [1, 2, 3, 4]).length = 4 * 0x80 ∧
      S1.last_sample = [1, 2, 3, 4] ∧
      S1.allocations
        = (rle_state [1, 2, 3, 4, 0x80, 0, 0, 0x80, 0x80, 0, 0, 0x80]).allocations
          ++ [(0x80, 4 * 0x80), (0x80, 4 * 0x80)] ∧
      0x80 < 4 * 0x80 ∧ 0x80 < 4 * 0x80 :=
  receive_data_two_counts (rle_state [1, 2, 3, 4, 0x80, 0, 0, 0x80, 0x80, 0, 0, 0x80]) 3
    1 2 3 4 0x80 0 0 0x80 0x80 0 0 0x80 [] rfl
    (fun j h1 h2 => by
      have e : (rle_state [1, 2, 3, 4, 0x80, 0, 0, 0x80, 0x80, 0, 0, 0x80]).num_transfers
          = 0 := rfl
      have l : (rle_state [1, 2, 3, 4, 0x80, 0, 0, 0x80, 0x80, 0, 0, 0x80]).limit_samples
          = 1000 := rfl
      rw [e, l, Int.zero_add, i32_of_range j (by omega) (by omega),
        within_limit_of_range j 1000 (by omega) (by omega)]
      omega)
    rfl rfl (by decide) (by decide) (by decide) (by decide) (by decide) (by decide)

/-- With RLE enabled, on the stream of a literal sample 01 02 03 04 followed by
the two count samples 80 00 00 80 and 80 00 00 80, the bus receives the literal,
the 128 copies made for the first count sample, and then 128 more copies of the
same literal made for the second count sample; each time 512 bytes are written
from the start of a buffer of 128 bytes. -/
theorem receive_data_second_count_expands :
    (receive_run 3 12
        (rle_state [1, 2, 3, 4, 0x80, 0, 0, 0x80, 0x80, 0, 0, 0x80])).map
        (fun S => (S.bus, S.allocations))
      = some ([Packet.DF_LOGIC32 4 [1, 2, 3, 4],
          Packet.DF_LOGIC32 512 (rle_copies 128 [1, 2, 3, 4]),
          Packet.DF_LOGIC32 512 (rle_copies 128 [1, 2, 3, 4])],
          [(128, 512), (128, 512)]) := by
  set_option maxRecDepth 100000 in decide

end Ols

namespace Sigrok

/-! ## Probe configuration on both devices -/

/-- C19: on both devices, when `configure_probes` succeeds, a bit of the compiled
trigger mask (8-channel device) or of the trigger mask of any stage (32-channel
device) is set only if some probe of the list is mapped to that bit (its
`probe_bit` has the bit) and has a trigger string reaching that stage (a non-empty
one on the 8-channel device, where the probe must also be enabled); the same holds
of the pattern and value bits. A channel no such probe maps to is 0 in both. -/
theorem configure_probes_mask_only_triggered :
    (∀ (dev : La8.la8) (probes : List (Option La8.sr_probe)) (dev1 : La8.la8) (b : Nat),
      La8.configure_probes dev probes = (La8.SR_OK, dev1) →
        ((dev1.trigger_mask.testBit b = true ∨ dev1.trigger_pattern.testBit b = true) →
          ∃ p, some p ∈ probes ∧ p.enabled = true ∧ ∃ t, p.trigger = some t ∧ t ≠ [] ∧
            (shl_one (p.index - 1) % 256).testBit b = true) ∧
        ((¬ ∃ p, some p ∈ probes ∧ p.enabled = true ∧ ∃ t, p.trigger = some t ∧ t ≠ [] ∧
            (shl_one (p.index - 1) % 256).testBit b = true) →
          dev1.trigger_mask.testBit b = false ∧ dev1.trigger_pattern.testBit b = false)) ∧
    (∀ (S : Ols.State) (probes : List Ols.probe) (S1 : Ols.State) (stage b : Nat),
      Ols.configure_probes S probes = (Ols.SIGROK_OK, S1) →
        (((S1.trigger_mask.getD stage 0).testBit b = true ∨
            (S1.trigger_value.getD stage 0).testBit b = true) →
          ∃ p, p ∈ probes ∧ ∃ t, p.trigger = some t ∧ stage < t.length ∧
            (shl_one (p.index - 1)).testBit b = true) ∧
        ((¬ ∃ p, p ∈ probes ∧ ∃ t, p.trigger = some t ∧ stage < t.length ∧
            (shl_one (p.index - 1)).testBit b = true) →
          (S1.trigger_mask.getD stage 0).testBit b = false ∧
            (S1.trigger_value.getD stage 0).testBit b = false)) := by
  have zero_bit : ∀ b : Nat, ¬ ((0 : Nat).testBit b = true) := by
    intro b
    simp
  have zeros_bit : ∀ s b : Nat, ¬ ((([0, 0, 0, 0] : List Nat).getD s 0).testBit b = true) := by
    intro s b
    have : ([0, 0, 0, 0] : List Nat).getD s 0 = 0 := by
      match s with
      | 0 => rfl
      | 1 => rfl
      | 2 => rfl
      | 3 => rfl
      | _ + 4 => rfl
    rw [this]
    exact zero_bit b
  constructor
  · intro dev probes dev1 b h
    have hl := La8.configure_probes_loop_bits b probes (0, 0)
    have hm : dev1.trigger_mask = (La8.configure_probes_loop probes (0, 0)).2.1 := by
      have := congrArg (fun r => r.2.trigger_mask) h
      simpa only [La8.configure_probes] using this.symm
    have hp : dev1.trigger_pattern = (La8.configure_probes_loop probes (0, 0)).2.2 := by
      have := congrArg (fun r => r.2.trigger_pattern) h
      simpa only [La8.configure_probes] using this.symm
    rw [hm, hp]
    have key : ((La8.configure_probes_loop probes (0, 0)).2.1.testBit b = true ∨
        (La8.configure_probes_loop probes (0, 0)).2.2.testBit b = true) →
        ∃ p, some p ∈ probes ∧ p.enabled = true ∧ ∃ t, p.trigger = some t ∧ t ≠ [] ∧
          (shl_one (p.index - 1) % 256).testBit b = true := by
      intro h1
      rcases h1 with h1 | h1
      · exact (hl.1 h1).resolve_left (zero_bit b)
      · exact (hl.2 h1).resolve_left (zero_bit b)
    refine ⟨key, fun hn => ⟨?_, ?_⟩⟩
    · exact Bool.eq_false_iff.2 (fun h1 => hn (key (Or.inl h1)))
    · exact Bool.eq_false_iff.2 (fun h1 => hn (key (Or.inr h1)))
  · intro S probes S1 stage b h
    have hl := Ols.configure_probes_loop_stage_bits b stage probes
      (0, ([0, 0, 0, 0], [0, 0, 0, 0]))
    have hm : S1.trigger_mask
        = (Ols.configure_probes_loop probes (0, ([0, 0, 0, 0], [0, 0, 0, 0]))).2.2.1 := by
      have := congrArg (fun r => r.2.trigger_mask) h
      simp only [Ols.configure_probes] at this
      split at this <;> exact this.symm
    have hv : S1.trigger_value
        = (Ols.configure_probes_loop probes (0, ([0, 0, 0, 0], [0, 0, 0, 0]))).2.2.2 := by
      have := congrArg (fun r => r.2.trigger_value) h
      simp only [Ols.configure_probes] at this
      split at this <;> exact this.symm
    rw [hm, hv]
    have key : (((Ols.configure_probes_loop probes
          (0, ([0, 0, 0, 0], [0, 0, 0, 0]))).2.2.1.getD stage 0).testBit b = true ∨
        ((Ols.configure_probes_loop probes
          (0, ([0, 0, 0, 0], [0, 0, 0, 0]))).2.2.2.getD stage 0).testBit b = true) →
        ∃ p, p ∈ probes ∧ ∃ t, p.trigger = some t ∧ stage < t.length ∧
          (shl_one (p.index - 1)).testBit b = true := by
      intro h1
      rcases h1 with h1 | h1
      · exact (hl.1 h1).resolve_left (zeros_bit stage b)
      · exact (hl.2 h1).resolve_left (zeros_bit stage b)
    refine ⟨key, fun hn => ⟨?_, ?_⟩⟩
    · exact Bool.eq_false_iff.2 (fun h1 => hn (key (Or.inl h1)))
    · exact Bool.eq_false_iff.2 (fun h1 => hn (key (Or.inr h1)))

theorem configure_probes_mask_only_triggered_witness :
    ((La8.configure_probes La8.witness_dev
        [some ⟨1, true, some ['1']⟩, some ⟨2, false, some ['1']⟩]).1 = La8.SR_OK ∧
      ((La8.configure_probes La8.witness_dev
        [some ⟨1, true, some ['1']⟩, some ⟨2, false, some ['1']⟩]).2.trigger_mask.testBit 1
          = false ∧
       (La8.configure_probes La8.witness_dev
        [some ⟨1, true, some ['1']⟩, some ⟨2, false, some ['1']⟩]).2.trigger_pattern.testBit 1
          = false)) ∧
    ((Ols.configure_probes Ols.State.init [⟨1, true, some ['1', '0']⟩, ⟨2, true, none⟩]).1
        = Ols.SIGROK_OK ∧
      ∃ p : Ols.probe, p ∈ [⟨1, true, some ['1', '0']⟩, ⟨2, true, none⟩] ∧
        ∃ t, p.trigger = some t ∧ 1 < t.length ∧ (shl_one (p.index - 1)).testBit 0 = true) :=
  ⟨⟨rfl, (configure_probes_mask_only_triggered.1 La8.witness_dev
      [some ⟨1, true, some ['1']⟩, some ⟨2, false, some ['1']⟩] _ 1 rfl).2
      (by
        rintro ⟨p, hp, hen, t, ht, hne, hb⟩
        simp only [List.mem_cons, Option.some.injEq, List.mem_singleton, List.not_mem_nil,
          or_false] at hp
        rcases hp with e | e
        · rw [e] at hb
          exact absurd hb (by decide)
        · rw [e] at hen
          exact absurd hen (by decide))⟩,
   ⟨rfl, (configure_probes_mask_only_triggered.2 Ols.State.init
      [⟨1, true, some ['1', '0']⟩, ⟨2, true, none⟩] _ 1 0 rfl).1 (Or.inl (by decide))⟩⟩

/-- C20, counterexample: on an Active 32-channel device, ProbeConfig with a probe
list whose only probe (index 1, enabled) has the trigger string "x" succeeds. -/
theorem ols_probe_config_accepts_bad_char :
    (Ols.hw_set_configuration (Ols.active_state 0 0 0 [] []) 0 Capability.ProbeConfig
        { as_u64 := 0, as_probes := [⟨1, true, some ['x']⟩], as_strtoull := 0,
          as_strtol := 0 }).map Prod.fst = some Ols.SIGROK_OK := by
  decide

/-- C20 (amended): on the 8-channel device, ProbeConfig fails for every probe list
in which some enabled probe has a trigger string with a character other than 0
and 1. The 32-channel device does not check the characters: ProbeConfig there
gives the same result and the same state as on the list in which every trigger
character other than 1 is replaced by 0. -/
theorem probe_config_bad_trigger_char :
    (∀ (S : La8.State) (device_index : Int) (value : La8.ConfigValue),
      (∃ p, some p ∈ value.as_probes ∧ p.enabled = true ∧
        ∃ t, p.trigger = some t ∧ ∃ c, c ∈ t ∧ c ≠ '0' ∧ c ≠ '1') →
      (La8.hw_set_configuration S device_index Capability.ProbeConfig value).1
        = La8.SR_ERR) ∧
    (∀ (S : Ols.State) (device_index : Int) (value : Ols.ConfigValue),
      Ols.hw_set_configuration S device_index Capability.ProbeConfig
          { value with as_probes := value.as_probes.map Ols.read_probe }
        = Ols.hw_set_configuration S device_index Capability.ProbeConfig value) := by
  constructor
  · intro S device_index value h
    have hbad := La8.configure_probes_loop_bad value.as_probes (0, 0) h
    unfold La8.hw_set_configuration
    cases La8.sr_get_device_instance S.device_instances device_index with
    | none => rfl
    | some p =>
      simp only []
      cases S.device_instances[p]? with
      | none => rfl
      | some sdi =>
        simp only []
        cases sdi.priv with
        | none => rfl
        | some dev =>
          simp only []
          have h1 : (La8.configure_probes dev value.as_probes).1 = La8.SR_ERR := hbad
          have h2 : (La8.configure_probes dev value.as_probes).1 ≠ La8.SR_OK := by
            rw [h1]
            decide
          rw [if_pos h2]
  · intro S device_index value
    simp only [Ols.hw_set_configuration, Ols.configure_probes_read]

theorem probe_config_bad_trigger_char_witness :
    (La8.hw_set_configuration (La8.witness_state La8.witness_dev [] [] []) 0
        Capability.ProbeConfig
        { as_u64 := 0, as_probes := [some ⟨1, true, some ['0', 'x']⟩] }).1 = La8.SR_ERR :=
  probe_config_bad_trigger_char.1 (La8.witness_state La8.witness_dev [] [] []) 0
    { as_u64 := 0, as_probes := [some ⟨1, true, some ['0', 'x']⟩] }
    ⟨⟨1, true, some ['0', 'x']⟩, List.mem_cons_self _ _, rfl, ['0', 'x'], rfl, 'x',
      by decide, by decide, by decide⟩

end Sigrok

namespace La8

/-! ## Probe configuration and rejected settings -/

theorem configure_probes_trigger_ok_iff (probe_bit : Nat) :
    ∀ (t : List Char) (mp : Nat × Nat),
      ((configure_probes_trigger probe_bit t mp).1 = SR_OK ↔ ∀ c ∈ t, c = '0' ∨ c = '1') ∧
      ((configure_probes_trigger probe_bit t mp).1 = SR_OK ∨
        (configure_probes_trigger probe_bit t mp).1 = SR_ERR)
  | [], mp => by simp [configure_probes_trigger]
  | tc :: rest, mp => by
    have ih := configure_probes_trigger_ok_iff probe_bit rest
    simp only [configure_probes_trigger]
    by_cases hc : tc ≠ '0' ∧ tc ≠ '1'
    · rw [if_pos hc]
      have hne : SR_ERR ≠ SR_OK := by decide
      refine ⟨⟨fun h => absurd h hne, fun h => ?_⟩, Or.inr rfl⟩
      rcases h tc (List.mem_cons_self _ _) with e | e
      · exact absurd e hc.1
      · exact absurd e hc.2
    · rw [if_neg hc]
      have hc1 : tc = '0' ∨ tc = '1' := by
        by_cases h0 : tc = '0'
        · exact Or.inl h0
        · by_cases h1 : tc = '1'
          · exact Or.inr h1
          · exact absurd ⟨h0, h1⟩ hc
      refine ⟨?_, (ih _).2⟩
      rw [(ih _).1]
      constructor
      · intro h c hmem
        rcases List.mem_cons.1 hmem with e | e
        · rw [e]
          exact hc1
        · exact h c e
      · intro h c hmem
        exact h c (List.mem_cons_of_mem _ hmem)

theorem configure_probes_loop_ok_iff :
    ∀ (probes : List sr_probe) (mp : Nat × Nat),
      (configure_probes_loop (probes.map some) mp).1 = SR_OK ↔
        ∀ p ∈ probes, p.enabled = true → ∀ t, p.trigger = some t →
          (0 ≤ p.index ∧ p.index ≤ 7) ∧ ∀ c ∈ t, c = '0' ∨ c = '1'
  | [], mp => by simp [configure_probes_loop]
  | q :: rest, mp => by
    have ih := configure_probes_loop_ok_iff rest
    have tail : (∀ p ∈ rest, p.enabled = true → ∀ t, p.trigger = some t →
          (0 ≤ p.index ∧ p.index ≤ 7) ∧ ∀ c ∈ t, c = '0' ∨ c = '1') →
        (∀ t, q.enabled = true → q.trigger = some t →
          (0 ≤ q.index ∧ q.index ≤ 7) ∧ ∀ c ∈ t, c = '0' ∨ c = '1') →
        ∀ p ∈ q :: rest, p.enabled = true → ∀ t, p.trigger = some t →
          (0 ≤ p.index ∧ p.index ≤ 7) ∧ ∀ c ∈ t, c = '0' ∨ c = '1' := by
      intro h1 h2 p hp hen t ht
      rcases List.mem_cons.1 hp with e | e
      · rw [e] at hen ht ⊢
        exact h2 t hen ht
      · exact h1 p e hen t ht
    have drop : (∀ p ∈ q :: rest, p.enabled = true → ∀ t, p.trigger = some t →
          (0 ≤ p.index ∧ p.index ≤ 7) ∧ ∀ c ∈ t, c = '0' ∨ c = '1') →
        ∀ p ∈ rest, p.enabled = true → ∀ t, p.trigger = some t →
          (0 ≤ p.index ∧ p.index ≤ 7) ∧ ∀ c ∈ t, c = '0' ∨ c = '1' :=
      fun h p hp => h p (List.mem_cons_of_mem _ hp)
    simp only [List.map_cons, configure_probes_loop]
    by_cases hen : q.enabled = false
    · rw [if_pos hen, ih]
      refine ⟨fun h => tail h (fun t h1 => ?_), drop⟩
      rw [hen] at h1
      exact absurd h1 (by decide)
    · rw [if_neg hen]
      have hen1 : q.enabled = true := by simpa using hen
      cases htr : q.trigger with
      | none =>
        simp only []
        rw [ih]
        refine ⟨fun h => tail h (fun t _ h1 => ?_), drop⟩
        rw [htr] at h1
        exact absurd h1 (by simp)
      | some trigger =>
        simp only []
        by_cases hidx : q.index < 0 ∨ q.index > 7
        · rw [if_pos hidx]
          have hne : SR_ERR ≠ SR_OK := by decide
          refine ⟨fun h => absurd h hne, fun h => ?_⟩
          have := (h q (List.mem_cons_self _ _) hen1 trigger htr).1
          omega
        · rw [if_neg hidx]
          have ht := configure_probes_trigger_ok_iff (Sigrok.shl_one (q.index - 1) % 256)
            trigger mp
          rcases hr : configure_probes_trigger (Sigrok.shl_one (q.index - 1) % 256) trigger mp
            with ⟨ret, mp1⟩
          rw [hr] at ht
          by_cases hret : ret ≠ SR_OK
          · rw [if_pos hret]
            have hne : SR_ERR ≠ SR_OK := by decide
            refine ⟨fun h => absurd h hne, fun h => ?_⟩
            exact absurd (ht.1.2 (h q (List.mem_cons_self _ _) hen1 trigger htr).2) hret
          · rw [if_neg hret, ih]
            have hok : ret = SR_OK := not_not.1 hret
            refine ⟨fun h => tail h (fun t _ h1 => ?_), drop⟩
            rw [htr] at h1
            have e : trigger = t := Option.some.inj h1
            rw [← e]
            exact ⟨by omega, ht.1.1 hok⟩

/-- C21, what the code does: on a probe list without NULL entries,
`configure_probes` succeeds iff every enabled probe with a trigger has an index
from 0 to 7 and only the characters 0 and 1 in its trigger. ProbeConfig with
the enabled probe of index 8 and trigger "1" is rejected, and with the enabled
probe of index 0 and trigger "1" it is accepted, although the bit a probe
stands for is `1 << (index - 1)`. -/
theorem configure_probes_index_range :
    (∀ (dev : la8) (probes : List sr_probe),
      (configure_probes dev (probes.map some)).1 = SR_OK ↔
        ∀ p ∈ probes, p.enabled = true → ∀ t, p.trigger = some t →
          (0 ≤ p.index ∧ p.index ≤ 7) ∧ ∀ c ∈ t, c = '0' ∨ c = '1') ∧
    (hw_set_configuration (witness_state witness_dev [] [] []) 0
        Sigrok.Capability.ProbeConfig
        { as_u64 := 0, as_probes := [some ⟨8, true, some ['1']⟩] }).1 = SR_ERR ∧
    (hw_set_configuration (witness_state witness_dev [] [] []) 0
        Sigrok.Capability.ProbeConfig
        { as_u64 := 0, as_probes := [some ⟨0, true, some ['1']⟩] }).1 = SR_OK := by
  refine ⟨fun dev probes => ?_, by decide, by decide⟩
  exact configure_probes_loop_ok_iff probes (0, 0)

theorem set_samplerate_err_frame (S : State) (sdi : Option Nat) (samplerate : Nat)
    (h : (set_samplerate S sdi samplerate).1 = SR_ERR) :
    (set_samplerate S sdi samplerate).2.device_instances = S.device_instances := by
  unfold set_samplerate at h ⊢
  cases sdi with
  | none => rfl
  | some p =>
    simp only [] at h ⊢
    cases hsdi : S.device_instances[p]? with
    | none => rfl
    | some inst =>
      simp only [hsdi] at h ⊢
      cases hpriv : inst.priv with
      | none => rfl
      | some dev =>
        simp only [hpriv] at h ⊢
        by_cases hv : (is_valid_samplerate
            (fill_supported_samplerates_if_needed S.supported_samplerates) samplerate).1 = false
        · rw [if_pos hv]
        · rw [if_neg hv] at h
          have hne : SR_OK ≠ SR_ERR := by decide
          exact absurd h hne

/-- C23, what the code does: when `hw_set_configuration` rejects a value of any
capability other than ProbeConfig, the device instances, and with them
`cur_samplerate`, `period_ps`, `limit_msec`, `limit_samples`, `trigger_mask` and
`trigger_pattern`, are unchanged. A rejected ProbeConfig changes the trigger: on
a device with mask 0xFF and pattern 0x00, the list with the enabled probe of
index 1 and trigger "x" is rejected and leaves mask 0x01 and pattern 0x00. -/
theorem hw_set_configuration_rejected_state :
    (∀ (S : State) (device_index : Int) (capability : Sigrok.Capability)
        (value : ConfigValue), capability ≠ Sigrok.Capability.ProbeConfig →
      (hw_set_configuration S device_index capability value).1 ≠ SR_OK →
      (hw_set_configuration S device_index capability value).2.device_instances
        = S.device_instances) ∧
    ((hw_set_configuration (witness_state witness_dev_trigger [] [] []) 0
        Sigrok.Capability.ProbeConfig
        { as_u64 := 0, as_probes := [some ⟨1, true, some ['x']⟩] }).1 = SR_ERR ∧
      (witness_state witness_dev_trigger [] [] []).device_instances.map
          (fun sdi => sdi.priv.map (fun dev => (dev.trigger_mask, dev.trigger_pattern)))
        = [some (0xff, 0x00)] ∧
      (hw_set_configuration (witness_state witness_dev_trigger [] [] []) 0
        Sigrok.Capability.ProbeConfig
        { as_u64 := 0, as_probes := [some ⟨1, true, some ['x']⟩] }).2.device_instances.map
          (fun sdi => sdi.priv.map (fun dev => (dev.trigger_mask, dev.trigger_pattern)))
        = [some (0x01, 0x00)]) := by
  refine ⟨?_, by decide, by decide, by decide⟩
  intro S device_index capability value hcap hrej
  unfold hw_set_configuration at hrej ⊢
  cases hlook : sr_get_device_instance S.device_instances device_index with
  | none => rfl
  | some p =>
    simp only [hlook] at hrej ⊢
    cases hsdi : S.device_instances[p]? with
    | none => rfl
    | some sdi =>
      simp only [hsdi] at hrej ⊢
      cases hpriv : sdi.priv with
      | none => rfl
      | some dev =>
        simp only [hpriv] at hrej ⊢
        cases capability with
        | Samplerate =>
          simp only [] at hrej ⊢
          by_cases he : (set_samplerate S (some p) value.as_u64).1 = SR_ERR
          · rw [if_pos he]
            exact set_samplerate_err_frame S (some p) value.as_u64 he
          · rw [if_neg he] at hrej
            exact absurd rfl hrej
        | ProbeConfig => exact absurd rfl hcap
        | LimitMsec =>
          simp only [] at hrej ⊢
          by_cases he : value.as_u64 = 0
          · rw [if_pos he]
          · rw [if_neg he] at hrej
            exact absurd rfl hrej
        | LimitSamples =>
          simp only [] at hrej ⊢
          by_cases he : value.as_u64 < MIN_NUM_SAMPLES
          · rw [if_pos he]
          · rw [if_neg he] at hrej
            exact absurd rfl hrej
        | LogicAnalyzer => rfl
        | CaptureRatio => rfl
        | CaptureFile => rfl
        | CaptureUnitsize => rfl
        | CaptureNumProbes => rfl
        | other id => rfl

end La8

namespace Ols

/-! ## Trigger stages -/

theorem configure_probes_trigger_ok_length (probe_bit : Nat) :
    ∀ (t : List Char) (stage : Nat) (mv : List Nat × List Nat),
      ((configure_probes_trigger probe_bit t stage mv).1 = SIGROK_OK ↔
        (t = [] ∨ stage + t.length ≤ 3)) ∧
      ((configure_probes_trigger probe_bit t stage mv).1 = SIGROK_OK ∨
        (configure_probes_trigger probe_bit t stage mv).1 = SIGROK_NOK)
  | [], stage, mv => by simp [configure_probes_trigger]
  | tc :: rest, stage, mv => by
    have ih := configure_probes_trigger_ok_length probe_bit rest (stage + 1)
    have hne : SIGROK_NOK ≠ SIGROK_OK := by decide
    simp only [configure_probes_trigger]
    by_cases hst : stage + 1 > 3
    · rw [if_pos hst]
      refine ⟨⟨fun h => absurd h hne, fun h => ?_⟩, Or.inr rfl⟩
      rcases h with h | h
      · exact absurd h (by simp)
      · simp only [List.length_cons] at h
        omega
    · rw [if_neg hst]
      refine ⟨?_, (ih _).2⟩
      rw [(ih _).1]
      simp only [List.length_cons, reduceCtorEq, false_or]
      constructor
      · intro h
        rcases h with h | h
        · rw [h]
          simp only [List.length_nil]
          omega
        · omega
      · intro h
        right
        omega

theorem configure_probes_loop_ok_length :
    ∀ (probes : List probe) (st : Nat × (List Nat × List Nat)),
      ((configure_probes_loop probes st).1 = SIGROK_OK ↔
        ∀ p ∈ probes, ∀ t, p.trigger = some t → t.length ≤ 3) ∧
      ((configure_probes_loop probes st).1 = SIGROK_OK ∨
        (configure_probes_loop probes st).1 = SIGROK_NOK)
  | [], st => by simp [configure_probes_loop]
  | q :: rest, st => by
    have ih := configure_probes_loop_ok_length rest
    have hne : SIGROK_NOK ≠ SIGROK_OK := by decide
    simp only [configure_probes_loop]
    cases htr : q.trigger with
    | none =>
      simp only []
      refine ⟨?_, (ih _).2⟩
      rw [(ih _).1]
      constructor
      · intro h p hp t ht
        rcases List.mem_cons.1 hp with e | e
        · rw [e, htr] at ht
          exact absurd ht (by simp)
        · exact h p e t ht
      · intro h p hp
        exact h p (List.mem_cons_of_mem _ hp)
    | some trigger =>
      simp only []
      have ht := configure_probes_trigger_ok_length (Sigrok.shl_one (q.index - 1)) trigger 0
        st.2
      rcases hr : configure_probes_trigger (Sigrok.shl_one (q.index - 1)) trigger 0 st.2
        with ⟨ret, mv⟩
      rw [hr] at ht
      have hlen : ret = SIGROK_OK ↔ trigger.length ≤ 3 := by
        have := ht.1
        simp only [Nat.zero_add] at this
        rw [this]
        constructor
        · intro h
          rcases h with h | h
          · rw [h]
            simp
          · exact h
        · exact Or.inr
      by_cases hret : ret ≠ SIGROK_OK
      · rw [if_pos hret]
        refine ⟨⟨fun h => absurd h hne, fun h => ?_⟩, Or.inr rfl⟩
        exact absurd (hlen.2 (h q (List.mem_cons_self _ _) trigger htr)) hret
      · rw [if_neg hret]
        have hok : ret = SIGROK_OK := not_not.1 hret
        refine ⟨?_, (ih _).2⟩
        rw [(ih _).1]
        constructor
        · intro h p hp t hpt
          rcases List.mem_cons.1 hp with e | e
          · rw [e, htr] at hpt
            rw [← Option.some.inj hpt]
            exact hlen.1 hok
          · exact h p e t hpt
        · intro h p hp
          exact h p (List.mem_cons_of_mem _ hp)

theorem configure_probes_ok_length (S : State) (probes : List probe) :
    (configure_probes S probes).1 = SIGROK_OK ↔
      ∀ p ∈ probes, ∀ t, p.trigger = some t → t.length ≤ 3 := by
  rw [← (configure_probes_loop_ok_length probes (0, ([0, 0, 0, 0], [0, 0, 0, 0]))).1]
  unfold configure_probes
  by_cases h : (configure_probes_loop probes (0, ([0, 0, 0, 0], [0, 0, 0, 0]))).1 ≠ SIGROK_OK
  · simp only []
    rw [if_pos h]
    have hne : SIGROK_NOK ≠ SIGROK_OK := by decide
    exact ⟨fun e => absurd e hne, fun e => absurd e h⟩
  · simp only []
    rw [if_neg h]
    exact ⟨fun _ => not_not.1 h, fun _ => rfl⟩

/-- C22, what the code does: `configure_probes` succeeds iff every trigger
string of the probe list has at most 3 characters; on an Active device
ProbeConfig with a probe whose trigger is the 4-character string "0101" fails,
and with the 3-character string "010" it succeeds. -/
theorem configure_probes_stage_limit :
    (∀ (S : State) (probes : List probe),
      (configure_probes S probes).1 = SIGROK_OK ↔
        ∀ p ∈ probes, ∀ t, p.trigger = some t → t.length ≤ 3) ∧
    (hw_set_configuration (active_state 0 0 0 [] []) 0 Sigrok.Capability.ProbeConfig
        { as_u64 := 0, as_probes := [⟨1, true, some ['0', '1', '0', '1']⟩], as_strtoull := 0,
          as_strtol := 0 }).map Prod.fst = some SIGROK_NOK ∧
    (hw_set_configuration (active_state 0 0 0 [] []) 0 Sigrok.Capability.ProbeConfig
        { as_u64 := 0, as_probes := [⟨1, true, some ['0', '1', '0']⟩], as_strtoull := 0,
          as_strtol := 0 }).map Prod.fst = some SIGROK_OK :=
  ⟨configure_probes_ok_length, by decide, by decide⟩

/-! ## Short writes and command order at the start of the acquisition -/

theorem hw_start_acquisition_short_write (S : State) (device_index : Int)
    (sdi : sigrok_device_instance) (j : Nat) (w : Int) (ws : List Int)
    (hlook : get_sigrok_device_instance S.device_instances device_index = some sdi)
    (hactive : sdi.status = Sigrok.Status.ST_ACTIVE)
    (hj : j < 6) (hw : S.write_results = List.replicate j 5 ++ w :: ws) (hw5 : w ≠ 5) :
    ∃ S1 cs, hw_start_acquisition S device_index = some (SIGROK_NOK, S1) ∧
      S1.bus = S.bus ∧ S1.sources = S.sources ∧
      S1.commands = S.commands ++ cs ∧ ∀ c ∈ cs, c.1 ≠ CMD_RUN := by
  interval_cases j
  all_goals
    simp only [List.replicate, List.nil_append, List.cons_append] at hw
    simp [hw_start_acquisition, hlook, hactive, do_longcommand, hw, hw5, send_longcommand,
      SIGROK_OK, SIGROK_NOK, CMD_RUN, CMD_RESET, CMD_SET_FLAGS, CMD_CAPTURE_SIZE,
      CMD_SET_TRIGGER_MASK_0, CMD_SET_TRIGGER_VALUE_0, CMD_SET_TRIGGER_CONFIG_0]
    try
      intro a b h ha
      subst ha
      simp at h

theorem hw_start_acquisition_divider_ignored (S : State) (device_index : Int)
    (sdi : sigrok_device_instance) (w : Int) (ws : List Int)
    (hlook : get_sigrok_device_instance S.device_instances device_index = some sdi)
    (hactive : sdi.status = Sigrok.Status.ST_ACTIVE)
    (hw : S.write_results = 5 :: 5 :: 5 :: 5 :: 5 :: 5 :: w :: 1 :: ws)
    (hr : 1 ≤ S.cur_samplerate ∧ S.cur_samplerate ≤ 200000000) :
    ∃ S1 d, hw_start_acquisition S device_index = some (SIGROK_OK, S1) ∧
      S1.commands = S.commands ++
        [(CMD_RESET, some 0), (CMD_SET_FLAGS, some (u32 (S.flag_reg <<< 24))),
         (CMD_CAPTURE_SIZE, some 0x00190019),
         (CMD_SET_TRIGGER_MASK_0, some (S.trigger_mask.getD 0 0)),
         (CMD_SET_TRIGGER_VALUE_0, some (S.trigger_value.getD 0 0)),
         (CMD_SET_TRIGGER_CONFIG_0, some 8),
         (CMD_SET_DIVIDER, some d),
         (CMD_RUN, none)] ∧
      S1.bus = S.bus ++ [Packet.DF_HEADER 1 S.cur_samplerate NUM_PROBES] ∧
      S1.sources = S.sources ++ [SourceEvent.add sdi.fd (-1)] ∧
      S1.write_results = ws := by
  have hn : ¬ (S.cur_samplerate < samplerates_low ∨ S.cur_samplerate > samplerates_high) := by
    have hlow : samplerates_low = 1 := rfl
    have hhigh : samplerates_high = 200000000 := rfl
    omega
  by_cases hc : S.cur_samplerate > CLOCK_RATE
  · by_cases h5 : w = 5
    · simp [hw_start_acquisition, hlook, hactive, do_longcommand, do_shortcommand, hw,
        send_longcommand, send_shortcommand, set_configuration_samplerate, hn, hc, h5,
        session_bus, SIGROK_OK, SIGROK_NOK]
    · simp [hw_start_acquisition, hlook, hactive, do_longcommand, do_shortcommand, hw,
        send_longcommand, send_shortcommand, set_configuration_samplerate, hn, hc, h5,
        session_bus, SIGROK_OK, SIGROK_NOK]
  · by_cases h5 : w = 5
    · simp [hw_start_acquisition, hlook, hactive, do_longcommand, do_shortcommand, hw,
        send_longcommand, send_shortcommand, set_configuration_samplerate, hn, hc, h5,
        session_bus, SIGROK_OK, SIGROK_NOK]
    · simp [hw_start_acquisition, hlook, hactive, do_longcommand, do_shortcommand, hw,
        send_longcommand, send_shortcommand, set_configuration_samplerate, hn, hc, h5,
        session_bus, SIGROK_OK, SIGROK_NOK]

theorem hw_start_acquisition_no_divider (S : State) (device_index : Int)
    (sdi : sigrok_device_instance) (ws : List Int)
    (hlook : get_sigrok_device_instance S.device_instances device_index = some sdi)
    (hactive : sdi.status = Sigrok.Status.ST_ACTIVE)
    (hw : S.write_results = 5 :: 5 :: 5 :: 5 :: 5 :: 5 :: 1 :: ws)
    (hr : S.cur_samplerate < 1 ∨ S.cur_samplerate > 200000000) :
    ∃ S1, hw_start_acquisition S device_index = some (SIGROK_OK, S1) ∧
      S1.commands = S.commands ++
        [(CMD_RESET, some 0), (CMD_SET_FLAGS, some (u32 (S.flag_reg <<< 24))),
         (CMD_CAPTURE_SIZE, some 0x00190019),
         (CMD_SET_TRIGGER_MASK_0, some (S.trigger_mask.getD 0 0)),
         (CMD_SET_TRIGGER_VALUE_0, some (S.trigger_value.getD 0 0)),
         (CMD_SET_TRIGGER_CONFIG_0, some 8),
         (CMD_RUN, none)] := by
  have hn : S.cur_samplerate < samplerates_low ∨ S.cur_samplerate > samplerates_high := hr
  simp [hw_start_acquisition, hlook, hactive, do_longcommand, do_shortcommand, hw,
    send_longcommand, send_shortcommand, set_configuration_samplerate, hn,
    session_bus, SIGROK_OK, SIGROK_NOK]

/-- C27, what the code does: on an Active device with a samplerate of 1 Hz to
200 MHz, a short write of one of the first six commands (reset, flags, capture
size, trigger mask, value, configuration) makes `hw_start_acquisition` return
the error with no Run command, no source and no packet; a short write of the
divider command is not looked at: the function goes on to send Run, registers
the receive step, emits the Header and reports success. -/
theorem hw_start_acquisition_divider_write (S : State) (device_index : Int)
    (sdi : sigrok_device_instance)
    (hlook : get_sigrok_device_instance S.device_instances device_index = some sdi)
    (hactive : sdi.status = Sigrok.Status.ST_ACTIVE)
    (hr : 1 ≤ S.cur_samplerate ∧ S.cur_samplerate ≤ 200000000) :
    (∀ (j : Nat) (w : Int) (ws : List Int), j < 6 →
      S.write_results = List.replicate j 5 ++ w :: ws → w ≠ 5 →
      ∃ S1 cs, hw_start_acquisition S device_index = some (SIGROK_NOK, S1) ∧
        S1.bus = S.bus ∧ S1.sources = S.sources ∧
        S1.commands = S.commands ++ cs ∧ ∀ c ∈ cs, c.1 ≠ CMD_RUN) ∧
    (∀ (w : Int) (ws : List Int),
      S.write_results = 5 :: 5 :: 5 :: 5 :: 5 :: 5 :: w :: 1 :: ws → w ≠ 5 →
      ∃ S1 d, hw_start_acquisition S device_index = some (SIGROK_OK, S1) ∧
        S1.commands = S.commands ++
          [(CMD_RESET, some 0), (CMD_SET_FLAGS, some (u32 (S.flag_reg <<< 24))),
           (CMD_CAPTURE_SIZE, some 0x00190019),
           (CMD_SET_TRIGGER_MASK_0, some (S.trigger_mask.getD 0 0)),
           (CMD_SET_TRIGGER_VALUE_0, some (S.trigger_value.getD 0 0)),
           (CMD_SET_TRIGGER_CONFIG_0, some 8),
           (CMD_SET_DIVIDER, some d),
           (CMD_RUN, none)] ∧
        S1.bus = S.bus ++ [Packet.DF_HEADER 1 S.cur_samplerate NUM_PROBES] ∧
        S1.sources = S.sources ++ [SourceEvent.add sdi.fd (-1)]) := by
  refine ⟨fun j w ws hj hw hw5 =>
    hw_start_acquisition_short_write S device_index sdi j w ws hlook hactive hj hw hw5, ?_⟩
  intro w ws hw _
  obtain ⟨S1, d, h1, h2, h3, h4, -⟩ :=
    hw_start_acquisition_divider_ignored S device_index sdi w ws hlook hactive hw hr
  exact ⟨S1, d, h1, h2, h3, h4⟩

theorem hw_start_acquisition_divider_write_witness :
    ∃ S1 d, hw_start_acquisition (active_state 400 50 1000000 [5, 5, 5, 5, 5, 5, 4, 1] []) 0
        = some (SIGROK_OK, S1) ∧
      S1.commands = (active_state 400 50 1000000 [5, 5, 5, 5, 5, 5, 4, 1] []).commands ++
        [(CMD_RESET, some 0),
         (CMD_SET_FLAGS, some (u32
           ((active_state 400 50 1000000 [5, 5, 5, 5, 5, 5, 4, 1] []).flag_reg <<< 24))),
         (CMD_CAPTURE_SIZE, some 0x00190019),
         (CMD_SET_TRIGGER_MASK_0, some
           ((active_state 400 50 1000000 [5, 5, 5, 5, 5, 5, 4, 1] []).trigger_mask.getD 0 0)),
         (CMD_SET_TRIGGER_VALUE_0, some
           ((active_state 400 50 1000000 [5, 5, 5, 5, 5, 5, 4, 1] []).trigger_value.getD 0 0)),
         (CMD_SET_TRIGGER_CONFIG_0, some 8),
         (CMD_SET_DIVIDER, some d),
         (CMD_RUN, none)] ∧
      S1.bus = (active_state 400 50 1000000 [5, 5, 5, 5, 5, 5, 4, 1] []).bus
        ++ [Packet.DF_HEADER 1
          (active_state 400 50 1000000 [5, 5, 5, 5, 5, 5, 4, 1] []).cur_samplerate NUM_PROBES] ∧
      S1.sources = (active_state 400 50 1000000 [5, 5, 5, 5, 5, 5, 4, 1] []).sources
        ++ [SourceEvent.add active_sdi.fd (-1)] :=
  (hw_start_acquisition_divider_write (active_state 400 50 1000000 [5, 5, 5, 5, 5, 5, 4, 1] [])
    0 active_sdi rfl rfl (by decide)).2 4 [] rfl (by decide)

/-- C28, counterexample: after ProbeConfig with a probe whose trigger "10" uses
two stages (the masks of stages 0 and 1 are set), `hw_start_acquisition` with all
writes succeeding sends the trigger commands of stage 0 only: no command 0xC4,
0xC5 or 0xC6 is sent. -/
theorem hw_start_acquisition_two_stages :
    ((configure_probes (active_state 0 0 1000000 [5, 5, 5, 5, 5, 5, 5, 1] [])
        [⟨1, true, some ['1', '0']⟩]).1 = SIGROK_OK ∧
      (configure_probes (active_state 0 0 1000000 [5, 5, 5, 5, 5, 5, 5, 1] [])
        [⟨1, true, some ['1', '0']⟩]).2.trigger_mask = [1, 1, 0, 0] ∧
      (configure_probes (active_state 0 0 1000000 [5, 5, 5, 5, 5, 5, 5, 1] [])
        [⟨1, true, some ['1', '0']⟩]).2.trigger_value = [1, 0, 0, 0]) ∧
    (hw_start_acquisition
        (configure_probes (active_state 0 0 1000000 [5, 5, 5, 5, 5, 5, 5, 1] [])
          [⟨1, true, some ['1', '0']⟩]).2 0).map (fun r => (r.1, r.2.commands))
      = some (SIGROK_OK,
          [(0x00, some 0), (0x82, some 0x20000000), (0x81, some 0x00190019),
           (0xc0, some 1), (0xc1, some 1), (0xc2, some 8), (0x80, some 25344),
           (0x01, none)]) := by
  set_option maxRecDepth 100000 in decide

/-- C28 (amended): on an Active device with all writes succeeding,
`hw_start_acquisition` issues the commands in the order reset, SetFlags,
CaptureSize, trigger commands, SetDivider, Run, where SetDivider is sent when the
current samplerate lies in 1 Hz to 200 MHz and left out otherwise; the trigger
commands are TriggerMask (0xC0), TriggerValue (0xC1) and TriggerConfig (0xC2) of
stage 0 only, carrying `trigger_mask[0]`, `trigger_value[0]` and the
configuration word 8, however many stages the probe configuration uses. -/
theorem hw_start_acquisition_command_order (S : State) (device_index : Int)
    (sdi : sigrok_device_instance)
    (hlook : get_sigrok_device_instance S.device_instances device_index = some sdi)
    (hactive : sdi.status = Sigrok.Status.ST_ACTIVE) :
    (1 ≤ S.cur_samplerate ∧ S.cur_samplerate ≤ 200000000 →
      ∀ ws, S.write_results = 5 :: 5 :: 5 :: 5 :: 5 :: 5 :: 5 :: 1 :: ws →
      ∃ S1 d, hw_start_acquisition S device_index = some (SIGROK_OK, S1) ∧
        S1.commands = S.commands ++
          [(CMD_RESET, some 0), (CMD_SET_FLAGS, some (u32 (S.flag_reg <<< 24))),
           (CMD_CAPTURE_SIZE, some 0x00190019),
           (0xc0, some (S.trigger_mask.getD 0 0)),
           (0xc1, some (S.trigger_value.getD 0 0)),
           (0xc2, some 8),
           (CMD_SET_DIVIDER, some d),
           (CMD_RUN, none)]) ∧
    (S.cur_samplerate < 1 ∨ S.cur_samplerate > 200000000 →
      ∀ ws, S.write_results = 5 :: 5 :: 5 :: 5 :: 5 :: 5 :: 1 :: ws →
      ∃ S1, hw_start_acquisition S device_index = some (SIGROK_OK, S1) ∧
        S1.commands = S.commands ++
          [(CMD_RESET, some 0), (CMD_SET_FLAGS, some (u32 (S.flag_reg <<< 24))),
           (CMD_CAPTURE_SIZE, some 0x00190019),
           (0xc0, some (S.trigger_mask.getD 0 0)),
           (0xc1, some (S.trigger_value.getD 0 0)),
           (0xc2, some 8),
           (CMD_RUN, none)]) := by
  constructor
  · intro hr ws hw
    obtain ⟨S1, d, h1, h2, -⟩ :=
      hw_start_acquisition_divider_ignored S device_index sdi 5 ws hlook hactive hw hr
    exact ⟨S1, d, h1, h2⟩
  · intro hr ws hw
    exact hw_start_acquisition_no_divider S device_index sdi ws hlook hactive hw hr

theorem hw_start_acquisition_command_order_witness :
    ∃ S1 d, hw_start_acquisition
        (configure_probes (active_state 0 0 1000000 [5, 5, 5, 5, 5, 5, 5, 1] [])
          [⟨1, true, some ['1', '0']⟩]).2 0 = some (SIGROK_OK, S1) ∧
      S1.commands =
        (configure_probes (active_state 0 0 1000000 [5, 5, 5, 5, 5, 5, 5, 1] [])
          [⟨1, true, some ['1', '0']⟩]).2.commands ++
          [(CMD_RESET, some 0),
           (CMD_SET_FLAGS, some (u32
             ((configure_probes (active_state 0 0 1000000 [5, 5, 5, 5, 5, 5, 5, 1] [])
               [⟨1, true, some ['1', '0']⟩]).2.flag_reg <<< 24))),
           (CMD_CAPTURE_SIZE, some 0x00190019),
           (0xc0, some
             ((configure_probes (active_state 0 0 1000000 [5, 5, 5, 5, 5, 5, 5, 1] [])
               [⟨1, true, some ['1', '0']⟩]).2.trigger_mask.getD 0 0)),
           (0xc1, some
             ((configure_probes (active_state 0 0 1000000 [5, 5, 5, 5, 5, 5, 5, 1] [])
               [⟨1, true, some ['1', '0']⟩]).2.trigger_value.getD 0 0)),
           (0xc2, some 8),
           (CMD_SET_DIVIDER, some d),
           (CMD_RUN, none)] :=
  (hw_start_acquisition_command_order
    (configure_probes (active_state 0 0 1000000 [5, 5, 5, 5, 5, 5, 5, 1] [])
      [⟨1, true, some ['1', '0']⟩]).2 0 active_sdi rfl rfl).1 (by decide) [] rfl

end Ols

namespace Session

/-! ## Start of the replay -/

/-- C29, what the code does: when the instance has driver data, the archive and
its entry open and the two allocations succeed, `hw_start_acquisition` returns
success, registers the freewheeling source and emits exactly one Header packet
with feed_version 1, the logic probe count last stored and analog probe count 0,
but with samplerate 0, whatever samplerate is stored in the instance. -/
theorem hw_start_acquisition_header (S : State) (device_index : Int) (p : Nat)
    (vdevice : session_vdevice) (opens : List Bool) (st : Int) (stats : List Int)
    (h : zip_file) (fopens : List (Option zip_file)) (allocs : List Bool)
    (hv : get_vdevice_by_index S device_index = some (p, vdevice))
    (hopen : S.zip_open_results = true :: opens)
    (hstat : S.zip_stat_results = st :: stats) (hst : st ≠ -1)
    (hfopen : S.zip_fopen_results = some h :: fopens)
    (halloc : S.alloc_results = true :: true :: allocs) :
    ∃ S1, hw_start_acquisition S device_index = some (SR_OK, S1) ∧
      S1.bus = S.bus ++ [Packet.SR_DF_HEADER 1 0 vdevice.num_probes 0] ∧
      S1.sources = S.sources ++ [(-1, 0, 0)] := by
  simp [hw_start_acquisition, hv, hopen, hstat, hst, hfopen, halloc, set_priv]

theorem hw_start_acquisition_header_witness :
    ((hw_set_configuration
        (hw_set_configuration (opened_state [true, true] [true] [0] [some [some [1, 2, 3]]])
          0 Sigrok.Capability.Samplerate { as_u64 := 1000000, as_string := none }).2
        0 Sigrok.Capability.CaptureNumProbes
        { as_u64 := 8, as_string := none }).2.device_instances.map
      (fun sdi => sdi.priv.map (fun v => (v.samplerate, v.num_probes)))
      = [some (1000000, 8)]) ∧
    ∃ S1, hw_start_acquisition
        (hw_set_configuration
          (hw_set_configuration (opened_state [true, true] [true] [0] [some [some [1, 2, 3]]])
            0 Sigrok.Capability.Samplerate { as_u64 := 1000000, as_string := none }).2
          0 Sigrok.Capability.CaptureNumProbes { as_u64 := 8, as_string := none }).2 0
        = some (SR_OK, S1) ∧
      S1.bus = (hw_set_configuration
          (hw_set_configuration (opened_state [true, true] [true] [0] [some [some [1, 2, 3]]])
            0 Sigrok.Capability.Samplerate { as_u64 := 1000000, as_string := none }).2
          0 Sigrok.Capability.CaptureNumProbes { as_u64 := 8, as_string := none }).2.bus
        ++ [Packet.SR_DF_HEADER 1 0
          ({ new_vdevice with samplerate := 1000000, num_probes := 8 } :
            session_vdevice).num_probes 0] ∧
      S1.sources = (hw_set_configuration
          (hw_set_configuration (opened_state [true, true] [true] [0] [some [some [1, 2, 3]]])
            0 Sigrok.Capability.Samplerate { as_u64 := 1000000, as_string := none }).2
          0 Sigrok.Capability.CaptureNumProbes { as_u64 := 8, as_string := none }).2.sources
        ++ [(-1, 0, 0)] :=
  ⟨by decide, hw_start_acquisition_header _ 0 0
    { new_vdevice with samplerate := 1000000, num_probes := 8 } [] 0 [] [some [1, 2, 3]] []
    [] rfl rfl rfl (by decide) rfl rfl⟩

/-! ## The feed step -/

theorem zip_fread_bounds (capfile : Option zip_file) :
    (zip_fread capfile CHUNKSIZE).1 ≤ 4096 ∧
    ((zip_fread capfile CHUNKSIZE).1 > 0 →
      ((zip_fread capfile CHUNKSIZE).2.1.length : Int) = (zip_fread capfile CHUNKSIZE).1) := by
  unfold zip_fread
  cases capfile with
  | none => exact ⟨by decide, fun h => absurd h (by decide)⟩
  | some hd =>
    cases hd with
    | nil => exact ⟨by decide, fun h => absurd h (by decide)⟩
    | cons c rest =>
      cases c with
      | none =>
        simp only []
        exact ⟨by decide, fun h => absurd h (by decide)⟩
      | some d =>
        simp only []
        refine ⟨?_, fun _ => trivial⟩
        have : (List.take CHUNKSIZE d).length ≤ 4096 := by
          rw [List.length_take]
          exact Nat.min_le_left _ _
        omega

theorem chunk_conservation (sdi : sr_device_instance) :
    payload (chunk_packet sdi) ++ remaining (chunk_instance sdi) = remaining sdi := by
  unfold chunk_packet chunk_instance
  cases hp : sdi.priv with
  | none =>
    simp only [payload, remaining, hp, List.nil_append]
  | some v =>
    simp only []
    cases hc : v.capfile with
    | none =>
      have h0 : ¬ ((zip_fread none CHUNKSIZE).1 > 0) := by decide
      rw [if_neg h0, if_neg h0]
      simp only [payload, remaining, hp, hc, List.nil_append]
    | some hd =>
      cases hd with
      | nil =>
        have h0 : ¬ ((zip_fread (some []) CHUNKSIZE).1 > 0) := by decide
        rw [if_neg h0, if_neg h0]
        simp only [payload, remaining, hp, hc, entry_contents, List.nil_append]
      | cons c rest =>
        cases c with
        | none =>
          have h0 : ¬ ((zip_fread (some (none :: rest)) CHUNKSIZE).1 > 0) := by
            simp [zip_fread]
          rw [if_neg h0, if_neg h0]
          simp only [payload, remaining, hp, hc, entry_contents, List.nil_append]
        | some d =>
          by_cases hd : (zip_fread (some (some d :: rest)) CHUNKSIZE).1 > 0
          · rw [if_pos hd, if_pos hd]
            have hne : List.take CHUNKSIZE d ≠ [] := by
              intro e
              simp only [zip_fread, e, List.length_nil] at hd
              exact absurd hd (by decide)
            simp only [payload, remaining, hp, hc, entry_contents, zip_fread, if_neg hne]
          · rw [if_neg hd, if_neg hd]
            have he : List.take CHUNKSIZE d = [] := by
              by_contra hne
              apply hd
              simp only [zip_fread]
              have : 0 < (List.take CHUNKSIZE d).length := List.length_pos.2 hne
              omega
            simp only [payload, remaining, hp, hc, entry_contents, if_pos he, List.nil_append]

theorem feed_chunk_loop_spec :
    ∀ (l : List sr_device_instance) (allocs : List Bool) (bus : List Packet) (got : Bool)
      (rest : List Bool),
      allocs = List.replicate (l.countP (fun sdi => sdi.priv.isSome)) true ++ rest →
      feed_chunk_loop l allocs bus got
        = some (true, l.map chunk_instance, rest, bus ++ l.filterMap chunk_packet,
            got || !(l.filterMap chunk_packet).isEmpty)
  | [], allocs, bus, got, rest => by
    intro h
    simp only [List.countP_nil, List.replicate, List.nil_append] at h
    simp [feed_chunk_loop, h]
  | sdi :: l, allocs, bus, got, rest => by
    intro h
    have ih := feed_chunk_loop_spec l
    unfold feed_chunk_loop
    cases hp : sdi.priv with
    | none =>
      have hcnt : (sdi :: l).countP (fun sdi => sdi.priv.isSome)
          = l.countP (fun sdi => sdi.priv.isSome) := by
        simp [List.countP_cons, hp]
      rw [hcnt] at h
      simp only []
      rw [ih allocs bus got rest h]
      simp [chunk_instance, chunk_packet, hp]
    | some v =>
      have hcnt : (sdi :: l).countP (fun sdi => sdi.priv.isSome)
          = l.countP (fun sdi => sdi.priv.isSome) + 1 := by
        simp [List.countP_cons, hp]
      rw [hcnt, List.replicate_succ, List.cons_append] at h
      rw [h]
      simp only []
      by_cases hr : (zip_fread v.capfile CHUNKSIZE).1 > 0
      · rw [if_pos hr]
        rw [ih _ _ true rest rfl]
        simp [chunk_instance, chunk_packet, hp, hr]
      · rw [if_neg hr]
        rw [ih _ bus got rest rfl]
        simp [chunk_instance, chunk_packet, hp, hr]

theorem feed_chunk_spec (S : State) (rest : List Bool)
    (halloc : S.alloc_results
      = List.replicate (S.device_instances.countP (fun sdi => sdi.priv.isSome)) true ++ rest) :
    feed_chunk S = some (true,
      { S with device_instances := S.device_instances.map chunk_instance
               alloc_results := rest
               bus := S.bus ++ step_packets S.device_instances }) := by
  unfold feed_chunk
  rw [feed_chunk_loop_spec S.device_instances S.alloc_results S.bus false rest halloc]
  by_cases he : S.device_instances.filterMap chunk_packet = []
  · simp [step_packets, he]
  · simp [step_packets, he]

theorem feed_run_spec :
    ∀ (n : Nat) (S : State) (m : Nat),
      S.alloc_results = List.replicate m true → n * S.device_instances.length ≤ m →
      ∃ S1, feed_run n S = some S1 ∧
        S1.device_instances = run_instances n S.device_instances ∧
        S1.bus = S.bus ++ run_packets n S.device_instances
  | 0, S, m => by
    intro _ _
    exact ⟨S, rfl, rfl, by simp [run_packets]⟩
  | n + 1, S, m => by
    intro halloc hm
    have hcnt : S.device_instances.countP (fun sdi => sdi.priv.isSome)
        ≤ S.device_instances.length := List.countP_le_length _
    have hlen : (n + 1) * S.device_instances.length
        = n * S.device_instances.length + S.device_instances.length := by
      rw [Nat.add_mul, Nat.one_mul]
    have hsplit : S.alloc_results
        = List.replicate (S.device_instances.countP (fun sdi => sdi.priv.isSome)) true
          ++ List.replicate (m - S.device_instances.countP (fun sdi => sdi.priv.isSome)) true := by
      rw [halloc, ← List.replicate_add]
      congr 1
      omega
    have hstep := feed_chunk_spec S _ hsplit
    obtain ⟨S1, h1, h2, h3⟩ := feed_run_spec n
      { S with device_instances := S.device_instances.map chunk_instance
               alloc_results := List.replicate
                 (m - S.device_instances.countP (fun sdi => sdi.priv.isSome)) true
               bus := S.bus ++ step_packets S.device_instances }
      (m - S.device_instances.countP (fun sdi => sdi.priv.isSome)) rfl
      (by
        show n * (S.device_instances.map chunk_instance).length ≤ _
        rw [List.length_map]
        omega)
    refine ⟨S1, ?_, ?_, ?_⟩
    · simp only [feed_run, hstep]
      exact h1
    · rw [h2]
      rfl
    · rw [h3]
      simp only [run_packets, List.append_assoc]

theorem run_instances_eq :
    ∀ (n : Nat) (l : List sr_device_instance),
      run_instances n l = l.map (fun sdi => (instance_payloads n sdi).2)
  | 0, l => by simp [run_instances, instance_payloads]
  | n + 1, l => by
    rw [run_instances, run_instances_eq n, List.map_map]
    rfl

theorem instance_payloads_conservation :
    ∀ (n : Nat) (sdi : sr_device_instance),
      (instance_payloads n sdi).1 ++ remaining (instance_payloads n sdi).2 = remaining sdi
  | 0, sdi => by simp [instance_payloads]
  | n + 1, sdi => by
    simp only [instance_payloads, List.append_assoc]
    rw [instance_payloads_conservation n (chunk_instance sdi), chunk_conservation]

theorem chunk_packet_none_finished (sdi : sr_device_instance) (h : chunk_packet sdi = none) :
    (chunk_instance sdi).priv = none := by
  unfold chunk_packet at h
  unfold chunk_instance
  cases hp : sdi.priv with
  | none => simp only [hp]
  | some v =>
    simp only [hp] at h ⊢
    by_cases hr : (zip_fread v.capfile CHUNKSIZE).1 > 0
    · rw [if_pos hr] at h
      exact absurd h (by simp)
    · rw [if_neg hr]

theorem chunk_packet_logic (sdi : sr_device_instance) (h : chunk_packet sdi = some Packet.SR_DF_END) :
    False := by
  unfold chunk_packet at h
  cases hp : sdi.priv with
  | none =>
    simp only [hp] at h
    exact absurd h (by simp)
  | some v =>
    simp only [hp] at h
    by_cases hr : (zip_fread v.capfile CHUNKSIZE).1 > 0
    · rw [if_pos hr] at h
      exact absurd (Option.some.inj h) (by simp)
    · rw [if_neg hr] at h
      exact absurd h (by simp)

theorem step_packets_end (l : List sr_device_instance) :
    (Packet.SR_DF_END ∈ step_packets l ↔ l.filterMap chunk_packet = []) ∧
    (l.filterMap chunk_packet = [] → ∀ sdi ∈ l.map chunk_instance, sdi.priv = none) := by
  constructor
  · unfold step_packets
    by_cases he : l.filterMap chunk_packet = []
    · simp [he]
    · simp only [he, if_false, List.append_nil, iff_false]
      intro hmem
      obtain ⟨sdi, -, hs⟩ := List.mem_filterMap.1 hmem
      exact chunk_packet_logic sdi hs
  · intro he sdi hmem
    obtain ⟨s0, hs0, e⟩ := List.mem_map.1 hmem
    rw [← e]
    apply chunk_packet_none_finished
    cases hc : chunk_packet s0 with
    | none => rfl
    | some pk =>
      have : pk ∈ l.filterMap chunk_packet := List.mem_filterMap.2 ⟨s0, hs0, hc⟩
      rw [he] at this
      exact absurd this (List.not_mem_nil _)

/-- C30: with allocations that succeed, `n` successive feed steps all return
TRUE, leave the instances and put on the bus the packets that the feed step in
the spec's words gives: in each step, for every instance in registry order, a
finished instance is skipped; an unfinished one whose read yields data gets one
Logic packet with exactly the bytes read (1 to 4096 of them) and its unit size
and moves on in its entry; one whose read yields none is marked finished and
gets no packet; the End packet is emitted iff no instance produced data in the
step, and then every instance is finished. The payloads emitted for an instance
followed by what its entry still holds are the contents of its entry, so once it
is finished they are exactly those contents, in order. -/
theorem feed_chunk_steps (S : State) (n m : Nat)
    (halloc : S.alloc_results = List.replicate m true)
    (hm : n * S.device_instances.length ≤ m) :
    (∃ S1, feed_run n S = some S1 ∧
      S1.device_instances = run_instances n S.device_instances ∧
      S1.bus = S.bus ++ run_packets n S.device_instances) ∧
    (∀ l : List sr_device_instance,
      run_packets 1 l = step_packets l ∧ run_instances 1 l = l.map chunk_instance ∧
      (Packet.SR_DF_END ∈ step_packets l ↔ l.filterMap chunk_packet = []) ∧
      (l.filterMap chunk_packet = [] → ∀ sdi ∈ l.map chunk_instance, sdi.priv = none)) ∧
    (∀ sdi : sr_device_instance,
      (sdi.priv = none → chunk_packet sdi = none ∧ chunk_instance sdi = sdi) ∧
      (∀ v, sdi.priv = some v →
        ((zip_fread v.capfile CHUNKSIZE).1 ≤ 0 →
          chunk_packet sdi = none ∧ (chunk_instance sdi).priv = none) ∧
        ((zip_fread v.capfile CHUNKSIZE).1 > 0 →
          1 ≤ (zip_fread v.capfile CHUNKSIZE).1 ∧ (zip_fread v.capfile CHUNKSIZE).1 ≤ 4096 ∧
          ((zip_fread v.capfile CHUNKSIZE).2.1.length : Int)
            = (zip_fread v.capfile CHUNKSIZE).1 ∧
          chunk_packet sdi = some (Packet.SR_DF_LOGIC 0 0
            (zip_fread v.capfile CHUNKSIZE).1.toNat v.unitsize
            (zip_fread v.capfile CHUNKSIZE).2.1) ∧
          (chunk_instance sdi).priv
            = some { v with capfile := (zip_fread v.capfile CHUNKSIZE).2.2 }))) ∧
    (∀ (k : Nat) (l : List sr_device_instance) (sdi : sr_device_instance),
      run_instances k l = l.map (fun sdi => (instance_payloads k sdi).2) ∧
      (instance_payloads k sdi).1 ++ remaining (instance_payloads k sdi).2 = remaining sdi ∧
      ((instance_payloads k sdi).2.priv = none →
        (instance_payloads k sdi).1 = remaining sdi)) := by
  refine ⟨feed_run_spec n S m halloc hm, ?_, ?_, ?_⟩
  · intro l
    refine ⟨?_, rfl, (step_packets_end l).1, (step_packets_end l).2⟩
    simp only [run_packets, List.append_nil]
  · intro sdi
    constructor
    · intro hp
      simp only [chunk_packet, chunk_instance, hp, and_self]
    · intro v hp
      constructor
      · intro hr
        have hr1 : ¬ ((zip_fread v.capfile CHUNKSIZE).1 > 0) := by omega
        simp only [chunk_packet, chunk_instance, hp]
        rw [if_neg hr1, if_neg hr1]
        exact ⟨rfl, rfl⟩
      · intro hr
        have hb := zip_fread_bounds v.capfile
        refine ⟨by omega, hb.1, hb.2 hr, ?_, ?_⟩
        · simp only [chunk_packet, hp]
          rw [if_pos hr]
        · simp only [chunk_instance, hp]
          rw [if_pos hr]
  · intro k l sdi
    refine ⟨run_instances_eq k l, instance_payloads_conservation k sdi, fun hfin => ?_⟩
    have h := instance_payloads_conservation k sdi
    have hz : remaining (instance_payloads k sdi).2 = [] := by
      simp only [remaining, hfin]
    rw [hz, List.append_nil] at h
    exact h

theorem feed_chunk_steps_witness :
    (run_packets 4 two_entries
      = [Packet.SR_DF_LOGIC 0 0 3 1 [1, 2, 3], Packet.SR_DF_LOGIC 0 0 1 1 [9],
         Packet.SR_DF_LOGIC 0 0 2 1 [4, 5], Packet.SR_DF_END, Packet.SR_DF_END]) ∧
    ∃ S1, feed_run 4 two_entries_state = some S1 ∧
      S1.device_instances = run_instances 4 two_entries_state.device_instances ∧
      S1.bus = two_entries_state.bus ++ run_packets 4 two_entries_state.device_instances :=
  ⟨by decide, (feed_chunk_steps two_entries_state 4 10 rfl (by decide)).1⟩

end Session

namespace Sigrok

/-! ## Limits, status and advertised capabilities across the drivers -/

/-- C24, counterexample: on an Active 32-channel device,
set_configuration(LimitSamples, 0) succeeds and stores 0 as the sample limit. -/
theorem ols_limit_samples_zero_accepted :
    (Ols.hw_set_configuration (Ols.active_state 400 0 0 [] []) 0 Capability.LimitSamples
        { as_u64 := 0, as_probes := [], as_strtoull := 0, as_strtol := 0 }).map
      (fun r => (r.1, r.2.limit_samples)) = some (Ols.SIGROK_OK, 0) := by
  decide

/-- C24 (amended): on the 8-channel device, for a registered instance with
driver data, set_configuration(LimitSamples, v) is rejected iff v < 1 and
set_configuration(LimitMsec, v) iff v = 0, and an accepted value is stored as the
new `limit_samples` or `limit_msec`. On an Active 32-channel device every
LimitSamples value is accepted and stored, 0 included, and LimitMsec is never
accepted. -/
theorem limit_configuration :
    (∀ (S : La8.State) (device_index : Int) (value : La8.ConfigValue) (p : Nat)
        (sdi : La8.sr_device_instance) (dev : La8.la8),
      La8.sr_get_device_instance S.device_instances device_index = some p →
      S.device_instances[p]? = some sdi → sdi.priv = some dev →
      (((La8.hw_set_configuration S device_index Capability.LimitSamples value).1 = La8.SR_ERR
          ↔ value.as_u64 < 1) ∧
        (1 ≤ value.as_u64 →
          La8.hw_set_configuration S device_index Capability.LimitSamples value
            = (La8.SR_OK, La8.set_priv S p { dev with limit_samples := value.as_u64 }))) ∧
      (((La8.hw_set_configuration S device_index Capability.LimitMsec value).1 = La8.SR_ERR
          ↔ value.as_u64 = 0) ∧
        (value.as_u64 ≠ 0 →
          La8.hw_set_configuration S device_index Capability.LimitMsec value
            = (La8.SR_OK, La8.set_priv S p { dev with limit_msec := value.as_u64 })))) ∧
    (∀ (S : Ols.State) (device_index : Int) (value : Ols.ConfigValue)
        (sdi : Ols.sigrok_device_instance),
      Ols.get_sigrok_device_instance S.device_instances device_index = some sdi →
      sdi.status = Status.ST_ACTIVE →
      Ols.hw_set_configuration S device_index Capability.LimitSamples value
          = some (Ols.SIGROK_OK, { S with limit_samples := value.as_strtoull }) ∧
        Ols.hw_set_configuration S device_index Capability.LimitMsec value
          = some (Ols.SIGROK_NOK, S)) := by
  have hne : La8.SR_OK ≠ La8.SR_ERR := by decide
  constructor
  · intro S device_index value p sdi dev hlook hsdi hpriv
    have hmin : La8.MIN_NUM_SAMPLES = 1 := rfl
    refine ⟨⟨?_, ?_⟩, ⟨?_, ?_⟩⟩
    · simp only [La8.hw_set_configuration, hlook, hsdi, hpriv, hmin]
      by_cases hv : value.as_u64 < 1
      · rw [if_pos hv]
        exact ⟨fun _ => hv, fun _ => rfl⟩
      · rw [if_neg hv]
        exact ⟨fun h => absurd h hne, fun h => absurd h hv⟩
    · intro hv
      have hv1 : ¬ value.as_u64 < 1 := by omega
      simp only [La8.hw_set_configuration, hlook, hsdi, hpriv, hmin]
      rw [if_neg hv1]
    · simp only [La8.hw_set_configuration, hlook, hsdi, hpriv]
      by_cases hv : value.as_u64 = 0
      · rw [if_pos hv]
        exact ⟨fun _ => hv, fun _ => rfl⟩
      · rw [if_neg hv]
        exact ⟨fun h => absurd h hne, fun h => absurd h hv⟩
    · intro hv
      simp only [La8.hw_set_configuration, hlook, hsdi, hpriv]
      rw [if_neg hv]
  · intro S device_index value sdi hlook hactive
    constructor
    · simp only [Ols.hw_set_configuration, hlook, hactive, ne_eq, not_true_eq_false, if_false]
    · simp only [Ols.hw_set_configuration, hlook, hactive, ne_eq, not_true_eq_false, if_false]

theorem limit_configuration_witness :
    ((La8.hw_set_configuration (La8.witness_state La8.witness_dev [] [] []) 0
        Capability.LimitSamples { as_u64 := 0, as_probes := [] }).1 = La8.SR_ERR
      ↔ ({ as_u64 := 0, as_probes := [] } : La8.ConfigValue).as_u64 < 1) ∧
    Ols.hw_set_configuration (Ols.active_state 400 0 0 [] []) 0 Capability.LimitMsec
        { as_u64 := 5, as_probes := [], as_strtoull := 5, as_strtol := 5 }
      = some (Ols.SIGROK_NOK, Ols.active_state 400 0 0 [] []) :=
  ⟨(limit_configuration.1 (La8.witness_state La8.witness_dev [] [] []) 0
      { as_u64 := 0, as_probes := [] } 0 (La8.witness_sdi La8.witness_dev) La8.witness_dev
      rfl rfl rfl).1.1,
   (limit_configuration.2 (Ols.active_state 400 0 0 [] []) 0
      { as_u64 := 5, as_probes := [], as_strtoull := 5, as_strtol := 5 } Ols.active_sdi
      rfl rfl).2⟩

/-- C25, counterexample: a session-replay instance as `hw_opendev` creates it
has status Initializing, not Active; set_configuration(CaptureFile, "logic-1")
on it succeeds and stores the name. -/
theorem session_set_configuration_initializing :
    (Session.opened_state [] [] [] []).device_instances.map (fun sdi => sdi.status)
      = [Status.ST_INITIALIZING] ∧
    (Session.hw_set_configuration (Session.opened_state [] [] [] []) 0 Capability.CaptureFile
        { as_u64 := 0, as_string := some ['l', 'o', 'g', 'i', 'c', '-', '1'] }).1
      = Session.SR_OK ∧
    (Session.hw_set_configuration (Session.opened_state [] [] [] []) 0 Capability.CaptureFile
        { as_u64 := 0, as_string := some ['l', 'o', 'g', 'i', 'c', '-', '1'] }).2.device_instances.map
        (fun sdi => sdi.priv.map (fun v => v.capturefile))
      = [some (some ['l', 'o', 'g', 'i', 'c', '-', '1'])] := by
  decide

/-- C25 (amended): on the 32-channel driver, set_configuration on a device instance
whose status is not Active fails for every capability and value and changes
nothing. The 8-channel and the session-replay driver do not look at the
status: whatever the status of the instance (`active` stands for the value of
`SR_ST_ACTIVE`), a non-zero LimitMsec is accepted and stored on the 8-channel
device, and a CaptureFile on a session-replay instance. -/
theorem set_configuration_status :
    (∀ (S : Ols.State) (device_index : Int) (capability : Capability)
        (value : Ols.ConfigValue),
      (∀ sdi, Ols.get_sigrok_device_instance S.device_instances device_index = some sdi →
        sdi.status ≠ Status.ST_ACTIVE) →
      Ols.hw_set_configuration S device_index capability value = some (Ols.SIGROK_NOK, S)) ∧
    (∀ (active : Int) (S : La8.State) (device_index : Int) (value : La8.ConfigValue) (p : Nat)
        (sdi : La8.sr_device_instance) (dev : La8.la8),
      La8.sr_get_device_instance S.device_instances device_index = some p →
      S.device_instances[p]? = some sdi → sdi.priv = some dev →
      sdi.status ≠ active → value.as_u64 ≠ 0 →
      La8.hw_set_configuration S device_index Capability.LimitMsec value
        = (La8.SR_OK, La8.set_priv S p { dev with limit_msec := value.as_u64 })) ∧
    (∀ (S : Session.State) (device_index : Int) (value : Session.ConfigValue) (p : Nat)
        (vdevice : Session.session_vdevice),
      Session.get_vdevice_by_index S device_index = some (p, vdevice) →
      (∀ sdi, S.device_instances[p]? = some sdi → sdi.status ≠ Status.ST_ACTIVE) →
      Session.hw_set_configuration S device_index Capability.CaptureFile value
        = (Session.SR_OK,
            Session.set_priv S p { vdevice with capturefile := value.as_string })) := by
  refine ⟨?_, ?_, ?_⟩
  · intro S device_index capability value h
    unfold Ols.hw_set_configuration
    cases hlook : Ols.get_sigrok_device_instance S.device_instances device_index with
    | none => rfl
    | some sdi =>
      simp only []
      rw [if_pos (h sdi hlook)]
  · intro active S device_index value p sdi dev hlook hsdi hpriv _ hv
    simp only [La8.hw_set_configuration, hlook, hsdi, hpriv]
    rw [if_neg hv]
  · intro S device_index value p vdevice hv _
    simp only [Session.hw_set_configuration, hv]

theorem set_configuration_status_witness :
    Ols.hw_set_configuration
        { Ols.active_state 400 0 0 [] [] with
          device_instances := [{ index := 0, status := Status.ST_INACTIVE, fd := 3 }] }
        0 Capability.Samplerate
        { as_u64 := 1000000, as_probes := [], as_strtoull := 0, as_strtol := 0 }
      = some (Ols.SIGROK_NOK,
          { Ols.active_state 400 0 0 [] [] with
            device_instances := [{ index := 0, status := Status.ST_INACTIVE, fd := 3 }] }) :=
  set_configuration_status.1 _ 0 Capability.Samplerate _ (by
    intro sdi h
    have e : sdi = { index := 0, status := Status.ST_INACTIVE, fd := 3 } :=
      (Option.some.inj h).symm
    rw [e]
    decide)

/-- C26, counterexample: ProbeConfig is not in the list the 8-channel driver's
`hw_get_capabilities` returns, and set_configuration(ProbeConfig) with the empty
probe list succeeds on it; Samplerate is not in the session-replay driver's
list, and set_configuration(Samplerate, 1000000) succeeds on it. -/
theorem set_configuration_not_advertised :
    (Capability.ProbeConfig ∉ La8.hw_get_capabilities ∧
      (La8.hw_set_configuration (La8.witness_state La8.witness_dev [] [] []) 0
        Capability.ProbeConfig { as_u64 := 0, as_probes := [] }).1 = La8.SR_OK) ∧
    (Capability.Samplerate ∉ Session.hw_get_capabilities ∧
      (Session.hw_set_configuration (Session.opened_state [] [] [] []) 0
        Capability.Samplerate { as_u64 := 1000000, as_string := none }).1 = Session.SR_OK) := by
  decide

/-- C26 (amended): each driver's set_configuration fails, changing nothing, for
every capability other than those its own dispatch handles: Samplerate,
ProbeConfig, LimitMsec, LimitSamples on the 8-channel driver; Samplerate,
ProbeConfig, LimitSamples, CaptureRatio on the 32-channel driver; Samplerate,
CaptureFile, CaptureUnitsize and the probe count on the session-replay driver.
ProbeConfig on the first two and Samplerate and the probe count on the third are
handled although `hw_get_capabilities` does not list them. -/
theorem set_configuration_handled :
    (∀ (S : La8.State) (device_index : Int) (capability : Capability)
        (value : La8.ConfigValue),
      capability ∉ [Capability.Samplerate, Capability.ProbeConfig, Capability.LimitMsec,
        Capability.LimitSamples] →
      La8.hw_set_configuration S device_index capability value = (La8.SR_ERR, S)) ∧
    (∀ (S : Ols.State) (device_index : Int) (capability : Capability)
        (value : Ols.ConfigValue),
      capability ∉ [Capability.Samplerate, Capability.ProbeConfig, Capability.LimitSamples,
        Capability.CaptureRatio] →
      Ols.hw_set_configuration S device_index capability value = some (Ols.SIGROK_NOK, S)) ∧
    (∀ (S : Session.State) (device_index : Int) (capability : Capability)
        (value : Session.ConfigValue),
      capability ∉ [Capability.Samplerate, Capability.CaptureFile,
        Capability.CaptureUnitsize, Capability.CaptureNumProbes] →
      Session.hw_set_configuration S device_index capability value = (Session.SR_ERR, S)) ∧
    (Capability.ProbeConfig ∉ La8.hw_get_capabilities ∧
      Capability.ProbeConfig ∉ Ols.hw_get_capabilities ∧
      Capability.Samplerate ∉ Session.hw_get_capabilities ∧
      Capability.CaptureNumProbes ∉ Session.hw_get_capabilities) ∧
    (∀ (S : La8.State) (device_index : Int) (p : Nat) (sdi : La8.sr_device_instance)
        (dev : La8.la8),
      La8.sr_get_device_instance S.device_instances device_index = some p →
      S.device_instances[p]? = some sdi → sdi.priv = some dev →
      (La8.hw_set_configuration S device_index Capability.ProbeConfig
        { as_u64 := 0, as_probes := [] }).1 = La8.SR_OK) ∧
    (∀ (S : Ols.State) (device_index : Int) (sdi : Ols.sigrok_device_instance),
      Ols.get_sigrok_device_instance S.device_instances device_index = some sdi →
      sdi.status = Status.ST_ACTIVE →
      (Ols.hw_set_configuration S device_index Capability.ProbeConfig
        { as_u64 := 0, as_probes := [], as_strtoull := 0, as_strtol := 0 }).map Prod.fst
        = some Ols.SIGROK_OK) ∧
    (∀ (S : Session.State) (device_index : Int) (value : Session.ConfigValue) (p : Nat)
        (vdevice : Session.session_vdevice),
      Session.get_vdevice_by_index S device_index = some (p, vdevice) →
      (Session.hw_set_configuration S device_index Capability.Samplerate value).1
          = Session.SR_OK ∧
        (Session.hw_set_configuration S device_index Capability.CaptureNumProbes value).1
          = Session.SR_OK) := by
  refine ⟨?_, ?_, ?_, by decide, ?_, ?_, ?_⟩
  · intro S device_index capability value h
    simp only [List.mem_cons, List.mem_singleton, List.not_mem_nil, or_false, not_or] at h
    unfold La8.hw_set_configuration
    cases La8.sr_get_device_instance S.device_instances device_index with
    | none => rfl
    | some p =>
      simp only []
      cases S.device_instances[p]? with
      | none => rfl
      | some sdi =>
        simp only []
        cases sdi.priv with
        | none => rfl
        | some dev =>
          cases capability with
          | Samplerate => exact absurd rfl h.1
          | ProbeConfig => exact absurd rfl h.2.1
          | LimitMsec => exact absurd rfl h.2.2.1
          | LimitSamples => exact absurd rfl h.2.2.2
          | LogicAnalyzer => rfl
          | CaptureRatio => rfl
          | CaptureFile => rfl
          | CaptureUnitsize => rfl
          | CaptureNumProbes => rfl
          | other id => rfl
  · intro S device_index capability value h
    simp only [List.mem_cons, List.mem_singleton, List.not_mem_nil, or_false, not_or] at h
    unfold Ols.hw_set_configuration
    cases Ols.get_sigrok_device_instance S.device_instances device_index with
    | none => rfl
    | some sdi =>
      simp only []
      by_cases hst : sdi.status ≠ Status.ST_ACTIVE
      · rw [if_pos hst]
      · rw [if_neg hst]
        cases capability with
        | Samplerate => exact absurd rfl h.1
        | ProbeConfig => exact absurd rfl h.2.1
        | LimitSamples => exact absurd rfl h.2.2.1
        | CaptureRatio => exact absurd rfl h.2.2.2
        | LogicAnalyzer => rfl
        | LimitMsec => rfl
        | CaptureFile => rfl
        | CaptureUnitsize => rfl
        | CaptureNumProbes => rfl
        | other id => rfl
  · intro S device_index capability value h
    simp only [List.mem_cons, List.mem_singleton, List.not_mem_nil, or_false, not_or] at h
    unfold Session.hw_set_configuration
    cases Session.get_vdevice_by_index S device_index with
    | none => rfl
    | some pv =>
      cases capability with
      | Samplerate => exact absurd rfl h.1
      | CaptureFile => exact absurd rfl h.2.1
      | CaptureUnitsize => exact absurd rfl h.2.2.1
      | CaptureNumProbes => exact absurd rfl h.2.2.2
      | LogicAnalyzer => rfl
      | LimitMsec => rfl
      | LimitSamples => rfl
      | CaptureRatio => rfl
      | ProbeConfig => rfl
      | other id => rfl
  · intro S device_index p sdi dev hlook hsdi hpriv
    simp only [La8.hw_set_configuration, hlook, hsdi, hpriv, La8.configure_probes,
      La8.configure_probes_loop]
    rfl
  · intro S device_index sdi hlook hactive
    simp only [Ols.hw_set_configuration, hlook, hactive, ne_eq, not_true_eq_false, if_false,
      Option.map_some', Ols.configure_probes, Ols.configure_probes_loop]
  · intro S device_index value p vdevice hv
    simp only [Session.hw_set_configuration, hv, and_self]

theorem set_configuration_handled_witness :
    La8.hw_set_configuration (La8.witness_state La8.witness_dev [] [] []) 0
        Capability.CaptureRatio { as_u64 := 50, as_probes := [] }
      = (La8.SR_ERR, La8.witness_state La8.witness_dev [] [] []) :=
  set_configuration_handled.1 (La8.witness_state La8.witness_dev [] [] []) 0
    Capability.CaptureRatio { as_u64 := 50, as_probes := [] } (by decide)

end Sigrok

namespace La8

/-! ## The divider byte of a samplerate -/

set_option maxRecDepth 100000 in
theorem rate_divisor : ∀ N, N < 256 → 1 ≤ N → 100000000 / (100000000 / N) = N := by
  decide

theorem samplerate_to_divcount_invalid (t : List Nat) (r : Nat)
    (h : r = 0 ∨ (is_valid_samplerate t r).1 = false) :
    (samplerate_to_divcount t r).1 = 0xff := by
  unfold samplerate_to_divcount
  by_cases h0 : r = 0
  · rw [if_pos h0]
  · rw [if_neg h0]
    have hv : (is_valid_samplerate t r).1 = false := h.resolve_left h0
    rcases hr : is_valid_samplerate t r with ⟨b, t1⟩
    rw [hr] at hv
    have hb : b = false := hv
    rw [hb]

/-- C34: with the samplerate table in its zero-initialised or filled state,
`samplerate_to_divcount` returns 0xff iff the samplerate is 0 or is not one of
the 255 supported rates 100,000,000 / N (N from 1 to 255, integer division); for
the supported rate 100,000,000 / N it returns exactly N - 1, so every result for
a supported rate lies in 0x00..0xfe. -/
theorem samplerate_to_divcount_error (t : List Nat) (r : Nat)
    (ht : t = supported_samplerates_init ∨
      t = fill_supported_samplerates_if_needed supported_samplerates_init) :
    ((samplerate_to_divcount t r).1 = 0xff ↔
      (r = 0 ∨ ¬ ∃ N, 1 ≤ N ∧ N ≤ 255 ∧ r = 100000000 / N)) ∧
    (∀ N, 1 ≤ N → N ≤ 255 →
      (samplerate_to_divcount t (100000000 / N)).1 = N - 1 ∧
      (samplerate_to_divcount t (100000000 / N)).1 ≤ 0xfe) := by
  have hM : SR_MHZ 100 = 100000000 := rfl
  have hvalid : ∀ N, 1 ≤ N → N ≤ 255 →
      (samplerate_to_divcount t (100000000 / N)).1 = N - 1 := by
    intro N h1 h2
    have h := samplerate_to_divcount_valid t N ht h1 h2
    rw [hM] at h
    rw [h, rate_divisor N (by omega) h1]
  refine ⟨⟨fun h => ?_, fun h => ?_⟩, fun N h1 h2 => ⟨hvalid N h1 h2, ?_⟩⟩
  · by_contra hn
    have hn1 : r ≠ 0 ∧ ∃ N, 1 ≤ N ∧ N ≤ 255 ∧ r = 100000000 / N := by
      constructor
      · intro e
        exact hn (Or.inl e)
      · by_contra hne
        exact hn (Or.inr hne)
    obtain ⟨-, N, h1, h2, e⟩ := hn1
    rw [e, hvalid N h1 h2] at h
    omega
  · apply samplerate_to_divcount_invalid
    rcases h with h | h
    · exact Or.inl h
    · right
      cases hv : (is_valid_samplerate t r).1 with
      | false => rfl
      | true =>
        have := (is_valid_samplerate_iff t r ht).1 hv
        rw [hM] at this
        exact absurd this h
  · rw [hvalid N h1 h2]
    omega

theorem samplerate_to_divcount_error_witness :
    ((samplerate_to_divcount supported_samplerates_init 33333333).1 = 0xff ↔
      (33333333 = 0 ∨ ¬ ∃ N, 1 ≤ N ∧ N ≤ 255 ∧ 33333333 = 100000000 / N)) ∧
    (∀ N, 1 ≤ N → N ≤ 255 →
      (samplerate_to_divcount supported_samplerates_init (100000000 / N)).1 = N - 1 ∧
      (samplerate_to_divcount supported_samplerates_init (100000000 / N)).1 ≤ 0xfe) :=
  samplerate_to_divcount_error supported_samplerates_init 33333333 (Or.inl rfl)

/-! ## Payload of a block -/

theorem buf_bytes_append (buf : Nat → Nat) (start a b : Nat) :
    buf_bytes buf start a ++ buf_bytes buf (start + a) b = buf_bytes buf start (a + b) := by
  simp only [buf_bytes, List.range_add, List.map_append, List.map_map]
  congr 1
  apply List.map_congr_left
  intro i _
  simp [Nat.add_assoc]

theorem split_packets_payload (dev : la8) (block t : Nat) (ht : t < BS) :
    ((split_packets dev block t).map payload).flatten
      = buf_bytes dev.final_buf (block * BS) (if t = BS - 1 then BS - 1 else BS) := by
  unfold split_packets
  by_cases h2 : t < BS - 1
  · have hne : t ≠ BS - 1 := by omega
    rw [if_pos h2, if_neg hne]
    have e : BS = t + (BS - t) := by omega
    by_cases h1 : t > 0
    · rw [if_pos h1]
      simp only [List.map_append, List.map_cons, List.map_nil, List.flatten_append, List.flatten_cons,
        List.flatten_nil, payload, logic_packet, List.append_nil, List.nil_append]
      rw [buf_bytes_append, ← e]
    · have h0 : t = 0 := by omega
      subst h0
      rw [if_neg h1]
      simp only [List.map_append, List.map_cons, List.map_nil, List.flatten_append, List.flatten_cons,
        List.flatten_nil, payload, logic_packet, List.append_nil, List.nil_append, Nat.add_zero,
        Nat.sub_zero]
  · have he : t = BS - 1 := by omega
    have h1 : t > 0 := by rw [he]; decide
    rw [if_neg h2, if_pos he, if_pos h1]
    simp only [List.map_append, List.map_cons, List.map_nil, List.flatten_append, List.flatten_cons,
      List.flatten_nil, payload, logic_packet, List.append_nil, List.nil_append, he]

theorem trigger_scan_lt (dev : la8) (block e : Nat) (n : Nat) : ∀ (i t : Nat),
    trigger_scan dev block e n i = some t → i ≤ t ∧ t < i + n := by
  induction n with
  | zero => intro i t h; simp [trigger_scan] at h
  | succ n ih =>
    intro i t h
    simp only [trigger_scan] at h
    split at h
    · exact absurd h (by simp)
    · split at h
      · exact absurd h (by simp)
      · split at h
        · have : i = t := by simpa using h
          omega
        · have := ih (i + 1) t h
          omega

/-- C35: for every block and every trigger state, the logic payloads that
send_block_to_session_bus emits for the block, concatenated in emission order,
are the first 4095 bytes of the block when the trigger search stops at the last
sample of the block, and the block's 4096 bytes in every other case; with mask
0xFF, pattern 0x00 and the only zero sample at offset 4095 of block 0, the
payload has 4095 bytes and is not the block. -/
theorem send_block_payload (S : State) (dev : la8) (block : Nat) :
    ((((send_block_to_session_bus S dev block).1.bus.drop S.bus.length).map payload).flatten
      = buf_bytes dev.final_buf (block * BS)
          (if trigger_scan dev block (dev.trigger_pattern &&& dev.trigger_mask) BS 0
              = some (BS - 1) then BS - 1 else BS)) ∧
    ((((send_block_to_session_bus (witness_state witness_dev_last_sample [] [] [])
          witness_dev_last_sample 0).1.bus.map payload).flatten).length = 4095 ∧
      ((send_block_to_session_bus (witness_state witness_dev_last_sample [] [] [])
          witness_dev_last_sample 0).1.bus.map payload).flatten
        ≠ buf_bytes witness_dev_last_sample.final_buf (0 * BS) BS) := by
  constructor
  · cases h : trigger_scan dev block (dev.trigger_pattern &&& dev.trigger_mask) BS 0 with
    | none =>
      rw [send_block_none S dev block h]
      simp only [List.drop_left, List.map_cons, List.map_nil, List.flatten_cons, List.flatten_nil,
        payload, logic_packet, List.append_nil]
      rw [if_neg (by simp)]
    | some t =>
      rw [send_block_some S dev block t h]
      simp only [List.drop_left]
      have ht := (trigger_scan_lt dev block _ BS 0 t h).2
      rw [split_packets_payload dev block t (by omega)]
      by_cases he : t = BS - 1
      · rw [if_pos he, if_pos (by rw [he])]
      · rw [if_neg he, if_neg (fun h2 => he (Option.some.inj h2))]
  · rw [send_block_some _ _ 0 4095 witness_dev_last_sample_scan]
    have hb : (witness_state witness_dev_last_sample [] [] []).bus = [] := rfl
    simp only [hb, List.nil_append]
    rw [split_packets_payload witness_dev_last_sample 0 4095 (by decide)]
    rw [if_pos (by decide)]
    constructor
    · rw [buf_bytes_length]
      decide
    · intro h
      have := congrArg List.length h
      rw [buf_bytes_length, buf_bytes_length] at this
      revert this
      decide

/-! ## Invariants of the reachable states -/

theorem mem_modify {α : Type} (f : α → α) (l : List α) (p : Nat) (a : α)
    (h : a ∈ l.modify f p) : a ∈ l ∨ ∃ b, b ∈ l ∧ a = f b := by
  induction l generalizing p with
  | nil => simp at h
  | cons x xs ih =>
    cases p with
    | zero =>
      simp only [List.modify_zero_cons, List.mem_cons] at h
      rcases h with h | h
      · exact Or.inr ⟨x, List.mem_cons_self x xs, h⟩
      · exact Or.inl (List.mem_cons_of_mem x h)
    | succ p =>
      simp only [List.modify_succ_cons, List.mem_cons] at h
      rcases h with h | h
      · exact Or.inl (h ▸ List.mem_cons_self x xs)
      · rcases ih p h with h1 | ⟨b, hb, hab⟩
        · exact Or.inl (List.mem_cons_of_mem x h1)
        · exact Or.inr ⟨b, List.mem_cons_of_mem x hb, hab⟩

theorem same_config_refl (dev : la8) : same_config dev dev := ⟨rfl, rfl, rfl, rfl⟩

theorem same_config_trans (a b c : la8) (h1 : same_config a b) (h2 : same_config b c) :
    same_config a c :=
  ⟨h2.1.trans h1.1, h2.2.1.trans h1.2.1, h2.2.2.1.trans h1.2.2.1, h2.2.2.2.trans h1.2.2.2⟩

theorem all_priv_congr (P : la8 → Prop) (S S1 : State)
    (h : S1.device_instances = S.device_instances) (hS : all_priv P S) : all_priv P S1 := by
  intro sdi hmem dev hpriv
  rw [h] at hmem
  exact hS sdi hmem dev hpriv

theorem all_priv_set_priv (P : la8 → Prop) (S : State) (p : Nat) (dev : la8)
    (hS : all_priv P S) (hd : P dev) : all_priv P (set_priv S p dev) := by
  intro sdi hmem dev1 hpriv
  rcases mem_modify _ _ _ _ hmem with h | ⟨b, _, hb⟩
  · exact hS sdi h dev1 hpriv
  · rw [hb] at hpriv
    have : dev = dev1 := Option.some.inj hpriv
    exact this ▸ hd

theorem all_priv_get (P : la8 → Prop) (S : State) (p : Nat) (sdi : sr_device_instance)
    (dev : la8) (hS : all_priv P S) (hsdi : S.device_instances[p]? = some sdi)
    (hpriv : sdi.priv = some dev) : P dev :=
  hS sdi (List.getElem?_mem hsdi) dev hpriv

theorem frame_dev_same_config (dev dev1 : la8) (h : frame_dev dev dev1) :
    same_config dev dev1 ∧ dev1.block_counter = dev.block_counter ∧
      dev1.divcount = dev.divcount := by
  unfold frame_dev at h
  generalize dev1.mangled_buf = b at h
  generalize dev1.ftdic = f at h
  subst h
  exact ⟨⟨rfl, rfl, rfl, rfl⟩, rfl, rfl⟩

theorem demangle_config (dev : la8) : same_config dev (demangle dev) := by
  unfold same_config
  simp only [demangle, and_self]

theorem la8_write_frame (S : State) (dev : la8) (buf : List Nat) (size r : Int) (S2 : State)
    (dev2 : la8) (h : la8_write S dev buf size = some (r, S2, dev2)) :
    frame_state S S2 ∧ frame_dev dev dev2 :=
  (write_reset_frame S.ftdi_write_results.length).1 S dev buf size r S2 dev2 rfl h

theorem la8_read_block_config (S : State) (dev : la8) (ret : Int) (S1 : State) (dev1 : la8)
    (h : la8_read_block S dev = some (ret, S1, dev1)) :
    frame_state S S1 ∧ same_config dev dev1 ∧ dev1.block_counter = dev.block_counter := by
  unfold la8_read_block at h
  split at h
  · simp only [Option.some.injEq, Prod.mk.injEq] at h
    obtain ⟨_, h2, h3⟩ := h
    subst h2 h3
    exact ⟨⟨rfl, rfl, rfl, rfl⟩, same_config_refl _, rfl⟩
  · cases hr : la8_read_block_read S dev with
    | none => rw [hr] at h; exact absurd h (by simp)
    | some q =>
      obtain ⟨n, Sa, da⟩ := q
      rw [hr] at h
      have fa := la8_read_block_read_frame S dev n Sa da hr
      have ca : same_config dev da ∧ da.block_counter = dev.block_counter := by
        have hd := fa.2
        generalize da.mangled_buf = b at hd
        subst hd
        exact ⟨⟨rfl, rfl, rfl, rfl⟩, rfl⟩
      simp only at h
      split at h
      · cases hs : la8_reset Sa da with
        | none => rw [hs] at h; exact absurd h (by simp)
        | some q2 =>
          obtain ⟨r, Sb, db⟩ := q2
          rw [hs] at h
          simp only [Option.some.injEq, Prod.mk.injEq] at h
          obtain ⟨_, h2, h3⟩ := h
          subst h2 h3
          have fb := la8_reset_frame Sa da r Sb db hs
          have cb := frame_dev_same_config da db fb.2
          exact ⟨⟨fb.1.1.trans fa.1.1, fb.1.2.1.trans fa.1.2.1, fb.1.2.2.1.trans fa.1.2.2.1,
            fb.1.2.2.2.trans fa.1.2.2.2⟩, same_config_trans _ _ _ ca.1 cb.1, cb.2.1.trans ca.2⟩
      · simp only [Option.some.injEq, Prod.mk.injEq] at h
        obtain ⟨_, h2, h3⟩ := h
        rw [← h2, ← h3]
        exact ⟨fa.1, same_config_trans _ _ _ ca.1 (demangle_config da),
          (demangle_block_counter da).trans ca.2⟩

theorem send_block_config (S : State) (dev : la8) (block : Nat) :
    same_config dev (send_block_to_session_bus S dev block).2 := by
  cases h : trigger_scan dev block (dev.trigger_pattern &&& dev.trigger_mask) BS 0 with
  | none => rw [send_block_none S dev block h]; exact same_config_refl _
  | some t => rw [send_block_some S dev block t h]; exact ⟨rfl, rfl, rfl, rfl⟩

theorem send_blocks_config (S : State) (dev : la8) :
    same_config dev (send_blocks S dev).2 := by
  unfold send_blocks
  generalize NUM_BLOCKS = K
  induction K with
  | zero => exact same_config_refl _
  | succ K ih =>
    rw [List.range_succ, List.foldl_append]
    simp only [List.foldl_cons, List.foldl_nil]
    exact same_config_trans _ _ _ ih (send_block_config _ _ _)

theorem hw_stop_acquisition_frame (S : State) (device_index : Int) :
    (hw_stop_acquisition S device_index).device_instances = S.device_instances ∧
      (hw_stop_acquisition S device_index).supported_samplerates = S.supported_samplerates := by
  unfold hw_stop_acquisition
  split
  · exact ⟨rfl, rfl⟩
  · split
    · exact ⟨rfl, rfl⟩
    · split
      · exact ⟨rfl, rfl⟩
      · exact ⟨rfl, rfl⟩

theorem samplerate_to_divcount_table (t : List Nat) (r : Nat) :
    (samplerate_to_divcount t r).2 = t ∨
      (samplerate_to_divcount t r).2 = fill_supported_samplerates_if_needed t := by
  unfold samplerate_to_divcount
  split
  · exact Or.inl rfl
  · split
    · rename_i t1 h
      have := is_valid_samplerate_table t r
      rw [h] at this
      exact Or.inr this
    · rename_i t1 h
      have := is_valid_samplerate_table t r
      rw [h] at this
      exact Or.inr this

theorem set_priv_table (S : State) (p : Nat) (dev : la8) :
    (set_priv S p dev).supported_samplerates = S.supported_samplerates := rfl

theorem receive_data_inv (P : la8 → Prop) (hP : config_only P) (S : State)
    (session_data : Option Nat) (ret : Bool) (S1 : State)
    (h : receive_data S session_data = some (ret, S1)) (hS : all_priv P S) :
    all_priv P S1 ∧ S1.supported_samplerates = S.supported_samplerates := by
  unfold receive_data at h
  split at h
  · simp only [Option.some.injEq, Prod.mk.injEq] at h
    rw [← h.2]
    exact ⟨hS, rfl⟩
  · rename_i p
    split at h
    · simp only [Option.some.injEq, Prod.mk.injEq] at h
      rw [← h.2]
      exact ⟨hS, rfl⟩
    · rename_i sdi hsdi
      split at h
      · simp only [Option.some.injEq, Prod.mk.injEq] at h
        rw [← h.2]
        exact ⟨hS, rfl⟩
      · rename_i dev hpriv
        have hdev : P dev := all_priv_get P S p sdi dev hS hsdi hpriv
        split at h
        · exact absurd h (by simp)
        · rename_i r Sa da hr
          obtain ⟨fa, ca, _⟩ := la8_read_block_config S dev r Sa da hr
          have hSa : all_priv P Sa := all_priv_congr P S Sa fa.1 hS
          have hda : P da := hP dev da ca hdev
          split at h
          · simp only [Option.some.injEq, Prod.mk.injEq] at h
            rw [← h.2]
            have hf := hw_stop_acquisition_frame (set_priv Sa p da) sdi.index
            exact ⟨all_priv_congr P _ _ hf.1 (all_priv_set_priv P Sa p da hSa hda),
              hf.2.trans fa.2.1⟩
          · split at h
            · simp only [Option.some.injEq, Prod.mk.injEq] at h
              rw [← h.2]
              exact ⟨all_priv_set_priv P Sa p _ hSa (hP da _ ⟨rfl, rfl, rfl, rfl⟩ hda), fa.2.1⟩
            · simp only [Option.some.injEq, Prod.mk.injEq] at h
              rw [← h.2]
              have hf := hw_stop_acquisition_frame
                (set_priv (send_blocks Sa da).1 p (send_blocks Sa da).2) sdi.index
              obtain ⟨L, hL, _, _⟩ := send_blocks_shape Sa da
              have hq : all_priv P (send_blocks Sa da).1 :=
                all_priv_congr P Sa _ (send_blocks_device_instances Sa da) hSa
              refine ⟨all_priv_congr P _ _ hf.1 (all_priv_set_priv P _ p _ hq
                (hP da _ (send_blocks_config Sa da) hda)), ?_⟩
              rw [hf.2, set_priv_table]
              have e := congrArg State.supported_samplerates hL
              simp only at e
              rw [e]
              exact fa.2.1

theorem hw_start_acquisition_inv (P : la8 → Prop) (hP : config_only P) (S : State)
    (device_index : Int) (session_data : Option Nat) (ret : Int) (S1 : State)
    (h : hw_start_acquisition S device_index session_data = some (ret, S1))
    (hS : all_priv P S) (ht : table_ok S) :
    all_priv P S1 ∧ table_ok S1 := by
  unfold hw_start_acquisition at h
  split at h
  · simp only [Option.some.injEq, Prod.mk.injEq] at h
    rw [← h.2]
    exact ⟨hS, ht⟩
  · rename_i p hlook
    split at h
    · simp only [Option.some.injEq, Prod.mk.injEq] at h
      rw [← h.2]
      exact ⟨hS, ht⟩
    · rename_i sdi hsdi
      split at h
      · simp only [Option.some.injEq, Prod.mk.injEq] at h
        rw [← h.2]
        exact ⟨hS, ht⟩
      · rename_i dev hpriv
        have hdev : P dev := all_priv_get P S p sdi dev hS hsdi hpriv
        split at h
        · simp only [Option.some.injEq, Prod.mk.injEq] at h
          rw [← h.2]
          exact ⟨hS, ht⟩
        · rename_i c hftdi
          have htab : table_ok
              { S with supported_samplerates :=
                (samplerate_to_divcount S.supported_samplerates dev.cur_samplerate).2 } := by
            rcases samplerate_to_divcount_table S.supported_samplerates dev.cur_samplerate
              with e | e
            · unfold table_ok
              rw [e]
              exact ht
            · unfold table_ok
              rw [e]
              exact Or.inr (fill_reachable _ ht)
          have hd1 : P { dev with divcount :=
              (samplerate_to_divcount S.supported_samplerates dev.cur_samplerate).1 } :=
            hP dev _ ⟨rfl, rfl, rfl, rfl⟩ hdev
          simp only at h
          split at h
          · simp only [Option.some.injEq, Prod.mk.injEq] at h
            rw [← h.2]
            exact ⟨all_priv_set_priv P _ p _ (all_priv_congr P S _ rfl hS) hd1, htab⟩
          · split at h
            · exact absurd h (by simp)
            · rename_i bw S2 dev2 hw
              obtain ⟨f2, d2⟩ := la8_write_frame _ _ _ _ _ _ _ hw
              have c2 := (frame_dev_same_config _ _ d2).1
              have hS2 : all_priv P S2 := all_priv_congr P S S2 f2.1 hS
              have hd2 : P dev2 := hP _ _ c2 hd1
              have ht2 : table_ok S2 := by
                unfold table_ok at htab ⊢
                rw [f2.2.1]
                exact htab
              split at h
              · simp only [Option.some.injEq, Prod.mk.injEq] at h
                rw [← h.2]
                exact ⟨all_priv_set_priv P _ p _ hS2 hd2, ht2⟩
              · split at h
                · simp only [Option.some.injEq, Prod.mk.injEq] at h
                  rw [← h.2]
                  exact ⟨all_priv_set_priv P _ p _ hS2 hd2, ht2⟩
                · split at h
                  · exact absurd h (by simp)
                  · rename_i now S4 htime
                    simp only [Option.some.injEq, Prod.mk.injEq] at h
                    rw [← h.2]
                    obtain ⟨t1, t2, _, _⟩ := time_frame _ _ _ htime
                    have hS4 : all_priv P S4 := all_priv_congr P S2 S4 t1 hS2
                    refine ⟨all_priv_congr P (set_priv S4 p _) _ rfl
                      (all_priv_set_priv P S4 p _ hS4 (hP dev2 _ ⟨rfl, rfl, rfl, rfl⟩ hd2)), ?_⟩
                    unfold table_ok at ht2 ⊢
                    have e : S4.supported_samplerates = S2.supported_samplerates := t2
                    exact e ▸ ht2

theorem set_samplerate_inv (P : la8 → Prop)
    (hrate : ∀ dev r, (∃ N, 1 ≤ N ∧ N ≤ 255 ∧ r = SR_MHZ 100 / N) → P dev →
      P { dev with cur_samplerate := r, period_ps := u64 (1000000000000 / r) })
    (S : State) (sdi : Option Nat) (samplerate : Nat) (hS : all_priv P S) (ht : table_ok S) :
    all_priv P (set_samplerate S sdi samplerate).2 ∧
      table_ok (set_samplerate S sdi samplerate).2 := by
  have hfill := fill_reachable S.supported_samplerates ht
  have hfill2 : fill_supported_samplerates_if_needed
      (fill_supported_samplerates_if_needed S.supported_samplerates)
      = fill_supported_samplerates_if_needed supported_samplerates_init := by
    rw [hfill]
    exact fill_reachable _ (Or.inr rfl)
  unfold set_samplerate
  split
  · exact ⟨hS, ht⟩
  · rename_i p
    split
    · exact ⟨hS, ht⟩
    · rename_i inst hinst
      split
      · exact ⟨hS, ht⟩
      · rename_i dev hpriv
        have hdev : P dev := all_priv_get P S p inst dev hS hinst hpriv
        have htab : table_ok { S with supported_samplerates :=
            (is_valid_samplerate (fill_supported_samplerates_if_needed S.supported_samplerates)
              samplerate).2 } := by
          unfold table_ok
          rw [is_valid_samplerate_table]
          exact Or.inr hfill2
        simp only
        split
        · exact ⟨all_priv_congr P S _ rfl hS, htab⟩
        · rename_i hv
          have hv1 : (is_valid_samplerate
              (fill_supported_samplerates_if_needed S.supported_samplerates) samplerate).1
              = true := by
            simpa using hv
          have hN := (is_valid_samplerate_iff _ samplerate (Or.inr hfill)).1 hv1
          exact ⟨all_priv_set_priv P _ p _ (all_priv_congr P S _ rfl hS)
            (hrate dev samplerate hN hdev), htab⟩

theorem hw_set_configuration_inv (P : la8 → Prop) (hP : config_only P)
    (hrate : ∀ dev r, (∃ N, 1 ≤ N ∧ N ≤ 255 ∧ r = SR_MHZ 100 / N) → P dev →
      P { dev with cur_samplerate := r, period_ps := u64 (1000000000000 / r) })
    (hprobes : ∀ dev probes, P dev → P (configure_probes dev probes).2)
    (S : State) (device_index : Int) (capability : Sigrok.Capability) (value : ConfigValue)
    (hS : all_priv P S) (ht : table_ok S) :
    all_priv P (hw_set_configuration S device_index capability value).2 ∧
      table_ok (hw_set_configuration S device_index capability value).2 := by
  unfold hw_set_configuration
  split
  · exact ⟨hS, ht⟩
  · rename_i p hlook
    split
    · exact ⟨hS, ht⟩
    · rename_i sdi hsdi
      split
      · exact ⟨hS, ht⟩
      · rename_i dev hpriv
        have hdev : P dev := all_priv_get P S p sdi dev hS hsdi hpriv
        split
        · have := set_samplerate_inv P hrate S (some p) value.as_u64 hS ht
          simp only
          split
          · exact this
          · exact this
        · simp only
          split
          · exact ⟨all_priv_set_priv P S p _ hS (hprobes dev _ hdev), ht⟩
          · exact ⟨all_priv_set_priv P S p _ hS (hprobes dev _ hdev), ht⟩
        · split
          · exact ⟨hS, ht⟩
          · exact ⟨all_priv_set_priv P S p _ hS (hP dev _ ⟨rfl, rfl, rfl, rfl⟩ hdev), ht⟩
        · split
          · exact ⟨hS, ht⟩
          · exact ⟨all_priv_set_priv P S p _ hS (hP dev _ ⟨rfl, rfl, rfl, rfl⟩ hdev), ht⟩
        · exact ⟨hS, ht⟩

theorem hw_init_inv (P : la8 → Prop) (hinit : ∀ final_buf, P (hw_init_dev final_buf))
    (S : State) (r : InitResults) (hS : all_priv P S) (ht : table_ok S) :
    all_priv P (hw_init S r).2 ∧ table_ok (hw_init S r).2 := by
  unfold hw_init
  split
  · exact ⟨hS, ht⟩
  · split
    · exact ⟨hS, ht⟩
    · rename_i final_buf _
      split
      · exact ⟨hS, ht⟩
      · split
        · exact ⟨hS, ht⟩
        · split
          · exact ⟨hS, ht⟩
          · refine ⟨?_, ht⟩
            intro sdi hmem dev hpriv
            simp only [List.mem_append, List.mem_singleton] at hmem
            rcases hmem with h | h
            · exact hS sdi h dev hpriv
            · rw [h] at hpriv
              have e : hw_init_dev final_buf = dev := Option.some.inj hpriv
              exact e ▸ hinit final_buf

theorem reachable_inv (P : la8 → Prop) (hP : config_only P)
    (hinit : ∀ final_buf, P (hw_init_dev final_buf))
    (hrate : ∀ dev r, (∃ N, 1 ≤ N ∧ N ≤ 255 ∧ r = SR_MHZ 100 / N) → P dev →
      P { dev with cur_samplerate := r, period_ps := u64 (1000000000000 / r) })
    (hprobes : ∀ dev probes, P dev → P (configure_probes dev probes).2)
    (S : State) (h : Reachable S) : all_priv P S ∧ table_ok S := by
  induction h with
  | start reads writes times =>
    refine ⟨?_, Or.inl rfl⟩
    intro sdi hmem
    simp [State.start] at hmem
  | hw_init S r _ ih => exact hw_init_inv P hinit S r ih.1 ih.2
  | hw_set_configuration S device_index capability value _ ih =>
    exact hw_set_configuration_inv P hP hrate hprobes S device_index capability value ih.1 ih.2
  | hw_start_acquisition S device_index session_data ret S1 _ hstep ih =>
    exact hw_start_acquisition_inv P hP S device_index session_data ret S1 hstep ih.1 ih.2
  | receive_data S session_data ret S1 _ hstep ih =>
    obtain ⟨h1, h2⟩ := receive_data_inv P hP S session_data ret S1 hstep ih.1
    refine ⟨h1, ?_⟩
    unfold table_ok at ih ⊢
    rw [h2]
    exact ih.2
  | hw_stop_acquisition S device_index _ ih =>
    obtain ⟨h1, h2⟩ := hw_stop_acquisition_frame S device_index
    refine ⟨all_priv_congr P S _ h1 ih.1, ?_⟩
    unfold table_ok at ih ⊢
    rw [h2]
    exact ih.2

theorem configure_probes_subset (dev : la8) (probes : List (Option sr_probe)) (b : Nat)
    (h : (configure_probes dev probes).2.trigger_pattern.testBit b = true) :
    (configure_probes dev probes).2.trigger_mask.testBit b = true := by
  unfold configure_probes at h ⊢
  exact configure_probes_loop_subset b probes (0, 0) (by simp) h

theorem and_eq_of_subset (x m : Nat) (h : ∀ b, x.testBit b = true → m.testBit b = true) :
    x &&& m = x := by
  apply Nat.eq_of_testBit_eq
  intro b
  rw [Nat.testBit_and]
  cases hx : x.testBit b with
  | false => rfl
  | true => rw [h b hx]; rfl

/-- C37: after every call of configure_probes, whatever it returns, every bit
set in the trigger pattern is set in the trigger mask; hw_init sets both to 0;
and in every state reachable from program start through hw_init,
hw_set_configuration, hw_start_acquisition, receive_data and
hw_stop_acquisition, the private data of every registered instance has no
pattern bit outside the mask (pattern AND mask is the pattern). -/
theorem trigger_pattern_within_mask :
    (∀ (dev : la8) (probes : List (Option sr_probe)) (b : Nat),
      (configure_probes dev probes).2.trigger_pattern.testBit b = true →
      (configure_probes dev probes).2.trigger_mask.testBit b = true) ∧
    (∀ final_buf, (hw_init_dev final_buf).trigger_pattern = 0 ∧
      (hw_init_dev final_buf).trigger_mask = 0) ∧
    (∀ S, Reachable S → ∀ sdi, sdi ∈ S.device_instances → ∀ dev, sdi.priv = some dev →
      (∀ b, dev.trigger_pattern.testBit b = true → dev.trigger_mask.testBit b = true) ∧
      dev.trigger_pattern &&& dev.trigger_mask = dev.trigger_pattern) := by
  refine ⟨configure_probes_subset, fun _ => ⟨rfl, rfl⟩, ?_⟩
  intro S hS sdi hmem dev hpriv
  have h := (reachable_inv
    (fun d => ∀ b, d.trigger_pattern.testBit b = true → d.trigger_mask.testBit b = true)
    (fun d d1 hc hd b hb => by
      dsimp only at hd hb ⊢
      rw [hc.2.2.1]
      rw [hc.2.2.2] at hb
      exact hd b hb)
    (fun final_buf b hb => by
      have e : (hw_init_dev final_buf).trigger_pattern = 0 := rfl
      rw [e, Nat.zero_testBit] at hb
      exact absurd hb (by simp))
    (fun d r _ hd => hd)
    (fun d probes _ b hb => configure_probes_subset d probes b hb)
    S hS).1 sdi hmem dev hpriv
  exact ⟨h, and_eq_of_subset _ _ h⟩

theorem trigger_pattern_within_mask_witness :
    ∀ sdi, sdi ∈ State.device_instances
      (hw_set_configuration (hw_init (State.start [] [] []) witness_init).2 0
        Sigrok.Capability.ProbeConfig
        { as_u64 := 0,
          as_probes := [some { index := 1, enabled := true, trigger := some ['1', 'x'] }] }).2 →
    ∀ dev, sdi.priv = some dev →
      dev.trigger_pattern &&& dev.trigger_mask = dev.trigger_pattern :=
  fun sdi hmem dev hpriv =>
    (trigger_pattern_within_mask.2.2 _
      (Reachable.hw_set_configuration _ _ _ _
        (Reachable.hw_init _ _ (Reachable.start [] [] []))) sdi hmem dev hpriv).2

theorem period_no_overflow (r : Nat) : u64 (1000000000000 / r) = 1000000000000 / r := by
  unfold u64
  apply Nat.mod_eq_of_lt
  have h := Nat.div_le_self 1000000000000 r
  omega

theorem hw_init_dev_rate (final_buf : Nat → Nat) :
    (∃ N, 1 ≤ N ∧ N ≤ 255 ∧ (hw_init_dev final_buf).cur_samplerate = SR_MHZ 100 / N) ∧
      (hw_init_dev final_buf).period_ps
        = 1000000000000 / (hw_init_dev final_buf).cur_samplerate := by
  refine ⟨⟨1, Nat.le_refl 1, by omega, ?_⟩, ?_⟩
  · rw [Nat.div_one]
    rfl
  · show (10000 : Nat) = 1000000000000 / (100 * 1000000)
    norm_num

theorem divcount_not_error (t : List Nat) (N : Nat)
    (ht : t = supported_samplerates_init ∨
      t = fill_supported_samplerates_if_needed supported_samplerates_init)
    (h1 : 1 ≤ N) (h2 : N ≤ 255) :
    (samplerate_to_divcount t (SR_MHZ 100 / N)).1 ≠ 0xff := by
  rw [samplerate_to_divcount_valid t N ht h1 h2]
  have h := (divisor_bounds N h1 h2).2.2
  generalize SR_MHZ 100 / (SR_MHZ 100 / N) = x at h ⊢
  omega

/-- C39: in every state reachable from program start through hw_init,
hw_set_configuration, hw_start_acquisition, receive_data and
hw_stop_acquisition, the private data of every registered instance has a
cur_samplerate of the form 100 MHz / N with N in 1..255, which the table check
accepts, its period_ps is 1,000,000,000,000 / cur_samplerate, and
samplerate_to_divcount does not yield 0xff for it. -/
theorem cur_samplerate_supported (S : State) (hS : Reachable S) (sdi : sr_device_instance)
    (hmem : sdi ∈ S.device_instances) (dev : la8) (hpriv : sdi.priv = some dev) :
    (∃ N, 1 ≤ N ∧ N ≤ 255 ∧ dev.cur_samplerate = SR_MHZ 100 / N) ∧
    (is_valid_samplerate S.supported_samplerates dev.cur_samplerate).1 = true ∧
    dev.period_ps = 1000000000000 / dev.cur_samplerate ∧
    (samplerate_to_divcount S.supported_samplerates dev.cur_samplerate).1 ≠ 0xff := by
  obtain ⟨hall, htab⟩ := reachable_inv
    (fun d => (∃ N, 1 ≤ N ∧ N ≤ 255 ∧ d.cur_samplerate = SR_MHZ 100 / N) ∧
      d.period_ps = 1000000000000 / d.cur_samplerate)
    (fun d d1 hc hd => by
      dsimp only at hd ⊢
      rw [hc.1, hc.2.1]
      exact hd)
    hw_init_dev_rate
    (fun d r hr _ => ⟨hr, period_no_overflow r⟩)
    (fun d probes hd => hd)
    S hS
  obtain ⟨⟨N, h1, h2, hN⟩, hper⟩ := hall sdi hmem dev hpriv
  refine ⟨⟨N, h1, h2, hN⟩, (is_valid_samplerate_iff _ _ htab).2 ⟨N, h1, h2, hN⟩, hper, ?_⟩
  rw [hN]
  exact divcount_not_error _ N htab h1 h2

theorem hw_init_witness_instances :
    (hw_init (State.start [] [] []) witness_init).2.device_instances = [witness_sdi_init] := by
  simp [hw_init, witness_init, State.start, witness_sdi_init]

theorem cur_samplerate_supported_witness :
    witness_sdi_init ∈ (hw_init (State.start [] [] []) witness_init).2.device_instances ∧
    witness_sdi_init.priv = some (hw_init_dev (fun _ => 0)) ∧
    (samplerate_to_divcount (hw_init (State.start [] [] []) witness_init).2.supported_samplerates
      (hw_init_dev (fun _ => 0)).cur_samplerate).1 ≠ 0xff :=
  ⟨by rw [hw_init_witness_instances]; exact List.mem_singleton.2 rfl, rfl,
    (cur_samplerate_supported (hw_init (State.start [] [] []) witness_init).2
      (Reachable.hw_init _ _ (Reachable.start [] [] [])) witness_sdi_init
      (by rw [hw_init_witness_instances]; exact List.mem_singleton.2 rfl)
      (hw_init_dev (fun _ => 0)) rfl).2.2.2⟩

/-! ## The block counter during an acquisition -/

theorem hw_start_acquisition_block_counter (S : State) (device_index : Int) (p : Nat)
    (S1 : State)
    (hlook : sr_get_device_instance S.device_instances device_index = some p)
    (h : hw_start_acquisition S device_index (some p) = some (SR_OK, S1)) :
    ∃ sdi dev, S1.device_instances[p]? = some sdi ∧ sdi.priv = some dev ∧
      dev.block_counter = 0 := by
  have hne : SR_ERR ≠ SR_OK := by decide
  have hna : SR_ERR_ARG ≠ SR_OK := by decide
  unfold hw_start_acquisition at h
  rw [hlook] at h
  simp only at h
  split at h
  · simp only [Option.some.injEq, Prod.mk.injEq] at h
    exact absurd h.1 hne
  · rename_i sdi hsdi
    split at h
    · simp only [Option.some.injEq, Prod.mk.injEq] at h
      exact absurd h.1 hne
    · rename_i dev hpriv
      split at h
      · simp only [Option.some.injEq, Prod.mk.injEq] at h
        exact absurd h.1 hna
      · split at h
        · simp only [Option.some.injEq, Prod.mk.injEq] at h
          exact absurd h.1 hne
        · split at h
          · exact absurd h (by simp)
          · rename_i bw S2 dev2 hw
            obtain ⟨f2, _⟩ := la8_write_frame _ _ _ _ _ _ _ hw
            split at h
            · simp only [Option.some.injEq, Prod.mk.injEq] at h
              exact absurd h.1 hne
            · split at h
              · simp only [Option.some.injEq, Prod.mk.injEq] at h
                exact absurd h.1 hne
              · split at h
                · exact absurd h (by simp)
                · rename_i now S4 htime
                  simp only [Option.some.injEq, Prod.mk.injEq, true_and] at h
                  obtain ⟨t1, _⟩ := time_frame _ _ _ htime
                  have hsdi4 : S4.device_instances[p]? = some sdi := by
                    rw [t1]
                    show S2.device_instances[p]? = some sdi
                    rw [f2.1]
                    exact hsdi
                  rw [← h]
                  exact ⟨_, _, getElem?_set_priv S4 p _ sdi hsdi4, rfl, rfl⟩

theorem receive_data_block_counter (S : State) (p : Nat) (ret : Bool) (S1 : State)
    (h : receive_data S (some p) = some (ret, S1))
    (hS : ∃ sdi dev, S.device_instances[p]? = some sdi ∧ sdi.priv = some dev ∧
      dev.block_counter < NUM_BLOCKS) :
    ∃ sdi dev, S1.device_instances[p]? = some sdi ∧ sdi.priv = some dev ∧
      dev.block_counter < NUM_BLOCKS := by
  obtain ⟨sdi, dev, hsdi, hpriv, hbc⟩ := hS
  unfold receive_data at h
  simp only [hsdi, hpriv] at h
  split at h
  · exact absurd h (by simp)
  · rename_i r Sa da hr
    obtain ⟨fa, _, ba⟩ := la8_read_block_config S dev r Sa da hr
    have hsa : Sa.device_instances[p]? = some sdi := by
      rw [fa.1]
      exact hsdi
    split at h
    · simp only [Option.some.injEq, Prod.mk.injEq] at h
      rw [← h.2, (hw_stop_acquisition_frame _ _).1]
      exact ⟨_, da, getElem?_set_priv Sa p da sdi hsa, rfl, by rw [ba]; exact hbc⟩
    · split at h
      · rename_i hlast
        simp only [Option.some.injEq, Prod.mk.injEq] at h
        rw [← h.2]
        refine ⟨_, _, getElem?_set_priv Sa p _ sdi hsa, rfl, ?_⟩
        show da.block_counter + 1 < NUM_BLOCKS
        rw [ba] at hlast ⊢
        unfold NUM_BLOCKS at hlast hbc ⊢
        omega
      · simp only [Option.some.injEq, Prod.mk.injEq] at h
        rw [← h.2, (hw_stop_acquisition_frame _ _).1]
        obtain ⟨L, _, _, hb⟩ := send_blocks_shape Sa da
        have hq : (send_blocks Sa da).1.device_instances[p]? = some sdi := by
          rw [send_blocks_device_instances]
          exact hsa
        exact ⟨_, _, getElem?_set_priv _ p _ sdi hq, rfl, by rw [hb, ba]; exact hbc⟩

/-- C38: in every state reached from a successful hw_start_acquisition through
any number of receive_data steps on the started instance, that instance holds
its private data with block_counter below 2048; hence every index the
de-mangling loop of la8_read_block writes for the current block, and every
offset block * 4096 + i with block below 2048 and i below 4096 that the sending
loop reads, lies below the buffer size 8,388,608. -/
theorem block_counter_in_range (p : Nat) (S : State) (h : Receiving p S) :
    ∃ sdi dev, S.device_instances[p]? = some sdi ∧ sdi.priv = some dev ∧
      dev.block_counter < NUM_BLOCKS ∧ dev.block_counter ≤ 2047 ∧
      (∀ i, i < BS → demangle_index dev.divcount dev.block_counter i < SDRAM_SIZE) ∧
      (∀ block i, block < NUM_BLOCKS → i < BS → block * BS + i < SDRAM_SIZE) ∧
      SDRAM_SIZE = 8388608 := by
  have key : ∃ sdi dev, S.device_instances[p]? = some sdi ∧ sdi.priv = some dev ∧
      dev.block_counter < NUM_BLOCKS := by
    induction h with
    | start S0 device_index S1 hlook hstart =>
      obtain ⟨sdi, dev, h1, h2, h3⟩ :=
        hw_start_acquisition_block_counter S0 device_index p S1 hlook hstart
      exact ⟨sdi, dev, h1, h2, by rw [h3]; decide⟩
    | step S0 ret S1 _ hstep ih => exact receive_data_block_counter S0 p ret S1 hstep ih
  obtain ⟨sdi, dev, h1, h2, h3⟩ := key
  refine ⟨sdi, dev, h1, h2, h3, ?_, fun i hi => demangle_index_lt _ _ i h3 hi, ?_, by decide⟩
  · unfold NUM_BLOCKS at h3
    omega
  · intro block i hb hi
    unfold NUM_BLOCKS at hb
    unfold BS at hi ⊢
    unfold SDRAM_SIZE
    omega

theorem block_counter_in_range_witness :
    ∃ S1, hw_start_acquisition witness_run_state 0 (some 0) = some (SR_OK, S1) ∧
      ∃ sdi dev, S1.device_instances[0]? = some sdi ∧ sdi.priv = some dev ∧
        dev.block_counter < NUM_BLOCKS ∧ dev.block_counter ≤ 2047 ∧
        (∀ i, i < BS → demangle_index dev.divcount dev.block_counter i < SDRAM_SIZE) ∧
        (∀ block i, block < NUM_BLOCKS → i < BS → block * BS + i < SDRAM_SIZE) ∧
        SDRAM_SIZE = 8388608 := by
  have hD := samplerate_to_divcount_valid supported_samplerates_init 1 (Or.inl rfl)
    (by decide) (by decide)
  obtain ⟨S1, hstart, _⟩ := hw_start_acquisition_acquiring witness_run_state 0
    (some 0) 0 (witness_sdi witness_dev) witness_dev { usb_dev := true } _ [] 0 [] rfl rfl rfl rfl
    rfl hD (by decide) rfl rfl
  exact ⟨S1, hstart, block_counter_in_range 0 S1 (Receiving.start witness_run_state 0 S1 rfl hstart)⟩

end La8

namespace Ols

/-! ## The packet stream of a capture -/

theorem receive_data_limit (S : State) (fd : Int)
    (hlim : ¬ within_limit (i32 (S.num_transfers + 1)) S.limit_samples) :
    ∃ S1, receive_data S fd G_IO_IN = some (true, S1) ∧ S1.bus = S.bus ++ [Packet.DF_END 0] := by
  have h0 : S.num_transfers ≠ 0 := by
    intro h
    rw [h] at hlim
    apply hlim
    have e : i32 (0 + 1) = 1 := by decide
    rw [e]
    unfold within_limit
    have e2 : u64_of_int (Int.tdiv 1 4) = 0 := by decide
    rw [e2]
    exact Nat.zero_le _
  unfold receive_data
  simp only [h0, if_false]
  rw [if_neg (fun h => hlim h.2)]
  exact ⟨_, rfl, rfl⟩

theorem stream_packets_length (n : Nat) : ∀ (stream : List Nat),
    (stream_packets n stream).length = n := by
  induction n with
  | zero => intro stream; rfl
  | succ n ih => intro stream; simp [stream_packets, ih]

theorem stream_packets_getElem (n : Nat) : ∀ (stream : List Nat) (k : Nat), k < n →
    (stream_packets n stream)[k]? = some (Packet.DF_LOGIC32 4 ((stream.drop (4 * k)).take 4)) := by
  induction n with
  | zero => intro stream k hk; omega
  | succ n ih =>
    intro stream k hk
    cases k with
    | zero => simp [stream_packets]
    | succ k =>
      simp only [stream_packets, List.getElem?_cons_succ]
      rw [ih (stream.drop 4) k (by omega), List.drop_drop]
      have e : 4 + 4 * k = 4 * (k + 1) := by omega
      rw [e]

theorem within_limit_below (nt : Int) (L : Nat) (m : Int) (h0 : 0 ≤ nt) (hm : nt + m < 2147483648)
    (hL : (nt + m) / 4 ≤ (L : Int)) :
    ∀ j : Int, 1 ≤ j → j ≤ m → within_limit (i32 (nt + j)) L := by
  intro j h1 h2
  rw [i32_of_range _ (by omega) (by omega), within_limit_of_range _ _ (by omega) (by omega)]
  omega

theorem receive_run_stream (fd : Int) (n : Nat) : ∀ (S : State) (stream : List Nat),
    S.flag_reg &&& FLAG_RLE = 0 → S.num_bytes = 0 → S.sample.length = 4 →
    S.read_results = stream.map (fun b => ((1 : Int), b)) → 4 * n ≤ stream.length →
    0 ≤ S.num_transfers → S.num_transfers + 4 * (n : Int) < 2147483648 →
    (S.num_transfers + 4 * (n : Int)) / 4 ≤ (S.limit_samples : Int) →
    ∃ S1, (∀ k, receive_run fd (k + 4 * n) S = receive_run fd k S1) ∧
      S1.read_results = (stream.drop (4 * n)).map (fun b => ((1 : Int), b)) ∧
      S1.num_transfers = S.num_transfers + 4 * (n : Int) ∧ S1.num_bytes = 0 ∧
      S1.sample.length = 4 ∧
      S1.flag_reg = S.flag_reg ∧ S1.limit_samples = S.limit_samples ∧
      S1.bus = S.bus ++ stream_packets n stream := by
  induction n with
  | zero =>
    intro S stream _ hnb hlen hread _ _ _ _
    exact ⟨S, fun k => rfl, by simpa using hread, by simp, hnb, hlen, rfl, rfl,
      by simp [stream_packets]⟩
  | succ n ih =>
    intro S stream hrle hnb hlen hread hstream h0 hmax hlim
    match stream, hread, hstream with
    | b0 :: b1 :: b2 :: b3 :: tl, hread, hstream =>
      have hcast : ((n + 1 : Nat) : Int) = (n : Int) + 1 := by simp
      rw [hcast] at hmax hlim
      obtain ⟨Sa, ea, ra, ta, na, sa, fa, la, _, pa⟩ :=
        receive_run_sample S fd b0 b1 b2 b3 (tl.map (fun b => ((1 : Int), b))) hread
          (within_limit_below _ _ 4 h0 (by omega) (by omega)) hnb hlen
      rw [i32_of_range _ (by omega) (by omega)] at ta
      have hbus := (pa (fun h => h.1 hrle)).1
      obtain ⟨Sb, eb, rb, tb, nb, sb, fb, lb, pb⟩ :=
        ih Sa tl (by rw [fa]; exact hrle) na (by rw [sa]; rfl) ra
          (by simp only [List.length_cons] at hstream; omega)
          (by rw [ta]; omega) (by rw [ta]; omega) (by rw [ta, la]; omega)
      refine ⟨Sb, fun k => ?_, ?_, ?_, nb, sb, ?_, ?_, ?_⟩
      · have e : k + 4 * (n + 1) = (k + 4 * n) + 4 := by omega
        rw [e, ea, eb]
      · have e : 4 * (n + 1) = 4 + 4 * n := by omega
        rw [rb, e, ← List.drop_drop]
        rfl
      · rw [tb, ta, hcast]; omega
      · rw [fb, fa]
      · rw [lb, la]
      · rw [pb, hbus]
        simp [stream_packets]

theorem receive_run_end (S : State) (fd : Int) (stream : List Nat) (n : Nat)
    (hrle : S.flag_reg &&& FLAG_RLE = 0) (hnt : S.num_transfers = 0) (hnb : S.num_bytes = 0)
    (hlen : S.sample.length = 4)
    (hread : S.read_results = stream.map (fun b => ((1 : Int), b)))
    (hstream : 4 * n + 3 ≤ stream.length) (hmax : 4 * n + 3 < 2147483648)
    (hn : n ≤ S.limit_samples)
    (hend : ¬ within_limit (i32 (4 * (n : Int) + 3 + 1)) S.limit_samples) :
    ∃ S1, receive_run fd (4 * n + 4) S = some S1 ∧
      S1.bus = S.bus ++ stream_packets n stream ++ [Packet.DF_END 0] := by
  obtain ⟨Sa, ea, ra, ta, na, sa, fa, la, pa⟩ :=
    receive_run_stream fd n S stream hrle hnb hlen hread (by omega)
      (by rw [hnt]) (by rw [hnt]; omega) (by rw [hnt]; omega)
  rw [hnt, Int.zero_add] at ta
  obtain ⟨c0, c1, c2, tl, hd⟩ : ∃ c0 c1 c2 tl,
      stream.drop (4 * n) = c0 :: c1 :: c2 :: tl := by
    have hl : 3 ≤ (stream.drop (4 * n)).length := by
      rw [List.length_drop]; omega
    match hS : stream.drop (4 * n), hl with
    | a :: b :: c :: tl, _ => exact ⟨a, b, c, tl, rfl⟩
  rw [hd] at ra
  have hw : ∀ j : Int, 1 ≤ j → j ≤ 3 → within_limit (i32 (4 * (n : Int) + j)) S.limit_samples :=
    within_limit_below _ _ 3 (by omega) (by omega) (by omega)
  obtain ⟨Sb, eb, rb, tb, nb, sb, fb, lb, _, pb, _⟩ :=
    receive_data_byte_fields Sa fd c0 _ ra (by rw [ta, la]; exact hw 1 (by decide) (by decide))
      (by omega)
  rw [ta, i32_of_range _ (by omega) (by omega)] at tb
  obtain ⟨Sc, ec, rc, tc, nc, sc, fc, lc, _, pc, _⟩ :=
    receive_data_byte_fields Sb fd c1 _ rb
      (by
        rw [tb, lb, la, Int.add_assoc]
        exact hw 2 (by decide) (by decide))
      (by omega)
  rw [tb, Int.add_assoc, i32_of_range _ (by omega) (by omega)] at tc
  obtain ⟨Sd, ed, rd, td, nd, sd, fd1, ld, _, pd, _⟩ :=
    receive_data_byte_fields Sc fd c2 _ rc
      (by
        rw [tc, lc, lb, la, Int.add_assoc]
        exact hw 3 (by decide) (by decide))
      (by omega)
  rw [tc, Int.add_assoc, i32_of_range _ (by omega) (by omega)] at td
  obtain ⟨Se, ee, pe⟩ := receive_data_limit Sd fd
    (by
      rw [td, ld, lc, lb, la]
      exact hend)
  refine ⟨Se, ?_, ?_⟩
  · have e : 4 * n + 4 = 4 + 4 * n := by omega
    rw [e, ea, receive_run_step fd 3 Sa Sb eb, receive_run_step fd 2 Sb Sc ec,
      receive_run_step fd 1 Sc Sd ed, receive_run_step fd 0 Sd Se ee]
    rfl
  · rw [pe, pd, pc, pb, pa]

/-- C32, what the code does: without RLE, from the initial receive state (no
transfer counted, no byte of a sample pending) and with every read delivering
one byte of the stream. For a sample limit of at most 536870910,
4 * limit_samples + 4 receive steps put on the bus exactly limit_samples
Logic32 packets and then the End packet, the packet at position k
(counted from 0) carrying the four bytes at positions 4k .. 4k+3 of the stream
in arrival order. For a sample limit from 536870911 on (below 2^64 - 536870912)
the `int` counter num_transfers reaches 2147483647 before the limit test fails;
its next increment leaves the range of `int`, the wrapped counter fails the
test, and the End packet follows after exactly 536870911 Logic32 packets,
whatever the sample limit. -/
theorem receive_run_packets (S : State) (fd : Int) (stream : List Nat)
    (hrle : S.flag_reg &&& FLAG_RLE = 0) (hnt : S.num_transfers = 0) (hnb : S.num_bytes = 0)
    (hlen : S.sample.length = 4)
    (hread : S.read_results = stream.map (fun b => ((1 : Int), b))) :
    (S.limit_samples ≤ 536870910 → 4 * S.limit_samples + 3 ≤ stream.length →
      (∃ S1, receive_run fd (4 * S.limit_samples + 4) S = some S1 ∧
        S1.bus = S.bus ++ stream_packets S.limit_samples stream ++ [Packet.DF_END 0]) ∧
      (stream_packets S.limit_samples stream).length = S.limit_samples ∧
      (∀ k, k < S.limit_samples →
        (stream_packets S.limit_samples stream)[k]?
          = some (Packet.DF_LOGIC32 4 ((stream.drop (4 * k)).take 4)) ∧
        ((stream.drop (4 * k)).take 4).length = 4)) ∧
    (536870911 ≤ S.limit_samples → S.limit_samples < 2 ^ 64 - 536870912 →
      2147483647 ≤ stream.length →
      (∃ S1, receive_run fd 2147483648 S = some S1 ∧
        S1.bus = S.bus ++ stream_packets 536870911 stream ++ [Packet.DF_END 0]) ∧
      (stream_packets 536870911 stream).length = 536870911 ∧
      (536870912 ≤ S.limit_samples →
        (stream_packets 536870911 stream).length ≠ S.limit_samples)) := by
  refine ⟨fun hL hstream => ⟨?_, stream_packets_length _ _, fun k hk =>
    ⟨stream_packets_getElem _ _ k hk, by
      simp only [List.length_take, List.length_drop]; omega⟩⟩, fun hL hL2 hstream => ⟨?_, ?_, ?_⟩⟩
  · refine receive_run_end S fd stream S.limit_samples hrle hnt hnb hlen hread hstream
      (by omega) (Nat.le_refl _) ?_
    rw [i32_of_range _ (by omega) (by omega), within_limit_of_range _ _ (by omega) (by omega)]
    omega
  · have h := receive_run_end S fd stream 536870911 hrle hnt hnb hlen hread (by omega)
      (by decide) hL (within_limit_min _ hL2)
    exact h
  · exact stream_packets_length _ _
  · intro h
    rw [stream_packets_length]
    omega

theorem receive_run_packets_witness :
    ((∃ S1, receive_run 3 (4 * (capture_state 2 [1, 2, 3, 4, 5, 6, 7, 8, 9, 10, 11]).limit_samples + 4)
        (capture_state 2 [1, 2, 3, 4, 5, 6, 7, 8, 9, 10, 11]) = some S1 ∧
      S1.bus = (capture_state 2 [1, 2, 3, 4, 5, 6, 7, 8, 9, 10, 11]).bus
        ++ stream_packets (capture_state 2 [1, 2, 3, 4, 5, 6, 7, 8, 9, 10, 11]).limit_samples
            [1, 2, 3, 4, 5, 6, 7, 8, 9, 10, 11]
        ++ [Packet.DF_END 0]) ∧
      stream_packets 2 [1, 2, 3, 4, 5, 6, 7, 8, 9, 10, 11]
        = [Packet.DF_LOGIC32 4 [1, 2, 3, 4], Packet.DF_LOGIC32 4 [5, 6, 7, 8]]) ∧
    ((∃ S1, receive_run 3 2147483648
        (capture_state 536870912 (List.replicate 2147483647 0)) = some S1 ∧
      S1.bus = (capture_state 536870912 (List.replicate 2147483647 0)).bus
        ++ stream_packets 536870911 (List.replicate 2147483647 0) ++ [Packet.DF_END 0]) ∧
      (stream_packets 536870911 (List.replicate 2147483647 0)).length = 536870911 ∧
      (stream_packets 536870911 (List.replicate 2147483647 0)).length
        ≠ (capture_state 536870912 (List.replicate 2147483647 0)).limit_samples) :=
  ⟨⟨((receive_run_packets (capture_state 2 [1, 2, 3, 4, 5, 6, 7, 8, 9, 10, 11]) 3
      [1, 2, 3, 4, 5, 6, 7, 8, 9, 10, 11] (by decide) rfl rfl rfl rfl).1
        (by decide) (by decide)).1, rfl⟩,
    by
      have h := (receive_run_packets (capture_state 536870912 (List.replicate 2147483647 0)) 3
        (List.replicate 2147483647 0) (by decide) rfl rfl rfl rfl).2
        (by decide) (by decide) (by rw [List.length_replicate])
      exact ⟨h.1, h.2.1, h.2.2 (by decide)⟩⟩

/-! ## Read failure, channel groups and the demux flag -/

/-- C31, what the code does: when the descriptor is readable and the sample
limit is not reached but `read` does not return 1, `receive_data` returns FALSE
and hands nothing to the session bus: no End packet is emitted. -/
theorem receive_data_read_failure (S : State) (fd : Int) (n : Int) (byte : Nat)
    (rest : List (Int × Nat))
    (hread : S.read_results = (n, byte) :: rest) (hn : n ≠ 1)
    (hlim : within_limit (i32 (S.num_transfers + 1)) S.limit_samples) :
    ∃ S1, receive_data S fd G_IO_IN = some (false, S1) ∧ S1.bus = S.bus ∧
      Packet.DF_END 0 ∉ S1.bus.drop S.bus.length := by
  unfold receive_data
  have hg : (G_IO_IN = G_IO_IN ∧ within_limit (i32 (S.num_transfers + 1)) S.limit_samples) :=
    ⟨rfl, hlim⟩
  by_cases h0 : S.num_transfers = 0
  · simp only [h0, if_true] at hg ⊢
    rw [if_pos hg]
    simp only [hread, hn, if_true, ne_eq, not_false_eq_true]
    refine ⟨_, rfl, rfl, ?_⟩
    simp
  · simp only [h0, if_false] at hg ⊢
    rw [if_pos hg]
    simp only [hread, hn, if_true, ne_eq, not_false_eq_true]
    refine ⟨_, rfl, rfl, ?_⟩
    simp

theorem receive_data_read_failure_witness :
    ∃ S1, receive_data
        { capture_state 100 [] with
          bus := [Packet.DF_HEADER 1 1000000 32], read_results := [(0, 0)] } 3 G_IO_IN
        = some (false, S1) ∧
      S1.bus = ({ capture_state 100 [] with
          bus := [Packet.DF_HEADER 1 1000000 32], read_results := [(0, 0)] } : State).bus ∧
      Packet.DF_END 0 ∉ S1.bus.drop
        ({ capture_state 100 [] with
          bus := [Packet.DF_HEADER 1 1000000 32], read_results := [(0, 0)] } : State).bus.length :=
  receive_data_read_failure _ 3 0 0 [] rfl (by decide) (by decide)

/-- C33, what the code does: the channel-group bits are ORed into the flag
register, and group `i` is tested with the mask `0xff << i`. From flag register
0, the probe list with the single probe of index 17 sets no group bit, and the
list with the single probe of index 9 sets the bits of three groups (0x1c); from
flag register 0x3c (all four group bits set) the list with the single probe of
index 1 leaves 0x3c. -/
theorem configure_probes_channel_groups :
    ((configure_probes (active_state 0 0 0 [] []) [⟨17, true, none⟩]).1 = SIGROK_OK ∧
      (configure_probes (active_state 0 0 0 [] []) [⟨17, true, none⟩]).2.probe_mask = 0x10000 ∧
      (configure_probes (active_state 0 0 0 [] []) [⟨17, true, none⟩]).2.flag_reg = 0) ∧
    ((configure_probes (active_state 0 0 0 [] []) [⟨9, true, none⟩]).2.probe_mask = 0x100 ∧
      (configure_probes (active_state 0 0 0 [] []) [⟨9, true, none⟩]).2.flag_reg = 0x1c) ∧
    ((configure_probes { active_state 0 0 0 [] [] with flag_reg := 0x3c }
        [⟨1, true, none⟩]).1 = SIGROK_OK ∧
      (configure_probes { active_state 0 0 0 [] [] with flag_reg := 0x3c }
        [⟨1, true, none⟩]).2.flag_reg = 0x3c ∧
      (configure_probes (active_state 0 0 0 [] []) [⟨1, true, none⟩]).2.flag_reg = 0x20) := by
  decide

/-- C36, what the code does: for an accepted rate above 100 MHz
`set_configuration_samplerate` ORs the demux bit into the flag register; for an
accepted rate of at most 100 MHz it ANDs the flag register with the demux bit, so
the demux bit keeps its value and every other bit is cleared. -/
theorem set_configuration_samplerate_flag_reg (S : State) (r : Nat) (w : Int)
    (rest : List Int) (hw : S.write_results = w :: rest)
    (hr : 1 ≤ r ∧ r ≤ 200000000) :
    ∃ ret S1, set_configuration_samplerate S r = some (ret, S1) ∧
      (r > 100000000 → S1.flag_reg = S.flag_reg ||| FLAG_DEMUX) ∧
      (r ≤ 100000000 → S1.flag_reg = S.flag_reg &&& FLAG_DEMUX ∧
        (∀ b, S1.flag_reg.testBit b = (decide (b = 0) && S.flag_reg.testBit b))) := by
  rw [set_configuration_samplerate_in_range S r w rest hw hr]
  have hC : CLOCK_RATE = 100000000 := rfl
  refine ⟨_, _, rfl, ?_, ?_⟩
  · intro h
    have h1 : r > CLOCK_RATE := by omega
    simp only [h1, if_true]
  · intro h
    have h1 : ¬ (r > CLOCK_RATE) := by omega
    simp only [h1, if_false]
    refine ⟨trivial, fun b => ?_⟩
    have hD : FLAG_DEMUX = 2 ^ 1 - 1 := rfl
    rw [hD, Nat.testBit_and, Nat.testBit_two_pow_sub_one, Bool.and_comm]
    congr 1
    by_cases hb : b = 0
    · simp [hb]
    · simp [hb]

theorem set_configuration_samplerate_flag_reg_witness :
    ∃ ret S1, set_configuration_samplerate
        { active_state 0 0 0 [5] [] with flag_reg := 0x21 } 1000000 = some (ret, S1) ∧
      (1000000 > 100000000 →
        S1.flag_reg = ({ active_state 0 0 0 [5] [] with flag_reg := 0x21 } : State).flag_reg
          ||| FLAG_DEMUX) ∧
      (1000000 ≤ 100000000 →
        S1.flag_reg = ({ active_state 0 0 0 [5] [] with flag_reg := 0x21 } : State).flag_reg
          &&& FLAG_DEMUX ∧
        (∀ b, S1.flag_reg.testBit b = (decide (b = 0) &&
          ({ active_state 0 0 0 [5] [] with flag_reg := 0x21 } : State).flag_reg.testBit b))) :=
  set_configuration_samplerate_flag_reg { active_state 0 0 0 [5] [] with flag_reg := 0x21 }
    1000000 5 [] rfl (by decide)

end Ols

namespace OutputBinary

/-! ## The data operation -/

/-- C40: the data operation of the binary output format fails iff the input
buffer is absent, the destination of the output length is absent, `length_in`
is 0, or the allocation fails; otherwise it succeeds, sets the output length to
`length_in` and hands out a buffer of `length_in` bytes equal to the input byte
for byte; the input is the same after the call. -/
theorem data_copies (data_in : Option (Nat → Nat)) (length_in : Nat) (length_out calloc : Bool) :
    ((data data_in length_in length_out calloc).1 ≠ SR_OK ↔
      (data_in = none ∨ length_out = false ∨ length_in = 0 ∨ calloc = false)) ∧
    (∀ buf, data_in = some buf → length_out = true → length_in ≠ 0 → calloc = true →
      ∃ outbuf, data data_in length_in length_out calloc
          = (SR_OK, { data_in := some buf, data_out := some outbuf,
                      length_out := some length_in }) ∧
        outbuf.length = length_in ∧ ∀ i, i < length_in → outbuf[i]? = some (buf i)) ∧
    (data data_in length_in length_out calloc).2.data_in = data_in := by
  have hne1 : SR_ERR ≠ SR_OK := by decide
  have hne2 : SR_ERR_MALLOC ≠ SR_OK := by decide
  refine ⟨?_, ?_, ?_⟩
  · unfold data
    cases data_in with
    | none => simp [hne1]
    | some buf =>
      simp only []
      by_cases h1 : length_out = false
      · rw [if_pos h1]
        simp [hne1, h1]
      · rw [if_neg h1]
        by_cases h2 : length_in = 0
        · rw [if_pos h2]
          simp [hne1, h2]
        · rw [if_neg h2]
          by_cases h3 : calloc = false
          · rw [if_pos h3]
            simp [hne2, h3]
          · rw [if_neg h3]
            simp [h1, h2, h3]
  · intro buf hb h1 h2 h3
    refine ⟨(List.range length_in).map buf, ?_, ?_, ?_⟩
    · simp [data, hb, h1, h2, h3]
    · simp
    · intro i hi
      simp [hi]
  · unfold data
    cases data_in with
    | none => rfl
    | some buf =>
      simp only []
      split_ifs <;> rfl

theorem data_copies_witness :
    ∃ outbuf, data (some (fun i => i + 1)) 3 true true
        = (SR_OK, { data_in := some (fun i => i + 1), data_out := some outbuf,
                    length_out := some 3 }) ∧
      outbuf.length = 3 ∧ ∀ i, i < 3 → outbuf[i]? = some ((fun i => i + 1) i) :=
  (data_copies (some (fun i => i + 1)) 3 true true).2.1 (fun i => i + 1) rfl rfl (by decide) rfl

end OutputBinary
